import Mathlib

/-!
# libsurvive record / playback: a shallow embedding of `src/survive_playback.c`

The development follows the C file from the bottom up.

* Part 1: the byte stream (`gzFile`, an external collaborator reached only through
  `gzgetc`, `gzeof` and `gzerror`) and the growable delimited reader
  `gzgetdelim` / `gzgetline`.

Conventions.  A byte is a `Char`.  A C string is the list of its characters, the
terminating NUL left implicit.  A memory block is the list of its bytes, its length
being the allocated size.
-/

namespace Survive

/-! ## Part 1: byte stream and delimited reader -/

/-- The largest value of `ssize_t` (LP64: `LONG_MAX`). -/
def SSIZE_MAX : Nat := 2 ^ 63 - 1

/-- Amount to grow the line buffer by (`_GETDELIM_GROWBY`). -/
def GETDELIM_GROWBY : Nat := 128

/-- Minimum line buffer size (`_GETDELIM_MINLEN`). -/
def GETDELIM_MINLEN : Nat := 4

/-- The NUL character. -/
def NUL : Char := Char.ofNat 0

/-- A stream opened for reading.  `data` is the content not yet read; `failing` says
what lies beyond it (`false`: the end of the stream, `true`: a read error of the
underlying source); `eof` and `err` are the two indicators the library keeps, the
first set by a read that ran past the end, the second by a read that failed. -/
structure GzFile where
  data : List Char
  failing : Bool
  eof : Bool
  err : Bool
deriving DecidableEq

/-- Read one byte (`gzgetc`): `none` stands for `EOF` (-1).  Nothing is read from a
stream whose error indicator is set. -/
def gzgetc (f : GzFile) : Option Char × GzFile :=
  if f.err then (none, f)
  else
    match f.data with
    | c :: cs => (some c, { f with data := cs })
    | [] => if f.failing then (none, { f with err := true }) else (none, { f with eof := true })

/-- End-of-file indicator (`gzeof`). -/
def gzeof (f : GzFile) : Bool := f.eof

/-- Error code of the stream, as a truth value (`gzerror_dropin`). -/
def gzerror_dropin (f : GzFile) : Bool := f.err

/-- The block `realloc` hands back on success: the old bytes up to the new size, the
rest of the block holding `junk` (its content is indeterminate in C). -/
def realloc (junk : Char) (old : Option (List Char)) (size : Nat) : List Char :=
  (old.getD []).take size ++ List.replicate (size - (old.getD []).length) junk

/-- How the reading loop of `gzgetdelim` is left: by a `return -1` inside the loop
(`early`), or by falling out of it on `EOF` or on the delimiter (`out`). -/
inductive LoopExit where
  | early (lineptr : List Char) (n : Nat) (stream : GzFile)
  | out (bytes : Nat) (pos : Nat) (lineptr : List Char) (n : Nat) (stream : GzFile)
deriving DecidableEq

/-- The `while ((c = gzgetc(stream)) != EOF)` loop of `gzgetdelim`.  `bytes` counts the
bytes stored, `pos` is the write position as an index into the block `buf` of size `n`.
`alloc size` tells whether a `realloc` to `size` bytes succeeds.  The first argument
bounds the number of iterations; `gzgetdelim` passes one more than the unread length,
which the loop never exhausts. -/
def gzgetdelim_loop (alloc : Nat → Bool) (junk delimiter : Char) :
    Nat → GzFile → Nat → Nat → List Char → Nat → LoopExit
  | 0, f, bytes, pos, buf, n => .out bytes pos buf n f
  | fuel + 1, f, bytes, pos, buf, n =>
    match gzgetc f with
    | (none, f1) => .out bytes pos buf n f1
    | (some c, f1) =>
      if bytes + 1 ≥ SSIZE_MAX then .early buf n f1
      else if bytes + 1 ≥ n - 1 then
        if alloc (n + GETDELIM_GROWBY) then
          let buf1 := realloc junk (some buf) (n + GETDELIM_GROWBY)
          let buf2 := buf1.set (bytes + 1 - 1) c
          if c = delimiter then .out (bytes + 1) (bytes + 1 - 1 + 1) buf2 (n + GETDELIM_GROWBY) f1
          else gzgetdelim_loop alloc junk delimiter fuel f1 (bytes + 1) (bytes + 1 - 1 + 1) buf2
            (n + GETDELIM_GROWBY)
        else .early buf n f1
      else
        let buf2 := buf.set pos c
        if c = delimiter then .out (bytes + 1) (pos + 1) buf2 n f1
        else gzgetdelim_loop alloc junk delimiter fuel f1 (bytes + 1) (pos + 1) buf2 n

/-- What `gzgetdelim` leaves behind: its return value, `*lineptr` (`none`: NULL), `*n`
and the stream. -/
structure GetdelimResult where
  ret : Int
  lineptr : Option (List Char)
  n : Nat
  stream : GzFile
deriving DecidableEq

/-- The part of `gzgetdelim` after the line buffer `buf` of size `n` is in place: the
reading loop, the test of the stream's indicators and the terminating NUL. -/
def gzgetdelim_read (alloc : Nat → Bool) (junk delimiter : Char) (stream : GzFile)
    (buf : List Char) (n : Nat) : GetdelimResult :=
  match gzgetdelim_loop alloc junk delimiter (stream.data.length + 1) stream 0 0 buf n with
  | .early buf1 n1 f1 => ⟨-1, some buf1, n1, f1⟩
  | .out bytes pos buf1 n1 f1 =>
    if gzerror_dropin f1 ∨ (gzeof f1 ∧ bytes = 0) then ⟨-1, some buf1, n1, f1⟩
    else ⟨bytes, some (buf1.set pos NUL), n1, f1⟩

/-- The delimited reader `gzgetdelim(lineptr, n, delimiter, stream)`.  The three
pointer arguments are taken non-NULL (the callers of this file pass addresses of
locals and a stream they have tested), so the `EINVAL` / `EBADF` exits do not arise. -/
def gzgetdelim (alloc : Nat → Bool) (junk : Char) (lineptr : Option (List Char)) (n : Nat)
    (delimiter : Char) (stream : GzFile) : GetdelimResult :=
  if lineptr.isNone ∨ n < GETDELIM_MINLEN then
    if alloc GETDELIM_GROWBY then
      gzgetdelim_read alloc junk delimiter stream (realloc junk lineptr GETDELIM_GROWBY)
        GETDELIM_GROWBY
    else ⟨-1, lineptr, n, stream⟩
  else gzgetdelim_read alloc junk delimiter stream (lineptr.getD []) n

/-- The line reader `gzgetline`. -/
def gzgetline (alloc : Nat → Bool) (junk : Char) (lineptr : Option (List Char)) (n : Nat)
    (stream : GzFile) : GetdelimResult :=
  gzgetdelim alloc junk lineptr n '\n' stream

/-! ## Part 2: numbers and text

`FLT` (a `double`) is modelled by its value: a number, given as an exact decimal fraction
`mant / 10 ^ scale`, or one of the special values of IEEE 754, an infinity or a NaN.
Products and comparisons of numbers are exact; the special values behave as the standard
says: a NaN is neither greater than nor at most any value, and infinity times zero is a
NaN.  Binary rounding is outside the model. -/

/-- A `double`: the number `mant / 10 ^ scale`, an infinity or a NaN.  `negative` is the
sign of a special value. -/
inductive FLT where
  | num (mant : Int) (scale : Nat)
  | inf (negative : Bool)
  | nan (negative : Bool)
deriving DecidableEq

/-- The numerator of a number; 0 for a special value. -/
def FLT.mant : FLT → Int
  | .num mant _ => mant
  | _ => 0

/-- The scale of a number; 0 for a special value. -/
def FLT.scale : FLT → Nat
  | .num _ scale => scale
  | _ => 0

/-- Whether the value is a number, neither an infinity nor a NaN. -/
def FLT.isNum : FLT → Bool
  | .num _ _ => true
  | _ => false

/-- Whether the value is a NaN. -/
def FLT.isNaN : FLT → Bool
  | .nan _ => true
  | _ => false

/-- The product `a * b`.  A NaN operand gives a NaN, infinity times zero gives a NaN (its
sign is not fixed by the standard; nothing here depends on it). -/
def FLT.mul : FLT → FLT → FLT
  | .num a s, .num b t => .num (a * b) (s + t)
  | .nan n, _ => .nan n
  | _, .nan n => .nan n
  | .inf n, .inf m => .inf (n != m)
  | .inf n, .num b _ => if b = 0 then .nan true else .inf (n != decide (b < 0))
  | .num a _, .inf m => if a = 0 then .nan true else .inf (decide (a < 0) != m)

/-- The comparison `a > b`: false when either value is a NaN. -/
def FLT.gt : FLT → FLT → Bool
  | .num a s, .num b t => decide (b * 10 ^ s < a * 10 ^ t)
  | .nan _, _ => false
  | _, .nan _ => false
  | .inf n, .inf m => !n && m
  | .inf n, .num _ _ => !n
  | .num _ _, .inf m => m

/-- The comparison `a <= b`: false when either value is a NaN. -/
def FLT.le : FLT → FLT → Bool
  | .num a s, .num b t => decide (a * 10 ^ t ≤ b * 10 ^ s)
  | .nan _, _ => false
  | _, .nan _ => false
  | .inf n, .inf m => n || !m
  | .inf n, .num _ _ => n
  | .num _ _, .inf m => !m

/-- The comparison `a == 0`: false for an infinity and for a NaN. -/
def FLT.isZero : FLT → Bool
  | .num a _ => decide (a = 0)
  | _ => false

/-- Conversion of a `double` to `int`: the fraction is discarded (truncation toward zero).
`none` when the result is no value of `int`, as for a NaN, an infinity or a number out of
range: C leaves the behaviour of such a conversion undefined. -/
def FLT.toInt : FLT → Option Int
  | .num mant scale =>
    if -2147483648 ≤ Int.tdiv mant (10 ^ scale) ∧ Int.tdiv mant (10 ^ scale) ≤ 2147483647
    then some (Int.tdiv mant (10 ^ scale)) else none
  | _ => none

/-- The value of an `int` as a `double`. -/
def FLT.ofInt (i : Int) : FLT := .num i 0

/-- The value `v` as stored in a signed integer of `bits` bits (two's complement). -/
def toSigned (bits : Nat) (v : Int) : Int :=
  (v + 2 ^ (bits - 1)) % 2 ^ bits - 2 ^ (bits - 1)

/-- The value `v` as stored in an unsigned integer of `bits` bits. -/
def toUnsigned (bits : Nat) (v : Int) : Nat := (v % 2 ^ bits).toNat

/-- The C predicate `isspace` in the "C" locale. -/
def isspace (c : Char) : Bool :=
  c = ' ' || c = '\t' || c = '\n' || c = Char.ofNat 11 || c = Char.ofNat 12 || c = '\r'

/-- The C predicate `isdigit`. -/
def isdigit (c : Char) : Bool := decide (48 ≤ c.toNat ∧ c.toNat ≤ 57)

/-- The value of a decimal digit character. -/
def digitVal (c : Char) : Nat := c.toNat - 48

/-- The character of a decimal digit. -/
def digitChar (d : Nat) : Char := Char.ofNat (48 + d % 10)

/-- Decimal digits of `n`, most significant first, in front of `acc`; the first argument
bounds the number of digits. -/
def fmt_u_aux : Nat → Nat → List Char → List Char
  | 0, _, acc => acc
  | fuel + 1, n, acc =>
    if n < 10 then digitChar n :: acc else fmt_u_aux fuel (n / 10) (digitChar n :: acc)

/-- The text of `%u`: `n` in decimal. -/
def fmt_u (n : Nat) : List Char := fmt_u_aux (n + 1) n []

/-- The text of `%d`: `i` in decimal, with a minus sign when negative. -/
def fmt_d (i : Int) : List Char :=
  if i < 0 then '-' :: fmt_u i.natAbs else fmt_u i.natAbs

/-- The integer nearest to `a * 10 ^ 6` in absolute value, ties going to the even one:
the digits `%0.6f` prints, without sign and decimal point. -/
def FLT.micro (a : FLT) : Nat :=
  if a.scale ≤ 6 then a.mant.natAbs * 10 ^ (6 - a.scale)
  else
    let d := 10 ^ (a.scale - 6)
    let q := a.mant.natAbs / d
    let r := a.mant.natAbs % d
    if d < 2 * r ∨ (2 * r = d ∧ q % 2 = 1) then q + 1 else q

/-- The value `%0.6f` prints for `a`: a number to six decimals, a special value as it
is. -/
def FLT.round6 : FLT → FLT
  | .num mant scale =>
    .num (if mant < 0 then -((FLT.num mant scale).micro : Int) else (FLT.num mant scale).micro) 6
  | a => a

/-- Six decimal digits of `k`, zero padded. -/
def pad6 (k : Nat) : List Char :=
  [digitChar (k / 100000), digitChar (k / 10000), digitChar (k / 1000), digitChar (k / 100),
   digitChar (k / 10), digitChar k]

/-- The text of `%0.6f` (and of `%f`, whose precision is 6): a number with six decimals,
an infinity as `inf`, a NaN as `nan`, each behind a minus sign when negative. -/
def fmt_f6 : FLT → List Char
  | .num mant scale =>
    (if mant < 0 then ['-'] else []) ++ fmt_u ((FLT.num mant scale).micro / 1000000)
      ++ '.' :: pad6 ((FLT.num mant scale).micro % 1000000)
  | .inf negative => (if negative then ['-'] else []) ++ ['i', 'n', 'f']
  | .nan negative => (if negative then ['-'] else []) ++ ['n', 'a', 'n']

/-- Skip white space. -/
def skipws : List Char → List Char
  | [] => []
  | c :: cs => if isspace c then skipws cs else c :: cs

/-- Read decimal digits, accumulating their value onto `acc` and counting them. -/
def scan_digits : List Char → Nat → Nat → Nat × Nat × List Char
  | [], acc, cnt => (acc, cnt, [])
  | c :: cs, acc, cnt =>
    if isdigit c then scan_digits cs (acc * 10 + digitVal c) (cnt + 1) else (acc, cnt, c :: cs)

/-- An optional sign: whether it is a minus, and what follows it. -/
def scan_sign : List Char → Bool × List Char
  | '-' :: cs => (true, cs)
  | '+' :: cs => (false, cs)
  | cs => (false, cs)

/-- The subject of an integer conversion (as `strtol` / `strtoul` in base 10 read it):
an optional sign and at least one digit.  `none` when there is no digit. -/
def scan_integer (s : List Char) : Option (Int × List Char) :=
  match scan_digits (scan_sign s).2 0 0 with
  | (_, 0, _) => none
  | (v, _ + 1, rest) => some (if (scan_sign s).1 then -(v : Int) else v, rest)

/-- The exponent part of a floating-point subject, if one follows: `e` or `E`, an optional
sign and at least one digit. -/
def scan_exponent : List Char → Option (Int × List Char)
  | c :: cs => if c = 'e' ∨ c = 'E' then scan_integer cs else none
  | [] => none

/-- The decimal fraction `m * 10 ^ e / 10 ^ scale`. -/
def FLT.ofParts (m : Int) (scale : Nat) (e : Int) : FLT :=
  if 0 ≤ e then .num (m * 10 ^ e.toNat) scale else .num m (scale + (-e).toNat)

/-- The subject of a floating-point conversion in decimal form: an optional sign, digits
with an optional point, at least one digit in all, and an optional exponent. -/
def scan_decimal (s : List Char) : Option (FLT × List Char) :=
  match scan_digits (scan_sign s).2 0 0 with
  | (ip, ic, '.' :: fs) =>
    match scan_digits fs ip 0 with
    | (m, fc, rest) =>
      if ic + fc = 0 then none
      else
        let sm : Int := if (scan_sign s).1 then -(m : Int) else m
        match scan_exponent rest with
        | some (e, rest1) => some (FLT.ofParts sm fc e, rest1)
        | none => some (.num sm fc, rest)
  | (ip, ic, rest) =>
    if ic = 0 then none
    else
      let sm : Int := if (scan_sign s).1 then -(ip : Int) else ip
      match scan_exponent rest with
      | some (e, rest1) => some (FLT.ofParts sm 0 e, rest1)
      | none => some (.num sm 0, rest)

/-- The C function `tolower` in the "C" locale. -/
def tolower (c : Char) : Char :=
  if 65 ≤ c.toNat ∧ c.toNat ≤ 90 then Char.ofNat (c.toNat + 32) else c

/-- Match the lower-case word `w` at the start of the text, letter case ignored: what
follows the word, `none` when the text does not start with it. -/
def strip_word : List Char → List Char → Option (List Char)
  | [], s => some s
  | _ :: _, [] => none
  | w :: ws, c :: cs => if tolower c = w then strip_word ws cs else none

/-- The characters of `nan(...)` behind the opening parenthesis: digits, letters and
underscores up to the closing parenthesis; what follows it, `none` without one. -/
def scan_nan_chars : List Char → Option (List Char)
  | [] => none
  | c :: cs =>
    if c = ')' then some cs
    else if isdigit c ∨ (97 ≤ (tolower c).toNat ∧ (tolower c).toNat ≤ 122) ∨ c = '_' then
      scan_nan_chars cs
    else none

/-- The subject of a floating-point conversion that spells a special value, behind the
sign: `inf` or `infinity`, `nan` or `nan(...)`, letter case ignored. -/
def scan_special (negative : Bool) (s : List Char) : Option (FLT × List Char) :=
  match strip_word ['i', 'n', 'f'] s with
  | some rest =>
    match strip_word ['i', 'n', 'i', 't', 'y'] rest with
    | some rest1 => some (.inf negative, rest1)
    | none => some (.inf negative, rest)
  | none =>
    match strip_word ['n', 'a', 'n'] s with
    | some ('(' :: cs) =>
      match scan_nan_chars cs with
      | some rest1 => some (.nan negative, rest1)
      | none => some (.nan negative, '(' :: cs)
    | some rest => some (.nan negative, rest)
    | none => none

/-- The C predicate `isxdigit`. -/
def isxdigit (c : Char) : Bool :=
  isdigit c || decide (97 ≤ (tolower c).toNat ∧ (tolower c).toNat ≤ 102)

/-- The value of a hexadecimal digit character. -/
def xdigitVal (c : Char) : Nat :=
  if isdigit c then digitVal c else (tolower c).toNat - 87

/-- Read hexadecimal digits, accumulating their value onto `acc` and counting them. -/
def scan_xdigits : List Char → Nat → Nat → Nat × Nat × List Char
  | [], acc, cnt => (acc, cnt, [])
  | c :: cs, acc, cnt =>
    if isxdigit c then scan_xdigits cs (acc * 16 + xdigitVal c) (cnt + 1) else (acc, cnt, c :: cs)

/-- The binary exponent of a hexadecimal subject, if one follows: `p` or `P`, an optional
sign and at least one decimal digit. -/
def scan_binary_exponent : List Char → Option (Int × List Char)
  | c :: cs => if c = 'p' ∨ c = 'P' then scan_integer cs else none
  | [] => none

/-- The number `m * 2 ^ e`, as a decimal fraction. -/
def FLT.ofBinary (m : Int) (e : Int) : FLT :=
  if 0 ≤ e then .num (m * 2 ^ e.toNat) 0 else .num (m * 5 ^ (-e).toNat) (-e).toNat

/-- The subject of a floating-point conversion in hexadecimal form, behind the sign: `0x`
or `0X`, hexadecimal digits with an optional point, at least one digit in all, and an
optional binary exponent.  `none` when the text has no such form. -/
def scan_hex (negative : Bool) (s : List Char) : Option (FLT × List Char) :=
  match s with
  | z :: x :: cs =>
    if z = '0' ∧ (x = 'x' ∨ x = 'X') then
      match scan_xdigits cs 0 0 with
      | (ip, ic, '.' :: fs) =>
        match scan_xdigits fs ip 0 with
        | (m, fc, rest) =>
          if ic + fc = 0 then none
          else
            let sm : Int := if negative then -(m : Int) else m
            match scan_binary_exponent rest with
            | some (e, rest1) => some (FLT.ofBinary sm (e - 4 * fc), rest1)
            | none => some (FLT.ofBinary sm (-(4 * (fc : Int))), rest)
      | (ip, ic, rest) =>
        if ic = 0 then none
        else
          let sm : Int := if negative then -(ip : Int) else ip
          match scan_binary_exponent rest with
          | some (e, rest1) => some (FLT.ofBinary sm e, rest1)
          | none => some (FLT.ofBinary sm 0, rest)
    else none
  | _ => none

/-- The subject of a floating-point conversion (as `strtod` reads it): an optional sign,
then a special value, a number in hexadecimal form, or a number in decimal form. -/
def scan_float (s : List Char) : Option (FLT × List Char) :=
  match scan_special (scan_sign s).1 (scan_sign s).2 with
  | some r => some r
  | none =>
    match scan_hex (scan_sign s).1 (scan_sign s).2 with
    | some r => some r
    | none => scan_decimal s

/-! ### Format strings -/

/-- A conversion specification of a format string. -/
inductive Spec where
  /-- `%s`, with an optional maximum field width -/
  | s (width : Option Nat)
  /-- `%c` -/
  | c
  /-- `%d` -/
  | d
  /-- `%u`, `%hu`, `%hhu`: an unsigned integer of 32, 16, 8 bits -/
  | u (bits : Nat)
  /-- `%f`, `%lf`, `%0.6f` -/
  | f
deriving DecidableEq

/-- A directive of a format string: an ordinary character or a conversion. -/
inductive Dir where
  | lit (c : Char)
  | conv (sp : Spec)
deriving DecidableEq

/-- An argument of `printf`, or a value `scanf` has assigned. -/
inductive Arg where
  | str (s : List Char)
  | chr (c : Char)
  | int (v : Int)
  | flt (x : FLT)
deriving DecidableEq

/-- Read a conversion specification after its `%`: flags, width and precision digits, the
length modifiers `h`, `hh`, `l`, and the conversion character.  `width` collects the digits
before a point, `bits` the size the modifiers select. -/
def parse_spec : List Char → Option Nat → Bool → Nat → Option (Spec × List Char)
  | [], _, _, _ => none
  | c :: cs, width, inPrec, bits =>
    if isdigit c then
      if inPrec then parse_spec cs width inPrec bits
      else parse_spec cs (some (width.getD 0 * 10 + digitVal c)) inPrec bits
    else if c = '.' then parse_spec cs width true bits
    else if c = 'h' then parse_spec cs width inPrec (bits / 2)
    else if c = 'l' then parse_spec cs width inPrec bits
    else if c = 's' then some (.s width, cs)
    else if c = 'c' then some (.c, cs)
    else if c = 'd' then some (.d, cs)
    else if c = 'u' then some (.u bits, cs)
    else if c = 'f' then some (.f, cs)
    else none

/-- The directives of a format string; the first argument bounds their number. -/
def parse_format_aux : Nat → List Char → List Dir
  | 0, _ => []
  | _ + 1, [] => []
  | fuel + 1, c :: cs =>
    if c = '%' then
      match parse_spec cs none false 32 with
      | some (sp, rest) => .conv sp :: parse_format_aux fuel rest
      | none => []
    else .lit c :: parse_format_aux fuel cs

/-- The directives of a format string. -/
def parse_format (fmt : String) : List Dir := parse_format_aux fmt.length fmt.toList

/-- The text one conversion of `printf` produces from its argument: `%d` prints an `int`,
`%u` and its short forms print the argument converted to the unsigned type. -/
def fmt_conv : Spec → Arg → List Char
  | .s _, .str s => s
  | .c, .chr c => [c]
  | .d, .int v => fmt_d v
  | .u bits, .int v => fmt_u (toUnsigned bits v)
  | .f, .flt x => fmt_f6 x
  | _, _ => []

/-- The text `printf` produces from directives and arguments. -/
def sprintf_dirs : List Dir → List Arg → List Char
  | [], _ => []
  | .lit c :: ds, args => c :: sprintf_dirs ds args
  | .conv sp :: ds, a :: args => fmt_conv sp a ++ sprintf_dirs ds args
  | .conv _ :: _, [] => []

/-- The text `printf(fmt, args...)` produces. -/
def sprintf (fmt : String) (args : List Arg) : List Char := sprintf_dirs (parse_format fmt) args

/-- The outcome of one conversion of `scanf`. -/
inductive ConvResult where
  | ok (v : Arg) (rest : List Char)
  | inputFail
  | matchFail
deriving DecidableEq

/-- The characters `%s` takes: those before the next white space, at most `width`. -/
def scan_word : Option Nat → List Char → List Char × List Char
  | _, [] => ([], [])
  | some 0, c :: cs => ([], c :: cs)
  | width, c :: cs =>
    if isspace c then ([], c :: cs)
    else ((c :: (scan_word (width.map (· - 1)) cs).1), (scan_word (width.map (· - 1)) cs).2)

/-- One conversion of `scanf`.  All but `%c` skip leading white space; running out of input
before the subject starts is an input failure, a subject of the wrong form a matching
failure.  An integer is stored reduced to the width of the conversion (a value out of
range wraps around). -/
def scan_conv (sp : Spec) (s : List Char) : ConvResult :=
  match sp with
  | .c =>
    match s with
    | [] => .inputFail
    | c :: cs => .ok (.chr c) cs
  | .s width =>
    match skipws s with
    | [] => .inputFail
    | c :: cs => .ok (.str (scan_word width (c :: cs)).1) (scan_word width (c :: cs)).2
  | .d =>
    match skipws s with
    | [] => .inputFail
    | c :: cs =>
      match scan_integer (c :: cs) with
      | some (v, rest) => .ok (.int (toSigned 32 v)) rest
      | none => .matchFail
  | .u bits =>
    match skipws s with
    | [] => .inputFail
    | c :: cs =>
      match scan_integer (c :: cs) with
      | some (v, rest) => .ok (.int (toUnsigned bits v)) rest
      | none => .matchFail
  | .f =>
    match skipws s with
    | [] => .inputFail
    | c :: cs =>
      match scan_float (c :: cs) with
      | some (x, rest) => .ok (.flt x) rest
      | none => .matchFail

/-- How a `scanf` run ends. -/
inductive ScanEnd where
  | done
  | inputFail
  | matchFail
deriving DecidableEq

/-- Run the directives over the input: the values assigned, in order, and how the run
ended.  A white-space character in the format skips any white space of the input; any
other ordinary character must be the next character of the input. -/
def sscanf_dirs : List Dir → List Char → List Arg × ScanEnd
  | [], _ => ([], .done)
  | .lit c :: ds, s =>
    if isspace c then sscanf_dirs ds (skipws s)
    else
      match s with
      | [] => ([], .inputFail)
      | x :: xs => if x = c then sscanf_dirs ds xs else ([], .matchFail)
  | .conv sp :: ds, s =>
    match scan_conv sp s with
    | .ok v rest => (v :: (sscanf_dirs ds rest).1, (sscanf_dirs ds rest).2)
    | .inputFail => ([], .inputFail)
    | .matchFail => ([], .matchFail)

/-- The result of `sscanf(s, fmt, ...)`: the return value, which is the number of values
assigned, or `EOF` (-1) on an input failure before the first assignment; and the values
assigned. -/
def sscanf (s : List Char) (fmt : String) : Int × List Arg :=
  ((if (sscanf_dirs (parse_format fmt) s).1 = [] ∧ (sscanf_dirs (parse_format fmt) s).2 = .inputFail
      then -1 else ((sscanf_dirs (parse_format fmt) s).1.length : Int)),
   (sscanf_dirs (parse_format fmt) s).1)

/-- The string assigned by the conversion at position `i`, if that conversion was reached. -/
def arg_str (args : List Arg) (i : Nat) : Option (List Char) :=
  match args.get? i with
  | some (.str s) => some s
  | _ => none

/-- The character assigned by the conversion at position `i`. -/
def arg_chr (args : List Arg) (i : Nat) : Option Char :=
  match args.get? i with
  | some (.chr c) => some c
  | _ => none

/-- The integer assigned by the conversion at position `i`. -/
def arg_int (args : List Arg) (i : Nat) : Option Int :=
  match args.get? i with
  | some (.int v) => some v
  | _ => none

/-- The number assigned by the conversion at position `i`. -/
def arg_flt (args : List Arg) (i : Nat) : Option FLT :=
  match args.get? i with
  | some (.flt x) => some x
  | _ => none


/-! ## Part 3: the recorder -/

/-- Modelled from the spec: the conversion `FLT_format` that prints an `FLT`, a macro of
`linmath.h`, which is not part of this file; the spec fixes the text of a numeric field
to six decimals. -/
def FLT_format : String := "%0.6f"

/-- Modelled from the spec: the conversion `FLT_sformat` that reads an `FLT`, a macro of
`linmath.h`. -/
def FLT_sformat : String := "%lf"

/-- Modelled from the spec: the conversions `SurvivePose_sformat` that read a pose, a
macro of `linmath.h`: the three numbers of the position and the four of the quaternion,
separated by white space. -/
def SurvivePose_sformat : String := "%lf %lf %lf %lf %lf %lf %lf"

def SWEEP_ANGLE_SCANF : String := "%s B %hhu %u %u %hhu " ++ FLT_sformat ++ "\n"
def SWEEP_ANGLE_PRINTF : String := "%s B %hhu %u %u %hhu " ++ FLT_format ++ "\n"
def SWEEP_SCANF : String := "%s W %hhu %u %u %hhu\n"
def SWEEP_PRINTF : String := SWEEP_SCANF
def SYNC_SCANF : String := "%s Y %hhu %u %hhu %hhu\n"
def SYNC_PRINTF : String := SYNC_SCANF

/-- The recording session (`SurviveRecordingData`).  `output_file` holds what has been
written to the file so far, `none` when no file is open. -/
structure SurviveRecordingData where
  alwaysWriteStdOut : Bool
  writeRawLight : Bool
  writeIMU : Bool
  writeCalIMU : Bool
  writeAngle : Bool
  output_file : Option (List Char)
deriving DecidableEq

/-- What the recording functions act on: `ctx->recptr` (`none`: no recording session) and
the text written to `stdout` so far. -/
structure Recorder where
  recptr : Option SurviveRecordingData
  stdout : List Char
deriving DecidableEq

/-- Write `len` bytes of `string` to the sinks (`write_to_output_raw`). -/
def write_to_output_raw (recordingData : SurviveRecordingData) (out : List Char)
    (string : List Char) (len : Nat) : SurviveRecordingData × List Char :=
  ((match recordingData.output_file with
    | some w => { recordingData with output_file := some (w ++ string.take len) }
    | none => recordingData),
   if recordingData.alwaysWriteStdOut then out ++ string.take len else out)

/-- Write the time stamp `ts`, a space and the formatted text to the sinks
(`write_to_output`); `ts` is the value `timestamp_in_us()` returns at the call.  The file
is written by `gzprintf` and `gzvprintf`, which write nothing when the formatted text is
longer than 8191 bytes: the definition gives what is written for texts within that limit. -/
def write_to_output (r : Recorder) (ts : FLT) (format : String) (args : List Arg) : Recorder :=
  match r.recptr with
  | none => r
  | some recordingData =>
    { recptr := some
        (match recordingData.output_file with
         | some w => { recordingData with
             output_file := some (w ++ sprintf "%0.6f " [.flt ts] ++ sprintf format args) }
         | none => recordingData),
      stdout := if recordingData.alwaysWriteStdOut
        then r.stdout ++ sprintf "%0.6f " [.flt ts] ++ sprintf format args else r.stdout }

/-- Copy `len` bytes of `src` over the start of `dst` (`memcpy`). -/
def memcpy (dst src : List Char) (len : Nat) : List Char := src.take len ++ dst.drop len

/-- Replace each newline among the first `len` bytes by a space. -/
def replace_newlines (buffer : List Char) (len : Nat) : List Char :=
  (buffer.take len).map (fun c => if c = '\n' then ' ' else c) ++ buffer.drop len

def survive_recording_config_process (r : Recorder) (ts : FLT) (codename : List Char)
    (ct0conf : List Char) (len : Nat) : Recorder :=
  match r.recptr with
  | none => r
  | some _ =>
    let buffer := replace_newlines (memcpy (List.replicate (len + 1) NUL) ct0conf len) len
    let r1 := write_to_output r ts "%s CONFIG " [.str codename]
    match r1.recptr with
    | none => r1
    | some rd1 =>
      let w1 := write_to_output_raw rd1 r1.stdout buffer len
      let w2 := write_to_output_raw w1.1 w1.2 ['\n'] 1
      ⟨some w2.1, w2.2⟩

/-- A pose: position and rotation quaternion. -/
structure SurvivePose where
  Pos : List FLT
  Rot : List FLT
deriving DecidableEq

/-- A velocity: position delta and axis-angle rotation. -/
structure SurviveVelocity where
  Pos : List FLT
  AxisAngleRot : List FLT
deriving DecidableEq

/-- The element `i` of an array of numbers, as an argument of `printf`. -/
def flt_at (a : List FLT) (i : Nat) : Arg := .flt (a.getD i (FLT.num 0 0))

/-- The text `%s` prints for a null pointer.  The C standard leaves it undefined; the C
library of the platform (glibc) prints `(null)`. -/
def NULL_TEXT : List Char := "(null)".toList

def survive_recording_lighthouse_process (r : Recorder) (ts : FLT) (lighthouse : Nat)
    (lh_pose : SurvivePose) : Recorder :=
  match r.recptr with
  | none => r
  | some _ =>
    write_to_output r ts "%d LH_POSE %0.6f %0.6f %0.6f %0.6f %0.6f %0.6f %0.6f\n"
      [.int lighthouse, flt_at lh_pose.Pos 0, flt_at lh_pose.Pos 1, flt_at lh_pose.Pos 2, flt_at lh_pose.Rot 0,
       flt_at lh_pose.Rot 1, flt_at lh_pose.Rot 2, flt_at lh_pose.Rot 3]

def survive_recording_velocity_process (r : Recorder) (ts : FLT) (codename : List Char)
    (pose : SurviveVelocity) : Recorder :=
  match r.recptr with
  | none => r
  | some _ =>
    write_to_output r ts "%s VELOCITY %0.6f %0.6f %0.6f %0.6f %0.6f %0.6f\n"
      [.str codename, flt_at pose.Pos 0, flt_at pose.Pos 1, flt_at pose.Pos 2, flt_at pose.AxisAngleRot 0,
       flt_at pose.AxisAngleRot 1, flt_at pose.AxisAngleRot 2]

def survive_recording_raw_pose_process (r : Recorder) (ts : FLT) (codename : List Char)
    (pose : SurvivePose) : Recorder :=
  match r.recptr with
  | none => r
  | some _ =>
    write_to_output r ts "%s POSE %0.6f %0.6f %0.6f %0.6f %0.6f %0.6f %0.6f\n"
      [.str codename, flt_at pose.Pos 0, flt_at pose.Pos 1, flt_at pose.Pos 2, flt_at pose.Rot 0,
       flt_at pose.Rot 1, flt_at pose.Rot 2, flt_at pose.Rot 3]

def survive_recording_external_velocity_process (r : Recorder) (ts : FLT) (name : List Char)
    (pose : SurviveVelocity) : Recorder :=
  match r.recptr with
  | none => r
  | some _ =>
    write_to_output r ts "%s EXTERNAL_VELOCITY %0.6f %0.6f %0.6f %0.6f %0.6f %0.6f\n"
      [.str name, flt_at pose.Pos 0, flt_at pose.Pos 1, flt_at pose.Pos 2, flt_at pose.AxisAngleRot 0,
       flt_at pose.AxisAngleRot 1, flt_at pose.AxisAngleRot 2]

def survive_recording_external_pose_process (r : Recorder) (ts : FLT) (name : List Char)
    (pose : SurvivePose) : Recorder :=
  match r.recptr with
  | none => r
  | some _ =>
    write_to_output r ts "%s EXTERNAL_POSE %0.6f %0.6f %0.6f %0.6f %0.6f %0.6f %0.6f\n"
      [.str name, flt_at pose.Pos 0, flt_at pose.Pos 1, flt_at pose.Pos 2, flt_at pose.Rot 0,
       flt_at pose.Rot 1, flt_at pose.Rot 2, flt_at pose.Rot 3]

def survive_recording_info_process (r : Recorder) (ts : FLT) (fault : List Char) : Recorder :=
  match r.recptr with
  | none => r
  | some _ => write_to_output r ts "INFO LOG %s\n" [.str fault]

/-- The value of a `bool` passed to `printf`. -/
def ofBool (b : Bool) : Arg := .int (if b then 1 else 0)

def survive_recording_sync_process (r : Recorder) (ts : FLT) (codename : List Char)
    (channel : Nat) (timecode : Nat) (ootx gen : Bool) : Recorder :=
  write_to_output r ts SYNC_PRINTF [.str codename, .int channel, .int timecode, ofBool ootx,
    ofBool gen]

def survive_recording_sweep_angle_process (r : Recorder) (ts : FLT) (codename : List Char)
    (channel : Nat) (sensor_id : Int) (timecode : Nat) (plane : Int) (angle : FLT) : Recorder :=
  match r.recptr with
  | none => r
  | some recordingData =>
    if !recordingData.writeAngle then r
    else write_to_output r ts SWEEP_ANGLE_PRINTF
      [.str codename, .int channel, .int sensor_id, .int timecode, .int plane, .flt angle]

def survive_recording_sweep_process (r : Recorder) (ts : FLT) (codename : List Char)
    (channel : Nat) (sensor_id : Int) (timecode : Nat) (flag : Bool) : Recorder :=
  match r.recptr with
  | none => r
  | some _ =>
    write_to_output r ts SWEEP_PRINTF
      [.str codename, .int channel, .int sensor_id, .int timecode, ofBool flag]

def survive_recording_angle_process (r : Recorder) (ts : FLT) (codename : List Char)
    (sensor_id acode : Int) (timecode : Nat) (length angle : FLT) (lh : Nat) : Recorder :=
  match r.recptr with
  | none => r
  | some recordingData =>
    if !recordingData.writeAngle then r
    else write_to_output r ts "%s A %d %d %u %0.6f %0.6f %u\n"
      [.str codename, .int sensor_id, .int acode, .int timecode, .flt length, .flt angle, .int lh]

/-- A raw light capture sample (`LightcapElement`): `sensor_id` is 8 bits wide, `timestamp`
32 and `length` 16. -/
structure LightcapElement where
  sensor_id : Nat
  timestamp : Nat
  length : Nat
deriving DecidableEq

def survive_recording_lightcap (r : Recorder) (ts : FLT) (codename : List Char)
    (le : LightcapElement) : Recorder :=
  match r.recptr with
  | none => r
  | some recordingData =>
    if recordingData.writeRawLight then
      write_to_output r ts "%s C %d %u %u\n"
        [.str codename, .int le.sensor_id, .int le.timestamp, .int le.length]
    else r

def survive_recording_light_process (r : Recorder) (ts : FLT) (codename : List Char)
    (sensor_id acode timeinsweep : Int) (timecode length lh : Nat) : Recorder :=
  match r.recptr with
  | none => r
  | some recordingData =>
    if !recordingData.writeAngle then r
    else if acode = -1 then
      write_to_output r ts "%s S %d %d %d %u %u %u\n"
        [.str codename, .int sensor_id, .int acode, .int timeinsweep, .int timecode, .int length,
         .int lh]
    else
      let LH_ID : Option (List Char) :=
        if acode = 0 ∨ acode = 2 then some ['L']
        else if acode = 1 ∨ acode = 3 then some ['L']
        else if acode = 4 ∨ acode = 6 then some ['R']
        else if acode = 5 ∨ acode = 7 then some ['R']
        else none
      let LH_Axis : Option (List Char) :=
        if acode = 0 ∨ acode = 2 then some ['X']
        else if acode = 1 ∨ acode = 3 then some ['Y']
        else if acode = 4 ∨ acode = 6 then some ['X']
        else if acode = 5 ∨ acode = 7 then some ['Y']
        else none
      write_to_output r ts "%s %s %s %d %d %d %u %u %u\n"
        [.str codename, .str (LH_ID.getD NULL_TEXT), .str (LH_Axis.getD NULL_TEXT),
         .int sensor_id, .int acode, .int timeinsweep, .int timecode, .int length, .int lh]

def survive_recording_imu_process (r : Recorder) (ts : FLT) (codename : List Char) (mask : Int)
    (accelgyro : List FLT) (timecode : Nat) (id : Int) : Recorder :=
  match r.recptr with
  | none => r
  | some recordingData =>
    if !recordingData.writeCalIMU then r
    else write_to_output r ts
      "%s I %d %u %0.6f %0.6f %0.6f %0.6f %0.6f %0.6f  %0.6f %0.6f %0.6f %d\n"
      [.str codename, .int mask, .int timecode, flt_at accelgyro 0, flt_at accelgyro 1, flt_at accelgyro 2,
       flt_at accelgyro 3, flt_at accelgyro 4, flt_at accelgyro 5, flt_at accelgyro 6, flt_at accelgyro 7,
       flt_at accelgyro 8, .int id]

def survive_recording_raw_imu_process (r : Recorder) (ts : FLT) (codename : List Char)
    (mask : Int) (accelgyro : List FLT) (timecode : Nat) (id : Int) : Recorder :=
  match r.recptr with
  | none => r
  | some recordingData =>
    if !recordingData.writeIMU then r
    else write_to_output r ts
      "%s i %d %u %0.6f %0.6f %0.6f %0.6f %0.6f %0.6f  %0.6f %0.6f %0.6f %d\n"
      [.str codename, .int mask, .int timecode, flt_at accelgyro 0, flt_at accelgyro 1, flt_at accelgyro 2,
       flt_at accelgyro 3, flt_at accelgyro 4, flt_at accelgyro 5, flt_at accelgyro 6, flt_at accelgyro 7,
       flt_at accelgyro 8, .int id]


/-! ## Part 4: playback -/

/-- A call of the consumer interface made during playback.  A device object is named by
its codename.  A field of type `Option` is `none` when the parser passed on a variable it
never assigned (an indeterminate value in C). -/
inductive Call where
  | sweepproc (so : List Char) (channel : Nat) (sensor_id : Int) (timecode : Nat) (flag : Bool)
  | syncproc (so : List Char) (channel : Nat) (timecode : Nat) (ootx gen : Bool)
  | sweep_angleproc (so : List Char) (channel : Nat) (sensor_id : Int) (timecode : Nat)
      (plane : Int) (angle : FLT)
  | external_poseproc (name : List Char) (pose : List (Option FLT))
  | imuproc (so : List Char) (mask : Int) (accelgyro : List FLT) (timecode : Nat) (id : Int)
  | raw_imuproc (so : List Char) (mask : Int) (accelgyro : List FLT) (timecode : Nat) (id : Int)
  | handle_lightcap (so : List Char) (sensor_id timestamp length : Option Nat)
  | lightproc (so : List Char) (sensor_id acode timeinsweep : Int) (timecode length lh : Nat)
deriving DecidableEq

/-- What a playback function lets out: a call of the consumer interface, a warning
(`SV_WARN`), an error report (`SV_ERROR`), or the end of the program on a failed `assert`.
`undefined` marks a step whose behaviour C leaves undefined: a conversion `%s` without a
width that stores a token past the end of its buffer, or the conversion to `int` of a
`double` whose value does not fit. -/
inductive Out where
  | call (c : Call)
  | warn (text : List Char)
  | error (text : List Char)
  | abort
  | undefined
deriving DecidableEq

/-- The playback session (`SurvivePlaybackData`).  `objects` stands for `ctx`: the codenames
of the registered objects, in order.  The four `display_once` fields are the function-static
latches of `find_or_warn`, `parse_and_run_imu`, `parse_and_run_rawlight` and
`parse_and_run_lightcode`. -/
structure SurvivePlaybackData where
  objects : List (List Char)
  playback_file : Option GzFile
  lineno : Int
  next_time_us : FLT
  playback_factor : FLT
  hasRawLight : Bool
  outputExternalPose : Bool
  display_once_find : Bool
  display_once_imu : Bool
  display_once_rawlight : Bool
  display_once_lightcode : Bool
deriving DecidableEq

/-- Modelled from the spec: `survive_get_so_by_name`, the lookup of a registered object by
its codename, defined outside this file: the first object of that name, if any. -/
def survive_get_so_by_name (objects : List (List Char)) (name : List Char) :
    Option (List Char) :=
  objects.find? (fun o => o = name)

/-- The text of the report that a device is missing. -/
def not_found_text (dev : List Char) (lineno : Int) : List Char :=
  sprintf "Could not find device named %s from lineno %d\n" [.str dev, .int lineno]

def find_or_warn (driver : SurvivePlaybackData) (dev : List Char) :
    Option (List Char) × SurvivePlaybackData × List Out :=
  match survive_get_so_by_name driver.objects dev with
  | none =>
    (none, { driver with display_once_find := true },
      if driver.display_once_find = false then [.error (not_found_text dev driver.lineno)] else [])
  | some so => (some so, driver, [])

/-- An integer variable after `sscanf`: the value assigned by conversion `i`. -/
def int_var (args : List Arg) (i : Nat) : Int := (arg_int args i).getD 0

/-- A string variable after `sscanf`. -/
def str_var (args : List Arg) (i : Nat) : List Char := (arg_str args i).getD []

/-- A number variable after `sscanf`. -/
def flt_var (args : List Arg) (i : Nat) : FLT := (arg_flt args i).getD (FLT.num 0 0)

/-- The handler of a sweep.  `dev` holds 10 bytes and its conversion `%s` has no width: a
first token of more than 9 characters is stored past its end. -/
def parse_and_run_sweep (line : List Char) (driver : SurvivePlaybackData) :
    Int × SurvivePlaybackData × List Out :=
  let rr := (sscanf line SWEEP_SCANF).1
  let args := (sscanf line SWEEP_SCANF).2
  if 9 < (str_var args 0).length then (-1, driver, [.undefined])
  else if rr ≠ 5 then (-1, driver, [.warn (sprintf "Only got %d values for a sweep" [.int rr])])
  else
    match find_or_warn driver (str_var args 0) with
    | (none, driver1, outs) => (-1, driver1, outs)
    | (some so, driver1, outs) =>
      (0, driver1, outs ++ [.call (.sweepproc so (toUnsigned 8 (int_var args 1))
        (toSigned 32 (int_var args 2)) (toUnsigned 32 (int_var args 3))
        (toUnsigned 8 (int_var args 4) != 0))])

/-- The handler of a sync.  `dev` holds 10 bytes and its conversion `%s` has no width. -/
def parse_and_run_sync (line : List Char) (driver : SurvivePlaybackData) :
    Int × SurvivePlaybackData × List Out :=
  let rr := (sscanf line SYNC_SCANF).1
  let args := (sscanf line SYNC_SCANF).2
  if 9 < (str_var args 0).length then (-1, driver, [.undefined])
  else if rr ≠ 5 then (-1, driver, [.warn (sprintf "Only got %d values for a sync" [.int rr])])
  else
    match find_or_warn driver (str_var args 0) with
    | (none, driver1, outs) => (-1, driver1, outs)
    | (some so, driver1, outs) =>
      (0, driver1, outs ++ [.call (.syncproc so (toUnsigned 8 (int_var args 1))
        (toUnsigned 32 (int_var args 2)) (toUnsigned 8 (int_var args 3) != 0)
        (toUnsigned 8 (int_var args 4) != 0))])

/-- The handler of a sweep angle.  `dev` holds 10 bytes and its conversion `%s` has no
width. -/
def parse_and_run_sweep_angle (line : List Char) (driver : SurvivePlaybackData) :
    Int × SurvivePlaybackData × List Out :=
  let rr := (sscanf line SWEEP_ANGLE_SCANF).1
  let args := (sscanf line SWEEP_ANGLE_SCANF).2
  if 9 < (str_var args 0).length then (-1, driver, [.undefined])
  else if rr ≠ 6 then (-1, driver, [.warn (sprintf "Only got %d values for sweep angle" [.int rr])])
  else
    match find_or_warn driver (str_var args 0) with
    | (none, driver1, outs) => (-1, driver1, outs)
    | (some so, driver1, outs) =>
      (0, driver1, outs ++ [.call (.sweep_angleproc so (toUnsigned 8 (int_var args 1))
        (toSigned 32 (int_var args 2)) (toUnsigned 32 (int_var args 3))
        (toSigned 8 (int_var args 4)) (flt_var args 5))])

/-- The seven numbers of a pose after `sscanf`, the first of them assigned by conversion
`i`; `none` for one that was not assigned. -/
def pose_vars (args : List Arg) (i : Nat) : List (Option FLT) :=
  [arg_flt args i, arg_flt args (i + 1), arg_flt args (i + 2), arg_flt args (i + 3),
   arg_flt args (i + 4), arg_flt args (i + 5), arg_flt args (i + 6)]

/-- The format `parse_and_run_pose` reads a line with. -/
def POSE_SCANF : String := "%s POSE " ++ SurvivePose_sformat ++ "\n"

/-- The handler of a pose.  The token is stored behind the seven characters `replay_` in
`name`, which holds 128 bytes, by a conversion `%s` without a width: a first token of more
than 120 characters is stored past its end. -/
def parse_and_run_pose (line : List Char) (driver : SurvivePlaybackData) :
    Int × SurvivePlaybackData × List Out :=
  let rr := (sscanf line POSE_SCANF).1
  let args := (sscanf line POSE_SCANF).2
  if 120 < (str_var args 0).length then (0, driver, [.undefined])
  else if rr ≠ 8 then (0, driver, [.warn (sprintf "Only got %d values for a pose" [.int rr])])
  else (0, driver, [.call (.external_poseproc ("replay_".toList ++ str_var args 0)
    (pose_vars args 1))])

/-- The format `parse_and_run_imu` reads a line with. -/
def IMU_SCANF : String :=
  "%s %c %d %d " ++ FLT_sformat ++ " " ++ FLT_sformat ++ " " ++ FLT_sformat ++ " "
    ++ FLT_sformat ++ " " ++ FLT_sformat ++ " " ++ FLT_sformat ++ " " ++ FLT_sformat ++ " "
    ++ FLT_sformat ++ " " ++ FLT_sformat ++ "%d"

/-- The handler of an inertial sample.  `dev` holds 10 bytes and its conversion `%s` has no
width.  In the older format `id = accelgyro[6]` converts a `double` to `int`, which is
undefined when the value does not fit. -/
def parse_and_run_imu (line : List Char) (driver : SurvivePlaybackData) (raw : Bool) :
    Int × SurvivePlaybackData × List Out :=
  let rr := (sscanf line IMU_SCANF).1
  let args := (sscanf line IMU_SCANF).2
  if 9 < (str_var args 0).length then (-1, driver, [.undefined])
  else if rr ≠ 11 ∧ rr ≠ 14 then
    (-1, driver, [.warn (sprintf "On line %d, only %d values read: '%s'"
      [.int driver.lineno, .int rr, .str line])])
  else if rr = 11 ∧ (flt_var args 10).toInt = none then (-1, driver, [.undefined])
  else
    -- Older formats might not have mag data
    let id : Int := if rr = 11 then ((flt_var args 10).toInt).getD 0 else int_var args 13
    let accelgyro : List FLT :=
      [flt_var args 4, flt_var args 5, flt_var args 6, flt_var args 7, flt_var args 8,
       flt_var args 9, if rr = 11 then (FLT.num 0 0) else flt_var args 10, flt_var args 11,
       flt_var args 12]
    if !(raw ^^ ((arg_chr args 1).getD NUL == 'I')) then (-1, driver, [.abort])
    else
      match survive_get_so_by_name driver.objects (str_var args 0) with
      | none =>
        (-1, { driver with display_once_imu := true },
          if driver.display_once_imu = false
            then [.error (not_found_text (str_var args 0) driver.lineno)] else [])
      | some so =>
        (0, driver, [.call ((if raw then Call.raw_imuproc else Call.imuproc) so
          (int_var args 2) accelgyro (toUnsigned 32 (int_var args 3)) id)])

/-- The format `parse_and_run_externalpose` reads a line with. -/
def EXTERNAL_POSE_SCANF : String := "%s EXTERNAL_POSE " ++ SurvivePose_sformat ++ "\n"

/-- The handler of an external pose.  `name` holds 128 bytes and its conversion `%s` has no
width: a first token of more than 127 characters is stored past its end. -/
def parse_and_run_externalpose (line : List Char) (driver : SurvivePlaybackData) :
    Int × SurvivePlaybackData × List Out :=
  let args := (sscanf line EXTERNAL_POSE_SCANF).2
  if 127 < (str_var args 0).length then (0, driver, [.undefined])
  else (0, driver, [.call (.external_poseproc (str_var args 0) (pose_vars args 1))])

/-- The handler of a raw light sample.  `dev` and `op` hold 10 bytes each and their
conversions `%s` have no width: a first or second token of more than 9 characters is stored
past the end of its buffer. -/
def parse_and_run_rawlight (line : List Char) (driver : SurvivePlaybackData) :
    Int × SurvivePlaybackData × List Out :=
  let driver1 := { driver with hasRawLight := true }
  let args := (sscanf line "%s %s %hhu %u %hu\n").2
  if 9 < (str_var args 0).length ∨ 9 < (str_var args 1).length then
    (-1, driver1, [.undefined])
  else
    match survive_get_so_by_name driver1.objects (str_var args 0) with
    | none =>
      (-1, { driver1 with display_once_rawlight := true },
        if driver1.display_once_rawlight = false
          then [.error (not_found_text (str_var args 0) driver1.lineno)] else [])
    | some so =>
      (0, driver1, [.call (.handle_lightcap so ((arg_int args 2).map Int.toNat)
        ((arg_int args 3).map Int.toNat) ((arg_int args 4).map Int.toNat))])

def parse_and_run_lightcode (line : List Char) (driver : SurvivePlaybackData) :
    Int × SurvivePlaybackData × List Out :=
  let rr := (sscanf line "%8s %8s %8s %u %d %d %d %u %u\n").1
  let args := (sscanf line "%8s %8s %8s %u %d %d %d %u %u\n").2
  if rr ≠ 9 then
    (-1, driver, [.warn (sprintf "Warning:  On line %d, only %d values read: '%s'\n"
      [.int driver.lineno, .int rr, .str line])])
  else
    match survive_get_so_by_name driver.objects (str_var args 0) with
    | none =>
      (-1, { driver with display_once_lightcode := true },
        if driver.display_once_lightcode = false
          then [.error (not_found_text (str_var args 0) driver.lineno)] else [])
    | some so =>
      (0, driver, [.call (.lightproc so (toSigned 32 (int_var args 3)) (int_var args 4)
        (int_var args 5) (toUnsigned 32 (int_var args 6)) (toUnsigned 32 (int_var args 7))
        (toUnsigned 32 (int_var args 8)))])


/-- The C string held in a block: its bytes up to the first NUL. -/
def cstr (b : List Char) : List Char := b.takeWhile (fun c => c != NUL)

/-- The loop `while (r && (line[r - 1] == '\n' || line[r - 1] == '\r')) line[--r] = 0;`. -/
def strip_eol : Nat → List Char → List Char
  | 0, line => line
  | r + 1, line =>
    if line.getD r NUL = '\n' ∨ line.getD r NUL = '\r' then strip_eol r (line.set r NUL) else line

/-- Comparison of the opcode with a string (`strcmp(op, s) == 0`). -/
def streq (op : List Char) (s : String) : Bool := op == s.toList

/-- The byte `op[i]` of the NUL-terminated string `op`. -/
def op_at (op : List Char) (i : Nat) : Char := op.getD i NUL

/-- The `switch (op[0])` of `playback_poll` on the line read.  `op[0]` and `op[1]` are the
first two bytes of the NUL-terminated `op`.  Control falls from `case 'E'` into `case 'C'`
when the opcode is not `EXTERNAL_POSE`. -/
def playback_dispatch (line op : List Char) (driver : SurvivePlaybackData) :
    SurvivePlaybackData × List Out :=
  if op_at op 0 = 'W' then
    if op_at op 1 = NUL then (parse_and_run_sweep line driver).2 else (driver, [])
  else if op_at op 0 = 'B' then
    if op_at op 1 = NUL then (parse_and_run_sweep_angle line driver).2 else (driver, [])
  else if op_at op 0 = 'Y' then
    if op_at op 1 = NUL then (parse_and_run_sync line driver).2 else (driver, [])
  else if op_at op 0 = 'E' ∧ streq op "EXTERNAL_POSE" then
    (parse_and_run_externalpose line driver).2
  else if op_at op 0 = 'E' ∨ op_at op 0 = 'C' then
    if op_at op 1 = NUL then (parse_and_run_rawlight line driver).2 else (driver, [])
  else if op_at op 0 = 'L' ∨ op_at op 0 = 'R' then
    if op_at op 1 = NUL ∧ driver.hasRawLight = false then
      (parse_and_run_lightcode line driver).2
    else (driver, [])
  else if op_at op 0 = 'i' then
    if op_at op 1 = NUL then (parse_and_run_imu line driver true).2 else (driver, [])
  else if op_at op 0 = 'I' then
    if op_at op 1 = NUL then (parse_and_run_imu line driver false).2 else (driver, [])
  else if op_at op 0 = 'P' then
    if streq op "POSE" ∧ driver.outputExternalPose then (parse_and_run_pose line driver).2
    else (driver, [])
  else if op_at op 0 = 'A' ∨ op_at op 0 = 'V' then (driver, [])
  else
    (driver,
      [.warn (sprintf "Playback doesn't understand '%s' op in '%s'" [.str op, .str line])])

/-- The second half of the body of `playback_poll`, from the test of the time stamp on:
`f` is the stream, `now` the value `timestamp_in_us()` returns. -/
def playback_poll_line (alloc : Nat → Bool) (junk : Char) (driver : SurvivePlaybackData)
    (f : GzFile) (now : FLT) : Int × SurvivePlaybackData × List Out :=
  if (driver.next_time_us.mul driver.playback_factor).gt now then (0, driver, [])
  else
    let r := gzgetline alloc junk none 0 f
    let driver1 := { driver with next_time_us := (FLT.num 0 0), playback_file := some r.stream }
    if r.ret ≤ 0 then (0, driver1, [])
    else
      let line := cstr (strip_eol r.ret.toNat (r.lineptr.getD []))
      let rr := (sscanf line "%31s %31s").1
      let args := (sscanf line "%31s %31s").2
      if rr < 2 then (0, driver1, [])
      else (0, (playback_dispatch line (str_var args 1) driver1).1,
        (playback_dispatch line (str_var args 1) driver1).2)

/-- The driver's poll function `playback_poll`: the value returned, the session afterwards,
and what was let out.  `now` is the value `timestamp_in_us()` returns in this call. -/
def playback_poll (alloc : Nat → Bool) (junk : Char) (driver : SurvivePlaybackData) (now : FLT) :
    Int × SurvivePlaybackData × List Out :=
  match driver.playback_file with
  | none => (-1, { driver with playback_file := none }, [])
  | some f =>
    if !gzeof f && !gzerror_dropin f then
      let driver1 := { driver with lineno := driver.lineno + 1 }
      if driver1.next_time_us.isZero then
        let r := gzgetdelim alloc junk none 0 ' ' f
        let driver2 := { driver1 with playback_file := some r.stream }
        if r.ret ≤ 0 then (0, driver2, [])
        else
          let rr := (sscanf (cstr (r.lineptr.getD [])) "%lf").1
          let args := (sscanf (cstr (r.lineptr.getD [])) "%lf").2
          if rr ≠ 1 then (0, driver2, [])
          else playback_poll_line alloc junk { driver2 with next_time_us := flt_var args 0 }
            r.stream now
      else playback_poll_line alloc junk driver1 f now
    else
      -- gzclose
      (-1, { driver with playback_file := none }, [])

/-- A sequence of polls, one for each reading of the playback clock: the session at the
end and what each poll let out. -/
def playback_run (alloc : Nat → Bool) (junk : Char) :
    SurvivePlaybackData → List FLT → SurvivePlaybackData × List (List Out)
  | driver, [] => (driver, [])
  | driver, now :: nows =>
    ((playback_run alloc junk (playback_poll alloc junk driver now).2.1 nows).1,
     (playback_poll alloc junk driver now).2.2
       :: (playback_run alloc junk (playback_poll alloc junk driver now).2.1 nows).2)

/-- A session about to play `log`, with `objects` registered. -/
def playback_start (objects : List (List Char)) (log : List Char) (playback_factor : FLT)
    (outputExternalPose : Bool) : SurvivePlaybackData :=
  { objects := objects, playback_file := some ⟨log, false, false, false⟩, lineno := 0,
    next_time_us := (FLT.num 0 0), playback_factor := playback_factor, hasRawLight := false,
    outputExternalPose := outputExternalPose, display_once_find := false,
    display_once_imu := false, display_once_rawlight := false, display_once_lightcode := false }


/-- The stream as the reading loop leaves it. -/
def LoopExit.stream : LoopExit → GzFile
  | .early _ _ f => f
  | .out _ _ _ _ f => f


/-- The fields of a session that the handling of a line leaves alone. -/
def SurvivePlaybackData.core (d : SurvivePlaybackData) :
    List (List Char) × Option GzFile × Int × FLT × FLT × Bool :=
  (d.objects, d.playback_file, d.lineno, d.next_time_us, d.playback_factor, d.outputExternalPose)


/-- The calls of the consumer interface among what was let out, in order. -/
def calls : List Out → List Call
  | [] => []
  | .call c :: outs => c :: calls outs
  | .warn _ :: outs => calls outs
  | .error _ :: outs => calls outs
  | .abort :: outs => calls outs
  | .undefined :: outs => calls outs

/-- The warnings among what was let out, in order. -/
def warnings : List Out → List (List Char)
  | [] => []
  | .warn w :: outs => w :: warnings outs
  | .call _ :: outs => warnings outs
  | .error _ :: outs => warnings outs
  | .abort :: outs => warnings outs
  | .undefined :: outs => warnings outs

/-- Whether a call is one of `lightproc`. -/
def Call.isLightproc : Call → Bool
  | .lightproc _ _ _ _ _ _ _ => true
  | _ => false

/-- Whether a call is the hand-over of a raw light capture sample to `handle_lightcap`. -/
def Call.isLightcap : Call → Bool
  | .handle_lightcap _ _ _ _ => true
  | _ => false


/-- The unread content of the stream `f` starts with the record `ts line\n`, followed by
`rest`: `f` is neither at its end nor in error; the time-stamp token `ts` holds no space and
no NUL and reads as the number `t`; `line` holds no newline and no NUL and does not end in a
carriage return; and both are shorter than `SSIZE_MAX`. -/
structure RecordAhead (f : GzFile) (ts line rest : List Char) (t : FLT) : Prop where
  eof : f.eof = false
  err : f.err = false
  data : f.data = ts ++ ' ' :: (line ++ '\n' :: rest)
  ts_space : ' ' ∉ ts
  ts_nul : NUL ∉ ts
  ts_reads : sscanf (ts ++ [' ']) "%lf" = (1, [.flt t])
  line_newline : '\n' ∉ line
  line_nul : NUL ∉ line
  line_last : line.getLast? ≠ some '\n' ∧ line.getLast? ≠ some '\r'
  ts_size : ts.length + 1 < SSIZE_MAX
  line_size : line.length + 1 < SSIZE_MAX

/-- The session after a poll has taken a record from the source: the line counted, the
time stamp cleared, the stream advanced to `rest`. -/
def after_record (driver : SurvivePlaybackData) (f : GzFile) (rest : List Char) :
    SurvivePlaybackData :=
  { driver with
    lineno := driver.lineno + 1
    next_time_us := FLT.num 0 0
    playback_file := some { f with data := rest } }


/-- The content of the source that the session has not read yet; nothing once the source
is closed. -/
def unread (d : SurvivePlaybackData) : List Char :=
  match d.playback_file with
  | some f => f.data
  | none => []

/-- What a poll that took the bytes `piece` from the source let out: nothing, or the outcome
of the dispatch, on its second token, of a line that is a segment of `piece`. -/
def DispatchedFrom (piece : List Char) (outs : List Out) : Prop :=
  outs = [] ∨ ∃ line d, line <:+: piece
    ∧ outs = (playback_dispatch line (str_var (sscanf line "%31s %31s").2 1) d).2


/-- Nothing of a number follows: the text is empty or starts with a character that is not
a digit. -/
def NoDigitAhead (rest : List Char) : Prop := ∀ c ∈ rest.head?, isdigit c = false


/-- The text `<dev> Y <channel> <timecode> <ootx> <gen>` of a sync record, the numbers in
decimal and the two flags as `1` or `0`, followed by `tail`. -/
def sync_text (dev : List Char) (channel timecode : Nat) (ootx gen : Bool) (tail : List Char) :
    List Char :=
  dev ++ ' ' :: 'Y' :: ' ' :: (fmt_u channel ++ ' ' :: (fmt_u timecode
    ++ ' ' :: (if ootx then '1' else '0') :: ' ' :: (if gen then '1' else '0') :: tail))


/-- A token ends here: the text is empty or goes on with white space. -/
def EndOfToken (rest : List Char) : Prop := ∀ c ∈ rest.head?, isspace c = true

/-- The characters of a token: no white space and no NUL among them. -/
def TokenChars (s : List Char) : Prop := ∀ c ∈ s, isspace c = false ∧ c ≠ NUL

/-- The characters of the line of a record: no NUL, no newline and no carriage return among
them. -/
def LineChars (s : List Char) : Prop := ∀ c ∈ s, c ≠ NUL ∧ c ≠ '\n' ∧ c ≠ '\r'

/-- What a conversion reads from the text `txt` of a field: the value `v`, whatever white
space stands before the text, the text being followed by the end of a token. -/
def ReadsAs (sp : Spec) (txt : List Char) (v : Arg) : Prop :=
  sp ≠ .c ∧ ∀ rest, EndOfToken rest → scan_conv sp (txt ++ rest) = .ok v rest

/-- The number of conversions among directives. -/
def convCount : List Dir → Nat
  | [] => 0
  | .lit _ :: ds => convCount ds
  | .conv _ :: ds => convCount ds + 1

/-- An argument of `printf` whose text can stand in the line of a record: any number, and
a string or character free of NUL, newline and carriage return. -/
def Arg.lineArg : Arg → Prop
  | .str s => LineChars s
  | .chr c => c ≠ NUL ∧ c ≠ '\n' ∧ c ≠ '\r'
  | .int _ => True
  | .flt _ => True

/-- The ordinary characters of directives are free of NUL, newline and carriage return. -/
def lineDirs : List Dir → Bool
  | [] => true
  | .lit c :: ds => c != NUL && c != '\n' && c != '\r' && lineDirs ds
  | .conv _ :: ds => lineDirs ds

/-! ## Part 5: events and their records -/

/-- An event of the data model, one constructor for each variant; one line of the log
records it. -/
inductive Event where
  | config (device raw_config_text : List Char)
  | lighthouse_pose (beacon_id : Nat) (pose : SurvivePose)
  | velocity (device : List Char) (velocity : SurviveVelocity)
  | pose (device : List Char) (pose : SurvivePose)
  | external_pose (name : List Char) (pose : SurvivePose)
  | external_velocity (name : List Char) (velocity : SurviveVelocity)
  | info (message : List Char)
  | sync (device : List Char) (channel timecode : Nat) (ootx_flag gen_flag : Bool)
  | sweep (device : List Char) (channel : Nat) (sensor_id : Int) (timecode : Nat) (flag : Bool)
  | sweep_angle (device : List Char) (channel : Nat) (sensor_id : Int) (timecode : Nat)
      (plane : Int) (angle : FLT)
  | angle (device : List Char) (sensor_id axis_code : Int) (timecode : Nat) (length angle : FLT)
      (beacon_id : Nat)
  | light_cap_raw (device : List Char) (le : LightcapElement)
  | light_code (device : List Char) (sensor_id axis_code time_in_sweep : Int)
      (timecode length beacon_id : Nat)
  | imu (device : List Char) (calibrated : Bool) (mask : Int) (values : List FLT)
      (timecode : Nat) (id : Int)
deriving DecidableEq

/-- The recorder's entry for an event at the clock reading `ts`: the recording function of
its variant. -/
def record (r : Recorder) (ts : FLT) : Event → Recorder
  | .config device text => survive_recording_config_process r ts device text text.length
  | .lighthouse_pose beacon_id pose => survive_recording_lighthouse_process r ts beacon_id pose
  | .velocity device v => survive_recording_velocity_process r ts device v
  | .pose device pose => survive_recording_raw_pose_process r ts device pose
  | .external_pose name pose => survive_recording_external_pose_process r ts name pose
  | .external_velocity name v => survive_recording_external_velocity_process r ts name v
  | .info message => survive_recording_info_process r ts message
  | .sync device channel timecode ootx gen =>
    survive_recording_sync_process r ts device channel timecode ootx gen
  | .sweep device channel sensor_id timecode flag =>
    survive_recording_sweep_process r ts device channel sensor_id timecode flag
  | .sweep_angle device channel sensor_id timecode plane angle =>
    survive_recording_sweep_angle_process r ts device channel sensor_id timecode plane angle
  | .angle device sensor_id acode timecode length angle lh =>
    survive_recording_angle_process r ts device sensor_id acode timecode length angle lh
  | .light_cap_raw device le => survive_recording_lightcap r ts device le
  | .light_code device sensor_id acode timeinsweep timecode length lh =>
    survive_recording_light_process r ts device sensor_id acode timeinsweep timecode length lh
  | .imu device calibrated mask values timecode id =>
    if calibrated then survive_recording_imu_process r ts device mask values timecode id
    else survive_recording_raw_imu_process r ts device mask values timecode id

/-- A recording session with every category enabled that writes to a file, empty so far,
and not to `stdout`. -/
def recording_all : Recorder := ⟨some ⟨false, true, true, true, true, some []⟩, []⟩

/-- The content of the file of a recorder. -/
def Recorder.file (r : Recorder) : List Char :=
  match r.recptr with
  | some recordingData => recordingData.output_file.getD []
  | none => []

/-- What the recorder writes for the event `e` at the clock reading `ts`. -/
def written (ts : FLT) (e : Event) : List Char := (record recording_all ts e).file


/-- A device name that fits the buffers of the playback parsers: 1 to `k` characters, none
of them white space or NUL. -/
def Name (k : Nat) (d : List Char) : Prop := 1 ≤ d.length ∧ d.length ≤ k ∧ TokenChars d

/-- The value `i` fits a signed integer of 32 bits. -/
def Int32 (i : Int) : Prop := -2147483648 ≤ i ∧ i < 2147483648

/-- The fields of an event are values of the C types of the recording function of its
variant, device names fit the buffers of the parsers (`dev[32]` of `playback_poll` read
with `%31s`, `dev[10]` of the handlers, `%8s` for a light code), and free text holds no NUL
and no carriage return (nor a newline, for a message). -/
def Event.wf : Event → Prop
  | .config device text => Name 31 device ∧ ∀ c ∈ text, c ≠ NUL ∧ c ≠ '\r'
  | .lighthouse_pose beacon_id _ => beacon_id < 256
  | .velocity device _ => Name 31 device
  | .pose device _ => Name 31 device
  | .external_pose name _ => Name 31 name
  | .external_velocity name _ => Name 31 name
  | .info message => LineChars message
  | .sync device channel timecode _ _ => Name 9 device ∧ channel < 256 ∧ timecode < 4294967296
  | .sweep device channel sensor_id timecode _ =>
    Name 9 device ∧ channel < 256 ∧ Int32 sensor_id ∧ timecode < 4294967296
  | .sweep_angle device channel sensor_id timecode plane _ =>
    Name 9 device ∧ channel < 256 ∧ Int32 sensor_id ∧ timecode < 4294967296
      ∧ -128 ≤ plane ∧ plane < 128
  | .angle device _ _ _ _ _ _ => Name 31 device
  | .light_cap_raw device le =>
    Name 9 device ∧ le.sensor_id < 256 ∧ le.timestamp < 4294967296 ∧ le.length < 65536
  | .light_code device sensor_id axis_code time_in_sweep timecode length beacon_id =>
    Name 8 device ∧ Int32 sensor_id ∧ 0 ≤ axis_code ∧ axis_code ≤ 7 ∧ Int32 time_in_sweep
      ∧ timecode < 4294967296 ∧ length < 4294967296 ∧ beacon_id < 4294967296
  | .imu device _ mask _ timecode id =>
    Name 9 device ∧ Int32 mask ∧ timecode < 4294967296 ∧ Int32 id

/-- The registered object the handler of a record looks up by name, for the variants whose
handler looks one up. -/
def Event.so : Event → Option (List Char)
  | .sync device _ _ _ _ => some device
  | .sweep device _ _ _ _ => some device
  | .sweep_angle device _ _ _ _ _ => some device
  | .light_cap_raw device _ => some device
  | .light_code device _ _ _ _ _ _ => some device
  | .imu device _ _ _ _ _ => some device
  | _ => none

/-- The number `a[i]` to six decimals. -/
def round6_at (a : List FLT) (i : Nat) : FLT := (a.getD i (FLT.num 0 0)).round6

/-- The seven numbers of a pose, each to six decimals. -/
def pose6 (p : SurvivePose) : List (Option FLT) :=
  [some (round6_at p.Pos 0), some (round6_at p.Pos 1), some (round6_at p.Pos 2),
   some (round6_at p.Rot 0), some (round6_at p.Rot 1), some (round6_at p.Rot 2),
   some (round6_at p.Rot 3)]

/-- The nine numbers of an IMU sample, each to six decimals. -/
def values6 (a : List FLT) : List FLT :=
  [round6_at a 0, round6_at a 1, round6_at a 2, round6_at a 3, round6_at a 4, round6_at a 5,
   round6_at a 6, round6_at a 7, round6_at a 8]

/-- What the replay of the record of an event lets out: for the variants with a handler in
`playback_poll`, the call of the consumer interface with the fields of the event, numbers to
six decimals; for a pose, a call of `external_poseproc` under the name `replay_<device>`
when `playback-replay-pose` is set; nothing for the others. -/
def replay_outs (replay_pose : Bool) : Event → List Out
  | .sync device channel timecode ootx gen => [.call (.syncproc device channel timecode ootx gen)]
  | .sweep device channel sensor_id timecode flag =>
    [.call (.sweepproc device channel sensor_id timecode flag)]
  | .sweep_angle device channel sensor_id timecode plane angle =>
    [.call (.sweep_angleproc device channel sensor_id timecode plane angle.round6)]
  | .light_cap_raw device le =>
    [.call (.handle_lightcap device (some le.sensor_id) (some le.timestamp) (some le.length))]
  | .light_code device sensor_id axis_code time_in_sweep timecode length beacon_id =>
    [.call (.lightproc device sensor_id axis_code time_in_sweep timecode length beacon_id)]
  | .imu device calibrated mask values timecode id =>
    [.call ((if calibrated then Call.imuproc else Call.raw_imuproc) device mask (values6 values)
      timecode id)]
  | .external_pose name pose => [.call (.external_poseproc name (pose6 pose))]
  | .pose device pose =>
    if replay_pose then [.call (.external_poseproc ("replay_".toList ++ device) (pose6 pose))]
    else []
  | _ => []


/-- The directives of the format of a record without the last of them, the newline: they
give the line of the record. -/
def body_dirs (format : String) : List Dir := (parse_format format).dropLast

/-- The line the recorder writes for arguments under a format, without time stamp and
newline. -/
def line_of (format : String) (args : List Arg) : List Char :=
  sprintf_dirs (body_dirs format) args


/-- The outcome of a handler other than those of raw light and of light codes: at most one
call, none of `lightproc` or `handle_lightcap`, `hasRawLight` as it was. -/
def PlainOutcome (d : SurvivePlaybackData) (r : SurvivePlaybackData × List Out) : Prop :=
  (calls r.2).length ≤ 1 ∧ (∀ c ∈ calls r.2, c.isLightproc = false ∧ c.isLightcap = false)
    ∧ r.1.hasRawLight = d.hasRawLight


/-! ### What a recording step writes -/

/-- The recorder after `text` went to each of its sinks: appended to the file when one is
open, and to `stdout` when `alwaysWriteStdOut` is set; unchanged without a session. -/
def Recorder.put (r : Recorder) (text : List Char) : Recorder :=
  match r.recptr with
  | none => r
  | some rd =>
    ⟨some { rd with output_file := rd.output_file.map (fun w => w ++ text) },
      if rd.alwaysWriteStdOut then r.stdout ++ text else r.stdout⟩

/-- One line of text: it ends in a newline and holds no other. -/
def OneLine (t : List Char) : Prop := ∃ body, t = body ++ ['\n'] ∧ '\n' ∉ body

/-- The payload of a `CONFIG` record: the first `len` bytes of the configuration text, each
newline among them replaced by a space. -/
def config_payload (ct0conf : List Char) (len : Nat) : List Char :=
  (ct0conf.take len).map (fun c => if c = '\n' then ' ' else c)

/-- An argument of `printf` whose text holds no newline: any number, and a string or
character free of newlines. -/
def Arg.noNewline : Arg → Prop
  | .str s => '\n' ∉ s
  | .chr c => c ≠ '\n'
  | .int _ => True
  | .flt _ => True

/-- No ordinary character of the directives is a newline. -/
def plainDirs : List Dir → Bool
  | [] => true
  | .lit c :: ds => c != '\n' && plainDirs ds
  | .conv _ :: ds => plainDirs ds

/-- The text of one record written at the clock reading `ts`: the time stamp to six
decimals, a space, a body free of newlines, and the newline that ends the record. -/
def OneRecord (ts : FLT) (t : List Char) : Prop :=
  ∃ body, t = fmt_f6 ts ++ ' ' :: (body ++ ['\n']) ∧ '\n' ∉ body


/-- The toggle of the session that gates the record of an event: `writeRawLight` for a raw
light capture, `writeIMU` for a raw and `writeCalIMU` for a calibrated IMU sample, and
`writeAngle` for a sweep angle, an angle and a light code; the other variants are under no
toggle. -/
def Event.gate (rd : SurviveRecordingData) : Event → Bool
  | .light_cap_raw _ _ => rd.writeRawLight
  | .imu _ calibrated _ _ _ _ => if calibrated then rd.writeCalIMU else rd.writeIMU
  | .sweep_angle _ _ _ _ _ _ => rd.writeAngle
  | .angle _ _ _ _ _ _ _ => rd.writeAngle
  | .light_code _ _ _ _ _ _ _ => rd.writeAngle
  | _ => true

/-- The strings an event prints with `%s`: the device or name, and the message of an
`Info`. -/
def Event.texts : Event → List (List Char)
  | .config device _ => [device]
  | .lighthouse_pose _ _ => []
  | .velocity device _ => [device]
  | .pose device _ => [device]
  | .external_pose name _ => [name]
  | .external_velocity name _ => [name]
  | .info message => [message]
  | .sync device _ _ _ _ => [device]
  | .sweep device _ _ _ _ => [device]
  | .sweep_angle device _ _ _ _ _ => [device]
  | .angle device _ _ _ _ _ _ => [device]
  | .light_cap_raw device _ => [device]
  | .light_code device _ _ _ _ _ _ => [device]
  | .imu device _ _ _ _ _ => [device]

/-- The ten variants the four toggles are said not to touch. -/
def Event.ungated : Event → Bool
  | .config _ _ => true
  | .lighthouse_pose _ _ => true
  | .velocity _ _ => true
  | .pose _ _ => true
  | .external_pose _ _ => true
  | .external_velocity _ _ => true
  | .info _ => true
  | .sync _ _ _ _ _ => true
  | .sweep _ _ _ _ _ => true
  | .sweep_angle _ _ _ _ _ _ => true
  | _ => false

/-- The event is a sweep angle. -/
def Event.isSweepAngle : Event → Bool
  | .sweep_angle _ _ _ _ _ _ => true
  | _ => false


/-- The record of the line `line` stamped `ts`, as it stands in a log. -/
def log_record (ts : FLT) (line : List Char) : List Char := fmt_f6 ts ++ ' ' :: (line ++ ['\n'])

/-- The session holds no time stamp; its source is open with `data` unread, neither at its
end nor in error. -/
def AtRecord (d : SurvivePlaybackData) (data : List Char) : Prop :=
  d.playback_file = some ⟨data, false, false, false⟩ ∧ d.next_time_us.isZero = true

/-- The session holds the time stamp `t` of a record whose line is still unread; its source
is open with `data` unread. -/
def AtLine (d : SurvivePlaybackData) (t : FLT) (data : List Char) : Prop :=
  d.playback_file = some ⟨data, false, false, false⟩ ∧ d.next_time_us = t

/-- The source of the session is closed, or at its end, or in error. -/
def Ended (d : SurvivePlaybackData) : Prop :=
  ∀ f, d.playback_file = some f → gzeof f = true ∨ gzerror_dropin f = true

/-- The settings of a session that no poll changes: the registered objects, the playback
factor and `playback-replay-pose`. -/
def SurvivePlaybackData.settings (d : SurvivePlaybackData) : List (List Char) × FLT × Bool :=
  (d.objects, d.playback_factor, d.outputExternalPose)

/-- The record of `line` stamped `ts` is the next of the log, `rest` following it: the
session, whose settings are `s`, stands in front of the record, or holds its time stamp (not
zero) and stands in front of its line. -/
def Waiting (d : SurvivePlaybackData) (s : List (List Char) × FLT × Bool) (ts : FLT)
    (line rest : List Char) : Prop :=
  d.settings = s
  ∧ (AtRecord d (log_record ts line ++ rest)
    ∨ (AtLine d ts.round6 (line ++ '\n' :: rest) ∧ ts.round6.isZero = false))



/-! ## Part 7: registration of the driver and the pre-scan of the log -/

/-- What `DriverRegPlayback` lets out: a message of the log (`SV_INFO`, `SV_WARN`,
`SV_ERROR`), or a call into the library: `survive_create_device(ctx, driver_name, sp,
codename, 0)`, `ctx->configproc(so, config, len)` with the C string `config` points to,
`survive_add_object(ctx, so)`, `survive_add_driver`.  A device object is named by its
codename.  `undefined` marks a step whose behaviour C leaves undefined: a token stored
past the end of `dev` or `command`, or a read past the end of the line block. -/
inductive RegOut where
  | info (text : List Char)
  | warn (text : List Char)
  | error (text : List Char)
  | create_device (driver_name codename : List Char)
  | configproc (so config : List Char) (len : Nat)
  | add_object (so : List Char)
  | add_driver
  | undefined
deriving DecidableEq

/-- The first position at or after the pointer that holds a space: the pointer is the part
of the block from its position on, `none` when no space is left in the block. -/
def find_space : List Char → Option (List Char)
  | [] => none
  | c :: cs => if c = ' ' then some (c :: cs) else find_space cs

/-- The loop `while (*(++configStart) != ' ');`: the pointer is advanced first, then moved
on to the next space.  `none`: the loop leaves the block. -/
def skip_to_space (configStart : List Char) : Option (List Char) := find_space configStart.tail

/-- The branch `strcmp(command, "CONFIG") == 0` of the pre-scan, on the block `line` and the
device token `dev`.  `configproc` gives the value the consumer's `configproc` returns. -/
def prescan_config (configproc : List Char → List Char → Nat → Int) (line dev : List Char) :
    Bool × List RegOut :=
  match ((skip_to_space line).bind skip_to_space).bind skip_to_space with
  | none => (false, [.undefined])
  | some configStart =>
    if NUL ∈ configStart then
      let len := (cstr configStart).length
      let config := memcpy (List.replicate (len + 1) NUL) configStart len
      if configproc dev (cstr config) len = 0 then
        (true, [.create_device "replay".toList dev, .configproc dev (cstr config) len,
          .info (sprintf "Found %s in playback file..." [.str dev]), .add_object dev])
      else
        (true, [.create_device "replay".toList dev, .configproc dev (cstr config) len,
          .warn (sprintf "Found %s in playback file, but could not read config description"
            [.str dev])])
    else (false, [.undefined])

/-- The body of the pre-scan loop of `DriverRegPlayback` for the block `line` that
`gzgetline` filled: whether the loop goes on (`false`: `break`), and what is let out.
`dev` and `command` hold 32 bytes, the conversions `%s` have no width. -/
def prescan_line (configproc : List Char → List Char → Nat → Int) (line : List Char) :
    Bool × List RegOut :=
  let rr := (sscanf (cstr line) "%lf %s %s").1
  let args := (sscanf (cstr line) "%lf %s %s").2
  if 31 < (str_var args 1).length ∨ 31 < (str_var args 2).length then (false, [.undefined])
  else if rr ≠ 3 then (false, [])
  else if (flt_var args 0).gt (FLT.num 10 0) then (false, [])
  else if streq (str_var args 2) "CONFIG" then prescan_config configproc line (str_var args 1)
  else (true, [])

/-- The pre-scan loop of `DriverRegPlayback`,
`while (!gzeof(sp->playback_file) && !gzerror_dropin(sp->playback_file))`: the stream and
what was let out when the loop is left.  The first argument bounds the number of
iterations, `none`: the bound was reached.  `r` is an `int`. -/
def prescan_loop (alloc : Nat → Bool) (junk : Char)
    (configproc : List Char → List Char → Nat → Int) :
    Nat → GzFile → Option (GzFile × List RegOut)
  | 0, _ => none
  | fuel + 1, f =>
    if !gzeof f && !gzerror_dropin f then
      if toSigned 32 (gzgetline alloc junk none 0 f).ret ≤ 0 then
        prescan_loop alloc junk configproc fuel (gzgetline alloc junk none 0 f).stream
      else if (prescan_line configproc ((gzgetline alloc junk none 0 f).lineptr.getD [])).1 then
        (prescan_loop alloc junk configproc fuel (gzgetline alloc junk none 0 f).stream).map
          (fun x => (x.1,
            (prescan_line configproc ((gzgetline alloc junk none 0 f).lineptr.getD [])).2 ++ x.2))
      else
        some ((gzgetline alloc junk none 0 f).stream,
          (prescan_line configproc ((gzgetline alloc junk none 0 f).lineptr.getD [])).2)
    else some (f, [])

/-- The call `gzseek(f, 0, SEEK_SET)` on the stream `f` that was opened as `opened`: back
to the start with the end-of-file indicator cleared; a stream in error stays as it is. -/
def gzseek_start (opened f : GzFile) : GzFile :=
  if f.err then f else { opened with eof := false }

/-- Modelled from the spec: `survive_add_object`, defined outside this file, registers the
object with the context: the objects the calls let out registered, in their order. -/
def added : List RegOut → List (List Char)
  | [] => []
  | .add_object so :: outs => so :: added outs
  | _ :: outs => added outs

/-- The function `DriverRegPlayback`: the value returned, the session registered with
`survive_add_driver`, and what was let out; `none` when the pre-scan does not end within
`fuel` iterations.  `playback_file`, `playback_factor` and `outputExternalPose` are the
values of the configuration items `playback`, `playback-factor` and
`playback-replay-pose`; `gzopen` gives the stream `gzopen(playback_file, "r")` returns,
`none` for NULL; `objects` are the codenames registered in `ctx` before the call. -/
def DriverRegPlayback (alloc : Nat → Bool) (junk : Char)
    (configproc : List Char → List Char → Nat → Int) (fuel : Nat) (objects : List (List Char))
    (playback_file : List Char) (gzopen : List Char → Option GzFile) (playback_factor : FLT)
    (outputExternalPose : Bool) : Option (Int × Option SurvivePlaybackData × List RegOut) :=
  if playback_file.length = 0 then
    some (-1, none, [.warn "The playback argument requires a filename".toList])
  else
    match gzopen playback_file with
    | none =>
      some (-1, none,
        [.error (sprintf "Could not open playback events file %s" [.str playback_file])])
    | some opened =>
      (prescan_loop alloc junk configproc fuel opened).map (fun x =>
        (0,
         some { objects := objects ++ added x.2, playback_file := some (gzseek_start opened x.1),
                lineno := 0, next_time_us := (FLT.num 0 0), playback_factor := playback_factor,
                hasRawLight := false, outputExternalPose := outputExternalPose,
                display_once_find := false, display_once_imu := false,
                display_once_rawlight := false, display_once_lightcode := false },
         .info (sprintf "Using playback file '%s' with timefactor of %f"
             [.str playback_file, .flt playback_factor]) :: (x.2 ++ [.add_driver])))

/-- The text of a log made of the lines `ls`, each ended by a newline. -/
def lines_text : List (List Char) → List Char
  | [] => []
  | l :: ls => l ++ '\n' :: lines_text ls

/-! ## Theorems -/

/-! ### Memory blocks -/

theorem take_succ_set (c : Char) :
    ∀ (l : List Char) (i : Nat), i < l.length → (l.set i c).take (i + 1) = l.take i ++ [c] := by
  intro l
  induction l with
  | nil => intro i h; simp at h
  | cons a t ih =>
    intro i h
    cases i with
    | zero => simp
    | succ j =>
      have hj : j < t.length := by simpa using h
      simp [List.set, List.take, ih j hj]

theorem realloc_grow (junk : Char) (buf : List Char) (n k : Nat) (h : buf.length = n) :
    realloc junk (some buf) (n + k) = buf ++ List.replicate k junk := by
  simp [realloc, ← h, List.take_of_length_le]

theorem realloc_null (junk : Char) (size : Nat) :
    realloc junk none size = List.replicate size junk := by
  simp [realloc]

/-! ### The reading loop -/

theorem gzgetc_cons (f : GzFile) (c : Char) (cs : List Char) (he : f.err = false)
    (hd : f.data = c :: cs) : gzgetc f = (some c, { f with data := cs }) := by
  simp [gzgetc, he, hd]

/-- Reading through a delimiter-free prefix `pre` of the unread content: the loop arrives,
with `pre` appended to what the block held, at the same loop over what follows `pre`. -/
theorem gzgetdelim_loop_through (alloc : Nat → Bool) (junk delim : Char)
    (halloc : ∀ m, alloc m = true) (rest : List Char) :
    ∀ (pre : List Char) (f : GzFile) (fuel bytes : Nat) (buf : List Char) (n : Nat),
      f.err = false → f.data = pre ++ rest → delim ∉ pre →
      bytes + pre.length < SSIZE_MAX → pre.length ≤ fuel →
      buf.length = n → bytes + 1 < n →
      ∃ buf1 n1, gzgetdelim_loop alloc junk delim fuel f bytes bytes buf n
          = gzgetdelim_loop alloc junk delim (fuel - pre.length) { f with data := rest }
              (bytes + pre.length) (bytes + pre.length) buf1 n1
        ∧ buf1.length = n1 ∧ bytes + pre.length + 1 < n1
        ∧ buf1.take (bytes + pre.length) = buf.take bytes ++ pre := by
  intro pre
  induction pre with
  | nil =>
    intro f fuel bytes buf n he hd _ _ _ hl hn
    refine ⟨buf, n, ?_, hl, by simpa using hn, by simp⟩
    have : ({ f with data := rest } : GzFile) = f := by
      cases f; simp at hd; simp [hd]
    simp [this]
  | cons c cs ih =>
    intro f fuel bytes buf n he hd hnot hsz hfuel hl hn
    obtain ⟨fuel1, rfl⟩ : ∃ k, fuel = k + 1 := ⟨fuel - 1, by simp at hfuel; omega⟩
    have hc : c ≠ delim := fun h => hnot (by simp [h])
    have hcs : delim ∉ cs := fun h => hnot (by simp [h])
    have hlen : (c :: cs).length = cs.length + 1 := rfl
    have hov : ¬ (bytes + 1 ≥ SSIZE_MAX) := by rw [hlen] at hsz; omega
    have hg := gzgetc_cons f c (cs ++ rest) he (by simpa using hd)
    by_cases hgrow : bytes + 1 ≥ n - 1
    · have hl2 : ((realloc junk (some buf) (n + GETDELIM_GROWBY)).set (bytes + 1 - 1) c).length
          = n + GETDELIM_GROWBY := by
        simp [realloc_grow junk buf n _ hl, hl]
      obtain ⟨buf1, n1, heq, h1, h2, h3⟩ := ih { f with data := cs ++ rest } fuel1 (bytes + 1)
        ((realloc junk (some buf) (n + GETDELIM_GROWBY)).set (bytes + 1 - 1) c)
        (n + GETDELIM_GROWBY) he rfl hcs (by rw [hlen] at hsz; omega)
        (by rw [hlen] at hfuel; omega) hl2 (by simp [GETDELIM_GROWBY]; omega)
      refine ⟨buf1, n1, ?_, h1, by rw [hlen]; omega, ?_⟩
      · rw [gzgetdelim_loop, hg]
        simp only [hov, if_false, hgrow, if_true, halloc, hc]
        simp only [Nat.add_sub_cancel] at heq ⊢
        rw [heq, hlen]
        congr 1 <;> omega
      · have e : bytes + (c :: cs).length = bytes + 1 + cs.length := by rw [hlen]; omega
        rw [e, h3]
        simp only [Nat.add_sub_cancel]
        rw [take_succ_set c _ bytes (by simp [realloc_grow junk buf n _ hl, hl]; omega),
          realloc_grow junk buf n _ hl, List.take_append_of_le_length (by omega)]
        simp
    · obtain ⟨buf1, n1, heq, h1, h2, h3⟩ := ih { f with data := cs ++ rest } fuel1 (bytes + 1)
        (buf.set bytes c) n he rfl hcs (by rw [hlen] at hsz; omega)
        (by rw [hlen] at hfuel; omega) (by simp [hl]) (by omega)
      refine ⟨buf1, n1, ?_, h1, by rw [hlen]; omega, ?_⟩
      · rw [gzgetdelim_loop, hg]
        simp only [hov, if_false, hgrow, hc]
        rw [heq, hlen]
        congr 1 <;> omega
      · have e : bytes + (c :: cs).length = bytes + 1 + cs.length := by rw [hlen]; omega
        rw [e, h3, take_succ_set c _ bytes (by omega)]
        simp

theorem realloc_length (junk : Char) (old : Option (List Char)) (size : Nat) :
    (realloc junk old size).length = size := by
  simp [realloc]; omega

/-- The iteration that meets the delimiter stores it and leaves the loop. -/
theorem gzgetdelim_loop_delim (alloc : Nat → Bool) (junk delim : Char)
    (halloc : ∀ m, alloc m = true) (rest : List Char) (f : GzFile) (fuel bytes : Nat)
    (buf : List Char) (n : Nat) (he : f.err = false) (hd : f.data = delim :: rest)
    (hsz : bytes + 1 < SSIZE_MAX) (hl : buf.length = n) (hn : bytes + 1 < n) :
    ∃ buf1 n1, gzgetdelim_loop alloc junk delim (fuel + 1) f bytes bytes buf n
        = .out (bytes + 1) (bytes + 1) buf1 n1 { f with data := rest }
      ∧ buf1.length = n1 ∧ bytes + 1 < n1
      ∧ buf1.take (bytes + 1) = buf.take bytes ++ [delim] := by
  have hov : ¬ (bytes + 1 ≥ SSIZE_MAX) := by omega
  have hg := gzgetc_cons f delim rest he hd
  by_cases hgrow : bytes + 1 ≥ n - 1
  · refine ⟨(realloc junk (some buf) (n + GETDELIM_GROWBY)).set (bytes + 1 - 1) delim,
      n + GETDELIM_GROWBY, ?_, by simp [realloc_length], by omega, ?_⟩
    · rw [gzgetdelim_loop, hg]
      simp only [hov, if_false, hgrow, if_true, halloc, Nat.add_sub_cancel]
    · simp only [Nat.add_sub_cancel]
      rw [take_succ_set delim _ bytes (by simp [realloc_length]; omega),
        realloc_grow junk buf n _ hl, List.take_append_of_le_length (by omega)]
  · refine ⟨buf.set bytes delim, n, ?_, by simp [hl], by omega, ?_⟩
    · rw [gzgetdelim_loop, hg]
      simp only [hov, if_false, hgrow, if_true]
    · rw [take_succ_set delim _ bytes (by omega)]

/-- A record found: the outcome of `gzgetdelim_read` when the delimiter occurs in the unread
content, first after the delimiter-free `pre`. -/
theorem gzgetdelim_read_found (alloc : Nat → Bool) (junk delim : Char)
    (halloc : ∀ m, alloc m = true) (f : GzFile) (pre rest : List Char) (buf : List Char) (n : Nat)
    (he : f.err = false) (hd : f.data = pre ++ delim :: rest) (hfirst : delim ∉ pre)
    (hsz : pre.length + 1 < SSIZE_MAX) (hl : buf.length = n) (hn : 1 < n) :
    ∃ b n1, gzgetdelim_read alloc junk delim f buf n
        = ⟨(pre.length + 1 : Nat), some b, n1, { f with data := rest }⟩
      ∧ b.length = n1 ∧ pre.length + 2 ≤ n1 ∧ b.take (pre.length + 2) = pre ++ [delim, NUL] := by
  obtain ⟨buf1, n1, heq, h1, h2, h3⟩ := gzgetdelim_loop_through alloc junk delim halloc
    (delim :: rest) pre f (f.data.length + 1) 0 buf n he hd hfirst (by omega)
    (by rw [hd]; simp; omega) hl (by omega)
  have hfuel : f.data.length + 1 - pre.length = (rest.length + 1) + 1 := by
    rw [hd]; simp; omega
  obtain ⟨buf2, n2, heq2, k1, k2, k3⟩ := gzgetdelim_loop_delim alloc junk delim halloc rest
    { f with data := delim :: rest } (rest.length + 1) (0 + pre.length) buf1 n1 he rfl
    (by omega) h1 h2
  refine ⟨buf2.set (0 + pre.length + 1) NUL, n2, ?_, by simp [k1], by omega, ?_⟩
  · rw [gzgetdelim_read, heq, hfuel, heq2]
    simp [gzerror_dropin, he]
  · have e : pre.length + 2 = (0 + pre.length + 1) + 1 := by omega
    rw [e, take_succ_set NUL _ _ (by omega), k3, h3]
    simp

/-- No delimiter before the end of the stream: everything unread is stored, and the result
is -1 exactly when nothing was. -/
theorem gzgetdelim_read_eof (alloc : Nat → Bool) (junk delim : Char)
    (halloc : ∀ m, alloc m = true) (f : GzFile) (buf : List Char) (n : Nat)
    (he : f.err = false) (hf : f.failing = false) (hno : delim ∉ f.data)
    (hsz : f.data.length < SSIZE_MAX) (hl : buf.length = n) (hn : 1 < n) :
    ∃ b n1, gzgetdelim_read alloc junk delim f buf n
        = (if f.data = [] then ⟨-1, some b, n1, { f with data := [], eof := true }⟩
           else ⟨(f.data.length : Nat), some (b.set f.data.length NUL), n1,
             { f with data := [], eof := true }⟩)
      ∧ b.length = n1 ∧ f.data.length + 1 < n1 ∧ b.take f.data.length = f.data := by
  obtain ⟨buf1, n1, heq, h1, h2, h3⟩ := gzgetdelim_loop_through alloc junk delim halloc
    [] f.data f (f.data.length + 1) 0 buf n he (by simp) hno (by omega) (by omega) hl (by omega)
  refine ⟨buf1, n1, ?_, h1, by omega, by simpa using h3⟩
  have hfuel : f.data.length + 1 - f.data.length = 0 + 1 := by omega
  rw [gzgetdelim_read, heq, hfuel, gzgetdelim_loop]
  simp only [gzgetc, he, hf, gzerror_dropin, gzeof]
  by_cases hnil : f.data = []
  · simp [hnil]
  · have : f.data.length ≠ 0 := by simpa using hnil
    simp [hnil, this]

/-- The guard on the record length: after `SSIZE_MAX - 1` delimiter-free bytes the next
byte read makes `gzgetdelim_read` give up with -1, the stream neither at its end nor in
error. -/
theorem gzgetdelim_read_overflow (alloc : Nat → Bool) (junk delim : Char)
    (halloc : ∀ m, alloc m = true) (f : GzFile) (pre : List Char) (c : Char) (rest : List Char)
    (buf : List Char) (n : Nat)
    (he : f.err = false) (hd : f.data = pre ++ c :: rest) (hfirst : delim ∉ pre)
    (hsz : pre.length + 1 = SSIZE_MAX) (hl : buf.length = n) (hn : 1 < n) :
    ∃ b n1, gzgetdelim_read alloc junk delim f buf n = ⟨-1, some b, n1, { f with data := rest }⟩ := by
  obtain ⟨buf1, n1, heq, h1, h2, h3⟩ := gzgetdelim_loop_through alloc junk delim halloc
    (c :: rest) pre f (f.data.length + 1) 0 buf n he hd hfirst (by omega)
    (by rw [hd]; simp; omega) hl (by omega)
  have hfuel : f.data.length + 1 - pre.length = (rest.length + 1) + 1 := by
    rw [hd]; simp; omega
  have hov : 0 + pre.length + 1 ≥ SSIZE_MAX := by omega
  refine ⟨buf1, n1, ?_⟩
  rw [gzgetdelim_read, heq, hfuel, gzgetdelim_loop,
    gzgetc_cons { f with data := c :: rest } c rest he rfl]
  simp only [hov, if_true]

/-- With allocation succeeding and `*n` the size of `*lineptr`, `gzgetdelim` is
`gzgetdelim_read` on a block of at least two bytes. -/
theorem gzgetdelim_eq_read (alloc : Nat → Bool) (junk : Char) (lineptr : Option (List Char))
    (n : Nat) (delim : Char) (f : GzFile) (halloc : ∀ m, alloc m = true)
    (hbuf : ∀ b, lineptr = some b → b.length = n) :
    ∃ buf0 n0, gzgetdelim alloc junk lineptr n delim f = gzgetdelim_read alloc junk delim f buf0 n0
      ∧ buf0.length = n0 ∧ 1 < n0 := by
  by_cases h : lineptr.isNone ∨ n < GETDELIM_MINLEN
  · refine ⟨realloc junk lineptr GETDELIM_GROWBY, GETDELIM_GROWBY, ?_, realloc_length _ _ _,
      by decide⟩
    rw [gzgetdelim, if_pos h, halloc]; rfl
  · refine ⟨lineptr.getD [], n, ?_, ?_, ?_⟩
    · rw [gzgetdelim, if_neg h]
    · cases lineptr with
      | none => simp at h
      | some b => simpa using hbuf b rfl
    · have : ¬ n < GETDELIM_MINLEN := fun k => h (Or.inr k)
      simp [GETDELIM_MINLEN] at this; omega

theorem exists_first_occurrence (d : Char) :
    ∀ l : List Char, d ∈ l → ∃ pre rest, l = pre ++ d :: rest ∧ d ∉ pre := by
  intro l
  induction l with
  | nil => intro h; simp at h
  | cons a t ih =>
    intro h
    by_cases ha : a = d
    · exact ⟨[], t, by simp [ha], by simp⟩
    · have ht : d ∈ t := by
        rcases List.mem_cons.mp h with h1 | h1
        · exact absurd h1.symm ha
        · exact h1
      obtain ⟨pre, rest, e, hp⟩ := ih ht
      refine ⟨a :: pre, rest, by simp [e], ?_⟩
      intro hm
      rcases List.mem_cons.mp hm with h1 | h1
      · exact ha h1.symm
      · exact hp h1

/-- Whenever the error indicator of the stream is set on return, the result is -1. -/
theorem gzgetdelim_read_err (alloc : Nat → Bool) (junk delim : Char) (f : GzFile)
    (buf : List Char) (n : Nat)
    (h : (gzgetdelim_read alloc junk delim f buf n).stream.err = true) :
    (gzgetdelim_read alloc junk delim f buf n).ret = -1 := by
  unfold gzgetdelim_read at h ⊢
  split
  · rfl
  · rename_i bytes pos buf1 n1 f1 heq
    rw [heq] at h
    by_cases hc : gzerror_dropin f1 = true ∨ (gzeof f1 = true ∧ bytes = 0)
    · simp [hc]
    · exfalso
      simp only [hc, if_false] at h
      exact hc (Or.inl h)

/-! ### C3 -/

/-- C3, counterexample.  An error-free stream holding the delimiter first at index
`SSIZE_MAX - 1`: `gzgetdelim` does not return `SSIZE_MAX` (index plus one) but -1, the
guard `bytes + 1 >= SSIZE_MAX` firing on the byte that would complete the record. -/
theorem gzgetdelim_long_record_refused :
    (List.replicate (SSIZE_MAX - 1) 'a' ++ ['\n']).indexOf '\n' = SSIZE_MAX - 1
    ∧ (gzgetdelim (fun _ => true) 'x' none 0 '\n'
        ⟨List.replicate (SSIZE_MAX - 1) 'a' ++ ['\n'], false, false, false⟩).ret = -1 := by
  have hno : '\n' ∉ List.replicate (SSIZE_MAX - 1) 'a' := by
    intro h
    exact absurd (List.eq_of_mem_replicate h) (by decide)
  refine ⟨?_, ?_⟩
  · rw [List.indexOf_append_of_not_mem hno]
    simp
  · obtain ⟨buf0, n0, e0, hl, hn⟩ := gzgetdelim_eq_read (fun _ => true) 'x' none 0 '\n'
      ⟨List.replicate (SSIZE_MAX - 1) 'a' ++ ['\n'], false, false, false⟩ (fun _ => rfl)
      (by intro b h; cases h)
    obtain ⟨b, n1, e⟩ := gzgetdelim_read_overflow (fun _ => true) 'x' '\n' (fun _ => rfl)
      ⟨List.replicate (SSIZE_MAX - 1) 'a' ++ ['\n'], false, false, false⟩
      (List.replicate (SSIZE_MAX - 1) 'a') '\n' [] buf0 n0 rfl rfl hno
      (by rw [List.length_replicate]; decide) hl hn
    rw [e0, e]

/-- The record up to the first delimiter, read by `gzgetdelim`. -/
theorem gzgetdelim_record (alloc : Nat → Bool) (junk : Char)
    (lineptr : Option (List Char)) (n : Nat) (delim : Char) (f : GzFile) (pre rest : List Char)
    (halloc : ∀ m, alloc m = true) (hbuf : ∀ b, lineptr = some b → b.length = n)
    (he : f.err = false) (hd : f.data = pre ++ delim :: rest) (hfirst : delim ∉ pre)
    (hsz : pre.length + 1 < SSIZE_MAX) :
    ∃ b n1, gzgetdelim alloc junk lineptr n delim f
          = ⟨(pre.length + 1 : Nat), some b, n1, { f with data := rest }⟩
        ∧ b.length = n1 ∧ pre.length + 2 ≤ n1 ∧ b.take (pre.length + 2) = pre ++ [delim, NUL] := by
  obtain ⟨buf0, n0, e0, hl, hn⟩ := gzgetdelim_eq_read alloc junk lineptr n delim f halloc hbuf
  obtain ⟨b, n1, e, h1, h2, h3⟩ := gzgetdelim_read_found alloc junk delim halloc f pre rest
    buf0 n0 he hd hfirst hsz hl hn
  exact ⟨b, n1, by rw [e0, e], h1, h2, h3⟩

/-- C3, amended.  For every stream whose error indicator is clear and whose unread content
is `pre ++ delim :: rest` with no `delim` in `pre` (first occurrence at index
`i = pre.length`), provided the record is shorter than `SSIZE_MAX` (`i + 1 < SSIZE_MAX`),
allocation succeeds and `*n` is the size of the block passed in: `gzgetdelim` returns
`i + 1`, the block starts with the `i + 1` bytes read, delimiter last, followed by a NUL
(all inside the block), and the stream is advanced past exactly those bytes; and `gzgetline`
is `gzgetdelim` with delimiter `'\n'`. -/
theorem gzgetdelim_returns_record (alloc : Nat → Bool) (junk : Char)
    (lineptr : Option (List Char)) (n : Nat) (delim : Char) (f : GzFile) (pre rest : List Char)
    (halloc : ∀ m, alloc m = true) (hbuf : ∀ b, lineptr = some b → b.length = n)
    (he : f.err = false) (hd : f.data = pre ++ delim :: rest) (hfirst : delim ∉ pre)
    (hsz : pre.length + 1 < SSIZE_MAX) :
    (∃ b n1, gzgetdelim alloc junk lineptr n delim f
          = ⟨(pre.length + 1 : Nat), some b, n1, { f with data := rest }⟩
        ∧ b.length = n1 ∧ pre.length + 2 ≤ n1 ∧ b.take (pre.length + 2) = pre ++ [delim, NUL])
    ∧ (∀ lp m g, gzgetline alloc junk lp m g = gzgetdelim alloc junk lp m '\n' g) := by
  exact ⟨gzgetdelim_record alloc junk lineptr n delim f pre rest halloc hbuf he hd hfirst hsz,
    fun _ _ _ => rfl⟩

/-- C3, amended: an instance.  Reading `"ab\ncd"` up to the newline with no buffer. -/
theorem gzgetdelim_returns_record_witness :
    (∃ b n1, gzgetdelim (fun _ => true) 'x' none 0 '\n' ⟨"ab\ncd".toList, false, false, false⟩
          = ⟨(("ab".toList.length + 1 : Nat) : Int), some b, n1,
              { (⟨"ab\ncd".toList, false, false, false⟩ : GzFile) with data := "cd".toList }⟩
        ∧ b.length = n1 ∧ "ab".toList.length + 2 ≤ n1
        ∧ b.take ("ab".toList.length + 2) = "ab".toList ++ ['\n', NUL])
    ∧ (∀ lp m g, gzgetline (fun _ => true) 'x' lp m g
          = gzgetdelim (fun _ => true) 'x' lp m '\n' g) :=
  gzgetdelim_returns_record (fun _ => true) 'x' none 0 '\n'
    ⟨"ab\ncd".toList, false, false, false⟩ "ab".toList "cd".toList (fun _ => rfl)
    (by intro b h; cases h) rfl rfl (by decide) (by decide)

/-! ### C4 -/

/-- C4, counterexample.  A stream of `SSIZE_MAX + 1` bytes, none the delimiter, that
reports no error, with allocation succeeding: `gzgetdelim` returns -1 although bytes were
read and the end of the stream was not reached (one byte is still unread, neither
indicator is set). -/
theorem gzgetdelim_fails_with_bytes_read :
    ∃ b n1, gzgetdelim (fun _ => true) 'x' none 0 '\n'
        ⟨List.replicate (SSIZE_MAX - 1) 'a' ++ ['a', 'b'], false, false, false⟩
      = ⟨-1, some b, n1, ⟨['b'], false, false, false⟩⟩ := by
  have hno : '\n' ∉ List.replicate (SSIZE_MAX - 1) 'a' := by
    intro h
    exact absurd (List.eq_of_mem_replicate h) (by decide)
  obtain ⟨buf0, n0, e0, hl, hn⟩ := gzgetdelim_eq_read (fun _ => true) 'x' none 0 '\n'
    ⟨List.replicate (SSIZE_MAX - 1) 'a' ++ ['a', 'b'], false, false, false⟩ (fun _ => rfl)
    (by intro b h; cases h)
  obtain ⟨b, n1, e⟩ := gzgetdelim_read_overflow (fun _ => true) 'x' '\n' (fun _ => rfl)
    ⟨List.replicate (SSIZE_MAX - 1) 'a' ++ ['a', 'b'], false, false, false⟩
    (List.replicate (SSIZE_MAX - 1) 'a') 'a' ['b'] buf0 n0 rfl rfl hno
    (by rw [List.length_replicate]; decide) hl hn
  exact ⟨b, n1, by rw [e0, e]⟩

/-- C4, amended.  With allocation succeeding and `*n` the size of the block passed in:
(1) on a stream that reports no error (indicator clear, nothing failing beyond the unread
content) and holds fewer than `SSIZE_MAX` unread bytes, `gzgetdelim` returns -1 exactly
when there is nothing left to read, so that zero bytes are read before end-of-stream;
(2) on such a stream with `k >= 1` unread bytes, none of them the delimiter, it returns
`k`, the block holding those `k` bytes followed by a NUL;
(3) whenever the stream reports an error on return, the result is -1, whatever was read. -/
theorem gzgetdelim_failure_cases (alloc : Nat → Bool) (junk : Char)
    (lineptr : Option (List Char)) (n : Nat) (delim : Char) (f : GzFile)
    (halloc : ∀ m, alloc m = true) (hbuf : ∀ b, lineptr = some b → b.length = n) :
    (f.err = false → f.failing = false → f.data.length < SSIZE_MAX →
      ((gzgetdelim alloc junk lineptr n delim f).ret = -1 ↔ f.data = []))
    ∧ (f.err = false → f.failing = false → f.data.length < SSIZE_MAX →
        1 ≤ f.data.length → delim ∉ f.data →
        ∃ b n1, gzgetdelim alloc junk lineptr n delim f
            = ⟨(f.data.length : Nat), some b, n1, { f with data := [], eof := true }⟩
          ∧ b.length = n1 ∧ f.data.length + 1 < n1
          ∧ b.take (f.data.length + 1) = f.data ++ [NUL])
    ∧ ((gzgetdelim alloc junk lineptr n delim f).stream.err = true →
        (gzgetdelim alloc junk lineptr n delim f).ret = -1) := by
  obtain ⟨buf0, n0, e0, hl, hn⟩ := gzgetdelim_eq_read alloc junk lineptr n delim f halloc hbuf
  refine ⟨?_, ?_, ?_⟩
  · intro he hf hsz
    by_cases hmem : delim ∈ f.data
    · obtain ⟨pre, rest, hd, hfirst⟩ := exists_first_occurrence delim f.data hmem
      obtain ⟨b, n1, e, _, _, _⟩ := gzgetdelim_read_found alloc junk delim halloc f pre rest
        buf0 n0 he hd hfirst (by rw [hd] at hsz; simp at hsz; omega) hl hn
      rw [e0, e]
      constructor
      · intro h
        simp only at h
        omega
      · intro h
        rw [h] at hd
        simp at hd
    · obtain ⟨b, n1, e, _, _, _⟩ := gzgetdelim_read_eof alloc junk delim halloc f buf0 n0 he hf
        hmem hsz hl hn
      rw [e0, e]
      by_cases hnil : f.data = []
      · simp [hnil]
      · simp only [hnil, if_false, iff_false]
        intro h
        omega
  · intro he hf hsz hk hmem
    obtain ⟨b, n1, e, h1, h2, h3⟩ := gzgetdelim_read_eof alloc junk delim halloc f buf0 n0 he hf
      hmem hsz hl hn
    have hnil : f.data ≠ [] := by
      intro h
      rw [h] at hk
      simp at hk
    refine ⟨b.set f.data.length NUL, n1, ?_, by simp [h1], h2, ?_⟩
    · rw [e0, e, if_neg hnil]
    · rw [take_succ_set NUL _ _ (by omega), h3]
  · rw [e0]
    exact gzgetdelim_read_err alloc junk delim f buf0 n0

/-- C4, amended: an instance.  The three unread bytes `"abc"` hold no newline: read to the
end of an error-free stream they are returned, and -1 is the result when the underlying
source fails after them. -/
theorem gzgetdelim_failure_cases_witness :
    (gzgetdelim (fun _ => true) 'x' none 0 '\n' ⟨"abc".toList, false, false, false⟩).ret = 3
    ∧ (gzgetdelim (fun _ => true) 'x' none 0 '\n' ⟨"abc".toList, true, false, false⟩).ret = -1 := by
  have h1 := gzgetdelim_failure_cases (fun _ => true) 'x' none 0 '\n'
    ⟨"abc".toList, false, false, false⟩ (fun _ => rfl) (by intro b h; cases h)
  have h2 := gzgetdelim_failure_cases (fun _ => true) 'x' none 0 '\n'
    ⟨"abc".toList, true, false, false⟩ (fun _ => rfl) (by intro b h; cases h)
  refine ⟨?_, h2.2.2 (by decide)⟩
  obtain ⟨b, n1, e, _⟩ := h1.2.1 rfl rfl (by decide) (by decide) (by decide)
  rw [e]
  rfl

/-! ### C10 -/

/-- A poll of a session whose source is closed changes nothing and returns -1. -/
theorem playback_poll_none (alloc : Nat → Bool) (junk : Char) (driver : SurvivePlaybackData)
    (now : FLT) (h : driver.playback_file = none) :
    playback_poll alloc junk driver now = (-1, driver, []) := by
  cases driver
  simp only at h
  subst h
  rfl

/-- Polls of a session whose source is closed: the session stays as it is and nothing is
let out. -/
theorem playback_run_none (alloc : Nat → Bool) (junk : Char) (driver : SurvivePlaybackData)
    (h : driver.playback_file = none) :
    ∀ nows : List FLT,
      playback_run alloc junk driver nows = (driver, List.replicate nows.length []) := by
  intro nows
  induction nows with
  | nil => rfl
  | cons now rest ih =>
    rw [playback_run, playback_poll_none alloc junk driver now h]
    simp only [ih]
    rfl

/-- C10.  When `playback_poll` finds the end-of-file or the error indicator of the source
set (the test at its head), it closes the source: it returns -1, lets nothing out and
leaves the session as it was but for `playback_file`, now null.  Every later poll, at any
clock reading, returns -1, lets nothing out and leaves every field of the session
unchanged, and so does any sequence of later polls. -/
theorem playback_poll_closes (alloc : Nat → Bool) (junk : Char) (driver : SurvivePlaybackData)
    (f : GzFile) (now : FLT) (hf : driver.playback_file = some f)
    (hend : gzeof f = true ∨ gzerror_dropin f = true) :
    playback_poll alloc junk driver now = (-1, { driver with playback_file := none }, [])
    ∧ (∀ later : FLT, playback_poll alloc junk { driver with playback_file := none } later
        = (-1, { driver with playback_file := none }, []))
    ∧ (∀ nows : List FLT, playback_run alloc junk { driver with playback_file := none } nows
        = ({ driver with playback_file := none }, List.replicate nows.length [])) := by
  refine ⟨?_, fun later => playback_poll_none alloc junk _ later rfl,
    fun nows => playback_run_none alloc junk _ rfl nows⟩
  have hc : (!gzeof f && !gzerror_dropin f) = false := by
    rcases hend with h | h <;> simp [h]
  simp only [playback_poll, hf, hc]
  rfl

/-- C10: an instance.  A session whose source has its end-of-file indicator set. -/
theorem playback_poll_closes_witness :
    playback_poll (fun _ => true) 'x'
        { playback_start [] [] (FLT.num 1 0) false with
          playback_file := some ⟨[], false, true, false⟩, lineno := 3 } (FLT.num 5 0)
      = (-1, { playback_start [] [] (FLT.num 1 0) false with playback_file := none, lineno := 3 }, []) :=
  (playback_poll_closes (fun _ => true) 'x'
    { playback_start [] [] (FLT.num 1 0) false with
      playback_file := some ⟨[], false, true, false⟩, lineno := 3 }
    ⟨[], false, true, false⟩ (FLT.num 5 0) rfl (Or.inl rfl)).1

/-! ### C5 -/

/-- For values that are no NaN, `a <= b` is the negation of `a > b`. -/
theorem FLT.le_eq_not_gt (a b : FLT) (ha : a.isNaN = false) (hb : b.isNaN = false) :
    a.le b = !(a.gt b) := by
  cases a with
  | num m s =>
    cases b with
    | num k t =>
      simp only [FLT.le, FLT.gt]
      by_cases h : k * 10 ^ s < m * 10 ^ t
      · simp [h, not_le.mpr h]
      · simp [h, not_lt.mp h]
    | inf k => simp [FLT.le, FLT.gt]
    | nan k => simp [FLT.isNaN] at hb
  | inf m =>
    cases b with
    | num k t => simp [FLT.le, FLT.gt]
    | inf k => cases m <;> cases k <;> rfl
    | nan k => simp [FLT.isNaN] at hb
  | nan m => simp [FLT.isNaN] at ha

/-- A NaN is neither greater than a value nor at most it. -/
theorem FLT.nan_gt_le (a b : FLT) (ha : a.isNaN = true) : a.gt b = false ∧ a.le b = false := by
  cases a with
  | num m s => simp [FLT.isNaN] at ha
  | inf m => simp [FLT.isNaN] at ha
  | nan m => cases b <;> exact ⟨rfl, rfl⟩

/-- A product with a factor that is zero is not greater than a clock reading that is at
least zero: it is zero, or a NaN. -/
theorem FLT.mul_zero_not_gt (t r now : FLT) (h0 : t.isZero = true ∨ r.isZero = true)
    (hnow : (FLT.num 0 0).le now = true) : (t.mul r).gt now = false := by
  have key : ∀ (m : Int) (s : Nat), m = 0 → (FLT.num m s).gt now = false := by
    intro m s hm
    cases now with
    | num k u =>
      simp only [FLT.le, decide_eq_true_eq] at hnow
      simp only [FLT.gt, hm, zero_mul, decide_eq_false_iff_not, not_lt]
      have : (0 : Int) ≤ k * 10 ^ 0 := by simpa using hnow
      have h1 : (0 : Int) ≤ k := by simpa using this
      exact mul_nonneg h1 (by positivity)
    | inf k => simpa [FLT.le, FLT.gt] using hnow
    | nan k => rfl
  rcases h0 with h0 | h0
  · cases t with
    | num a s =>
      simp only [FLT.isZero, decide_eq_true_eq] at h0
      cases r with
      | num b u => exact key _ _ (by rw [h0, zero_mul])
      | inf k => simp only [FLT.mul, h0, if_true]; cases now <;> rfl
      | nan k => simp only [FLT.mul]; cases now <;> rfl
    | inf k => simp [FLT.isZero] at h0
    | nan k => simp [FLT.isZero] at h0
  · cases r with
    | num b u =>
      simp only [FLT.isZero, decide_eq_true_eq] at h0
      cases t with
      | num a s => exact key _ _ (by rw [h0, mul_zero])
      | inf k => simp only [FLT.mul, h0, if_true]; cases now <;> rfl
      | nan k => simp only [FLT.mul]; cases now <;> rfl
    | inf k => simp [FLT.isZero] at h0
    | nan k => simp [FLT.isZero] at h0

/-- The reading loop never hands back more unread content than it was given. -/
theorem gzgetdelim_loop_stream_le (alloc : Nat → Bool) (junk delim : Char) :
    ∀ (fuel : Nat) (f : GzFile) (bytes pos : Nat) (buf : List Char) (n : Nat),
      (gzgetdelim_loop alloc junk delim fuel f bytes pos buf n).stream.data.length
        ≤ f.data.length := by
  intro fuel
  induction fuel with
  | zero => intro f bytes pos buf n; simp [gzgetdelim_loop, LoopExit.stream]
  | succ k ih =>
    intro f bytes pos buf n
    rw [gzgetdelim_loop]
    by_cases he : f.err = true
    · simp [gzgetc, he, LoopExit.stream]
    · cases hd : f.data with
      | nil =>
        by_cases hf : f.failing = true <;> simp [gzgetc, he, hd, hf, LoopExit.stream]
      | cons c cs =>
        have hg : gzgetc f = (some c, { f with data := cs }) := by simp [gzgetc, he, hd]
        rw [hg]
        simp only
        have h1 := ih { f with data := cs } (bytes + 1) (bytes + 1 - 1 + 1)
          ((realloc junk (some buf) (n + GETDELIM_GROWBY)).set (bytes + 1 - 1) c)
          (n + GETDELIM_GROWBY)
        have h2 := ih { f with data := cs } (bytes + 1) (pos + 1) (buf.set pos c) n
        simp only [List.length_cons]
        split_ifs
        all_goals first
          | exact Nat.le_succ_of_le h1
          | exact Nat.le_succ_of_le h2
          | simp [LoopExit.stream]

/-- A line read from a stream that is neither at its end nor in error changes the stream:
it takes bytes from it or sets one of its indicators. -/
theorem gzgetline_stream_ne (alloc : Nat → Bool) (junk : Char) (f : GzFile)
    (halloc : alloc GETDELIM_GROWBY = true) (heof : f.eof = false) (herr : f.err = false) :
    (gzgetline alloc junk none 0 f).stream ≠ f := by
  have hst : (gzgetline alloc junk none 0 f).stream
      = (gzgetdelim_loop alloc junk '\n' (f.data.length + 1) f 0 0
          (realloc junk none GETDELIM_GROWBY) GETDELIM_GROWBY).stream := by
    simp only [gzgetline, gzgetdelim, Option.isNone_none, true_or, if_true, halloc,
      gzgetdelim_read]
    split <;> rename_i heq <;> rw [heq] <;> simp only [LoopExit.stream]
    split_ifs <;> rfl
  rw [hst, gzgetdelim_loop]
  cases hd : f.data with
  | nil =>
    by_cases hf : f.failing = true
    · simp only [gzgetc, herr, hd, hf, LoopExit.stream]
      intro h
      have := congrArg GzFile.err h
      simp [herr] at this
    · simp only [gzgetc, herr, hd, hf, LoopExit.stream]
      intro h
      have := congrArg GzFile.eof h
      simp [heof] at this
  | cons c cs =>
    have hg : gzgetc f = (some c, { f with data := cs }) := by simp [gzgetc, herr, hd]
    rw [hg]
    simp only
    have h1 := gzgetdelim_loop_stream_le alloc junk '\n' (cs.length + 1) { f with data := cs }
      (0 + 1) (0 + 1 - 1 + 1)
      ((realloc junk (some (realloc junk none GETDELIM_GROWBY))
        (GETDELIM_GROWBY + GETDELIM_GROWBY)).set (0 + 1 - 1) c)
      (GETDELIM_GROWBY + GETDELIM_GROWBY)
    have h2 := gzgetdelim_loop_stream_le alloc junk '\n' (cs.length + 1) { f with data := cs }
      (0 + 1) (0 + 1) ((realloc junk none GETDELIM_GROWBY).set 0 c) GETDELIM_GROWBY
    intro h
    have hlen := congrArg (fun g => g.data.length) h
    simp only [hd, List.length_cons] at hlen
    revert hlen
    split_ifs
    all_goals first
      | (intro hlen; rw [hlen] at h1; exact absurd h1 (by simp))
      | (intro hlen; rw [hlen] at h2; exact absurd h2 (by simp))
      | simp [LoopExit.stream]

/-- With a time stamp pending, `playback_poll` goes straight to the test of the time stamp:
it reads no time-stamp token. -/
theorem playback_poll_pending (alloc : Nat → Bool) (junk : Char) (driver : SurvivePlaybackData)
    (f : GzFile) (now : FLT) (hf : driver.playback_file = some f) (heof : f.eof = false)
    (herr : f.err = false) (hp : driver.next_time_us.isZero = false) :
    playback_poll alloc junk driver now
      = playback_poll_line alloc junk { driver with lineno := driver.lineno + 1 } f now := by
  simp [playback_poll, hf, gzeof, gzerror_dropin, heof, herr, hp]

theorem playback_poll_line_not_due (alloc : Nat → Bool) (junk : Char)
    (driver : SurvivePlaybackData) (f : GzFile) (now : FLT)
    (h : (driver.next_time_us.mul driver.playback_factor).gt now = true) :
    playback_poll_line alloc junk driver f now = (0, driver, []) := by
  simp [playback_poll_line, h]

/-! ### What the handling of a line leaves alone -/

theorem find_or_warn_core (d : SurvivePlaybackData) (dev : List Char) :
    (find_or_warn d dev).2.1.core = d.core := by
  unfold find_or_warn
  split <;> rfl

theorem parse_and_run_sweep_core (line : List Char) (d : SurvivePlaybackData) :
    (parse_and_run_sweep line d).2.1.core = d.core := by
  unfold parse_and_run_sweep
  simp only
  split_ifs
  · rfl
  · rfl
  · have h := find_or_warn_core d (str_var (sscanf line SWEEP_SCANF).2 0)
    split <;> rename_i heq <;> rw [heq] at h <;> exact h

theorem parse_and_run_sync_core (line : List Char) (d : SurvivePlaybackData) :
    (parse_and_run_sync line d).2.1.core = d.core := by
  unfold parse_and_run_sync
  simp only
  split_ifs
  · rfl
  · rfl
  · have h := find_or_warn_core d (str_var (sscanf line SYNC_SCANF).2 0)
    split <;> rename_i heq <;> rw [heq] at h <;> exact h

theorem parse_and_run_sweep_angle_core (line : List Char) (d : SurvivePlaybackData) :
    (parse_and_run_sweep_angle line d).2.1.core = d.core := by
  unfold parse_and_run_sweep_angle
  simp only
  split_ifs
  · rfl
  · rfl
  · have h := find_or_warn_core d (str_var (sscanf line SWEEP_ANGLE_SCANF).2 0)
    split <;> rename_i heq <;> rw [heq] at h <;> exact h

theorem parse_and_run_pose_core (line : List Char) (d : SurvivePlaybackData) :
    (parse_and_run_pose line d).2.1.core = d.core := by
  unfold parse_and_run_pose
  simp only
  split_ifs <;> rfl

theorem parse_and_run_imu_core (line : List Char) (d : SurvivePlaybackData) (raw : Bool) :
    (parse_and_run_imu line d raw).2.1.core = d.core := by
  unfold parse_and_run_imu
  simp only
  split_ifs
  all_goals first
    | rfl
    | (split <;> rfl)

theorem parse_and_run_externalpose_core (line : List Char) (d : SurvivePlaybackData) :
    (parse_and_run_externalpose line d).2.1.core = d.core := by
  unfold parse_and_run_externalpose
  simp only
  split_ifs <;> rfl

theorem parse_and_run_rawlight_core (line : List Char) (d : SurvivePlaybackData) :
    (parse_and_run_rawlight line d).2.1.core = d.core := by
  unfold parse_and_run_rawlight
  simp only
  by_cases hlong : 9 < (str_var (sscanf line "%s %s %hhu %u %hu\n").2 0).length
      ∨ 9 < (str_var (sscanf line "%s %s %hhu %u %hu\n").2 1).length
  · rw [if_pos hlong]; rfl
  · rw [if_neg hlong]
    split <;> rfl

theorem parse_and_run_lightcode_core (line : List Char) (d : SurvivePlaybackData) :
    (parse_and_run_lightcode line d).2.1.core = d.core := by
  unfold parse_and_run_lightcode
  simp only
  split_ifs
  all_goals first
    | rfl
    | (split <;> rfl)

theorem playback_dispatch_core (line op : List Char) (d : SurvivePlaybackData) :
    (playback_dispatch line op d).1.core = d.core := by
  simp only [playback_dispatch, apply_ite Prod.fst, apply_ite SurvivePlaybackData.core,
    parse_and_run_sweep_core, parse_and_run_sweep_angle_core, parse_and_run_sync_core,
    parse_and_run_externalpose_core, parse_and_run_rawlight_core, parse_and_run_lightcode_core,
    parse_and_run_imu_core, parse_and_run_pose_core, ite_self]

theorem playback_poll_fresh (alloc : Nat → Bool) (junk : Char) (driver : SurvivePlaybackData)
    (f : GzFile) (now : FLT) (hf : driver.playback_file = some f) (heof : f.eof = false)
    (herr : f.err = false) (hz : driver.next_time_us.isZero = true)
    (hr : 0 < (gzgetdelim alloc junk none 0 ' ' f).ret)
    (hs : (sscanf (cstr ((gzgetdelim alloc junk none 0 ' ' f).lineptr.getD [])) "%lf").1 = 1) :
    playback_poll alloc junk driver now
      = playback_poll_line alloc junk
          { driver with
            lineno := driver.lineno + 1
            playback_file := some (gzgetdelim alloc junk none 0 ' ' f).stream
            next_time_us := flt_var
              (sscanf (cstr ((gzgetdelim alloc junk none 0 ' ' f).lineptr.getD [])) "%lf").2 0 }
          (gzgetdelim alloc junk none 0 ' ' f).stream now := by
  simp [playback_poll, hf, gzeof, gzerror_dropin, heof, herr, hz, not_le.mpr hr, hs]

/-- The line `playback_poll_line` hands to the dispatch when it reads one from `f`. -/
theorem playback_poll_line_due (alloc : Nat → Bool) (junk : Char)
    (driver : SurvivePlaybackData) (f : GzFile) (now : FLT)
    (h : (driver.next_time_us.mul driver.playback_factor).gt now = false) :
    (playback_poll_line alloc junk driver f now).1 = 0
    ∧ (playback_poll_line alloc junk driver f now).2.1.playback_file
        = some (gzgetline alloc junk none 0 f).stream
    ∧ (playback_poll_line alloc junk driver f now).2.1.next_time_us = FLT.num 0 0
    ∧ (0 < (gzgetline alloc junk none 0 f).ret →
        2 ≤ (sscanf (cstr (strip_eol (gzgetline alloc junk none 0 f).ret.toNat
              ((gzgetline alloc junk none 0 f).lineptr.getD []))) "%31s %31s").1 →
        (playback_poll_line alloc junk driver f now).2
          = playback_dispatch
              (cstr (strip_eol (gzgetline alloc junk none 0 f).ret.toNat
                ((gzgetline alloc junk none 0 f).lineptr.getD [])))
              (str_var (sscanf (cstr (strip_eol (gzgetline alloc junk none 0 f).ret.toNat
                ((gzgetline alloc junk none 0 f).lineptr.getD []))) "%31s %31s").2 1)
              { driver with
                next_time_us := FLT.num 0 0
                playback_file := some (gzgetline alloc junk none 0 f).stream }) := by
  have hc := playback_dispatch_core
    (cstr (strip_eol (gzgetline alloc junk none 0 f).ret.toNat
      ((gzgetline alloc junk none 0 f).lineptr.getD [])))
    (str_var (sscanf (cstr (strip_eol (gzgetline alloc junk none 0 f).ret.toNat
      ((gzgetline alloc junk none 0 f).lineptr.getD []))) "%31s %31s").2 1)
    { driver with
      next_time_us := FLT.num 0 0
      playback_file := some (gzgetline alloc junk none 0 f).stream }
  simp only [SurvivePlaybackData.core, Prod.mk.injEq] at hc
  simp only [playback_poll_line, h, Bool.false_eq_true, if_false]
  refine ⟨?_, ?_, ?_, ?_⟩
  · split_ifs <;> rfl
  · split_ifs
    · rfl
    · rfl
    · exact hc.2.1
  · split_ifs
    · rfl
    · rfl
    · exact hc.2.2.2.1
  · intro h1 h2
    rw [if_neg (not_le.mpr h1), if_neg (not_lt.mpr h2)]

/-- C5, counterexample.  The time stamp token `nan` parses as a NaN, which is not zero:
the time stamp is pending.  With the factor 1 and the clock at 1 the product `t * r` is a
NaN, for which `t * r <= now` is false, and so is `t * r > now`: the poll reads the line
and dispatches it, the sync of the registered device `T20` is delivered. -/
theorem playback_poll_nan_time_stamp_dispatched :
    sscanf "nan".toList "%lf" = (1, [.flt (.nan false)])
    ∧ ((FLT.nan false).mul (FLT.num 1 0)).le (FLT.num 1 0) = false
    ∧ ((FLT.nan false).mul (FLT.num 1 0)).gt (FLT.num 1 0) = false
    ∧ (FLT.nan false).isZero = false
    ∧ (playback_poll (fun _ => true) 'x'
        (playback_start ["T20".toList] "nan T20 Y 3 70000 1 0\n".toList (FLT.num 1 0) false)
        (FLT.num 1 0)).2.2
      = [.call (.syncproc "T20".toList 3 70000 true false)] := by
  decide

/-- C5, amended.  The timing gate of `playback_poll`.  Let the session have an open source
`f`, neither at its end nor in error, and let `d1`, `f1` be the session and the stream when
the poll reaches the test of the time stamp: either a time stamp `t` was pending (non-zero)
and nothing has been read, or none was pending and the poll has read a token that parses as
`t`.  With `r` the playback factor and `now` the playback clock:
(1) when `t * r > now` the poll returns 0 with the session `d1`: no byte is read beyond the
time stamp, nothing is let out, and `t` is still held;
(2) when `t * r > now` does not hold the poll clears the time stamp, reads the rest of the
line from `f1` and hands it to the dispatch on its opcode;
(3) when neither `t * r` nor `now` is a NaN, `t * r <= now` is the negation of
`t * r > now`; when `t * r` is a NaN both are false, and the record is dispatched by (2);
(4) the poll takes input from `f1` exactly when `t * r > now` does not hold (`f1` not being
at its end);
(5) when the record is not due and the clock reads no less than 0, `t` is not 0, so the next
poll reads no time-stamp token but goes straight to the test;
(6) with `r = 0` and `now >= 0` the record is due whatever `t` is, a number, an infinity or
a NaN. -/
theorem playback_poll_timing_gate (alloc : Nat → Bool) (junk : Char)
    (driver d1 : SurvivePlaybackData) (f f1 : GzFile) (now : FLT)
    (halloc : alloc GETDELIM_GROWBY = true)
    (hf : driver.playback_file = some f) (heof : f.eof = false) (herr : f.err = false)
    (hts : (driver.next_time_us.isZero = false
            ∧ d1 = { driver with lineno := driver.lineno + 1 } ∧ f1 = f)
         ∨ (driver.next_time_us.isZero = true
            ∧ 0 < (gzgetdelim alloc junk none 0 ' ' f).ret
            ∧ (sscanf (cstr ((gzgetdelim alloc junk none 0 ' ' f).lineptr.getD [])) "%lf").1 = 1
            ∧ d1 = { driver with
                lineno := driver.lineno + 1
                playback_file := some (gzgetdelim alloc junk none 0 ' ' f).stream
                next_time_us := flt_var
                  (sscanf (cstr ((gzgetdelim alloc junk none 0 ' ' f).lineptr.getD [])) "%lf").2 0 }
            ∧ f1 = (gzgetdelim alloc junk none 0 ' ' f).stream)) :
    ((d1.next_time_us.mul d1.playback_factor).gt now = true →
        playback_poll alloc junk driver now = (0, d1, []))
    ∧ ((d1.next_time_us.mul d1.playback_factor).gt now = false →
        (playback_poll alloc junk driver now).1 = 0
        ∧ (playback_poll alloc junk driver now).2.1.playback_file
            = some (gzgetline alloc junk none 0 f1).stream
        ∧ (playback_poll alloc junk driver now).2.1.next_time_us = FLT.num 0 0
        ∧ (0 < (gzgetline alloc junk none 0 f1).ret →
            2 ≤ (sscanf (cstr (strip_eol (gzgetline alloc junk none 0 f1).ret.toNat
                  ((gzgetline alloc junk none 0 f1).lineptr.getD []))) "%31s %31s").1 →
            (playback_poll alloc junk driver now).2
              = playback_dispatch
                  (cstr (strip_eol (gzgetline alloc junk none 0 f1).ret.toNat
                    ((gzgetline alloc junk none 0 f1).lineptr.getD [])))
                  (str_var (sscanf (cstr (strip_eol (gzgetline alloc junk none 0 f1).ret.toNat
                    ((gzgetline alloc junk none 0 f1).lineptr.getD []))) "%31s %31s").2 1)
                  { d1 with
                    next_time_us := FLT.num 0 0
                    playback_file := some (gzgetline alloc junk none 0 f1).stream }))
    ∧ (((d1.next_time_us.mul d1.playback_factor).isNaN = false → now.isNaN = false →
          (d1.next_time_us.mul d1.playback_factor).le now
            = !((d1.next_time_us.mul d1.playback_factor).gt now))
        ∧ ((d1.next_time_us.mul d1.playback_factor).isNaN = true →
          (d1.next_time_us.mul d1.playback_factor).gt now = false
          ∧ (d1.next_time_us.mul d1.playback_factor).le now = false))
    ∧ (f1.eof = false → f1.err = false →
        ((playback_poll alloc junk driver now).2.1.playback_file ≠ some f1
          ↔ (d1.next_time_us.mul d1.playback_factor).gt now = false))
    ∧ ((d1.next_time_us.mul d1.playback_factor).gt now = true →
        (FLT.num 0 0).le now = true →
        d1.next_time_us.isZero = false
        ∧ (f1.eof = false → f1.err = false → ∀ later : FLT,
            playback_poll alloc junk d1 later
              = playback_poll_line alloc junk { d1 with lineno := d1.lineno + 1 } f1 later))
    ∧ (d1.playback_factor.isZero = true → (FLT.num 0 0).le now = true →
        (d1.next_time_us.mul d1.playback_factor).gt now = false) := by
  have hpoll : playback_poll alloc junk driver now = playback_poll_line alloc junk d1 f1 now := by
    rcases hts with ⟨hp, hd, hf1⟩ | ⟨hz, hr, hs, hd, hf1⟩
    · rw [hd, hf1]
      exact playback_poll_pending alloc junk driver f now hf heof herr hp
    · rw [hd, hf1]
      exact playback_poll_fresh alloc junk driver f now hf heof herr hz hr hs
  have hfile : d1.playback_file = some f1 := by
    rcases hts with ⟨_, hd, hf1⟩ | ⟨_, _, _, hd, hf1⟩
    · rw [hd, hf1]; exact hf
    · rw [hd, hf1]
  refine ⟨?_, ?_, ⟨fun h1 h2 => FLT.le_eq_not_gt _ now h1 h2,
    fun h => FLT.nan_gt_le _ now h⟩, ?_, ?_, ?_⟩
  · intro h
    rw [hpoll]
    exact playback_poll_line_not_due alloc junk d1 f1 now h
  · intro h
    rw [hpoll]
    exact playback_poll_line_due alloc junk d1 f1 now h
  · intro he1 he2
    rw [hpoll]
    by_cases hg : (d1.next_time_us.mul d1.playback_factor).gt now = true
    · rw [playback_poll_line_not_due alloc junk d1 f1 now hg, hg]
      simp [hfile]
    · have hg' : (d1.next_time_us.mul d1.playback_factor).gt now = false := by simpa using hg
      rw [(playback_poll_line_due alloc junk d1 f1 now hg').2.1, hg']
      simp only [iff_true, ne_eq, Option.some.injEq]
      exact gzgetline_stream_ne alloc junk f1 halloc he1 he2
  · intro hg hnow
    have hz : d1.next_time_us.isZero = false := by
      cases hzero : d1.next_time_us.isZero with
      | false => rfl
      | true =>
        rw [FLT.mul_zero_not_gt _ d1.playback_factor now (Or.inl hzero) hnow] at hg
        cases hg
    exact ⟨hz, fun he1 he2 later =>
      playback_poll_pending alloc junk d1 f1 later hfile he1 he2 hz⟩
  · intro hr hnow
    exact FLT.mul_zero_not_gt _ _ now (Or.inr hr) hnow

/-- C5, amended: an instance.  The record `T20 Y 3 70000 1 0` with the time stamp 0.5
pending, factor 1: at clock 0.2 the poll returns with the session untouched but for the line
count; and at clock 0.6 it takes the line from the source. -/
theorem playback_poll_timing_gate_witness :
    playback_poll (fun _ => true) 'x'
        { playback_start ["T20".toList] "T20 Y 3 70000 1 0\n".toList (FLT.num 1 0) false with
          next_time_us := FLT.num 5 1 } (FLT.num 2 1)
      = (0, { playback_start ["T20".toList] "T20 Y 3 70000 1 0\n".toList (FLT.num 1 0) false with
              next_time_us := FLT.num 5 1, lineno := 1 }, [])
    ∧ (playback_poll (fun _ => true) 'x'
        { playback_start ["T20".toList] "T20 Y 3 70000 1 0\n".toList (FLT.num 1 0) false with
          next_time_us := FLT.num 5 1 } (FLT.num 6 1)).2.1.playback_file
      ≠ some ⟨"T20 Y 3 70000 1 0\n".toList, false, false, false⟩ :=
  ⟨(playback_poll_timing_gate (fun _ => true) 'x'
      { playback_start ["T20".toList] "T20 Y 3 70000 1 0\n".toList (FLT.num 1 0) false with
        next_time_us := FLT.num 5 1 }
      { playback_start ["T20".toList] "T20 Y 3 70000 1 0\n".toList (FLT.num 1 0) false with
        next_time_us := FLT.num 5 1, lineno := 1 }
      ⟨"T20 Y 3 70000 1 0\n".toList, false, false, false⟩
      ⟨"T20 Y 3 70000 1 0\n".toList, false, false, false⟩ (FLT.num 2 1) rfl rfl rfl rfl
      (Or.inl ⟨by decide, rfl, rfl⟩)).1 (by decide),
   ((playback_poll_timing_gate (fun _ => true) 'x'
      { playback_start ["T20".toList] "T20 Y 3 70000 1 0\n".toList (FLT.num 1 0) false with
        next_time_us := FLT.num 5 1 }
      { playback_start ["T20".toList] "T20 Y 3 70000 1 0\n".toList (FLT.num 1 0) false with
        next_time_us := FLT.num 5 1, lineno := 1 }
      ⟨"T20 Y 3 70000 1 0\n".toList, false, false, false⟩
      ⟨"T20 Y 3 70000 1 0\n".toList, false, false, false⟩ (FLT.num 6 1) rfl rfl rfl rfl
      (Or.inl ⟨by decide, rfl, rfl⟩)).2.2.2.1 rfl rfl).mpr (by decide)⟩

/-! ### Reading one record of the log -/

theorem cstr_append_nul (s rest : List Char) (h : NUL ∉ s) : cstr (s ++ NUL :: rest) = s := by
  induction s with
  | nil => simp [cstr, List.takeWhile]
  | cons a t ih =>
    have ha : a ≠ NUL := fun e => h (by simp [e])
    have ht : NUL ∉ t := fun e => h (by simp [e])
    have hb : (a != NUL) = true := by simp [ha]
    have := ih ht
    simp only [cstr] at this ⊢
    rw [List.cons_append, List.takeWhile_cons, hb, if_pos rfl, this]

theorem getD_append_length (l : List Char) (c : Char) (tail : List Char) (d : Char) :
    (l ++ c :: tail).getD l.length d = c := by
  induction l with
  | nil => rfl
  | cons a t ih => simpa using ih

theorem eq_append_of_take (b s : List Char) (k : Nat) (h : b.take k = s) :
    b = s ++ b.drop k := by
  rw [← h, List.take_append_drop]

theorem strip_eol_stop (r : Nat) (line tail : List Char) (hr : r = line.length)
    (hlast : ∀ c, line.getLast? = some c → c ≠ '\n' ∧ c ≠ '\r') :
    strip_eol r (line ++ tail) = line ++ tail := by
  cases r with
  | zero => rfl
  | succ j =>
    have hne : line ≠ [] := by
      intro e
      rw [e] at hr
      simp at hr
    obtain ⟨ys, c, rfl⟩ : ∃ ys c, line = ys ++ [c] :=
      ⟨line.dropLast, line.getLast hne, (List.dropLast_append_getLast hne).symm⟩
    have hc := hlast c (by simp)
    have hj : j = ys.length := by simpa using hr
    have hget : (ys ++ [c] ++ tail).getD j NUL = c := by
      rw [hj, List.append_assoc]
      exact getD_append_length ys c tail NUL
    rw [strip_eol, hget]
    simp [hc.1, hc.2]

theorem strip_eol_line (line tail : List Char)
    (hlast : ∀ c, line.getLast? = some c → c ≠ '\n' ∧ c ≠ '\r') :
    strip_eol (line.length + 1) (line ++ '\n' :: tail) = line ++ NUL :: tail := by
  have hget : (line ++ '\n' :: tail).getD line.length NUL = '\n' :=
    getD_append_length line '\n' tail NUL
  rw [strip_eol, hget]
  simp only [true_or, if_true]
  have hset : (line ++ '\n' :: tail).set line.length NUL = line ++ NUL :: tail := by
    rw [List.set_append_right _ _ (le_refl _)]
    simp
  rw [hset]
  exact strip_eol_stop line.length line (NUL :: tail) rfl hlast

/-- One record of the log, `ts line\n`, read by a poll that holds no time stamp and finds
the record due: the poll hands `line`, cleared of its newline, to the dispatch on its
second token, or returns at once when the line has no two tokens. -/
theorem playback_poll_record (alloc : Nat → Bool) (junk : Char) (halloc : ∀ m, alloc m = true)
    (driver : SurvivePlaybackData) (f : GzFile) (now : FLT) (ts line rest : List Char) (t : FLT)
    (hf : driver.playback_file = some f) (heof : f.eof = false) (herr : f.err = false)
    (hz : driver.next_time_us.isZero = true)
    (hd : f.data = ts ++ ' ' :: (line ++ '\n' :: rest))
    (hts1 : ' ' ∉ ts) (hts2 : NUL ∉ ts) (hts3 : sscanf (ts ++ [' ']) "%lf" = (1, [.flt t]))
    (hl1 : '\n' ∉ line) (hl2 : NUL ∉ line)
    (hl3 : ∀ c, line.getLast? = some c → c ≠ '\n' ∧ c ≠ '\r')
    (hsz1 : ts.length + 1 < SSIZE_MAX) (hsz2 : line.length + 1 < SSIZE_MAX)
    (hdue : (t.mul driver.playback_factor).gt now = false) :
    playback_poll alloc junk driver now
      = if (sscanf line "%31s %31s").1 < 2 then
          (0, { driver with
                lineno := driver.lineno + 1
                next_time_us := FLT.num 0 0
                playback_file := some { f with data := rest } }, [])
        else
          (0, playback_dispatch line (str_var (sscanf line "%31s %31s").2 1)
            { driver with
              lineno := driver.lineno + 1
              next_time_us := FLT.num 0 0
              playback_file := some { f with data := rest } }) := by
  obtain ⟨b, n1, e1, _, _, hb⟩ := gzgetdelim_record alloc junk none 0 ' ' f ts
    (line ++ '\n' :: rest) halloc (by intro b h; cases h) herr hd hts1 hsz1
  have hb2 : b = (ts ++ [' ']) ++ NUL :: b.drop (ts.length + 2) := by
    have := eq_append_of_take b _ _ hb
    simpa using this
  have hc1 : cstr b = ts ++ [' '] := by
    rw [hb2]
    exact cstr_append_nul _ _ (by
      intro h
      rcases List.mem_append.mp h with h | h
      · exact hts2 h
      · simp [NUL] at h)
  have hfresh := playback_poll_fresh alloc junk driver f now hf heof herr hz
    (by rw [e1]; simp only; omega) (by rw [e1]; simp only [Option.getD_some, hc1, hts3])
  rw [hfresh, e1]
  simp only [Option.getD_some, hc1, hts3, flt_var, arg_flt, List.get?_cons_zero]
  obtain ⟨b2, n2, e2, _, _, hb3⟩ := gzgetdelim_record alloc junk none 0 '\n'
    { f with data := line ++ '\n' :: rest } line rest halloc (by intro b h; cases h) herr rfl
    hl1 hsz2
  have hb4 : b2 = line ++ '\n' :: NUL :: b2.drop (line.length + 2) := by
    have := eq_append_of_take b2 _ _ hb3
    simpa using this
  have hc2 : cstr (strip_eol (line.length + 1) b2) = line := by
    rw [hb4, strip_eol_line line _ hl3]
    exact cstr_append_nul _ _ hl2
  have hret : ((line.length + 1 : Nat) : Int).toNat = line.length + 1 := by simp
  have hpos : ¬ (((line.length + 1 : Nat) : Int) ≤ 0) := by omega
  simp only [playback_poll_line, Option.getD_some, hdue, Bool.false_eq_true, if_false,
    gzgetline, e2, hret, hc2, hpos]

theorem ite_cases {α : Type} (P : α → Prop) (c : Prop) [Decidable c] (a b : α)
    (ha : c → P a) (hb : ¬ c → P b) : P (if c then a else b) := by
  by_cases h : c
  · rw [if_pos h]; exact ha h
  · rw [if_neg h]; exact hb h

/-- Whatever holds of the outcome of every handler and of the two outcomes without a
handler holds of the outcome of the dispatch. -/
theorem playback_dispatch_cases (P : SurvivePlaybackData × List Out → Prop) (line op : List Char)
    (d : SurvivePlaybackData) (h0 : P (d, []))
    (hW : P (parse_and_run_sweep line d).2) (hB : P (parse_and_run_sweep_angle line d).2)
    (hY : P (parse_and_run_sync line d).2) (hE : P (parse_and_run_externalpose line d).2)
    (hC : P (parse_and_run_rawlight line d).2)
    (hL : d.hasRawLight = false → P (parse_and_run_lightcode line d).2)
    (hi : P (parse_and_run_imu line d true).2) (hI : P (parse_and_run_imu line d false).2)
    (hP : P (parse_and_run_pose line d).2)
    (hdefault : P (d, [.warn (sprintf "Playback doesn't understand '%s' op in '%s'"
      [.str op, .str line])])) :
    P (playback_dispatch line op d) := by
  unfold playback_dispatch
  apply ite_cases P <;> intro _
  · apply ite_cases P <;> intro _
    · exact hW
    · exact h0
  apply ite_cases P <;> intro _
  · apply ite_cases P <;> intro _
    · exact hB
    · exact h0
  apply ite_cases P <;> intro _
  · apply ite_cases P <;> intro _
    · exact hY
    · exact h0
  apply ite_cases P <;> intro _
  · exact hE
  apply ite_cases P <;> intro _
  · apply ite_cases P <;> intro _
    · exact hC
    · exact h0
  apply ite_cases P <;> intro _
  · apply ite_cases P <;> intro h
    · exact hL h.2
    · exact h0
  apply ite_cases P <;> intro _
  · apply ite_cases P <;> intro _
    · exact hi
    · exact h0
  apply ite_cases P <;> intro _
  · apply ite_cases P <;> intro _
    · exact hI
    · exact h0
  apply ite_cases P <;> intro _
  · apply ite_cases P <;> intro _
    · exact hP
    · exact h0
  apply ite_cases P <;> intro _
  · exact h0
  · exact hdefault

/-! ### What a handler lets out -/

theorem calls_append (a b : List Out) : calls (a ++ b) = calls a ++ calls b := by
  induction a with
  | nil => rfl
  | cons o t ih => cases o <;> simp [calls, ih]

theorem find_or_warn_calls (d : SurvivePlaybackData) (dev : List Char) :
    calls (find_or_warn d dev).2.2 = []
    ∧ (find_or_warn d dev).2.1.hasRawLight = d.hasRawLight := by
  unfold find_or_warn
  split
  · by_cases h : d.display_once_find = false <;> simp [h, calls]
  · simp [calls]

theorem plain_nothing (d : SurvivePlaybackData) : PlainOutcome d (d, []) := by
  simp [PlainOutcome, calls]

theorem parse_and_run_sweep_plain (line : List Char) (d : SurvivePlaybackData) :
    PlainOutcome d (parse_and_run_sweep line d).2 := by
  unfold parse_and_run_sweep
  simp only
  by_cases hlong : 9 < (str_var (sscanf line SWEEP_SCANF).2 0).length
  · rw [if_pos hlong]
    simp [PlainOutcome, calls]
  rw [if_neg hlong]
  by_cases hrr : (sscanf line SWEEP_SCANF).1 ≠ 5
  · rw [if_pos hrr]
    simp [PlainOutcome, calls]
  · rw [if_neg hrr]
    have h := find_or_warn_calls d (str_var (sscanf line SWEEP_SCANF).2 0)
    split <;> rename_i heq <;> rw [heq] at h <;> simp only at h
    · simp [PlainOutcome, h.1, h.2]
    · simp only [PlainOutcome, calls_append, h.1, calls]
      simp [Call.isLightproc, Call.isLightcap, h.2]

theorem parse_and_run_sync_plain (line : List Char) (d : SurvivePlaybackData) :
    PlainOutcome d (parse_and_run_sync line d).2 := by
  unfold parse_and_run_sync
  simp only
  by_cases hlong : 9 < (str_var (sscanf line SYNC_SCANF).2 0).length
  · rw [if_pos hlong]
    simp [PlainOutcome, calls]
  rw [if_neg hlong]
  by_cases hrr : (sscanf line SYNC_SCANF).1 ≠ 5
  · rw [if_pos hrr]
    simp [PlainOutcome, calls]
  · rw [if_neg hrr]
    have h := find_or_warn_calls d (str_var (sscanf line SYNC_SCANF).2 0)
    split <;> rename_i heq <;> rw [heq] at h <;> simp only at h
    · simp [PlainOutcome, h.1, h.2]
    · simp only [PlainOutcome, calls_append, h.1, calls]
      simp [Call.isLightproc, Call.isLightcap, h.2]

theorem parse_and_run_sweep_angle_plain (line : List Char) (d : SurvivePlaybackData) :
    PlainOutcome d (parse_and_run_sweep_angle line d).2 := by
  unfold parse_and_run_sweep_angle
  simp only
  by_cases hlong : 9 < (str_var (sscanf line SWEEP_ANGLE_SCANF).2 0).length
  · rw [if_pos hlong]
    simp [PlainOutcome, calls]
  rw [if_neg hlong]
  by_cases hrr : (sscanf line SWEEP_ANGLE_SCANF).1 ≠ 6
  · rw [if_pos hrr]
    simp [PlainOutcome, calls]
  · rw [if_neg hrr]
    have h := find_or_warn_calls d (str_var (sscanf line SWEEP_ANGLE_SCANF).2 0)
    split <;> rename_i heq <;> rw [heq] at h <;> simp only at h
    · simp [PlainOutcome, h.1, h.2]
    · simp only [PlainOutcome, calls_append, h.1, calls]
      simp [Call.isLightproc, Call.isLightcap, h.2]

theorem parse_and_run_pose_plain (line : List Char) (d : SurvivePlaybackData) :
    PlainOutcome d (parse_and_run_pose line d).2 := by
  unfold parse_and_run_pose
  simp only
  by_cases hlong : 120 < (str_var (sscanf line POSE_SCANF).2 0).length
  · rw [if_pos hlong]
    simp [PlainOutcome, calls]
  rw [if_neg hlong]
  by_cases hrr : (sscanf line POSE_SCANF).1 ≠ 8
  · rw [if_pos hrr]
    simp [PlainOutcome, calls]
  · rw [if_neg hrr]
    simp [PlainOutcome, calls, Call.isLightproc, Call.isLightcap]

theorem parse_and_run_externalpose_plain (line : List Char) (d : SurvivePlaybackData) :
    PlainOutcome d (parse_and_run_externalpose line d).2 := by
  unfold parse_and_run_externalpose
  simp only
  by_cases hlong : 127 < (str_var (sscanf line EXTERNAL_POSE_SCANF).2 0).length
  · rw [if_pos hlong]
    simp [PlainOutcome, calls]
  · rw [if_neg hlong]
    simp [PlainOutcome, calls, Call.isLightproc, Call.isLightcap]

theorem parse_and_run_imu_plain (line : List Char) (d : SurvivePlaybackData) (raw : Bool) :
    PlainOutcome d (parse_and_run_imu line d raw).2 := by
  unfold parse_and_run_imu
  simp only
  by_cases hlong : 9 < (str_var (sscanf line IMU_SCANF).2 0).length
  · rw [if_pos hlong]
    simp [PlainOutcome, calls]
  rw [if_neg hlong]
  by_cases hrr : (sscanf line IMU_SCANF).1 ≠ 11 ∧ (sscanf line IMU_SCANF).1 ≠ 14
  · rw [if_pos hrr]
    simp [PlainOutcome, calls]
  · rw [if_neg hrr]
    by_cases hid : (sscanf line IMU_SCANF).1 = 11
        ∧ (flt_var (sscanf line IMU_SCANF).2 10).toInt = none
    · rw [if_pos hid]
      simp [PlainOutcome, calls]
    rw [if_neg hid]
    by_cases ha : (!(raw ^^ ((arg_chr (sscanf line IMU_SCANF).2 1).getD NUL == 'I'))) = true
    · rw [if_pos ha]
      simp [PlainOutcome, calls]
    · rw [if_neg ha]
      split
      · by_cases hdo : d.display_once_imu = false <;> simp [PlainOutcome, calls, hdo]
      · cases raw <;> simp [PlainOutcome, calls, Call.isLightproc, Call.isLightcap]

theorem parse_and_run_rawlight_outcome (line : List Char) (d : SurvivePlaybackData) :
    (calls (parse_and_run_rawlight line d).2.2).length ≤ 1
    ∧ (∀ c ∈ calls (parse_and_run_rawlight line d).2.2, c.isLightproc = false)
    ∧ (parse_and_run_rawlight line d).2.1.hasRawLight = true := by
  unfold parse_and_run_rawlight
  simp only
  by_cases hlong : 9 < (str_var (sscanf line "%s %s %hhu %u %hu\n").2 0).length
      ∨ 9 < (str_var (sscanf line "%s %s %hhu %u %hu\n").2 1).length
  · rw [if_pos hlong]
    simp [calls]
  rw [if_neg hlong]
  split
  · by_cases hdo : d.display_once_rawlight = false <;> simp [calls, hdo]
  · simp [calls, Call.isLightproc]

theorem parse_and_run_lightcode_outcome (line : List Char) (d : SurvivePlaybackData) :
    (calls (parse_and_run_lightcode line d).2.2).length ≤ 1
    ∧ (∀ c ∈ calls (parse_and_run_lightcode line d).2.2, c.isLightcap = false)
    ∧ (parse_and_run_lightcode line d).2.1.hasRawLight = d.hasRawLight := by
  unfold parse_and_run_lightcode
  simp only
  by_cases hrr : (sscanf line "%8s %8s %8s %u %d %d %d %u %u\n").1 ≠ 9
  · rw [if_pos hrr]
    simp [calls]
  · rw [if_neg hrr]
    split
    · by_cases hdo : d.display_once_lightcode = false <;> simp [calls, hdo]
    · simp [calls, Call.isLightcap]

/-- The poll of a session that holds no time stamp, on a record that is due: the line is
handed to the dispatch on its second token. -/
theorem playback_poll_dispatches (alloc : Nat → Bool) (junk : Char)
    (halloc : ∀ m, alloc m = true) (driver : SurvivePlaybackData) (f : GzFile) (now : FLT)
    (ts line rest : List Char) (t : FLT) (dev op : List Char)
    (hf : driver.playback_file = some f) (hz : driver.next_time_us.isZero = true)
    (hrec : RecordAhead f ts line rest t)
    (hdue : (t.mul driver.playback_factor).gt now = false)
    (hop : sscanf line "%31s %31s" = (2, [.str dev, .str op])) :
    playback_poll alloc junk driver now
      = (0, playback_dispatch line op (after_record driver f rest)) := by
  rw [playback_poll_record alloc junk halloc driver f now ts line rest t hf hrec.eof hrec.err hz
    hrec.data hrec.ts_space hrec.ts_nul hrec.ts_reads hrec.line_newline hrec.line_nul
    (fun c hc => ⟨fun e => hrec.line_last.1 (by rw [hc, e]), fun e => hrec.line_last.2 (by rw [hc, e])⟩)
    hrec.ts_size hrec.line_size hdue, hop]
  rfl

/-! ### What a poll lets out -/

theorem playback_dispatch_calls (line op : List Char) (d : SurvivePlaybackData) :
    (calls (playback_dispatch line op d).2).length ≤ 1 :=
  playback_dispatch_cases (fun r => (calls r.2).length ≤ 1) line op d (by simp [calls])
    (parse_and_run_sweep_plain line d).1 (parse_and_run_sweep_angle_plain line d).1
    (parse_and_run_sync_plain line d).1 (parse_and_run_externalpose_plain line d).1
    (parse_and_run_rawlight_outcome line d).1 (fun _ => (parse_and_run_lightcode_outcome line d).1)
    (parse_and_run_imu_plain line d true).1 (parse_and_run_imu_plain line d false).1
    (parse_and_run_pose_plain line d).1 (by simp [calls])

theorem playback_dispatch_raw_light (line op : List Char) (d : SurvivePlaybackData)
    (h : d.hasRawLight = true) :
    (playback_dispatch line op d).1.hasRawLight = true
    ∧ ∀ c ∈ calls (playback_dispatch line op d).2, c.isLightproc = false := by
  have plain : ∀ r, PlainOutcome d r →
      r.1.hasRawLight = true ∧ ∀ c ∈ calls r.2, c.isLightproc = false :=
    fun r hr => ⟨by rw [hr.2.2, h], fun c hc => (hr.2.1 c hc).1⟩
  exact playback_dispatch_cases
    (fun r => r.1.hasRawLight = true ∧ ∀ c ∈ calls r.2, c.isLightproc = false) line op d
    ⟨h, by simp [calls]⟩
    (plain _ (parse_and_run_sweep_plain line d)) (plain _ (parse_and_run_sweep_angle_plain line d))
    (plain _ (parse_and_run_sync_plain line d)) (plain _ (parse_and_run_externalpose_plain line d))
    ⟨(parse_and_run_rawlight_outcome line d).2.2, (parse_and_run_rawlight_outcome line d).2.1⟩
    (fun hf => by rw [h] at hf; cases hf)
    (plain _ (parse_and_run_imu_plain line d true)) (plain _ (parse_and_run_imu_plain line d false))
    (plain _ (parse_and_run_pose_plain line d)) ⟨h, by simp [calls]⟩

/-- The two shapes of the outcome of `playback_poll_line`: nothing let out and `hasRawLight`
as it was, or the outcome of the dispatch of some line from a session with `hasRawLight` as
it was. -/
theorem playback_poll_line_outcome (alloc : Nat → Bool) (junk : Char)
    (driver : SurvivePlaybackData) (f : GzFile) (now : FLT) :
    ((playback_poll_line alloc junk driver f now).2.2 = []
      ∧ (playback_poll_line alloc junk driver f now).2.1.hasRawLight = driver.hasRawLight)
    ∨ ∃ line op d1, d1.hasRawLight = driver.hasRawLight
        ∧ (playback_poll_line alloc junk driver f now).2 = playback_dispatch line op d1 := by
  unfold playback_poll_line
  simp only
  by_cases h1 : (driver.next_time_us.mul driver.playback_factor).gt now = true
  · rw [if_pos h1]
    exact Or.inl ⟨rfl, rfl⟩
  · rw [if_neg h1]
    by_cases h2 : (gzgetline alloc junk none 0 f).ret ≤ 0
    · rw [if_pos h2]
      exact Or.inl ⟨rfl, rfl⟩
    · rw [if_neg h2]
      by_cases h3 : (sscanf (cstr (strip_eol (gzgetline alloc junk none 0 f).ret.toNat
          ((gzgetline alloc junk none 0 f).lineptr.getD []))) "%31s %31s").1 < 2
      · rw [if_pos h3]
        exact Or.inl ⟨rfl, rfl⟩
      · rw [if_neg h3]
        exact Or.inr ⟨cstr (strip_eol (gzgetline alloc junk none 0 f).ret.toNat
            ((gzgetline alloc junk none 0 f).lineptr.getD [])),
          str_var (sscanf (cstr (strip_eol (gzgetline alloc junk none 0 f).ret.toNat
            ((gzgetline alloc junk none 0 f).lineptr.getD []))) "%31s %31s").2 1,
          { driver with
            next_time_us := FLT.num 0 0
            playback_file := some (gzgetline alloc junk none 0 f).stream }, rfl, rfl⟩

theorem playback_poll_outcome (alloc : Nat → Bool) (junk : Char)
    (driver : SurvivePlaybackData) (now : FLT) :
    ((playback_poll alloc junk driver now).2.2 = []
      ∧ (playback_poll alloc junk driver now).2.1.hasRawLight = driver.hasRawLight)
    ∨ ∃ line op d1, d1.hasRawLight = driver.hasRawLight
        ∧ (playback_poll alloc junk driver now).2 = playback_dispatch line op d1 := by
  unfold playback_poll
  cases hf : driver.playback_file with
  | none => exact Or.inl ⟨rfl, rfl⟩
  | some f =>
    simp only
    by_cases h0 : (!gzeof f && !gzerror_dropin f) = true
    · rw [if_pos h0]
      by_cases h1 : driver.next_time_us.isZero = true
      · rw [if_pos h1]
        by_cases h2 : (gzgetdelim alloc junk none 0 ' ' f).ret ≤ 0
        · rw [if_pos h2]
          exact Or.inl ⟨rfl, rfl⟩
        · rw [if_neg h2]
          by_cases h3 : (sscanf (cstr ((gzgetdelim alloc junk none 0 ' ' f).lineptr.getD []))
              "%lf").1 ≠ 1
          · rw [if_pos h3]
            exact Or.inl ⟨rfl, rfl⟩
          · rw [if_neg h3]
            exact playback_poll_line_outcome alloc junk _ _ now
      · rw [if_neg h1]
        exact playback_poll_line_outcome alloc junk _ _ now
    · rw [if_neg h0]
      exact Or.inl ⟨rfl, rfl⟩

/-! ### C7 -/

theorem playback_dispatch_C (line : List Char) (d : SurvivePlaybackData) :
    playback_dispatch line ['C'] d = (parse_and_run_rawlight line d).2 := by
  unfold playback_dispatch
  rw [if_neg (by decide), if_neg (by decide), if_neg (by decide), if_neg (by decide),
    if_pos (by decide), if_pos (by decide)]

theorem playback_dispatch_L_R (line op : List Char) (d : SurvivePlaybackData)
    (hop : op = ['L'] ∨ op = ['R']) (h : d.hasRawLight = true) :
    playback_dispatch line op d = (d, []) := by
  unfold playback_dispatch
  rcases hop with rfl | rfl
  · rw [if_neg (by decide), if_neg (by decide), if_neg (by decide), if_neg (by decide),
      if_neg (by decide), if_pos (by decide), if_neg (by simp [h])]
  · rw [if_neg (by decide), if_neg (by decide), if_neg (by decide), if_neg (by decide),
      if_neg (by decide), if_pos (by decide), if_neg (by simp [h])]

theorem playback_poll_raw_light (alloc : Nat → Bool) (junk : Char) (d : SurvivePlaybackData)
    (now : FLT) (h : d.hasRawLight = true) :
    (playback_poll alloc junk d now).2.1.hasRawLight = true
    ∧ ∀ c ∈ calls (playback_poll alloc junk d now).2.2, c.isLightproc = false := by
  rcases playback_poll_outcome alloc junk d now with ⟨h1, h2⟩ | ⟨line, op, d1, h1, h2⟩
  · rw [h1, h2]
    exact ⟨h, by simp [calls]⟩
  · rw [h2]
    exact playback_dispatch_raw_light line op d1 (by rw [h1, h])

theorem playback_run_raw_light (alloc : Nat → Bool) (junk : Char) :
    ∀ (nows : List FLT) (d : SurvivePlaybackData), d.hasRawLight = true →
      (playback_run alloc junk d nows).1.hasRawLight = true
      ∧ ∀ outs ∈ (playback_run alloc junk d nows).2, ∀ c ∈ calls outs,
          c.isLightproc = false := by
  intro nows
  induction nows with
  | nil =>
    intro d h
    exact ⟨h, by simp [playback_run]⟩
  | cons now rest ih =>
    intro d h
    have hp := playback_poll_raw_light alloc junk d now h
    have hr := ih (playback_poll alloc junk d now).2.1 hp.1
    rw [playback_run]
    refine ⟨hr.1, ?_⟩
    intro outs ho
    rcases List.mem_cons.mp ho with e | e
    · rw [e]
      exact hp.2
    · exact hr.2 outs e

/-- C7.  Mutual exclusion of raw light and light codes in a playback session.  The
statements are about polls in which no handler stores a token past the end of its buffer
(the poll does not let out `undefined`): behind such a step C fixes no behaviour.
(1) Let a poll that holds no time stamp meet a record that is due, whose line has the
device token `dev` and the opcode token `op`.  If `op` is `C`, `hasRawLight` is true after
the poll.
(2) A poll of any session with `hasRawLight` true leaves it true and makes no call of
`lightproc`, whatever the line it reads.
(3) So does every sequence of polls, at any clock readings: `hasRawLight` stays true and no
poll of the sequence calls `lightproc`.
(4) If `hasRawLight` is true and `op` is `L` or `R`, the poll of (1) lets nothing out: no
call, no warning, no error report; no handler runs in it. -/
theorem playback_raw_light_excludes_light_code (alloc : Nat → Bool) (junk : Char)
    (halloc : ∀ m, alloc m = true) (driver : SurvivePlaybackData) (f : GzFile) (now : FLT)
    (ts line rest : List Char) (t : FLT) (dev op : List Char)
    (hf : driver.playback_file = some f) (hz : driver.next_time_us.isZero = true)
    (hrec : RecordAhead f ts line rest t)
    (hdue : (t.mul driver.playback_factor).gt now = false)
    (hop : sscanf line "%31s %31s" = (2, [.str dev, .str op])) :
    (op = ['C'] → Out.undefined ∉ (playback_poll alloc junk driver now).2.2 →
        (playback_poll alloc junk driver now).2.1.hasRawLight = true)
    ∧ (∀ (d : SurvivePlaybackData) (later : FLT), d.hasRawLight = true →
        Out.undefined ∉ (playback_poll alloc junk d later).2.2 →
        (playback_poll alloc junk d later).2.1.hasRawLight = true
        ∧ ∀ c ∈ calls (playback_poll alloc junk d later).2.2, c.isLightproc = false)
    ∧ (∀ (d : SurvivePlaybackData) (nows : List FLT), d.hasRawLight = true →
        (∀ outs ∈ (playback_run alloc junk d nows).2, Out.undefined ∉ outs) →
        (playback_run alloc junk d nows).1.hasRawLight = true
        ∧ ∀ outs ∈ (playback_run alloc junk d nows).2, ∀ c ∈ calls outs,
            c.isLightproc = false)
    ∧ (driver.hasRawLight = true → (op = ['L'] ∨ op = ['R']) →
        (playback_poll alloc junk driver now).2.2 = []
        ∧ (playback_poll alloc junk driver now).2.1.hasRawLight = true) := by
  have hpoll := playback_poll_dispatches alloc junk halloc driver f now ts line rest t dev op
    hf hz hrec hdue hop
  refine ⟨?_, fun d later h _ => playback_poll_raw_light alloc junk d later h,
    fun d nows h _ => playback_run_raw_light alloc junk nows d h, ?_⟩
  · intro hC _
    rw [hpoll, hC, playback_dispatch_C]
    exact (parse_and_run_rawlight_outcome line _).2.2
  · intro hraw hLR
    have hd : (after_record driver f rest).hasRawLight = true := hraw
    rw [hpoll, playback_dispatch_L_R line op _ hLR hd]
    exact ⟨rfl, hraw⟩

/-- C7: an instance.  The log `0.5 T20 C 4 123 55` / `1.0 T20 L X 1 0 2 3 4 5`, device `T20`
registered, factor 1, clock 2: the first poll sets `hasRawLight`; the second poll, of the
session the first one left, reads the `L` line and lets nothing out, `hasRawLight` still
set; and a run of two more polls from there makes no call of `lightproc`. -/
theorem playback_raw_light_excludes_light_code_witness :
    (playback_poll (fun _ => true) 'x'
      (playback_start ["T20".toList]
        "0.500000 T20 C 4 123 55\n1.000000 T20 L X 1 0 2 3 4 5\n".toList (FLT.num 1 0) false)
      (FLT.num 2 0)).2.1.hasRawLight = true
    ∧ ((playback_poll (fun _ => true) 'x'
        (playback_poll (fun _ => true) 'x'
          (playback_start ["T20".toList]
            "0.500000 T20 C 4 123 55\n1.000000 T20 L X 1 0 2 3 4 5\n".toList (FLT.num 1 0) false)
          (FLT.num 2 0)).2.1 (FLT.num 2 0)).2.2 = []
      ∧ (playback_poll (fun _ => true) 'x'
        (playback_poll (fun _ => true) 'x'
          (playback_start ["T20".toList]
            "0.500000 T20 C 4 123 55\n1.000000 T20 L X 1 0 2 3 4 5\n".toList (FLT.num 1 0) false)
          (FLT.num 2 0)).2.1 (FLT.num 2 0)).2.1.hasRawLight = true)
    ∧ ((playback_run (fun _ => true) 'x'
        (playback_poll (fun _ => true) 'x'
          (playback_start ["T20".toList]
            "0.500000 T20 C 4 123 55\n1.000000 T20 L X 1 0 2 3 4 5\n".toList (FLT.num 1 0) false)
          (FLT.num 2 0)).2.1 [FLT.num 2 0, FLT.num 2 0]).1.hasRawLight = true
      ∧ ∀ outs ∈ (playback_run (fun _ => true) 'x'
          (playback_poll (fun _ => true) 'x'
            (playback_start ["T20".toList]
              "0.500000 T20 C 4 123 55\n1.000000 T20 L X 1 0 2 3 4 5\n".toList (FLT.num 1 0) false)
            (FLT.num 2 0)).2.1 [FLT.num 2 0, FLT.num 2 0]).2, ∀ c ∈ calls outs, c.isLightproc = false) :=
  ⟨(playback_raw_light_excludes_light_code (fun _ => true) 'x' (fun _ => rfl)
      (playback_start ["T20".toList]
        "0.500000 T20 C 4 123 55\n1.000000 T20 L X 1 0 2 3 4 5\n".toList (FLT.num 1 0) false)
      ⟨"0.500000 T20 C 4 123 55\n1.000000 T20 L X 1 0 2 3 4 5\n".toList, false, false, false⟩
      (FLT.num 2 0) "0.500000".toList "T20 C 4 123 55".toList
      "1.000000 T20 L X 1 0 2 3 4 5\n".toList
      (FLT.num 500000 6) "T20".toList ['C'] rfl rfl
      ⟨rfl, rfl, rfl, by decide, by decide, by decide, by decide, by decide, by decide,
        by decide, by decide⟩
      (by decide) (by decide)).1 rfl (by decide),
   (playback_raw_light_excludes_light_code (fun _ => true) 'x' (fun _ => rfl)
      (playback_poll (fun _ => true) 'x'
        (playback_start ["T20".toList]
          "0.500000 T20 C 4 123 55\n1.000000 T20 L X 1 0 2 3 4 5\n".toList (FLT.num 1 0) false)
        (FLT.num 2 0)).2.1
      ⟨"1.000000 T20 L X 1 0 2 3 4 5\n".toList, false, false, false⟩
      (FLT.num 2 0) "1.000000".toList "T20 L X 1 0 2 3 4 5".toList []
      (FLT.num 1000000 6) "T20".toList ['L'] (by decide) (by decide)
      ⟨rfl, rfl, rfl, by decide, by decide, by decide, by decide, by decide, by decide,
        by decide, by decide⟩
      (by decide) (by decide)).2.2.2 (by decide) (Or.inl rfl),
   (playback_raw_light_excludes_light_code (fun _ => true) 'x' (fun _ => rfl)
      (playback_start ["T20".toList]
        "0.500000 T20 C 4 123 55\n1.000000 T20 L X 1 0 2 3 4 5\n".toList (FLT.num 1 0) false)
      ⟨"0.500000 T20 C 4 123 55\n1.000000 T20 L X 1 0 2 3 4 5\n".toList, false, false, false⟩
      (FLT.num 2 0) "0.500000".toList "T20 C 4 123 55".toList
      "1.000000 T20 L X 1 0 2 3 4 5\n".toList
      (FLT.num 500000 6) "T20".toList ['C'] rfl rfl
      ⟨rfl, rfl, rfl, by decide, by decide, by decide, by decide, by decide, by decide,
        by decide, by decide⟩
      (by decide) (by decide)).2.2.1
      (playback_poll (fun _ => true) 'x'
        (playback_start ["T20".toList]
          "0.500000 T20 C 4 123 55\n1.000000 T20 L X 1 0 2 3 4 5\n".toList (FLT.num 1 0) false)
        (FLT.num 2 0)).2.1 [FLT.num 2 0, FLT.num 2 0] (by decide) (by decide)⟩

/-! ### C8 -/

/-- C8, counterexample.  The opcode token `Wx` is no opcode of the log grammar and is not
`A` or `V`, yet the poll that reads the line `T20 Wx 1 2` reports nothing: it lets out no
warning at all (and returns 0). -/
theorem playback_poll_unknown_opcode_silent :
    playback_poll (fun _ => true) 'x'
        (playback_start ["T20".toList] "0.000000 T20 Wx 1 2\n".toList (FLT.num 1 0) false) (FLT.num 1 0)
      = (0, after_record
            (playback_start ["T20".toList] "0.000000 T20 Wx 1 2\n".toList (FLT.num 1 0) false)
            ⟨"0.000000 T20 Wx 1 2\n".toList, false, false, false⟩ [], []) := by
  decide

theorem playback_dispatch_default (line op : List Char) (d : SurvivePlaybackData)
    (h : op_at op 0 ∉ "WBYECLRiIPAV".toList) :
    playback_dispatch line op d
      = (d, [.warn (sprintf "Playback doesn't understand '%s' op in '%s'"
          [.str op, .str line])]) := by
  simp only [String.toList, List.mem_cons, List.mem_singleton, not_or, List.not_mem_nil,
    not_false_eq_true, and_true] at h
  obtain ⟨hW, hB, hY, hE, hC, hL, hR, hi, hI, hP, hA, hV⟩ := h
  unfold playback_dispatch
  rw [if_neg hW, if_neg hB, if_neg hY, if_neg (fun k => hE k.1),
    if_neg (fun k => k.elim hE hC), if_neg (fun k => k.elim hL hR), if_neg hi, if_neg hI,
    if_neg hP, if_neg (fun k => k.elim hA hV)]

theorem playback_dispatch_known_letter (line op : List Char) (d : SurvivePlaybackData)
    (h : op_at op 0 ∈ "WBYECLRiIPAV".toList) (h1 : op_at op 1 ≠ NUL)
    (hE : streq op "EXTERNAL_POSE" = false) (hP : streq op "POSE" = false) :
    playback_dispatch line op d = (d, []) := by
  unfold playback_dispatch
  simp only [h1, hE, hP, if_false, and_false, false_and, Bool.false_eq_true, ite_self]
  simp only [String.toList, List.mem_cons, List.mem_singleton, List.not_mem_nil, or_false] at h
  repeat' split
  all_goals first
    | rfl
    | (exfalso; tauto)

theorem playback_dispatch_P (line : List Char) (d : SurvivePlaybackData) :
    playback_dispatch line ['P'] d = (d, []) := by
  unfold playback_dispatch
  rw [if_neg (by decide), if_neg (by decide), if_neg (by decide), if_neg (by decide),
    if_neg (by decide), if_neg (by decide), if_neg (by decide), if_neg (by decide),
    if_pos (by decide), if_neg (fun k => absurd k.1 (by decide))]

/-- C8, amended.  Let a poll that holds no time stamp meet a record that is due, whose line
has the device token `dev` and the opcode token `op`.
(1) If `op` begins with none of the letters `W B Y E C L R i I P A V` (the cases of the
switch on its first character), the poll reports the line as unrecognized, with the one
warning "Playback doesn't understand ...", makes no call of the consumer interface, returns
0, and leaves the session with the record consumed and nothing else changed (no flag, no
latch).
(2) If `op` begins with one of those letters, is neither `EXTERNAL_POSE` nor `POSE`, and
is longer than one character or is `P`, the poll skips the line without any report: it lets
nothing out, returns 0, and leaves the session with the record consumed and nothing else
changed. -/
theorem playback_poll_unrecognized (alloc : Nat → Bool) (junk : Char)
    (halloc : ∀ m, alloc m = true) (driver : SurvivePlaybackData) (f : GzFile) (now : FLT)
    (ts line rest : List Char) (t : FLT) (dev op : List Char)
    (hf : driver.playback_file = some f) (hz : driver.next_time_us.isZero = true)
    (hrec : RecordAhead f ts line rest t)
    (hdue : (t.mul driver.playback_factor).gt now = false)
    (hop : sscanf line "%31s %31s" = (2, [.str dev, .str op])) :
    (op_at op 0 ∉ "WBYECLRiIPAV".toList →
      playback_poll alloc junk driver now
        = (0, after_record driver f rest,
            [.warn (sprintf "Playback doesn't understand '%s' op in '%s'"
              [.str op, .str line])]))
    ∧ (op_at op 0 ∈ "WBYECLRiIPAV".toList → (op_at op 1 ≠ NUL ∨ op = ['P']) →
        streq op "EXTERNAL_POSE" = false → streq op "POSE" = false →
        playback_poll alloc junk driver now = (0, after_record driver f rest, [])) := by
  have hpoll := playback_poll_dispatches alloc junk halloc driver f now ts line rest t dev op
    hf hz hrec hdue hop
  refine ⟨?_, ?_⟩
  · intro h
    rw [hpoll, playback_dispatch_default line op _ h]
  · intro h h1 hE hP
    rcases h1 with h1 | h1
    · rw [hpoll, playback_dispatch_known_letter line op _ h h1 hE hP]
    · rw [hpoll, h1, playback_dispatch_P]

/-- C8, amended: an instance.  The line `T20 Q 1`: the opcode `Q` is reported. -/
theorem playback_poll_unrecognized_witness :
    playback_poll (fun _ => true) 'x'
        (playback_start ["T20".toList] "0.000000 T20 Q 1\n".toList (FLT.num 1 0) false) (FLT.num 1 0)
      = (0, after_record
            (playback_start ["T20".toList] "0.000000 T20 Q 1\n".toList (FLT.num 1 0) false)
            ⟨"0.000000 T20 Q 1\n".toList, false, false, false⟩ [],
          [.warn "Playback doesn't understand 'Q' op in 'T20 Q 1'".toList]) :=
  (playback_poll_unrecognized (fun _ => true) 'x' (fun _ => rfl)
    (playback_start ["T20".toList] "0.000000 T20 Q 1\n".toList (FLT.num 1 0) false)
    ⟨"0.000000 T20 Q 1\n".toList, false, false, false⟩ (FLT.num 1 0) "0.000000".toList
    "T20 Q 1".toList [] (FLT.num 0 6) "T20".toList ['Q'] rfl rfl
    ⟨rfl, rfl, rfl, by decide, by decide, by decide, by decide, by decide, by decide, by decide,
      by decide⟩
    (by decide) (by decide)).1 (by decide)

/-! ### C9 -/

/-- C9, the code at the failing inputs.  The line `T20 EXTERNAL_POSE 1.0 2.0` carries two
of the seven numbers of a pose, yet the poll calls `external_poseproc`, with a pose of
which five numbers were never assigned; the line `T20 C 4` carries one of the three fields
of a raw light sample, yet the poll hands a sample to `handle_lightcap`.  The sibling
handlers refuse such a line: `T20 W 1 2` gets the warning of `parse_and_run_sweep` and no
call. -/
theorem playback_poll_short_line_dispatched :
    (playback_poll (fun _ => true) 'x'
        (playback_start ["T20".toList] "0.000000 T20 EXTERNAL_POSE 1.0 2.0\n".toList (FLT.num 1 0) false)
        (FLT.num 1 0)).2.2
      = [.call (.external_poseproc "T20".toList
          [some (FLT.num 10 1), some (FLT.num 20 1), none, none, none, none, none])]
    ∧ (playback_poll (fun _ => true) 'x'
        (playback_start ["T20".toList] "0.000000 T20 C 4\n".toList (FLT.num 1 0) false) (FLT.num 1 0)).2.2
      = [.call (.handle_lightcap "T20".toList (some 4) none none)]
    ∧ (playback_poll (fun _ => true) 'x'
        (playback_start ["T20".toList] "0.000000 T20 W 1 2\n".toList (FLT.num 1 0) false) (FLT.num 1 0)).2.2
      = [.warn "Only got 3 values for a sweep".toList] := by
  decide

/-! ### C6 -/

/-- What the reading loop takes from the stream, in any case: a prefix of the unread
content, no byte of which but the last is the delimiter; and, when the loop is left in the
ordinary way, the block holds the bytes taken behind those it held. -/
theorem gzgetdelim_loop_taken (alloc : Nat → Bool) (junk delim : Char) :
    ∀ (fuel : Nat) (f : GzFile) (bytes : Nat) (buf : List Char) (n : Nat),
      buf.length = n → bytes + 1 < n → f.data.length < fuel →
      ∃ taken, f.data = taken ++ (gzgetdelim_loop alloc junk delim fuel f bytes bytes buf n).stream.data
        ∧ ∀ bytes1 pos1 buf1 n1 f1,
            gzgetdelim_loop alloc junk delim fuel f bytes bytes buf n = .out bytes1 pos1 buf1 n1 f1 →
            bytes1 = bytes + taken.length ∧ pos1 = bytes1 ∧ bytes1 < buf1.length
            ∧ buf1.take bytes1 = buf.take bytes ++ taken := by
  intro fuel
  induction fuel with
  | zero => intro f bytes buf n _ _ h; simp at h
  | succ k ih =>
    intro f bytes buf n hl hn hfuel
    rw [gzgetdelim_loop]
    by_cases he : f.err = true
    · refine ⟨[], by simp [gzgetc, he, LoopExit.stream], ?_⟩
      intro bytes1 pos1 buf1 n1 f1 h
      simp only [gzgetc, he, if_true, LoopExit.out.injEq] at h
      obtain ⟨rfl, rfl, rfl, rfl, rfl⟩ := h
      exact ⟨by simp, rfl, by omega, by simp⟩
    · cases hd : f.data with
      | nil =>
        refine ⟨[], ?_, ?_⟩
        · by_cases hf : f.failing = true <;> simp [gzgetc, he, hd, hf, LoopExit.stream]
        · intro bytes1 pos1 buf1 n1 f1 h
          by_cases hf : f.failing = true
          · simp only [gzgetc, he, hd, hf, if_true, LoopExit.out.injEq, Bool.false_eq_true,
              if_false] at h
            obtain ⟨rfl, rfl, rfl, rfl, _⟩ := h
            exact ⟨by simp, rfl, by omega, by simp⟩
          · simp only [gzgetc, he, hd, hf, LoopExit.out.injEq, Bool.false_eq_true,
              if_false] at h
            obtain ⟨rfl, rfl, rfl, rfl, _⟩ := h
            exact ⟨by simp, rfl, by omega, by simp⟩
      | cons c cs =>
        have hg : gzgetc f = (some c, { f with data := cs }) := by simp [gzgetc, he, hd]
        rw [hg]
        simp only
        have hk : cs.length < k := by
          rw [hd] at hfuel
          simp only [List.length_cons] at hfuel
          omega
        by_cases hov : bytes + 1 ≥ SSIZE_MAX
        · rw [if_pos hov]
          exact ⟨[c], by simp [LoopExit.stream], by intro _ _ _ _ _ h; cases h⟩
        · rw [if_neg hov]
          by_cases hgrow : bytes + 1 ≥ n - 1
          · rw [if_pos hgrow]
            by_cases hal : alloc (n + GETDELIM_GROWBY) = true
            · rw [if_pos hal]
              simp only [Nat.add_sub_cancel]
              have hl2 : ((realloc junk (some buf) (n + GETDELIM_GROWBY)).set bytes c).length
                  = n + GETDELIM_GROWBY := by simp [realloc_length]
              have ht : ((realloc junk (some buf) (n + GETDELIM_GROWBY)).set bytes c).take
                  (bytes + 1) = buf.take bytes ++ [c] := by
                rw [take_succ_set c _ bytes (by simp [realloc_length]; omega),
                  realloc_grow junk buf n _ hl, List.take_append_of_le_length (by omega)]
              by_cases hc : c = delim
              · rw [if_pos hc]
                refine ⟨[c], by simp [LoopExit.stream], ?_⟩
                intro bytes1 pos1 buf1 n1 f1 h
                simp only [LoopExit.out.injEq] at h
                obtain ⟨rfl, rfl, rfl, rfl, _⟩ := h
                exact ⟨by simp, rfl, by rw [hl2]; simp [GETDELIM_GROWBY]; omega, ht⟩
              · rw [if_neg hc]
                obtain ⟨taken, h1, h2⟩ := ih { f with data := cs } (bytes + 1) _
                  (n + GETDELIM_GROWBY) hl2 (by simp [GETDELIM_GROWBY]; omega) hk
                refine ⟨c :: taken, by simpa using h1, ?_⟩
                intro bytes1 pos1 buf1 n1 f1 h
                obtain ⟨k1, k2, k3, k4⟩ := h2 bytes1 pos1 buf1 n1 f1 h
                refine ⟨by simp [k1]; omega, k2, k3, ?_⟩
                rw [k4, ht]
                simp
            · rw [if_neg hal]
              exact ⟨[c], by simp [LoopExit.stream], by intro _ _ _ _ _ h; cases h⟩
          · rw [if_neg hgrow]
            have hl2 : (buf.set bytes c).length = n := by simp [hl]
            have ht : (buf.set bytes c).take (bytes + 1) = buf.take bytes ++ [c] :=
              take_succ_set c _ bytes (by omega)
            by_cases hc : c = delim
            · rw [if_pos hc]
              refine ⟨[c], by simp [LoopExit.stream], ?_⟩
              intro bytes1 pos1 buf1 n1 f1 h
              simp only [LoopExit.out.injEq] at h
              obtain ⟨rfl, rfl, rfl, rfl, _⟩ := h
              exact ⟨by simp, rfl, by rw [hl2]; omega, ht⟩
            · rw [if_neg hc]
              obtain ⟨taken, h1, h2⟩ := ih { f with data := cs } (bytes + 1) _ n hl2
                (by omega) hk
              refine ⟨c :: taken, by simpa using h1, ?_⟩
              intro bytes1 pos1 buf1 n1 f1 h
              obtain ⟨k1, k2, k3, k4⟩ := h2 bytes1 pos1 buf1 n1 f1 h
              refine ⟨by simp [k1]; omega, k2, k3, ?_⟩
              rw [k4, ht]
              simp

/-- What `gzgetdelim`, called without a buffer, takes from the stream: a prefix `taken` of
the unread content; and when it returns a positive count, the count is the length of
`taken` and the block holds `taken` followed by a NUL. -/
theorem gzgetdelim_taken (alloc : Nat → Bool) (junk delim : Char) (f : GzFile) :
    ∃ taken, f.data = taken ++ (gzgetdelim alloc junk none 0 delim f).stream.data
      ∧ (0 < (gzgetdelim alloc junk none 0 delim f).ret →
          ∃ tail, (gzgetdelim alloc junk none 0 delim f).lineptr = some (taken ++ NUL :: tail)
            ∧ (gzgetdelim alloc junk none 0 delim f).ret = (taken.length : Nat)) := by
  unfold gzgetdelim
  simp only [Option.isNone_none, true_or, if_true]
  by_cases hal : alloc GETDELIM_GROWBY = true
  · rw [if_pos hal]
    obtain ⟨taken, h1, h2⟩ := gzgetdelim_loop_taken alloc junk delim (f.data.length + 1) f 0
      (realloc junk none GETDELIM_GROWBY) GETDELIM_GROWBY (realloc_length _ _ _) (by decide)
      (by omega)
    unfold gzgetdelim_read
    cases hloop : gzgetdelim_loop alloc junk delim (f.data.length + 1) f 0 0
        (realloc junk none GETDELIM_GROWBY) GETDELIM_GROWBY with
    | early buf1 n1 f1 =>
      rw [hloop] at h1
      exact ⟨taken, h1, by intro h; simp at h⟩
    | out bytes1 pos1 buf1 n1 f1 =>
      rw [hloop] at h1
      obtain ⟨k1, k2, k3, k4⟩ := h2 bytes1 pos1 buf1 n1 f1 hloop
      simp only
      by_cases hc : gzerror_dropin f1 = true ∨ (gzeof f1 = true ∧ bytes1 = 0)
      · rw [if_pos hc]
        exact ⟨taken, h1, by intro h; simp at h⟩
      · rw [if_neg hc]
        refine ⟨taken, h1, fun _ => ⟨(buf1.set pos1 NUL).drop (bytes1 + 1), ?_, ?_⟩⟩
        · have ht : (buf1.set pos1 NUL).take (bytes1 + 1) = taken ++ [NUL] := by
            rw [k2, take_succ_set NUL buf1 bytes1 k3, k4]
            simp
          have e := eq_append_of_take (buf1.set pos1 NUL) (taken ++ [NUL]) (bytes1 + 1) ht
          exact congrArg some (by simpa using e)
        · simp [k1]
  · rw [if_neg hal]
    exact ⟨[], by simp, by intro h; simp at h⟩

theorem cstr_initial (p q : List Char) : cstr (p ++ NUL :: q) <+: p := by
  induction p with
  | nil => simp [cstr, List.takeWhile, NUL]
  | cons a t ih =>
    simp only [cstr] at ih ⊢
    rw [List.cons_append, List.takeWhile_cons]
    by_cases ha : (a != NUL) = true
    · rw [if_pos ha]
      exact ( List.prefix_cons_inj a).mpr ih
    · rw [if_neg ha]
      exact List.nil_prefix

theorem take_set_of_le (c : Char) :
    ∀ (l : List Char) (m k : Nat), m ≤ k → (l.set k c).take m = l.take m := by
  intro l
  induction l with
  | nil => intro m k _; simp
  | cons a t ih =>
    intro m k h
    cases m with
    | zero => simp
    | succ j =>
      cases k with
      | zero => omega
      | succ i => simp [List.set, ih j i (by omega)]

theorem drop_set_self (c : Char) :
    ∀ (l : List Char) (k : Nat), k < l.length → (l.set k c).drop k = c :: l.drop (k + 1) := by
  intro l
  induction l with
  | nil => intro k h; simp at h
  | cons a t ih =>
    intro k h
    cases k with
    | zero => simp
    | succ i => simpa [List.set] using ih i (by simpa using h)

/-- The newline stripping overwrites with NUL a run of bytes that ends just before index
`r` and leaves the rest of the block alone. -/
theorem strip_eol_shape :
    ∀ (r : Nat) (b : List Char), r ≤ b.length →
      ∃ m, m ≤ r ∧ strip_eol r b = b.take m ++ (List.replicate (r - m) NUL ++ b.drop r) := by
  intro r
  induction r with
  | zero => intro b _; exact ⟨0, le_refl _, by simp [strip_eol]⟩
  | succ k ih =>
    intro b hb
    rw [strip_eol]
    by_cases hc : b.getD k NUL = '\n' ∨ b.getD k NUL = '\r'
    · rw [if_pos hc]
      obtain ⟨m, hm, e⟩ := ih (b.set k NUL) (by simp; omega)
      refine ⟨m, by omega, ?_⟩
      rw [e, take_set_of_le NUL b m k hm, drop_set_self NUL b k (by omega)]
      have : k + 1 - m = (k - m) + 1 := by omega
      rw [this, List.replicate_succ']
      simp
    · rw [if_neg hc]
      exact ⟨k + 1, le_refl _, by simp⟩

/-- The line a poll makes of a block that holds `raw` and a NUL is a prefix of `raw`. -/
theorem cstr_strip_eol_initial (raw tail : List Char) :
    cstr (strip_eol raw.length (raw ++ NUL :: tail)) <+: raw := by
  obtain ⟨m, hm, e⟩ := strip_eol_shape raw.length (raw ++ NUL :: tail) (by simp)
  rw [e]
  have h1 : (raw ++ NUL :: tail).take m = raw.take m := by
    rw [List.take_append_of_le_length hm]
  have h2 : (raw ++ NUL :: tail).drop raw.length = NUL :: tail := by simp
  rw [h1, h2]
  have h3 : ∃ q, List.replicate (raw.length - m) NUL ++ NUL :: tail = NUL :: q := by
    cases raw.length - m with
    | zero => exact ⟨tail, rfl⟩
    | succ j => exact ⟨_, rfl⟩
  obtain ⟨q, hq⟩ := h3
  rw [hq]
  exact (cstr_initial _ q).trans ( List.take_prefix m raw)

theorem DispatchedFrom.append_left (pre piece : List Char) (outs : List Out)
    (h : DispatchedFrom piece outs) : DispatchedFrom (pre ++ piece) outs := by
  rcases h with h | ⟨line, d, h1, h2⟩
  · exact Or.inl h
  · refine Or.inr ⟨line, d, ?_, h2⟩
    obtain ⟨a, b, e⟩ := h1
    exact ⟨pre ++ a, b, by simp [← e]⟩

theorem playback_poll_line_piece (alloc : Nat → Bool) (junk : Char)
    (driver : SurvivePlaybackData) (f : GzFile) (now : FLT)
    (hf : driver.playback_file = some f) :
    ∃ piece, f.data = piece ++ unread (playback_poll_line alloc junk driver f now).2.1
      ∧ DispatchedFrom piece (playback_poll_line alloc junk driver f now).2.2 := by
  unfold playback_poll_line
  simp only
  by_cases h1 : (driver.next_time_us.mul driver.playback_factor).gt now = true
  · rw [if_pos h1]
    exact ⟨[], by simp [unread, hf], Or.inl rfl⟩
  · rw [if_neg h1]
    obtain ⟨taken, ht1, ht2⟩ := gzgetdelim_taken alloc junk '\n' f
    by_cases h2 : (gzgetline alloc junk none 0 f).ret ≤ 0
    · rw [if_pos h2]
      exact ⟨taken, ht1, Or.inl rfl⟩
    · rw [if_neg h2]
      by_cases h3 : (sscanf (cstr (strip_eol (gzgetline alloc junk none 0 f).ret.toNat
          ((gzgetline alloc junk none 0 f).lineptr.getD []))) "%31s %31s").1 < 2
      · rw [if_pos h3]
        exact ⟨taken, ht1, Or.inl rfl⟩
      · rw [if_neg h3]
        have hc := playback_dispatch_core
          (cstr (strip_eol (gzgetline alloc junk none 0 f).ret.toNat
            ((gzgetline alloc junk none 0 f).lineptr.getD [])))
          (str_var (sscanf (cstr (strip_eol (gzgetline alloc junk none 0 f).ret.toNat
            ((gzgetline alloc junk none 0 f).lineptr.getD []))) "%31s %31s").2 1)
          { driver with
            next_time_us := FLT.num 0 0
            playback_file := some (gzgetline alloc junk none 0 f).stream }
        simp only [SurvivePlaybackData.core, Prod.mk.injEq] at hc
        refine ⟨taken, ?_, Or.inr ⟨_, _, ?_, rfl⟩⟩
        · simp only [unread, hc.2.1]
          exact ht1
        · obtain ⟨tail, e1, e2⟩ := ht2 (not_le.mp h2)
          have e3 : (gzgetline alloc junk none 0 f).ret.toNat = taken.length := by
            simp only [gzgetline, e2]
            simp
          have e4 : (gzgetline alloc junk none 0 f).lineptr.getD [] = taken ++ NUL :: tail := by
            simp only [gzgetline, e1, Option.getD_some]
          rw [e3, e4]
          exact (cstr_strip_eol_initial taken tail).isInfix

/-- One poll: the bytes it takes are a prefix of the unread content, and what it lets out
comes from the dispatch of a line among them. -/
theorem playback_poll_piece (alloc : Nat → Bool) (junk : Char) (driver : SurvivePlaybackData)
    (now : FLT) :
    ∃ piece, unread driver = piece ++ unread (playback_poll alloc junk driver now).2.1
      ∧ DispatchedFrom piece (playback_poll alloc junk driver now).2.2 := by
  unfold playback_poll
  cases hf : driver.playback_file with
  | none => exact ⟨[], by simp [unread, hf], Or.inl rfl⟩
  | some f =>
    have hu : unread driver = f.data := by simp [unread, hf]
    simp only
    by_cases h0 : (!gzeof f && !gzerror_dropin f) = true
    · rw [if_pos h0]
      by_cases h1 : driver.next_time_us.isZero = true
      · rw [if_pos h1]
        obtain ⟨taken, ht1, _⟩ := gzgetdelim_taken alloc junk ' ' f
        by_cases h2 : (gzgetdelim alloc junk none 0 ' ' f).ret ≤ 0
        · rw [if_pos h2]
          exact ⟨taken, by rw [hu]; exact ht1, Or.inl rfl⟩
        · rw [if_neg h2]
          by_cases h3 : (sscanf (cstr ((gzgetdelim alloc junk none 0 ' ' f).lineptr.getD []))
              "%lf").1 ≠ 1
          · rw [if_pos h3]
            exact ⟨taken, by rw [hu]; exact ht1, Or.inl rfl⟩
          · rw [if_neg h3]
            obtain ⟨piece, hp1, hp2⟩ := playback_poll_line_piece alloc junk
              { driver with
                lineno := driver.lineno + 1
                playback_file := some (gzgetdelim alloc junk none 0 ' ' f).stream
                next_time_us := flt_var (sscanf (cstr
                  ((gzgetdelim alloc junk none 0 ' ' f).lineptr.getD [])) "%lf").2 0 }
              (gzgetdelim alloc junk none 0 ' ' f).stream now rfl
            refine ⟨taken ++ piece, ?_, DispatchedFrom.append_left taken piece _ hp2⟩
            rw [hu, List.append_assoc, ← hp1]
            exact ht1
      · rw [if_neg h1]
        obtain ⟨piece, hp1, hp2⟩ := playback_poll_line_piece alloc junk
          { driver with lineno := driver.lineno + 1, playback_file := some f } f now rfl
        exact ⟨piece, by rw [hu]; exact hp1, hp2⟩
    · rw [if_neg h0]
      exact ⟨f.data, by rw [hu]; simp [unread], Or.inl rfl⟩

theorem playback_poll_calls (alloc : Nat → Bool) (junk : Char) (driver : SurvivePlaybackData)
    (now : FLT) : (calls (playback_poll alloc junk driver now).2.2).length ≤ 1 := by
  rcases playback_poll_outcome alloc junk driver now with ⟨h1, _⟩ | ⟨line, op, d1, _, h2⟩
  · rw [h1]
    simp [calls]
  · rw [h2]
    exact playback_dispatch_calls line op d1

/-- The run of C6, without the condition on its steps. -/
theorem playback_run_pieces (alloc : Nat → Bool) (junk : Char) :
    ∀ (nows : List FLT) (driver : SurvivePlaybackData),
      (∀ outs ∈ (playback_run alloc junk driver nows).2, (calls outs).length ≤ 1)
      ∧ ∃ pieces : List (List Char),
          unread driver = pieces.flatten ++ unread (playback_run alloc junk driver nows).1
          ∧ List.Forall₂ DispatchedFrom pieces (playback_run alloc junk driver nows).2 := by
  intro nows
  induction nows with
  | nil =>
    intro driver
    exact ⟨by simp [playback_run], [], by simp [playback_run], List.Forall₂.nil⟩
  | cons now rest ih =>
    intro driver
    obtain ⟨hc, pieces, hp1, hp2⟩ := ih (playback_poll alloc junk driver now).2.1
    obtain ⟨piece, hq1, hq2⟩ := playback_poll_piece alloc junk driver now
    rw [playback_run]
    refine ⟨?_, piece :: pieces, ?_, List.Forall₂.cons hq2 hp2⟩
    · intro outs ho
      rcases List.mem_cons.mp ho with e | e
      · rw [e]
        exact playback_poll_calls alloc junk driver now
      · exact hc outs e
    · rw [hq1, hp1]
      simp

/-- C6.  For every session, whatever log its source holds, and every sequence of polls, at
any clock readings, in which no handler stores a token past the end of its buffer (no poll
lets out `undefined`; behind such a step C fixes no behaviour): each poll makes at most one
call of the consumer interface; and the polls take consecutive pieces of the unread log, one
after the other (`pieces`; together with what is still unread at the end they make up the
unread log), each poll letting out nothing or the outcome of the dispatch of one line that
is a segment of its own piece.  So the lines dispatched lie in the log in the order of their
dispatch and no two of them overlap: no line is dispatched twice or before an
earlier-recorded dispatched line. -/
theorem playback_run_in_order (alloc : Nat → Bool) (junk : Char) (nows : List FLT)
    (driver : SurvivePlaybackData)
    (hdef : ∀ outs ∈ (playback_run alloc junk driver nows).2, Out.undefined ∉ outs) :
    (∀ outs ∈ (playback_run alloc junk driver nows).2, (calls outs).length ≤ 1)
    ∧ ∃ pieces : List (List Char),
        unread driver = pieces.flatten ++ unread (playback_run alloc junk driver nows).1
        ∧ List.Forall₂ DispatchedFrom pieces (playback_run alloc junk driver nows).2 := by
  have _ := hdef
  exact playback_run_pieces alloc junk nows driver

/-- C6: an instance.  Two sync records of the registered device `T20` and three polls at
the clock reading 1: no poll overruns a buffer, each makes at most one call, and the polls
take consecutive pieces of the log. -/
theorem playback_run_in_order_witness :
    (∀ outs ∈ (playback_run (fun _ => true) 'x'
        (playback_start ["T20".toList]
          "0.000000 T20 Y 1 10 1 0\n0.500000 T20 Y 1 20 1 0\n".toList (FLT.num 1 0) false)
        [FLT.num 1 0, FLT.num 1 0, FLT.num 1 0]).2, (calls outs).length ≤ 1)
    ∧ ∃ pieces : List (List Char),
        unread (playback_start ["T20".toList]
          "0.000000 T20 Y 1 10 1 0\n0.500000 T20 Y 1 20 1 0\n".toList (FLT.num 1 0) false)
          = pieces.flatten ++ unread (playback_run (fun _ => true) 'x'
              (playback_start ["T20".toList]
                "0.000000 T20 Y 1 10 1 0\n0.500000 T20 Y 1 20 1 0\n".toList (FLT.num 1 0) false)
              [FLT.num 1 0, FLT.num 1 0, FLT.num 1 0]).1
        ∧ List.Forall₂ DispatchedFrom pieces (playback_run (fun _ => true) 'x'
            (playback_start ["T20".toList]
              "0.000000 T20 Y 1 10 1 0\n0.500000 T20 Y 1 20 1 0\n".toList (FLT.num 1 0) false)
            [FLT.num 1 0, FLT.num 1 0, FLT.num 1 0]).2 :=
  playback_run_in_order (fun _ => true) 'x' [FLT.num 1 0, FLT.num 1 0, FLT.num 1 0]
    (playback_start ["T20".toList]
      "0.000000 T20 Y 1 10 1 0\n0.500000 T20 Y 1 20 1 0\n".toList (FLT.num 1 0) false)
    (by decide)

/-! ### Printing and reading numbers -/

theorem digitChar_spec (d : Nat) :
    isdigit (digitChar d) = true ∧ digitVal (digitChar d) = d % 10
    ∧ isspace (digitChar d) = false ∧ digitChar d ≠ '-' ∧ digitChar d ≠ '+'
    ∧ digitChar d ≠ '.' ∧ digitChar d ≠ NUL := by
  unfold digitChar
  have h := Nat.mod_lt d (by decide : 10 > 0)
  generalize d % 10 = k at h
  interval_cases k <;> decide

/-- The digits `fmt_u_aux` puts in front of `acc`: at least one, all of them digits, and
read back they append the value `n` to what has been read. -/
theorem fmt_u_aux_spec :
    ∀ (fuel n : Nat), n < fuel →
      ∃ ds : List Char, ds ≠ [] ∧ (∀ c ∈ ds, isdigit c = true)
        ∧ (∀ acc, fmt_u_aux fuel n acc = ds ++ acc)
        ∧ ∀ tail a cnt, scan_digits (ds ++ tail) a cnt
            = scan_digits tail (a * 10 ^ ds.length + n) (cnt + ds.length) := by
  intro fuel
  induction fuel with
  | zero => intro n h; omega
  | succ k ih =>
    intro n hn
    have hs := digitChar_spec n
    by_cases h10 : n < 10
    · refine ⟨[digitChar n], by simp, by simp [hs.1], ?_, ?_⟩
      · intro acc
        simp [fmt_u_aux, h10]
      · intro tail a cnt
        simp only [List.singleton_append, scan_digits, hs.1, if_true, hs.2.1, List.length_singleton,
          pow_one, Nat.mod_eq_of_lt h10]
        rfl
    · obtain ⟨ds, h1, h2, h3, h4⟩ := ih (n / 10) (by omega)
      refine ⟨ds ++ [digitChar n], by simp, ?_, ?_, ?_⟩
      · intro c hc
        rcases List.mem_append.mp hc with h | h
        · exact h2 c h
        · simp only [List.mem_singleton] at h
          rw [h]
          exact hs.1
      · intro acc
        simp [fmt_u_aux, h10, h3]
      · intro tail a cnt
        rw [List.append_assoc, h4]
        simp only [List.singleton_append, scan_digits, hs.1, if_true, hs.2.1, List.length_append,
          List.length_singleton]
        congr 1
        · rw [pow_succ]
          have := Nat.div_add_mod n 10
          nlinarith [Nat.div_add_mod n 10]

theorem fmt_u_spec (n : Nat) :
    ∃ ds : List Char, ds ≠ [] ∧ (∀ c ∈ ds, isdigit c = true) ∧ fmt_u n = ds
      ∧ ∀ tail a cnt, scan_digits (ds ++ tail) a cnt
          = scan_digits tail (a * 10 ^ ds.length + n) (cnt + ds.length) := by
  obtain ⟨ds, h1, h2, h3, h4⟩ := fmt_u_aux_spec (n + 1) n (by omega)
  exact ⟨ds, h1, h2, by simp [fmt_u, h3], h4⟩

theorem scan_digits_stop (rest : List Char) (h : NoDigitAhead rest) (a cnt : Nat) :
    scan_digits rest a cnt = (a, cnt, rest) := by
  cases rest with
  | nil => rfl
  | cons c cs =>
    have hc : isdigit c = false := h c (by simp)
    simp [scan_digits, hc]

theorem scan_sign_digit (c : Char) (cs : List Char) (h : isdigit c = true) :
    scan_sign (c :: cs) = (false, c :: cs) := by
  have h1 : c ≠ '-' := by rintro rfl; revert h; decide
  have h2 : c ≠ '+' := by rintro rfl; revert h; decide
  unfold scan_sign
  split
  · rename_i heq
    simp only [List.cons.injEq] at heq
    exact absurd heq.1 h1
  · rename_i heq
    simp only [List.cons.injEq] at heq
    exact absurd heq.1 h2
  · rfl

theorem isspace_of_isdigit (c : Char) (h : isdigit c = true) : isspace c = false := by
  simp only [isdigit, decide_eq_true_eq] at h
  simp only [isspace, Bool.or_eq_false_iff, decide_eq_false_iff_not]
  refine ⟨⟨⟨⟨⟨?_, ?_⟩, ?_⟩, ?_⟩, ?_⟩, ?_⟩ <;> rintro rfl <;> revert h <;> decide

theorem skipws_cons_of_not_space (c : Char) (cs : List Char) (h : isspace c = false) :
    skipws (c :: cs) = c :: cs := by
  simp [skipws, h]

theorem skipws_cons_of_space (c : Char) (cs : List Char) (h : isspace c = true) :
    skipws (c :: cs) = skipws cs := by
  simp [skipws, h]

/-- The text of `%u` is read back by an integer conversion as the number printed. -/
theorem scan_integer_fmt_u (n : Nat) (rest : List Char) (h : NoDigitAhead rest) :
    ∃ d ds, fmt_u n ++ rest = d :: ds ∧ isdigit d = true
      ∧ scan_integer (d :: ds) = some ((n : Int), rest) := by
  obtain ⟨ds, h1, h2, h3, h4⟩ := fmt_u_spec n
  obtain ⟨d, ds1, rfl⟩ : ∃ d ds1, ds = d :: ds1 := by
    cases ds with
    | nil => exact absurd rfl h1
    | cons d ds1 => exact ⟨d, ds1, rfl⟩
  have hd : isdigit d = true := h2 d (by simp)
  refine ⟨d, ds1 ++ rest, by rw [h3]; rfl, hd, ?_⟩
  have e := h4 rest 0 0
  rw [scan_digits_stop rest h] at e
  simp only [List.cons_append] at e
  simp only [scan_integer, scan_sign_digit d _ hd, e, List.length_cons]
  simp

/-- The text of `%d` is read back by an integer conversion as the number printed. -/
theorem scan_integer_fmt_d (i : Int) (rest : List Char) (h : NoDigitAhead rest) :
    ∃ d ds, fmt_d i ++ rest = d :: ds ∧ isspace d = false
      ∧ scan_integer (d :: ds) = some (i, rest) := by
  obtain ⟨d, ds, e1, e2, e3⟩ := scan_integer_fmt_u i.natAbs rest h
  by_cases hi : i < 0
  · refine ⟨'-', d :: ds, by simp [fmt_d, hi, e1], by decide, ?_⟩
    obtain ⟨ds0, h1, h2, h3, h4⟩ := fmt_u_spec i.natAbs
    have e := h4 rest 0 0
    rw [h3] at e1
    rw [scan_digits_stop rest h, e1] at e
    have hlen : ds0.length ≠ 0 := by
      intro k
      exact h1 (List.length_eq_zero.mp k)
    obtain ⟨j, hj⟩ := Nat.exists_eq_succ_of_ne_zero hlen
    simp only [scan_integer, scan_sign, e, hj]
    simp only [Nat.zero_add, zero_mul, Nat.succ_eq_add_one, if_true, Option.some.injEq,
      Prod.mk.injEq, and_true]
    show -((i.natAbs : Nat) : Int) = i
    omega
  · refine ⟨d, ds, by simp [fmt_d, hi, e1], isspace_of_isdigit d e2, ?_⟩
    rw [e3]
    simp only [Option.some.injEq, Prod.mk.injEq, and_true]
    omega

theorem scan_conv_u_fmt_u (bits n : Nat) (rest : List Char) (h : NoDigitAhead rest) :
    scan_conv (.u bits) (fmt_u n ++ rest) = .ok (.int (toUnsigned bits n)) rest := by
  obtain ⟨d, ds, e1, e2, e3⟩ := scan_integer_fmt_u n rest h
  rw [e1]
  simp only [scan_conv, skipws_cons_of_not_space d ds (isspace_of_isdigit d e2), e3]

theorem scan_conv_u_fmt_d (bits : Nat) (i : Int) (rest : List Char) (h : NoDigitAhead rest) :
    scan_conv (.u bits) (fmt_d i ++ rest) = .ok (.int (toUnsigned bits i)) rest := by
  obtain ⟨d, ds, e1, e2, e3⟩ := scan_integer_fmt_d i rest h
  rw [e1]
  simp only [scan_conv, skipws_cons_of_not_space d ds e2, e3]

theorem scan_conv_d_fmt_d (i : Int) (rest : List Char) (h : NoDigitAhead rest) :
    scan_conv .d (fmt_d i ++ rest) = .ok (.int (toSigned 32 i)) rest := by
  obtain ⟨d, ds, e1, e2, e3⟩ := scan_integer_fmt_d i rest h
  rw [e1]
  simp only [scan_conv, skipws_cons_of_not_space d ds e2, e3]

theorem scan_conv_d_fmt_u (n : Nat) (rest : List Char) (h : NoDigitAhead rest) :
    scan_conv .d (fmt_u n ++ rest) = .ok (.int (toSigned 32 n)) rest := by
  obtain ⟨d, ds, e1, e2, e3⟩ := scan_integer_fmt_u n rest h
  rw [e1]
  simp only [scan_conv, skipws_cons_of_not_space d ds (isspace_of_isdigit d e2), e3]

theorem skipws_fmt_u (n : Nat) (rest : List Char) :
    skipws (fmt_u n ++ rest) = fmt_u n ++ rest := by
  obtain ⟨ds, h1, h2, h3, _⟩ := fmt_u_spec n
  rw [h3]
  cases ds with
  | nil => exact absurd rfl h1
  | cons d ds1 =>
    exact skipws_cons_of_not_space d _ (isspace_of_isdigit d (h2 d (by simp)))

theorem skipws_fmt_d (i : Int) (rest : List Char) :
    skipws (fmt_d i ++ rest) = fmt_d i ++ rest := by
  unfold fmt_d
  split_ifs
  · rfl
  · exact skipws_fmt_u _ rest

/-- A word is read by `%s` up to the white space that follows it. -/
theorem scan_word_token (width : Option Nat) (tok : List Char) (c : Char) (rest : List Char)
    (hw : ∀ w, width = some w → tok.length ≤ w) (htok : ∀ x ∈ tok, isspace x = false)
    (hc : isspace c = true) :
    scan_word width (tok ++ c :: rest) = (tok, c :: rest) := by
  induction tok generalizing width with
  | nil =>
    cases width with
    | none => simp [scan_word, hc]
    | some w =>
      cases w with
      | zero => simp [scan_word]
      | succ j => simp [scan_word, hc]
  | cons a t ih =>
    have ha : isspace a = false := htok a (by simp)
    have iht := ih (width.map (· - 1))
      (by
        intro w hw1
        cases width with
        | none => simp at hw1
        | some w0 =>
          simp only [Option.map_some', Option.some.injEq] at hw1
          have := hw w0 rfl
          simp only [List.length_cons] at this
          omega)
      (fun x hx => htok x (by simp [hx]))
    cases width with
    | none =>
      simp only [Option.map_none'] at iht
      simp [scan_word, ha, iht]
    | some w =>
      cases w with
      | zero =>
        have := hw 0 rfl
        simp at this
      | succ j =>
        simp only [Option.map_some', Nat.add_sub_cancel] at iht
        simp [scan_word, ha, iht]

theorem scan_conv_s_token (width : Option Nat) (tok : List Char) (c : Char) (rest : List Char)
    (hne : tok ≠ []) (hw : ∀ w, width = some w → tok.length ≤ w)
    (htok : ∀ x ∈ tok, isspace x = false) (hc : isspace c = true) :
    scan_conv (.s width) (tok ++ c :: rest) = .ok (.str tok) (c :: rest) := by
  have hword := scan_word_token width tok c rest hw htok hc
  cases tok with
  | nil => exact absurd rfl hne
  | cons a t =>
    have ha : isspace a = false := htok a (by simp)
    simp only [List.cons_append] at hword ⊢
    simp only [scan_conv, skipws_cons_of_not_space a _ ha, hword]

theorem toUnsigned_of_lt (bits n : Nat) (h : n < 2 ^ bits) : toUnsigned bits (n : Int) = n := by
  unfold toUnsigned
  have : ((n : Int) % 2 ^ bits) = (n : Int) := by
    apply Int.emod_eq_of_lt (by omega)
    exact_mod_cast h
  rw [this]
  simp

theorem noDigitAhead_space (c : Char) (cs : List Char) (h : isspace c = true) :
    NoDigitAhead (c :: cs) := by
  intro x hx
  simp only [List.head?_cons, Option.mem_def, Option.some.injEq] at hx
  subst hx
  cases hd : isdigit c with
  | false => rfl
  | true => rw [isspace_of_isdigit c hd] at h; cases h

theorem noDigitAhead_nil : NoDigitAhead [] := by
  intro x hx
  simp at hx

theorem survive_get_so_by_name_mem (objects : List (List Char)) (dev : List Char)
    (h : dev ∈ objects) : survive_get_so_by_name objects dev = some dev := by
  unfold survive_get_so_by_name
  induction objects with
  | nil => simp at h
  | cons o t ih =>
    by_cases ho : o = dev
    · simp [List.find?, ho]
    · have ht : dev ∈ t := by
        rcases List.mem_cons.mp h with e | e
        · exact absurd e.symm ho
        · exact e
      simp [List.find?, ho, ih ht]

theorem parse_format_sync : parse_format SYNC_SCANF =
    [.conv (.s none), .lit ' ', .lit 'Y', .lit ' ', .conv (.u 8), .lit ' ', .conv (.u 32),
     .lit ' ', .conv (.u 8), .lit ' ', .conv (.u 8), .lit '\n'] := by
  decide

theorem sscanf_dirs_conv (sp : Spec) (ds : List Dir) (s rest : List Char) (v : Arg)
    (vs : List Arg) (e : ScanEnd) (h : scan_conv sp s = .ok v rest)
    (hrest : sscanf_dirs ds rest = (vs, e)) :
    sscanf_dirs (.conv sp :: ds) s = (v :: vs, e) := by
  simp only [sscanf_dirs, h, hrest]

theorem sscanf_dirs_ws (c : Char) (ds : List Dir) (s : List Char) (r : List Arg × ScanEnd)
    (hc : isspace c = true) (hrest : sscanf_dirs ds (skipws s) = r) :
    sscanf_dirs (.lit c :: ds) s = r := by
  simp only [sscanf_dirs, hc, if_true, hrest]

theorem sscanf_dirs_lit (c : Char) (ds : List Dir) (s : List Char) (r : List Arg × ScanEnd)
    (hc : isspace c = false) (hrest : sscanf_dirs ds s = r) :
    sscanf_dirs (.lit c :: ds) (c :: s) = r := by
  simp only [sscanf_dirs, hc, Bool.false_eq_true, if_false, if_true, hrest]

theorem sscanf_of_dirs (s : List Char) (fmt : String) (dirs : List Dir) (n : Int) (v : Arg)
    (vs : List Arg) (e : ScanEnd) (hfmt : parse_format fmt = dirs)
    (hn : n = (((v :: vs).length : Nat) : Int)) (h : sscanf_dirs dirs s = (v :: vs, e)) :
    sscanf s fmt = (n, v :: vs) := by
  simp only [sscanf, hfmt, h, hn]
  simp

/-- The end of a record, where the text stops or its newline stands: the trailing newline
of a format matches either. -/
theorem sscanf_dirs_end (tail : List Char) (htail : tail = [] ∨ tail = ['\n']) :
    NoDigitAhead tail ∧ sscanf_dirs [.lit '\n'] tail = ([], .done) := by
  rcases htail with rfl | rfl
  · exact ⟨noDigitAhead_nil, by decide⟩
  · exact ⟨noDigitAhead_space _ _ (by decide), by decide⟩

theorem scan_conv_u_bool (b : Bool) (rest : List Char) (h : NoDigitAhead rest) :
    scan_conv (.u 8) ((if b then '1' else '0') :: rest)
      = .ok (.int (if b then 1 else 0)) rest := by
  cases b
  · have := scan_conv_u_fmt_u 8 0 rest h
    simpa [fmt_u, fmt_u_aux, digitChar, toUnsigned] using this
  · have := scan_conv_u_fmt_u 8 1 rest h
    simpa [fmt_u, fmt_u_aux, digitChar, toUnsigned] using this

theorem scan_conv_u_fmt_u_lt (bits n : Nat) (rest : List Char) (h : NoDigitAhead rest)
    (hn : n < 2 ^ bits) : scan_conv (.u bits) (fmt_u n ++ rest) = .ok (.int n) rest := by
  rw [scan_conv_u_fmt_u bits n rest h, toUnsigned_of_lt bits n hn]

/-- The text of a sync record, with or without its newline, read with `SYNC_SCANF`. -/
theorem sscanf_sync_text (dev : List Char) (channel timecode : Nat) (ootx gen : Bool)
    (tail : List Char) (hne : dev ≠ []) (hdev : ∀ c ∈ dev, isspace c = false)
    (hch : channel < 256) (htc : timecode < 2 ^ 32) (htail : tail = [] ∨ tail = ['\n']) :
    sscanf (dev ++ ' ' :: 'Y' :: ' ' :: (fmt_u channel ++ ' ' :: (fmt_u timecode
        ++ ' ' :: (if ootx then '1' else '0') :: ' ' :: (if gen then '1' else '0') :: tail)))
      SYNC_SCANF
      = (5, [.str dev, .int channel, .int timecode, .int (if ootx then 1 else 0),
          .int (if gen then 1 else 0)]) := by
  have hsp : isspace ' ' = true := by decide
  have hY : isspace 'Y' = false := by decide
  have hnl : isspace '\n' = true := by decide
  obtain ⟨ht1, ht2⟩ := sscanf_dirs_end tail htail
  have hbool : ∀ b : Bool, isspace (if b then '1' else '0') = false := by decide
  refine sscanf_of_dirs _ _ _ _ _ _ .done parse_format_sync rfl ?_
  refine sscanf_dirs_conv _ _ _ _ _ _ _
    (scan_conv_s_token none dev ' ' _ hne (by intro w h; cases h) hdev hsp) ?_
  refine sscanf_dirs_ws _ _ _ _ hsp ?_
  rw [skipws_cons_of_space ' ' _ hsp, skipws_cons_of_not_space 'Y' _ hY]
  refine sscanf_dirs_lit _ _ _ _ hY ?_
  refine sscanf_dirs_ws _ _ _ _ hsp ?_
  rw [skipws_cons_of_space ' ' _ hsp, skipws_fmt_u]
  refine sscanf_dirs_conv _ _ _ _ _ _ _
    (scan_conv_u_fmt_u_lt 8 channel _ (noDigitAhead_space ' ' _ hsp) hch) ?_
  refine sscanf_dirs_ws _ _ _ _ hsp ?_
  rw [skipws_cons_of_space ' ' _ hsp, skipws_fmt_u]
  refine sscanf_dirs_conv _ _ _ _ _ _ _
    (scan_conv_u_fmt_u_lt 32 timecode _ (noDigitAhead_space ' ' _ hsp) htc) ?_
  refine sscanf_dirs_ws _ _ _ _ hsp ?_
  rw [skipws_cons_of_space ' ' _ hsp, skipws_cons_of_not_space _ _ (hbool ootx)]
  refine sscanf_dirs_conv _ _ _ _ _ _ _
    (scan_conv_u_bool ootx _ (noDigitAhead_space ' ' _ hsp)) ?_
  refine sscanf_dirs_ws _ _ _ _ hsp ?_
  rw [skipws_cons_of_space ' ' _ hsp, skipws_cons_of_not_space _ _ (hbool gen)]
  refine sscanf_dirs_conv _ _ _ _ _ _ _ (scan_conv_u_bool gen _ ht1) ?_
  exact ht2

/-! ### C2 -/

theorem sprintf_timestamp (ts : FLT) : sprintf "%0.6f " [.flt ts] = fmt_f6 ts ++ [' '] := by
  have h : parse_format "%0.6f " = [.conv .f, .lit ' '] := by decide
  simp [sprintf, h, sprintf_dirs, fmt_conv]

theorem fmt_u_bool (b : Bool) :
    fmt_u (toUnsigned 8 (if b then 1 else 0)) = [if b then '1' else '0'] := by
  cases b <;> decide

theorem sprintf_sync (dev : List Char) (channel timecode : Nat) (ootx gen : Bool)
    (hch : channel < 256) (htc : timecode < 2 ^ 32) :
    sprintf SYNC_PRINTF [.str dev, .int channel, .int timecode, ofBool ootx, ofBool gen]
      = sync_text dev channel timecode ootx gen ['\n'] := by
  have h : parse_format SYNC_PRINTF = parse_format SYNC_SCANF := rfl
  simp only [sprintf, h, parse_format_sync, sprintf_dirs, fmt_conv, ofBool,
    toUnsigned_of_lt 8 channel hch, toUnsigned_of_lt 32 timecode htc, sync_text]
  rw [fmt_u_bool ootx, fmt_u_bool gen]
  simp

theorem write_to_output_some (r : Recorder) (rd : SurviveRecordingData) (ts : FLT)
    (format : String) (args : List Arg) (hr : r.recptr = some rd) :
    write_to_output r ts format args
      = { recptr := some { rd with
            output_file := rd.output_file.map
              (fun w => w ++ (fmt_f6 ts ++ [' ']) ++ sprintf format args) }
          stdout := if rd.alwaysWriteStdOut
            then r.stdout ++ (fmt_f6 ts ++ [' ']) ++ sprintf format args else r.stdout } := by
  simp only [write_to_output, hr, sprintf_timestamp]
  cases rd with
  | mk a b c d e w => cases w <;> simp

/-- C2.  Sync round trip.  For every device name of 1 to 9 characters, none of them white
space, every channel of 8 bits, every time code of 32 bits and every `ootx`, `gen`:
(1) with a recording session present, `survive_recording_sync_process` appends to each
sink in use the time stamp (`%0.6f` and a space) followed by exactly the text
`<dev> Y <channel> <timecode> <ootx> <gen>` and a newline;
(2) `sscanf` with `SYNC_SCANF` converts 5 values from that text;
(3) when the device is registered, `parse_and_run_sync` applied to that text returns 0 and
makes the one call `syncproc(dev, channel, timecode, ootx, gen)` with exactly those
values, the session unchanged. -/
theorem sync_round_trip (r : Recorder) (rd : SurviveRecordingData) (ts : FLT)
    (dev : List Char) (channel timecode : Nat) (ootx gen : Bool) (driver : SurvivePlaybackData)
    (hr : r.recptr = some rd) (hlen : 1 ≤ dev.length ∧ dev.length ≤ 9)
    (hdev : ∀ c ∈ dev, isspace c = false) (hch : channel < 256) (htc : timecode < 2 ^ 32) :
    survive_recording_sync_process r ts dev channel timecode ootx gen
      = { recptr := some { rd with
            output_file := rd.output_file.map
              (fun w => w ++ (fmt_f6 ts ++ [' '])
                ++ sync_text dev channel timecode ootx gen ['\n']) }
          stdout := if rd.alwaysWriteStdOut
            then r.stdout ++ (fmt_f6 ts ++ [' '])
              ++ sync_text dev channel timecode ootx gen ['\n']
            else r.stdout }
    ∧ (sscanf (sync_text dev channel timecode ootx gen ['\n']) SYNC_SCANF).1 = 5
    ∧ (dev ∈ driver.objects →
        parse_and_run_sync (sync_text dev channel timecode ootx gen ['\n']) driver
          = (0, driver, [.call (.syncproc dev channel timecode ootx gen)])) := by
  have hne : dev ≠ [] := by
    intro e
    rw [e] at hlen
    simp at hlen
  have hs := sscanf_sync_text dev channel timecode ootx gen ['\n'] hne hdev hch htc (Or.inr rfl)
  refine ⟨?_, ?_, ?_⟩
  · rw [survive_recording_sync_process, write_to_output_some r rd ts _ _ hr,
      sprintf_sync dev channel timecode ootx gen hch htc]
  · simp only [sync_text, hs]
  · intro hmem
    have hbo : ∀ b : Bool, (toUnsigned 8 (if b then 1 else 0) != 0) = b := by decide
    simp only [sync_text] at hs ⊢
    simp only [parse_and_run_sync, hs, ne_eq, not_true_eq_false, if_false, find_or_warn,
      str_var, arg_str, List.get?_cons_zero, Option.getD_some,
      survive_get_so_by_name_mem driver.objects dev hmem, int_var, arg_int, List.get?_cons_succ,
      toUnsigned_of_lt 8 channel hch, toUnsigned_of_lt 32 timecode htc, hbo, List.nil_append]
    rw [if_neg (Nat.not_lt.mpr hlen.2)]

/-- C2: an instance.  The device `T20`, channel 3, time code 70000, `ootx` set, `gen`
clear: the text read back calls `syncproc` with these values. -/
theorem sync_round_trip_witness :
    parse_and_run_sync "T20 Y 3 70000 1 0\n".toList (playback_start ["T20".toList] [] (FLT.num 1 0) false)
      = (0, playback_start ["T20".toList] [] (FLT.num 1 0) false,
          [.call (.syncproc "T20".toList 3 70000 true false)]) :=
  (sync_round_trip ⟨some ⟨false, true, true, false, true, some []⟩, []⟩
    ⟨false, true, true, false, true, some []⟩ (FLT.num 0 0) "T20".toList 3 70000 true false
    (playback_start ["T20".toList] [] (FLT.num 1 0) false) rfl (by decide) (by decide) (by decide)
    (by decide)).2.2 (by decide)

/-! ### Printing and reading numbers with six decimals -/

theorem EndOfToken.noDigitAhead (rest : List Char) (h : EndOfToken rest) : NoDigitAhead rest := by
  intro c hc
  have := h c hc
  cases hd : isdigit c with
  | false => rfl
  | true => rw [isspace_of_isdigit c hd] at this; cases this

theorem endOfToken_nil : EndOfToken [] := by
  intro c hc
  simp at hc

theorem endOfToken_cons (c : Char) (cs : List Char) (h : isspace c = true) :
    EndOfToken (c :: cs) := by
  intro x hx
  simp only [List.head?_cons, Option.mem_def, Option.some.injEq] at hx
  subst hx
  exact h

theorem scan_exponent_end (rest : List Char) (h : EndOfToken rest) : scan_exponent rest = none := by
  cases rest with
  | nil => rfl
  | cons c cs =>
    have hc : isspace c = true := h c (by simp)
    have h1 : c ≠ 'e' := by rintro rfl; revert hc; decide
    have h2 : c ≠ 'E' := by rintro rfl; revert hc; decide
    simp [scan_exponent, h1, h2]

theorem scan_digits_pad6 (k : Nat) (hk : k < 1000000) (rest : List Char) (a cnt : Nat) :
    scan_digits (pad6 k ++ rest) a cnt = scan_digits rest (a * 1000000 + k) (cnt + 6) := by
  simp only [pad6, List.cons_append, List.nil_append, scan_digits, (digitChar_spec _).1,
    (digitChar_spec _).2.1, if_true]
  congr 1
  omega

theorem noDigitAhead_point (rest : List Char) : NoDigitAhead ('.' :: rest) := by
  intro c hc
  simp only [List.head?_cons, Option.mem_def, Option.some.injEq] at hc
  subst hc
  decide

theorem scan_digits_fmt_u_point (n : Nat) (tail : List Char) :
    ∃ k, scan_digits (fmt_u n ++ '.' :: tail) 0 0 = (n, k + 1, '.' :: tail) := by
  obtain ⟨ds, h1, _, h3, h4⟩ := fmt_u_spec n
  have hlen : ds.length ≠ 0 := fun e => h1 (List.length_eq_zero.mp e)
  obtain ⟨j, hj⟩ := Nat.exists_eq_succ_of_ne_zero hlen
  refine ⟨j, ?_⟩
  rw [h3, h4, scan_digits_stop _ (noDigitAhead_point tail), hj]
  simp

theorem tolower_of_isdigit (c : Char) (h : isdigit c = true) : tolower c = c := by
  simp only [isdigit, decide_eq_true_eq] at h
  unfold tolower
  rw [if_neg (by omega)]

theorem isdigit_toNat (c : Char) (h : isdigit c = true) : 48 ≤ c.toNat ∧ c.toNat ≤ 57 := by
  simpa [isdigit] using h

/-- A text that starts with a digit spells no special value. -/
theorem scan_special_of_isdigit (negative : Bool) (d : Char) (t : List Char)
    (h : isdigit d = true) : scan_special negative (d :: t) = none := by
  have hl := tolower_of_isdigit d h
  have hb := isdigit_toNat d h
  have hi : d ≠ 'i' := by rintro rfl; revert hb; decide
  have hn : d ≠ 'n' := by rintro rfl; revert hb; decide
  simp [scan_special, strip_word, hl, hi, hn]

/-- A text whose second character is neither `x` nor `X` has no hexadecimal form. -/
theorem scan_hex_of_second (negative : Bool) (d c : Char) (t : List Char)
    (h1 : c ≠ 'x') (h2 : c ≠ 'X') : scan_hex negative (d :: c :: t) = none := by
  simp [scan_hex, h1, h2]

/-- On a text that starts, behind its sign, with a digit followed by a character other
than `x` and `X`, the floating-point subject is the decimal one. -/
theorem scan_float_decimal (s : List Char) (d c : Char) (t : List Char)
    (hs : (scan_sign s).2 = d :: c :: t) (hd : isdigit d = true) (h1 : c ≠ 'x')
    (h2 : c ≠ 'X') : scan_float s = scan_decimal s := by
  simp only [scan_float, hs, scan_special_of_isdigit _ d _ hd, scan_hex_of_second _ d c t h1 h2]

/-- The digits of `n` and the point behind them: a digit, then a character that is a digit
or the point. -/
theorem fmt_u_point_shape (n : Nat) (tail : List Char) :
    ∃ d c t, fmt_u n ++ '.' :: tail = d :: c :: t ∧ isdigit d = true ∧ c ≠ 'x' ∧ c ≠ 'X' := by
  obtain ⟨ds, h1, h2, h3, _⟩ := fmt_u_spec n
  rw [h3]
  cases ds with
  | nil => exact absurd rfl h1
  | cons d ds1 =>
    cases ds1 with
    | nil => exact ⟨d, '.', tail, rfl, h2 d (by simp), by decide, by decide⟩
    | cons c ds2 =>
      have hc := isdigit_toNat c (h2 c (by simp))
      exact ⟨d, c, ds2 ++ '.' :: tail, rfl, h2 d (by simp),
        by rintro rfl; revert hc; decide, by rintro rfl; revert hc; decide⟩

/-- Behind the end of a token no word goes on and no parenthesis opens. -/
theorem strip_word_end (rest : List Char) (h : EndOfToken rest) :
    strip_word ['i', 'n', 'i', 't', 'y'] rest = none ∧ ∀ cs, rest ≠ '(' :: cs := by
  cases rest with
  | nil => exact ⟨rfl, fun cs e => by cases e⟩
  | cons c cs =>
    have hc : isspace c = true := h c (by simp)
    simp only [isspace, Bool.or_eq_true, decide_eq_true_eq] at hc
    constructor
    · rcases hc with ((((rfl | rfl) | rfl) | rfl) | rfl) | rfl <;> rfl
    · intro cs1 e
      have e1 : c = '(' := (List.cons.inj e).1
      rw [e1] at hc
      revert hc
      decide

/-- The text of `%0.6f` is read back by a floating-point conversion as the value to six
decimals: a number rounded, a special value as it is. -/
theorem scan_float_fmt_f6 (x : FLT) (rest : List Char) (h : EndOfToken rest) :
    scan_float (fmt_f6 x ++ rest) = some (x.round6, rest) := by
  cases x with
  | num m s =>
    simp only [fmt_f6, FLT.round6]
    generalize (FLT.num m s).micro = mic
    have hmicro : mic / 1000000 * 1000000 + mic % 1000000 = mic := Nat.div_add_mod' mic 1000000
    obtain ⟨k, hk⟩ := scan_digits_fmt_u_point (mic / 1000000) (pad6 (mic % 1000000) ++ rest)
    have hfrac := scan_digits_pad6 (mic % 1000000) (Nat.mod_lt _ (by decide)) rest
      (mic / 1000000) 0
    rw [hmicro, scan_digits_stop rest h.noDigitAhead] at hfrac
    obtain ⟨d, ds, e1, e2, _⟩ := scan_integer_fmt_u (mic / 1000000)
      ('.' :: (pad6 (mic % 1000000) ++ rest)) (noDigitAhead_point _)
    obtain ⟨d1, c1, t1, g1, g2, g3, g4⟩ := fmt_u_point_shape (mic / 1000000)
      (pad6 (mic % 1000000) ++ rest)
    by_cases hneg : m < 0
    · have htext : (if m < 0 then ['-'] else []) ++ fmt_u (mic / 1000000)
            ++ '.' :: pad6 (mic % 1000000) ++ rest
          = '-' :: (fmt_u (mic / 1000000) ++ '.' :: (pad6 (mic % 1000000) ++ rest)) := by
        simp [hneg]
      rw [htext, scan_float_decimal _ d1 c1 t1 (by simp only [scan_sign]; exact g1) g2 g3 g4]
      simp only [scan_decimal, scan_sign, hk, hfrac, scan_exponent_end rest h, hneg, if_true]
      simp
    · have htext : (if m < 0 then ['-'] else []) ++ fmt_u (mic / 1000000)
            ++ '.' :: pad6 (mic % 1000000) ++ rest
          = fmt_u (mic / 1000000) ++ '.' :: (pad6 (mic % 1000000) ++ rest) := by
        simp [hneg]
      rw [htext]
      have hs : scan_sign (fmt_u (mic / 1000000) ++ '.' :: (pad6 (mic % 1000000) ++ rest))
          = (false, fmt_u (mic / 1000000) ++ '.' :: (pad6 (mic % 1000000) ++ rest)) := by
        rw [e1]
        exact scan_sign_digit d ds e2
      rw [scan_float_decimal _ d1 c1 t1 (by rw [hs]; exact g1) g2 g3 g4]
      simp only [scan_decimal, hs, hk, hfrac, scan_exponent_end rest h, hneg, if_false]
      simp
  | inf n =>
    obtain ⟨w1, _⟩ := strip_word_end rest h
    have e : strip_word ['i', 'n', 'f'] ('i' :: 'n' :: 'f' :: rest) = some rest := by
      simp [strip_word, tolower]
    have key : ∀ neg, scan_special neg ('i' :: 'n' :: 'f' :: rest)
        = some (FLT.inf neg, rest) := by
      intro neg
      simp only [scan_special, e, w1]
    have s0 : scan_sign ('i' :: 'n' :: 'f' :: rest) = (false, 'i' :: 'n' :: 'f' :: rest) := rfl
    have s1 : scan_sign ('-' :: 'i' :: 'n' :: 'f' :: rest)
        = (true, 'i' :: 'n' :: 'f' :: rest) := rfl
    cases n
    · show scan_float ('i' :: 'n' :: 'f' :: rest) = some (FLT.inf false, rest)
      unfold scan_float
      rw [s0, key]
    · show scan_float ('-' :: 'i' :: 'n' :: 'f' :: rest) = some (FLT.inf true, rest)
      unfold scan_float
      rw [s1, key]
  | nan n =>
    obtain ⟨_, w2⟩ := strip_word_end rest h
    have e0 : strip_word ['i', 'n', 'f'] ('n' :: 'a' :: 'n' :: rest) = none := by
      simp [strip_word, tolower]
    have e : strip_word ['n', 'a', 'n'] ('n' :: 'a' :: 'n' :: rest) = some rest := by
      simp [strip_word, tolower]
    have key : ∀ neg, scan_special neg ('n' :: 'a' :: 'n' :: rest) = some (FLT.nan neg, rest) := by
      intro neg
      simp only [scan_special, e0, e]
    have s0 : scan_sign ('n' :: 'a' :: 'n' :: rest) = (false, 'n' :: 'a' :: 'n' :: rest) := rfl
    have s1 : scan_sign ('-' :: 'n' :: 'a' :: 'n' :: rest)
        = (true, 'n' :: 'a' :: 'n' :: rest) := rfl
    cases n
    · show scan_float ('n' :: 'a' :: 'n' :: rest) = some (FLT.nan false, rest)
      unfold scan_float
      rw [s0, key]
    · show scan_float ('-' :: 'n' :: 'a' :: 'n' :: rest) = some (FLT.nan true, rest)
      unfold scan_float
      rw [s1, key]

theorem fmt_u_tokenChars (n : Nat) : TokenChars (fmt_u n) := by
  obtain ⟨ds, _, h2, h3, _⟩ := fmt_u_spec n
  rw [h3]
  intro c hc
  have hd := h2 c hc
  exact ⟨isspace_of_isdigit c hd, by rintro rfl; revert hd; decide⟩

theorem fmt_d_tokenChars (i : Int) : TokenChars (fmt_d i) := by
  unfold fmt_d
  split_ifs
  · intro c hc
    rcases List.mem_cons.mp hc with e | e
    · rw [e]; decide
    · exact fmt_u_tokenChars _ c e
  · exact fmt_u_tokenChars _

theorem pad6_tokenChars (k : Nat) : TokenChars (pad6 k) := by
  intro c hc
  simp only [pad6, List.mem_cons, List.mem_singleton, List.not_mem_nil, or_false] at hc
  rcases hc with e | e | e | e | e | e <;> rw [e] <;>
    exact ⟨(digitChar_spec _).2.2.1, (digitChar_spec _).2.2.2.2.2.2⟩

theorem tokenChars_of_all (s : List Char)
    (h : s.all (fun c => !isspace c && c != NUL) = true) : TokenChars s := by
  intro c hc
  have := List.all_eq_true.mp h c hc
  simp only [Bool.and_eq_true, Bool.not_eq_true', bne_iff_ne, ne_eq] at this
  exact this

theorem fmt_f6_tokenChars (x : FLT) : TokenChars (fmt_f6 x) := by
  cases x with
  | num m s =>
    intro c hc
    simp only [fmt_f6, List.mem_append, List.mem_cons] at hc
    rcases hc with (hc | hc) | hc | hc
    · split_ifs at hc
      · simp only [List.mem_singleton] at hc
        rw [hc]; decide
      · simp at hc
    · exact fmt_u_tokenChars _ c hc
    · rw [hc]; decide
    · exact pad6_tokenChars _ c hc
  | inf n => cases n <;> exact tokenChars_of_all _ (by decide)
  | nan n => cases n <;> exact tokenChars_of_all _ (by decide)

theorem fmt_f6_ne_nil (x : FLT) : ∃ d ds, fmt_f6 x = d :: ds := by
  cases x with
  | num m s =>
    obtain ⟨ds, h1, _, h3, _⟩ := fmt_u_spec ((FLT.num m s).micro / 1000000)
    cases ds with
    | nil => exact absurd rfl h1
    | cons d ds1 =>
      by_cases hneg : m < 0
      · exact ⟨'-', fmt_u ((FLT.num m s).micro / 1000000)
            ++ '.' :: pad6 ((FLT.num m s).micro % 1000000), by simp [fmt_f6, hneg]⟩
      · exact ⟨d, ds1 ++ '.' :: pad6 ((FLT.num m s).micro % 1000000),
          by simp [fmt_f6, hneg, h3]⟩
  | inf n => cases n <;> exact ⟨_, _, rfl⟩
  | nan n => cases n <;> exact ⟨_, _, rfl⟩

theorem skipws_tokenChars (tok rest : List Char) (hne : tok ≠ []) (h : TokenChars tok) :
    skipws (tok ++ rest) = tok ++ rest := by
  cases tok with
  | nil => exact absurd rfl hne
  | cons a t => exact skipws_cons_of_not_space a _ (h a (by simp)).1

theorem skipws_fmt_f6 (x : FLT) (rest : List Char) :
    skipws (fmt_f6 x ++ rest) = fmt_f6 x ++ rest := by
  obtain ⟨d, ds, e⟩ := fmt_f6_ne_nil x
  exact skipws_tokenChars _ rest (by rw [e]; simp) (fmt_f6_tokenChars x)

theorem scan_conv_f_fmt_f6 (x : FLT) (rest : List Char) (h : EndOfToken rest) :
    scan_conv .f (fmt_f6 x ++ rest) = .ok (.flt x.round6) rest := by
  have hs := scan_float_fmt_f6 x rest h
  have hk := skipws_fmt_f6 x rest
  obtain ⟨d, ds, e⟩ := fmt_f6_ne_nil x
  rw [e] at hs hk ⊢
  simp only [List.cons_append] at hs hk ⊢
  simp only [scan_conv, hk, hs]

/-! ### Formats, field by field -/

theorem skipws_idem : ∀ s : List Char, skipws (skipws s) = skipws s := by
  intro s
  induction s with
  | nil => rfl
  | cons c cs ih =>
    by_cases hc : isspace c = true
    · simp [skipws, hc, ih]
    · simp [skipws, hc]

theorem scan_conv_skipws (sp : Spec) (s : List Char) (hsp : sp ≠ .c) :
    scan_conv sp (skipws s) = scan_conv sp s := by
  cases sp with
  | c => exact absurd rfl hsp
  | s w => simp only [scan_conv, skipws_idem]
  | d => simp only [scan_conv, skipws_idem]
  | u b => simp only [scan_conv, skipws_idem]
  | f => simp only [scan_conv, skipws_idem]

theorem scan_conv_space (sp : Spec) (c : Char) (s : List Char) (hsp : sp ≠ .c)
    (hc : isspace c = true) : scan_conv sp (c :: s) = scan_conv sp s := by
  rw [← scan_conv_skipws sp (c :: s) hsp, skipws_cons_of_space c s hc, scan_conv_skipws sp s hsp]

/-- A field behind a space, read by a conversion. -/
theorem sscanf_dirs_field (sp : Spec) (txt : List Char) (v : Arg) (ds : List Dir)
    (rest : List Char) (vs : List Arg) (e : ScanEnd) (h : ReadsAs sp txt v)
    (hrest : EndOfToken rest) (hds : sscanf_dirs ds rest = (vs, e)) :
    sscanf_dirs (.conv sp :: ds) (' ' :: (txt ++ rest)) = (v :: vs, e) := by
  refine sscanf_dirs_conv sp ds _ rest v vs e ?_ hds
  rw [scan_conv_space sp ' ' _ h.1 (by decide)]
  exact h.2 rest hrest

/-- A field at the start of the text, read by a conversion. -/
theorem sscanf_dirs_field0 (sp : Spec) (txt : List Char) (v : Arg) (ds : List Dir)
    (rest : List Char) (vs : List Arg) (e : ScanEnd) (h : ReadsAs sp txt v)
    (hrest : EndOfToken rest) (hds : sscanf_dirs ds rest = (vs, e)) :
    sscanf_dirs (.conv sp :: ds) (txt ++ rest) = (v :: vs, e) :=
  sscanf_dirs_conv sp ds _ rest v vs e (h.2 rest hrest) hds

/-- White space in the format before a conversion other than `%c` changes nothing. -/
theorem sscanf_dirs_ws_conv (w : Char) (sp : Spec) (ds : List Dir) (s : List Char)
    (r : List Arg × ScanEnd) (hw : isspace w = true) (hsp : sp ≠ .c)
    (h : sscanf_dirs (.conv sp :: ds) s = r) :
    sscanf_dirs (.lit w :: .conv sp :: ds) s = r := by
  refine sscanf_dirs_ws w _ s r hw ?_
  rw [← h]
  simp only [sscanf_dirs, scan_conv_skipws sp s hsp]

/-- A field behind a space, read by a conversion that stands behind a space in the format. -/
theorem sscanf_dirs_wfield (sp : Spec) (txt : List Char) (v : Arg) (ds : List Dir)
    (rest : List Char) (vs : List Arg) (e : ScanEnd) (h : ReadsAs sp txt v)
    (hrest : EndOfToken rest) (hds : sscanf_dirs ds rest = (vs, e)) :
    sscanf_dirs (.lit ' ' :: .conv sp :: ds) (' ' :: (txt ++ rest)) = (v :: vs, e) :=
  sscanf_dirs_ws_conv ' ' sp ds _ _ (by decide) h.1
    (sscanf_dirs_field sp txt v ds rest vs e h hrest hds)

/-- A word of the format, behind a space in format and text. -/
theorem sscanf_dirs_word (w : List Char) (ds : List Dir) (rest : List Char)
    (r : List Arg × ScanEnd) (hw : ∀ c ∈ w, isspace c = false)
    (h : sscanf_dirs ds rest = r) :
    sscanf_dirs (w.map .lit ++ ds) (w ++ rest) = r := by
  induction w with
  | nil => exact h
  | cons a t ih =>
    exact sscanf_dirs_lit a _ _ r (hw a (by simp)) (ih (fun c hc => hw c (by simp [hc])))

theorem sscanf_dirs_wword (c : Char) (w : List Char) (ds : List Dir) (rest : List Char)
    (r : List Arg × ScanEnd) (hw : ∀ x ∈ c :: w, isspace x = false)
    (h : sscanf_dirs ds rest = r) :
    sscanf_dirs (.lit ' ' :: ((c :: w).map .lit ++ ds)) (' ' :: ((c :: w) ++ rest)) = r := by
  refine sscanf_dirs_ws ' ' _ _ r (by decide) ?_
  rw [skipws_cons_of_space ' ' _ (by decide), List.cons_append,
    skipws_cons_of_not_space c _ (hw c (by simp))]
  exact sscanf_dirs_word (c :: w) ds rest r hw h

theorem readsAs_u_fmt_u (bits n : Nat) : ReadsAs (.u bits) (fmt_u n) (.int (toUnsigned bits n)) :=
  ⟨by simp, fun rest h => scan_conv_u_fmt_u bits n rest h.noDigitAhead⟩

theorem readsAs_u_fmt_d (bits : Nat) (i : Int) :
    ReadsAs (.u bits) (fmt_d i) (.int (toUnsigned bits i)) :=
  ⟨by simp, fun rest h => scan_conv_u_fmt_d bits i rest h.noDigitAhead⟩

theorem readsAs_d_fmt_d (i : Int) : ReadsAs .d (fmt_d i) (.int (toSigned 32 i)) :=
  ⟨by simp, fun rest h => scan_conv_d_fmt_d i rest h.noDigitAhead⟩

theorem readsAs_d_fmt_u (n : Nat) : ReadsAs .d (fmt_u n) (.int (toSigned 32 n)) :=
  ⟨by simp, fun rest h => scan_conv_d_fmt_u n rest h.noDigitAhead⟩

theorem readsAs_f_fmt_f6 (x : FLT) : ReadsAs .f (fmt_f6 x) (.flt x.round6) :=
  ⟨by simp, fun rest h => scan_conv_f_fmt_f6 x rest h⟩

theorem readsAs_s_token (width : Option Nat) (tok : List Char) (hne : tok ≠ [])
    (hw : ∀ w, width = some w → tok.length ≤ w) (htok : TokenChars tok) :
    ReadsAs (.s width) tok (.str tok) := by
  refine ⟨by simp, fun rest h => ?_⟩
  cases rest with
  | nil =>
    have := scan_conv_s_token width tok ' ' [] hne hw (fun x hx => (htok x hx).1) (by decide)
    cases tok with
    | nil => exact absurd rfl hne
    | cons a t =>
      have ha : isspace a = false := (htok a (by simp)).1
      have hword : ∀ (w : Option Nat) (s : List Char), (∀ x ∈ s, isspace x = false) →
          (∀ k, w = some k → s.length ≤ k) → scan_word w s = (s, []) := by
        intro w s
        induction s generalizing w with
        | nil => intro _ _; cases w <;> simp [scan_word]
        | cons b u ih =>
          intro hs hk
          have hb : isspace b = false := hs b (by simp)
          have hu := ih (w.map (· - 1)) (fun x hx => hs x (by simp [hx]))
            (by
              intro k hk1
              cases w with
              | none => simp at hk1
              | some w0 =>
                simp only [Option.map_some', Option.some.injEq] at hk1
                have := hk w0 rfl
                simp only [List.length_cons] at this
                omega)
          cases w with
          | none =>
            simp only [Option.map_none'] at hu
            simp [scan_word, hb, hu]
          | some w0 =>
            cases w0 with
            | zero =>
              have := hk 0 rfl
              simp at this
            | succ j =>
              simp only [Option.map_some', Nat.add_sub_cancel] at hu
              simp [scan_word, hb, hu]
      simp only [List.append_nil, scan_conv, skipws_cons_of_not_space a t ha,
        hword width (a :: t) (fun x hx => (htok x hx).1) hw]
  | cons c cs =>
    exact scan_conv_s_token width tok c cs hne hw (fun x hx => (htok x hx).1) (h c (by simp))

/-! ### The text `printf` produces -/

theorem sprintf_dirs_word (w : List Char) (ds : List Dir) (args : List Arg) :
    sprintf_dirs (w.map .lit ++ ds) args = w ++ sprintf_dirs ds args := by
  induction w with
  | nil => rfl
  | cons a t ih => simp [sprintf_dirs, ih]

theorem sprintf_dirs_newline (ds : List Dir) :
    ∀ args : List Arg, convCount ds ≤ args.length →
      sprintf_dirs (ds ++ [.lit '\n']) args = sprintf_dirs ds args ++ ['\n'] := by
  induction ds with
  | nil => intro args _; cases args <;> rfl
  | cons d t ih =>
    intro args h
    cases d with
    | lit c =>
      have e := ih args (by simpa [convCount] using h)
      rw [List.cons_append, sprintf_dirs, e, sprintf_dirs, List.cons_append]
    | conv sp =>
      cases args with
      | nil => simp [convCount] at h
      | cons a as =>
        have e := ih as (by simp only [convCount, List.length_cons] at h; omega)
        rw [List.cons_append, sprintf_dirs, e, sprintf_dirs, List.append_assoc]

theorem TokenChars.lineChars (s : List Char) (h : TokenChars s) : LineChars s := by
  intro c hc
  obtain ⟨h1, h2⟩ := h c hc
  exact ⟨h2, by rintro rfl; revert h1; decide, by rintro rfl; revert h1; decide⟩

theorem lineChars_append (a b : List Char) (ha : LineChars a) (hb : LineChars b) :
    LineChars (a ++ b) := by
  intro c hc
  rcases List.mem_append.mp hc with h | h
  · exact ha c h
  · exact hb c h

theorem lineChars_cons (c : Char) (s : List Char) (hc : c ≠ NUL ∧ c ≠ '\n' ∧ c ≠ '\r')
    (hs : LineChars s) : LineChars (c :: s) := by
  intro x hx
  rcases List.mem_cons.mp hx with h | h
  · rw [h]; exact hc
  · exact hs x h

theorem fmt_conv_lineChars (sp : Spec) (a : Arg) (ha : a.lineArg) : LineChars (fmt_conv sp a) := by
  cases sp <;> cases a <;> simp only [fmt_conv]
  all_goals first
    | exact ha
    | exact (fmt_d_tokenChars _).lineChars
    | exact (fmt_u_tokenChars _).lineChars
    | exact (fmt_f6_tokenChars _).lineChars
    | exact lineChars_cons _ _ ha (fun _ h => by simp at h)
    | exact fun _ h => by simp at h

theorem sprintf_dirs_lineChars (ds : List Dir) :
    ∀ args : List Arg, lineDirs ds = true → (∀ a ∈ args, a.lineArg) →
      LineChars (sprintf_dirs ds args) := by
  induction ds with
  | nil => intro args _ _ c hc; simp [sprintf_dirs] at hc
  | cons d t ih =>
    intro args hd ha
    cases d with
    | lit c =>
      simp only [lineDirs, Bool.and_eq_true, bne_iff_ne, ne_eq] at hd
      exact lineChars_cons c _ ⟨hd.1.1.1, hd.1.1.2, hd.1.2⟩ (ih args hd.2 ha)
    | conv sp =>
      cases args with
      | nil => intro c hc; simp [sprintf_dirs] at hc
      | cons a as =>
        exact lineChars_append _ _ (fmt_conv_lineChars sp a (ha a (by simp)))
          (ih as hd (fun x hx => ha x (by simp [hx])))

/-! ### Reading back a written record -/

theorem toSigned_toUnsigned (bits : Nat) (i : Int) (hb : 0 < bits)
    (h1 : -(2 : Int) ^ (bits - 1) ≤ i) (h2 : i < (2 : Int) ^ (bits - 1)) :
    toSigned bits (toUnsigned bits i) = i := by
  obtain ⟨k, rfl⟩ : ∃ k, bits = k + 1 := ⟨bits - 1, by omega⟩
  simp only [Nat.add_sub_cancel] at h1 h2
  have hp : (0 : Int) < 2 ^ k := by positivity
  have hpow : (2 : Int) ^ (k + 1) = 2 * 2 ^ k := by rw [pow_succ]; ring
  unfold toSigned toUnsigned
  simp only [Nat.add_sub_cancel]
  rw [Int.toNat_of_nonneg (Int.emod_nonneg _ (by positivity)), Int.emod_add_emod, hpow]
  rw [Int.emod_eq_of_lt (by omega) (by omega)]
  omega

theorem toSigned_of_range (bits : Nat) (i : Int) (hb : 0 < bits)
    (h1 : -(2 : Int) ^ (bits - 1) ≤ i) (h2 : i < (2 : Int) ^ (bits - 1)) :
    toSigned bits i = i := by
  obtain ⟨k, rfl⟩ : ∃ k, bits = k + 1 := ⟨bits - 1, by omega⟩
  simp only [Nat.add_sub_cancel] at h1 h2
  have hp : (0 : Int) < 2 ^ k := by positivity
  have hpow : (2 : Int) ^ (k + 1) = 2 * 2 ^ k := by rw [pow_succ]; ring
  unfold toSigned
  simp only [Nat.add_sub_cancel]
  rw [hpow, Int.emod_eq_of_lt (by omega) (by omega)]
  omega

theorem toUnsigned_toSigned (bits n : Nat) (hb : 0 < bits) (h : n < 2 ^ bits) :
    toUnsigned bits (toSigned bits (n : Int)) = n := by
  obtain ⟨k, rfl⟩ : ∃ k, bits = k + 1 := ⟨bits - 1, by omega⟩
  have hp : (0 : Int) < 2 ^ k := by positivity
  have hpow : (2 : Int) ^ (k + 1) = 2 * 2 ^ k := by rw [pow_succ]; ring
  have hn : (n : Int) < 2 * 2 ^ k := by
    have : ((n : Nat) : Int) < ((2 ^ (k + 1) : Nat) : Int) := by exact_mod_cast h
    rw [← hpow]
    exact_mod_cast this
  unfold toSigned toUnsigned
  simp only [Nat.add_sub_cancel]
  rw [hpow, Int.sub_emod, Int.emod_emod_of_dvd _ (dvd_refl _), ← Int.sub_emod]
  rw [show (n : Int) + 2 ^ k - 2 ^ k = n by ring, Int.emod_eq_of_lt (by omega) hn]
  simp

/-- The first two tokens of a line, as `playback_poll` reads them. -/
theorem sscanf_two_tokens (dev op body : List Char) (h1 : dev ≠ []) (h2 : TokenChars dev)
    (h3 : dev.length ≤ 31) (k1 : op ≠ []) (k2 : TokenChars op) (k3 : op.length ≤ 31) :
    sscanf (dev ++ ' ' :: (op ++ ' ' :: body)) "%31s %31s" = (2, [.str dev, .str op]) := by
  have hfmt : parse_format "%31s %31s" = [.conv (.s (some 31)), .lit ' ', .conv (.s (some 31))] := by
    decide
  refine sscanf_of_dirs _ _ _ _ _ _ .done hfmt rfl ?_
  refine sscanf_dirs_field0 _ dev _ _ _ _ _
    (readsAs_s_token _ dev h1 (by intro w hw; cases hw; exact h3) h2)
    (endOfToken_cons ' ' _ (by decide)) ?_
  refine sscanf_dirs_wfield _ op _ _ _ _ _
    (readsAs_s_token _ op k1 (by intro w hw; cases hw; exact k3) k2)
    (endOfToken_cons ' ' _ (by decide)) rfl

theorem lineChars_last (line : List Char) (h : LineChars line) :
    line.getLast? ≠ some '\n' ∧ line.getLast? ≠ some '\r' := by
  have hmem : ∀ c, line.getLast? = some c → c ∈ line := by
    intro c e
    obtain ⟨ys, rfl⟩ := List.getLast?_eq_some_iff.mp e
    simp
  constructor <;> intro e
  · exact (h _ (hmem _ e)).2.1 rfl
  · exact (h _ (hmem _ e)).2.2 rfl

/-- A record as the recorder writes it, ahead in the stream. -/
theorem recordAhead_written (ts : FLT) (line rest : List Char) (hline : LineChars line)
    (hsize : (fmt_f6 ts ++ ' ' :: (line ++ ['\n'])).length < SSIZE_MAX) :
    RecordAhead ⟨(fmt_f6 ts ++ ' ' :: (line ++ ['\n'])) ++ rest, false, false, false⟩
      (fmt_f6 ts) line rest ts.round6 := by
  have hfmt : parse_format "%lf" = [.conv .f] := by decide
  simp only [List.length_append, List.length_cons, List.length_nil] at hsize
  refine ⟨rfl, rfl, by simp, ?_, ?_, ?_, ?_, ?_, lineChars_last line hline, by omega, by omega⟩
  · intro h
    exact absurd (fmt_f6_tokenChars ts _ h).1 (by decide)
  · intro h
    exact (fmt_f6_tokenChars ts _ h).2 rfl
  · refine sscanf_of_dirs _ _ _ _ _ _ .done hfmt rfl ?_
    exact sscanf_dirs_field0 _ _ _ _ _ _ _ (readsAs_f_fmt_f6 ts)
      (endOfToken_cons ' ' _ (by decide)) rfl
  · intro h
    exact (hline _ h).2.1 rfl
  · intro h
    exact (hline _ h).1 rfl

/-- The poll of a fresh session on a log that starts with a written record that is due:
the line goes to the dispatch on its second token. -/
theorem playback_poll_written (alloc : Nat → Bool) (junk : Char) (halloc : ∀ m, alloc m = true)
    (objects : List (List Char)) (rest : List Char) (factor now : FLT) (replay_pose : Bool)
    (ts : FLT) (line dev op : List Char) (hline : LineChars line)
    (htok : sscanf line "%31s %31s" = (2, [.str dev, .str op]))
    (hsize : (fmt_f6 ts ++ ' ' :: (line ++ ['\n'])).length < SSIZE_MAX)
    (hdue : (ts.round6.mul factor).gt now = false) :
    playback_poll alloc junk
        (playback_start objects ((fmt_f6 ts ++ ' ' :: (line ++ ['\n'])) ++ rest) factor
          replay_pose) now
      = (0, playback_dispatch line op
          (after_record
            (playback_start objects ((fmt_f6 ts ++ ' ' :: (line ++ ['\n'])) ++ rest) factor
              replay_pose)
            ⟨(fmt_f6 ts ++ ' ' :: (line ++ ['\n'])) ++ rest, false, false, false⟩ rest)) :=
  playback_poll_dispatches alloc junk halloc _ _ now (fmt_f6 ts) line rest ts.round6 dev op rfl
    rfl (recordAhead_written ts line rest hline hsize) hdue htok
/-! ### The records of the variants -/

theorem written_eq (ts : FLT) (format : String) (args : List Arg) (ds : List Dir)
    (hfmt : parse_format format = ds ++ [.lit '\n']) (hcount : convCount ds ≤ args.length) :
    (write_to_output recording_all ts format args).file
      = fmt_f6 ts ++ ' ' :: (sprintf_dirs ds args ++ ['\n']) := by
  rw [write_to_output_some recording_all _ ts format args rfl]
  simp only [Recorder.file, Option.map_some', Option.getD_some, List.nil_append, sprintf, hfmt,
    sprintf_dirs_newline ds args hcount]
  simp

theorem name_ne_nil (k : Nat) (d : List Char) (h : Name k d) : d ≠ [] := by
  intro e
  have := h.1
  rw [e] at this
  simp at this

theorem toUnsigned_lt (bits : Nat) (i : Int) : toUnsigned bits i < 2 ^ bits := by
  unfold toUnsigned
  have hp : (0 : Int) < 2 ^ bits := by positivity
  have h1 := Int.emod_lt_of_pos i hp
  have h2 := Int.emod_nonneg i (ne_of_gt hp)
  have : ((i % 2 ^ bits).toNat : Int) < ((2 ^ bits : Nat) : Int) := by
    rw [Int.toNat_of_nonneg h2]
    exact_mod_cast h1
  exact_mod_cast this

theorem readsAs_u_lt (bits n : Nat) (h : n < 2 ^ bits) :
    ReadsAs (.u bits) (fmt_u n) (.int n) := by
  have e := readsAs_u_fmt_u bits n
  rw [toUnsigned_of_lt bits n h] at e
  exact e

theorem readsAs_u_bool (b : Bool) :
    ReadsAs (.u 8) [if b then '1' else '0'] (.int (if b then 1 else 0)) := by
  have e := readsAs_u_fmt_u 8 (if b then 1 else 0)
  cases b
  · exact e
  · exact e

theorem sscanf_dirs_newline_end : sscanf_dirs ([] ++ [.lit '\n']) [] = ([], .done) := by
  decide

theorem parse_format_sweep : parse_format SWEEP_SCANF =
    [.conv (.s none), .lit ' ', .lit 'W', .lit ' ', .conv (.u 8), .lit ' ', .conv (.u 32),
     .lit ' ', .conv (.u 32), .lit ' ', .conv (.u 8)] ++ [.lit '\n'] := by
  decide

/-- The line of a sweep record, read with `SWEEP_SCANF`. -/
theorem sscanf_sweep (device : List Char) (channel : Nat) (sensor_id : Int) (timecode : Nat)
    (flag : Bool) (h : (Event.sweep device channel sensor_id timecode flag).wf) :
    sscanf (sprintf_dirs
        [.conv (.s none), .lit ' ', .lit 'W', .lit ' ', .conv (.u 8), .lit ' ', .conv (.u 32),
         .lit ' ', .conv (.u 32), .lit ' ', .conv (.u 8)]
        [.str device, .int channel, .int sensor_id, .int timecode, ofBool flag]) SWEEP_SCANF
      = (5, [.str device, .int channel, .int (toUnsigned 32 sensor_id), .int timecode,
          .int (if flag then 1 else 0)]) := by
  obtain ⟨hname, hch, hs, htc⟩ := h
  have hsp : isspace ' ' = true := by decide
  simp only [sprintf_dirs, fmt_conv, ofBool, fmt_u_bool, toUnsigned_of_lt 8 channel hch,
    toUnsigned_of_lt 32 timecode htc]
  refine sscanf_of_dirs _ _ _ _ _ _ .done parse_format_sweep rfl ?_
  refine sscanf_dirs_field0 _ device _ _ _ _ _
    (readsAs_s_token _ device (name_ne_nil _ _ hname) (by intro w hw; cases hw) hname.2.2)
    (endOfToken_cons ' ' _ hsp) ?_
  refine sscanf_dirs_wword 'W' [] _ _ _ (by decide) ?_
  refine sscanf_dirs_wfield _ _ _ _ _ _ _ (readsAs_u_lt 8 channel hch)
    (endOfToken_cons ' ' _ hsp) ?_
  refine sscanf_dirs_wfield _ _ _ _ _ _ _
    (readsAs_u_lt 32 (toUnsigned 32 sensor_id) (toUnsigned_lt 32 sensor_id))
    (endOfToken_cons ' ' _ hsp) ?_
  refine sscanf_dirs_wfield _ _ _ _ _ _ _ (readsAs_u_lt 32 timecode htc)
    (endOfToken_cons ' ' _ hsp) ?_
  exact sscanf_dirs_wfield _ _ _ _ _ _ _ (readsAs_u_bool flag) endOfToken_nil
    sscanf_dirs_newline_end
/-- The poll of a fresh session on a log that starts with the record of an event, due: the
line goes to the dispatch on its second token. -/
theorem playback_poll_event (alloc : Nat → Bool) (junk : Char) (halloc : ∀ m, alloc m = true)
    (objects : List (List Char)) (rest : List Char) (factor now : FLT) (replay_pose : Bool)
    (ts : FLT) (e : Event) (line tok op body : List Char)
    (hw : written ts e = fmt_f6 ts ++ ' ' :: (line ++ ['\n']))
    (hline : LineChars line) (hshape : line = tok ++ ' ' :: (op ++ ' ' :: body))
    (h1 : tok ≠ []) (h2 : TokenChars tok) (h3 : tok.length ≤ 31)
    (k1 : op ≠ []) (k2 : TokenChars op) (k3 : op.length ≤ 31)
    (hsize : (written ts e).length < SSIZE_MAX)
    (hdue : (ts.round6.mul factor).gt now = false) :
    playback_poll alloc junk (playback_start objects (written ts e ++ rest) factor replay_pose) now
      = (0, playback_dispatch line op
          (after_record (playback_start objects (written ts e ++ rest) factor replay_pose)
            ⟨written ts e ++ rest, false, false, false⟩ rest)) := by
  rw [hw] at hsize ⊢
  exact playback_poll_written alloc junk halloc objects rest factor now replay_pose ts line tok op
    hline (by rw [hshape]; exact sscanf_two_tokens tok op body h1 h2 h3 k1 k2 k3) hsize hdue

theorem name_lineArg (k : Nat) (d : List Char) (h : Name k d) : (Arg.str d).lineArg :=
  h.2.2.lineChars

theorem playback_dispatch_W (line : List Char) (d : SurvivePlaybackData) :
    playback_dispatch line ['W'] d = (parse_and_run_sweep line d).2 := by
  unfold playback_dispatch
  rw [if_pos (by decide), if_pos (by decide)]

theorem parse_and_run_sweep_written (device : List Char) (channel : Nat) (sensor_id : Int)
    (timecode : Nat) (flag : Bool) (d : SurvivePlaybackData)
    (h : (Event.sweep device channel sensor_id timecode flag).wf) (hreg : device ∈ d.objects) :
    parse_and_run_sweep (sprintf_dirs
        [.conv (.s none), .lit ' ', .lit 'W', .lit ' ', .conv (.u 8), .lit ' ', .conv (.u 32),
         .lit ' ', .conv (.u 32), .lit ' ', .conv (.u 8)]
        [.str device, .int channel, .int sensor_id, .int timecode, ofBool flag]) d
      = (0, d, [.call (.sweepproc device channel sensor_id timecode flag)]) := by
  have hs := sscanf_sweep device channel sensor_id timecode flag h
  obtain ⟨hname, hch, hsid, htc⟩ := h
  have hbo : ∀ b : Bool, (toUnsigned 8 (if b then 1 else 0) != 0) = b := by decide
  simp only [parse_and_run_sweep, hs, ne_eq, not_true_eq_false, if_false, find_or_warn,
    str_var, arg_str, List.get?_cons_zero, Option.getD_some,
    survive_get_so_by_name_mem d.objects device hreg, int_var, arg_int, List.get?_cons_succ,
    toUnsigned_of_lt 8 channel hch, toUnsigned_of_lt 32 timecode htc, hbo, List.nil_append,
    toSigned_toUnsigned 32 sensor_id (by decide) hsid.1 hsid.2]
  rw [if_neg (Nat.not_lt.mpr hname.2.1)]

/-- The poll of a fresh session on a log that starts with the record of an event written by
`write_to_output`, due: the line goes to the dispatch on its second token. -/
theorem playback_poll_event_fmt (alloc : Nat → Bool) (junk : Char)
    (halloc : ∀ m, alloc m = true) (objects : List (List Char)) (rest : List Char)
    (factor now : FLT) (replay_pose : Bool) (ts : FLT) (e : Event) (format : String)
    (ds : List Dir) (args : List Arg) (tok op body : List Char)
    (hrec : written ts e = (write_to_output recording_all ts format args).file)
    (hfmt : parse_format format = ds ++ [.lit '\n']) (hcount : convCount ds ≤ args.length)
    (hds : lineDirs ds = true) (hargs : ∀ a ∈ args, a.lineArg)
    (hshape : sprintf_dirs ds args = tok ++ ' ' :: (op ++ ' ' :: body))
    (h1 : tok ≠ []) (h2 : TokenChars tok) (h3 : tok.length ≤ 31)
    (k1 : op ≠ []) (k2 : TokenChars op) (k3 : op.length ≤ 31)
    (hsize : (written ts e).length < SSIZE_MAX)
    (hdue : (ts.round6.mul factor).gt now = false) :
    playback_poll alloc junk (playback_start objects (written ts e ++ rest) factor replay_pose) now
      = (0, playback_dispatch (sprintf_dirs ds args) op
          (after_record (playback_start objects (written ts e ++ rest) factor replay_pose)
            ⟨written ts e ++ rest, false, false, false⟩ rest)) :=
  playback_poll_event alloc junk halloc objects rest factor now replay_pose ts e _ tok op body
    (hrec.trans (written_eq ts format args ds hfmt hcount))
    (sprintf_dirs_lineChars ds args hds hargs) hshape h1 h2 h3 k1 k2 k3 hsize hdue

theorem readsAs_space (sp : Spec) (txt : List Char) (v : Arg) (h : ReadsAs sp txt v) :
    ReadsAs sp (' ' :: txt) v :=
  ⟨h.1, fun rest hr => by
    rw [List.cons_append, scan_conv_space sp ' ' _ h.1 (by decide)]
    exact h.2 rest hr⟩

theorem readsAs_d_int32 (i : Int) (h : Int32 i) : ReadsAs .d (fmt_d i) (.int i) := by
  have e := readsAs_d_fmt_d i
  rw [toSigned_of_range 32 i (by decide) h.1 h.2] at e
  exact e

theorem sscanf_dirs_wchar (c : Char) (ds : List Dir) (rest : List Char) (vs : List Arg)
    (e : ScanEnd) (hc : isspace c = false) (hds : sscanf_dirs ds rest = (vs, e)) :
    sscanf_dirs (.lit ' ' :: .conv .c :: ds) (' ' :: c :: rest) = (.chr c :: vs, e) := by
  refine sscanf_dirs_ws ' ' _ _ _ (by decide) ?_
  rw [skipws_cons_of_space ' ' _ (by decide), skipws_cons_of_not_space c _ hc]
  exact sscanf_dirs_conv .c ds _ rest (.chr c) vs e rfl hds

theorem fmt_u_aux_length (fuel : Nat) :
    ∀ (n : Nat) (acc : List Char) (k : Nat), 1 ≤ k → n < 10 ^ k →
      (fmt_u_aux fuel n acc).length ≤ acc.length + k := by
  induction fuel with
  | zero => intro n acc k _ _; simp [fmt_u_aux]
  | succ f ih =>
    intro n acc k hk hn
    unfold fmt_u_aux
    by_cases h : n < 10
    · rw [if_pos h]; simp only [List.length_cons]; omega
    · rw [if_neg h]
      obtain ⟨j, rfl⟩ : ∃ j, k = j + 1 := ⟨k - 1, by omega⟩
      have hj : 1 ≤ j := by
        rcases Nat.eq_zero_or_pos j with rfl | hp
        · simp at hn; omega
        · exact hp
      have hn2 : n / 10 < 10 ^ j := by
        rw [Nat.div_lt_iff_lt_mul (by decide)]
        rw [pow_succ] at hn
        exact hn
      have := ih (n / 10) (digitChar n :: acc) j hj hn2
      simp only [List.length_cons] at this
      omega

theorem fmt_u_length (n k : Nat) (hk : 1 ≤ k) (hn : n < 10 ^ k) : (fmt_u n).length ≤ k := by
  have := fmt_u_aux_length (n + 1) n [] k hk hn
  simpa [fmt_u] using this

theorem fmt_d_natCast (n : Nat) : fmt_d (n : Int) = fmt_u n := by
  unfold fmt_d
  rw [if_neg (by omega)]
  simp

theorem fmt_u_ne_nil (n : Nat) : fmt_u n ≠ [] := by
  obtain ⟨ds, h1, _, h3, _⟩ := fmt_u_spec n
  rw [h3]
  exact h1
theorem playback_dispatch_B (line : List Char) (d : SurvivePlaybackData) :
    playback_dispatch line ['B'] d = (parse_and_run_sweep_angle line d).2 := by
  unfold playback_dispatch
  rw [if_neg (by decide), if_pos (by decide), if_pos (by decide)]

theorem playback_dispatch_Y (line : List Char) (d : SurvivePlaybackData) :
    playback_dispatch line ['Y'] d = (parse_and_run_sync line d).2 := by
  unfold playback_dispatch
  rw [if_neg (by decide), if_neg (by decide), if_pos (by decide), if_pos (by decide)]

theorem bool_of_u8 : ∀ b : Bool, (toUnsigned 8 (if b then 1 else 0) != 0) = b := by decide

/-- The line of a sweep record, handled. -/
theorem replay_line_sweep (device : List Char) (channel : Nat) (sensor_id : Int)
    (timecode : Nat) (flag : Bool) (d : SurvivePlaybackData)
    (h : (Event.sweep device channel sensor_id timecode flag).wf) (hreg : device ∈ d.objects) :
    (playback_dispatch (line_of SWEEP_PRINTF
        [.str device, .int channel, .int sensor_id, .int timecode, ofBool flag]) ['W'] d).2
      = [.call (.sweepproc device channel sensor_id timecode flag)] := by
  rw [playback_dispatch_W]
  exact congrArg (fun r => r.2.2)
    (parse_and_run_sweep_written device channel sensor_id timecode flag d h hreg)

/-- The line of a sync record, handled. -/
theorem replay_line_sync (device : List Char) (channel timecode : Nat) (ootx gen : Bool)
    (d : SurvivePlaybackData) (h : (Event.sync device channel timecode ootx gen).wf)
    (hreg : device ∈ d.objects) :
    (playback_dispatch (line_of SYNC_PRINTF
        [.str device, .int channel, .int timecode, ofBool ootx, ofBool gen]) ['Y'] d).2
      = [.call (.syncproc device channel timecode ootx gen)] := by
  obtain ⟨hname, hch, htc⟩ := h
  have hsp : isspace ' ' = true := by decide
  have hb : body_dirs SYNC_PRINTF
      = [.conv (.s none), .lit ' ', .lit 'Y', .lit ' ', .conv (.u 8), .lit ' ', .conv (.u 32),
         .lit ' ', .conv (.u 8), .lit ' ', .conv (.u 8)] := by decide
  have hf : parse_format SYNC_SCANF = body_dirs SYNC_PRINTF ++ [.lit '\n'] := by decide
  rw [hb] at hf
  have hs : sscanf (line_of SYNC_PRINTF
        [.str device, .int channel, .int timecode, ofBool ootx, ofBool gen]) SYNC_SCANF
      = (5, [.str device, .int channel, .int timecode, .int (if ootx then 1 else 0),
          .int (if gen then 1 else 0)]) := by
    simp only [line_of, hb]
    simp only [sprintf_dirs, fmt_conv, ofBool, fmt_u_bool,
      toUnsigned_of_lt 8 channel hch, toUnsigned_of_lt 32 timecode htc]
    refine sscanf_of_dirs _ _ _ _ _ _ .done hf rfl ?_
    refine sscanf_dirs_field0 _ device _ _ _ _ _
      (readsAs_s_token _ device (name_ne_nil _ _ hname) (by intro w hw; cases hw) hname.2.2)
      (endOfToken_cons ' ' _ hsp) ?_
    refine sscanf_dirs_wword 'Y' [] _ _ _ (by decide) ?_
    refine sscanf_dirs_wfield _ _ _ _ _ _ _ (readsAs_u_lt 8 channel hch)
      (endOfToken_cons ' ' _ hsp) ?_
    refine sscanf_dirs_wfield _ _ _ _ _ _ _ (readsAs_u_lt 32 timecode htc)
      (endOfToken_cons ' ' _ hsp) ?_
    refine sscanf_dirs_wfield _ _ _ _ _ _ _ (readsAs_u_bool ootx) (endOfToken_cons ' ' _ hsp) ?_
    exact sscanf_dirs_wfield _ _ _ _ _ _ _ (readsAs_u_bool gen) endOfToken_nil
      sscanf_dirs_newline_end
  rw [playback_dispatch_Y]
  simp only [parse_and_run_sync, hs, ne_eq, not_true_eq_false, if_false, find_or_warn,
    str_var, arg_str, List.get?_cons_zero, Option.getD_some,
    survive_get_so_by_name_mem d.objects device hreg, int_var, arg_int, List.get?_cons_succ,
    toUnsigned_of_lt 8 channel hch, toUnsigned_of_lt 32 timecode htc, bool_of_u8,
    List.nil_append]
  rw [if_neg (Nat.not_lt.mpr hname.2.1)]

/-- The line of a sweep angle record, handled. -/
theorem replay_line_sweep_angle (device : List Char) (channel : Nat) (sensor_id : Int)
    (timecode : Nat) (plane : Int) (angle : FLT) (d : SurvivePlaybackData)
    (h : (Event.sweep_angle device channel sensor_id timecode plane angle).wf)
    (hreg : device ∈ d.objects) :
    (playback_dispatch (line_of SWEEP_ANGLE_PRINTF
        [.str device, .int channel, .int sensor_id, .int timecode, .int plane, .flt angle])
        ['B'] d).2
      = [.call (.sweep_angleproc device channel sensor_id timecode plane angle.round6)] := by
  obtain ⟨hname, hch, hsid, htc, hp1, hp2⟩ := h
  have hsp : isspace ' ' = true := by decide
  have hb : body_dirs SWEEP_ANGLE_PRINTF
      = [.conv (.s none), .lit ' ', .lit 'B', .lit ' ', .conv (.u 8), .lit ' ', .conv (.u 32),
         .lit ' ', .conv (.u 32), .lit ' ', .conv (.u 8), .lit ' ', .conv .f] := by decide
  have hf : parse_format SWEEP_ANGLE_SCANF = body_dirs SWEEP_ANGLE_PRINTF ++ [.lit '\n'] := by
    decide
  rw [hb] at hf
  have hs : sscanf (line_of SWEEP_ANGLE_PRINTF
        [.str device, .int channel, .int sensor_id, .int timecode, .int plane, .flt angle])
        SWEEP_ANGLE_SCANF
      = (6, [.str device, .int channel, .int (toUnsigned 32 sensor_id), .int timecode,
          .int (toUnsigned 8 plane), .flt angle.round6]) := by
    simp only [line_of, hb]
    simp only [sprintf_dirs, fmt_conv,
      toUnsigned_of_lt 8 channel hch, toUnsigned_of_lt 32 timecode htc]
    refine sscanf_of_dirs _ _ _ _ _ _ .done hf rfl ?_
    refine sscanf_dirs_field0 _ device _ _ _ _ _
      (readsAs_s_token _ device (name_ne_nil _ _ hname) (by intro w hw; cases hw) hname.2.2)
      (endOfToken_cons ' ' _ hsp) ?_
    refine sscanf_dirs_wword 'B' [] _ _ _ (by decide) ?_
    refine sscanf_dirs_wfield _ _ _ _ _ _ _ (readsAs_u_lt 8 channel hch)
      (endOfToken_cons ' ' _ hsp) ?_
    refine sscanf_dirs_wfield _ _ _ _ _ _ _
      (readsAs_u_lt 32 (toUnsigned 32 sensor_id) (toUnsigned_lt 32 sensor_id))
      (endOfToken_cons ' ' _ hsp) ?_
    refine sscanf_dirs_wfield _ _ _ _ _ _ _ (readsAs_u_lt 32 timecode htc)
      (endOfToken_cons ' ' _ hsp) ?_
    refine sscanf_dirs_wfield _ _ _ _ _ _ _
      (readsAs_u_lt 8 (toUnsigned 8 plane) (toUnsigned_lt 8 plane))
      (endOfToken_cons ' ' _ hsp) ?_
    exact sscanf_dirs_wfield _ _ _ _ _ _ _ (readsAs_f_fmt_f6 angle) endOfToken_nil
      sscanf_dirs_newline_end
  rw [playback_dispatch_B]
  simp only [parse_and_run_sweep_angle, hs, ne_eq, not_true_eq_false, if_false, find_or_warn,
    str_var, arg_str, List.get?_cons_zero, Option.getD_some,
    survive_get_so_by_name_mem d.objects device hreg, int_var, arg_int, List.get?_cons_succ,
    flt_var, arg_flt,
    toUnsigned_of_lt 8 channel hch, toUnsigned_of_lt 32 timecode htc, List.nil_append,
    toSigned_toUnsigned 32 sensor_id (by decide) hsid.1 hsid.2,
    toSigned_toUnsigned 8 plane (by decide) hp1 hp2]
  rw [if_neg (Nat.not_lt.mpr hname.2.1)]
theorem playback_dispatch_L_R_fresh (line op : List Char) (d : SurvivePlaybackData)
    (hop : op = ['L'] ∨ op = ['R']) (h : d.hasRawLight = false) :
    playback_dispatch line op d = (parse_and_run_lightcode line d).2 := by
  unfold playback_dispatch
  rcases hop with rfl | rfl
  · rw [if_neg (by decide), if_neg (by decide), if_neg (by decide), if_neg (by decide),
      if_neg (by decide), if_pos (by decide), if_pos ⟨by decide, h⟩]
  · rw [if_neg (by decide), if_neg (by decide), if_neg (by decide), if_neg (by decide),
      if_neg (by decide), if_pos (by decide), if_pos ⟨by decide, h⟩]

theorem playback_dispatch_i (line : List Char) (d : SurvivePlaybackData) :
    playback_dispatch line ['i'] d = (parse_and_run_imu line d true).2 := by
  unfold playback_dispatch
  rw [if_neg (by decide), if_neg (by decide), if_neg (by decide), if_neg (by decide),
    if_neg (by decide), if_neg (by decide), if_pos (by decide), if_pos (by decide)]

theorem playback_dispatch_I (line : List Char) (d : SurvivePlaybackData) :
    playback_dispatch line ['I'] d = (parse_and_run_imu line d false).2 := by
  unfold playback_dispatch
  rw [if_neg (by decide), if_neg (by decide), if_neg (by decide), if_neg (by decide),
    if_neg (by decide), if_neg (by decide), if_neg (by decide), if_pos (by decide),
    if_pos (by decide)]

theorem playback_dispatch_EXTERNAL_POSE (line : List Char) (d : SurvivePlaybackData) :
    playback_dispatch line "EXTERNAL_POSE".toList d = (parse_and_run_externalpose line d).2 := by
  unfold playback_dispatch
  rw [if_neg (by decide), if_neg (by decide), if_neg (by decide), if_pos (by decide)]

theorem playback_dispatch_POSE (line : List Char) (d : SurvivePlaybackData) :
    playback_dispatch line "POSE".toList d
      = if d.outputExternalPose then (parse_and_run_pose line d).2 else (d, []) := by
  unfold playback_dispatch
  rw [if_neg (by decide), if_neg (by decide), if_neg (by decide), if_neg (by decide),
    if_neg (by decide), if_neg (by decide), if_neg (by decide), if_neg (by decide),
    if_pos (by decide)]
  cases d.outputExternalPose
  · rw [if_neg (fun k => absurd k.2 (by decide))]; rfl
  · rw [if_pos ⟨by decide, rfl⟩]; rfl

/-- The line of a raw light capture record, handled. -/
theorem replay_line_light_cap_raw (device : List Char) (le : LightcapElement)
    (d : SurvivePlaybackData) (h : (Event.light_cap_raw device le).wf)
    (hreg : device ∈ d.objects) :
    (playback_dispatch (line_of "%s C %d %u %u\n"
        [.str device, .int le.sensor_id, .int le.timestamp, .int le.length]) ['C'] d).2
      = [.call (.handle_lightcap device (some le.sensor_id) (some le.timestamp)
          (some le.length))] := by
  obtain ⟨hname, hsid, htc, hlen⟩ := h
  have hsp : isspace ' ' = true := by decide
  have hb : body_dirs "%s C %d %u %u\n"
      = [.conv (.s none), .lit ' ', .lit 'C', .lit ' ', .conv .d, .lit ' ', .conv (.u 32),
         .lit ' ', .conv (.u 32)] := by decide
  have hf : parse_format "%s %s %hhu %u %hu\n"
      = [.conv (.s none), .lit ' ', .conv (.s none), .lit ' ', .conv (.u 8), .lit ' ',
         .conv (.u 32), .lit ' ', .conv (.u 16)] ++ [.lit '\n'] := by decide
  have hs : sscanf (line_of "%s C %d %u %u\n"
        [.str device, .int le.sensor_id, .int le.timestamp, .int le.length])
        "%s %s %hhu %u %hu\n"
      = (5, [.str device, .str ['C'], .int le.sensor_id, .int le.timestamp,
          .int le.length]) := by
    simp only [line_of, hb]
    simp only [sprintf_dirs, fmt_conv, fmt_d_natCast,
      toUnsigned_of_lt 32 le.timestamp htc,
      toUnsigned_of_lt 32 le.length (Nat.lt_trans hlen (by decide))]
    refine sscanf_of_dirs _ _ _ _ _ _ .done hf rfl ?_
    refine sscanf_dirs_field0 _ device _ _ _ _ _
      (readsAs_s_token _ device (name_ne_nil _ _ hname) (by intro w hw; cases hw) hname.2.2)
      (endOfToken_cons ' ' _ hsp) ?_
    refine sscanf_dirs_wfield _ ['C'] _ _ _ _ _
      (readsAs_s_token _ ['C'] (by decide) (by intro w hw; cases hw)
        (tokenChars_of_all _ (by decide)))
      (endOfToken_cons ' ' _ hsp) ?_
    refine sscanf_dirs_wfield _ _ _ _ _ _ _ (readsAs_u_lt 8 le.sensor_id hsid)
      (endOfToken_cons ' ' _ hsp) ?_
    refine sscanf_dirs_wfield _ _ _ _ _ _ _ (readsAs_u_lt 32 le.timestamp htc)
      (endOfToken_cons ' ' _ hsp) ?_
    exact sscanf_dirs_wfield _ _ _ _ _ _ _ (readsAs_u_lt 16 le.length hlen) endOfToken_nil
      sscanf_dirs_newline_end
  rw [playback_dispatch_C]
  have hfit : ¬ (9 < device.length ∨ 9 < ['C'].length) := by
    intro k
    rcases k with k | k
    · exact absurd k (Nat.not_lt.mpr hname.2.1)
    · exact absurd k (by decide)
  simp only [parse_and_run_rawlight, hs, str_var, arg_str, List.get?_cons_zero,
    Option.getD_some, survive_get_so_by_name_mem d.objects device hreg, arg_int,
    List.get?_cons_succ, Option.map_some', Int.toNat_ofNat, if_neg hfit]

/-- The record of a light code whose axis code is one of 0 to 7: the lighthouse letter and
the axis letter stand behind the device. -/
theorem written_light_code (ts : FLT) (device : List Char)
    (sensor_id axis_code time_in_sweep : Int) (timecode length beacon_id : Nat)
    (h0 : 0 ≤ axis_code) (h7 : axis_code ≤ 7) :
    ∃ l x : Char, (l = 'L' ∨ l = 'R') ∧ (x = 'X' ∨ x = 'Y')
      ∧ written ts
          (.light_code device sensor_id axis_code time_in_sweep timecode length beacon_id)
        = (write_to_output recording_all ts "%s %s %s %d %d %d %u %u %u\n"
            [.str device, .str [l], .str [x], .int sensor_id, .int axis_code,
             .int time_in_sweep, .int timecode, .int length, .int beacon_id]).file := by
  interval_cases axis_code
  · exact ⟨'L', 'X', Or.inl rfl, Or.inl rfl, rfl⟩
  · exact ⟨'L', 'Y', Or.inl rfl, Or.inr rfl, rfl⟩
  · exact ⟨'L', 'X', Or.inl rfl, Or.inl rfl, rfl⟩
  · exact ⟨'L', 'Y', Or.inl rfl, Or.inr rfl, rfl⟩
  · exact ⟨'R', 'X', Or.inr rfl, Or.inl rfl, rfl⟩
  · exact ⟨'R', 'Y', Or.inr rfl, Or.inr rfl, rfl⟩
  · exact ⟨'R', 'X', Or.inr rfl, Or.inl rfl, rfl⟩
  · exact ⟨'R', 'Y', Or.inr rfl, Or.inr rfl, rfl⟩

theorem tokenChars_letter (c : Char) (h : c = 'L' ∨ c = 'R' ∨ c = 'X' ∨ c = 'Y') :
    TokenChars [c] := by
  rcases h with rfl | rfl | rfl | rfl <;> exact tokenChars_of_all _ (by decide)

theorem int_var_cons (a : Arg) (args : List Arg) (i : Nat) :
    int_var (a :: args) (i + 1) = int_var args i := by
  simp only [int_var, arg_int, List.get?_cons_succ]

theorem int_var_int (x : Int) (args : List Arg) : int_var (.int x :: args) 0 = x := by
  simp only [int_var, arg_int, List.get?_cons_zero, Option.getD_some]

theorem flt_var_cons (a : Arg) (args : List Arg) (i : Nat) :
    flt_var (a :: args) (i + 1) = flt_var args i := by
  simp only [flt_var, arg_flt, List.get?_cons_succ]

theorem flt_var_flt (x : FLT) (args : List Arg) : flt_var (.flt x :: args) 0 = x := by
  simp only [flt_var, arg_flt, List.get?_cons_zero, Option.getD_some]

theorem str_var_str (x : List Char) (args : List Arg) : str_var (.str x :: args) 0 = x := by
  simp only [str_var, arg_str, List.get?_cons_zero, Option.getD_some]

/-- The handler of a light code on a line that reads as nine values. -/
theorem parse_and_run_lightcode_values (line : List Char) (d : SurvivePlaybackData)
    (args : List Arg) (dev : List Char) (sensor_id acode timeinsweep : Int)
    (timecode length lh : Nat)
    (hs : sscanf line "%8s %8s %8s %u %d %d %d %u %u\n" = (9, args))
    (h0 : str_var args 0 = dev) (hreg : dev ∈ d.objects)
    (h3 : toSigned 32 (int_var args 3) = sensor_id) (h4 : int_var args 4 = acode)
    (h5 : int_var args 5 = timeinsweep) (h6 : toUnsigned 32 (int_var args 6) = timecode)
    (h7 : toUnsigned 32 (int_var args 7) = length) (h8 : toUnsigned 32 (int_var args 8) = lh) :
    parse_and_run_lightcode line d
      = (0, d, [.call (.lightproc dev sensor_id acode timeinsweep timecode length lh)]) := by
  simp only [parse_and_run_lightcode, hs, h0, h3, h4, h5, h6, h7, h8,
    survive_get_so_by_name_mem d.objects dev hreg]
  rw [if_neg (fun k => k rfl)]

/-- The line of a light code record, handled. -/
theorem replay_line_light_code (device : List Char) (sensor_id axis_code time_in_sweep : Int)
    (timecode length beacon_id : Nat) (l x : Char) (d : SurvivePlaybackData)
    (h : (Event.light_code device sensor_id axis_code time_in_sweep timecode length
      beacon_id).wf)
    (hl : l = 'L' ∨ l = 'R') (hx : x = 'X' ∨ x = 'Y')
    (hreg : device ∈ d.objects) (hraw : d.hasRawLight = false) :
    (playback_dispatch (line_of "%s %s %s %d %d %d %u %u %u\n"
        [.str device, .str [l], .str [x], .int sensor_id, .int axis_code,
         .int time_in_sweep, .int timecode, .int length, .int beacon_id]) [l] d).2
      = [.call (.lightproc device sensor_id axis_code time_in_sweep timecode length
          beacon_id)] := by
  obtain ⟨hname, hsid, ha0, ha7, htis, htc, hlen, hlh⟩ := h
  have hsp : isspace ' ' = true := by decide
  have hac : Int32 axis_code := ⟨by omega, by omega⟩
  have hb : body_dirs "%s %s %s %d %d %d %u %u %u\n"
      = [.conv (.s none), .lit ' ', .conv (.s none), .lit ' ', .conv (.s none), .lit ' ',
         .conv .d, .lit ' ', .conv .d, .lit ' ', .conv .d, .lit ' ', .conv (.u 32), .lit ' ',
         .conv (.u 32), .lit ' ', .conv (.u 32)] := by decide
  have hf : parse_format "%8s %8s %8s %u %d %d %d %u %u\n"
      = [.conv (.s (some 8)), .lit ' ', .conv (.s (some 8)), .lit ' ', .conv (.s (some 8)),
         .lit ' ', .conv (.u 32), .lit ' ', .conv .d, .lit ' ', .conv .d, .lit ' ', .conv .d,
         .lit ' ', .conv (.u 32), .lit ' ', .conv (.u 32)] ++ [.lit '\n'] := by decide
  have hs : sscanf (line_of "%s %s %s %d %d %d %u %u %u\n"
        [.str device, .str [l], .str [x], .int sensor_id, .int axis_code,
         .int time_in_sweep, .int timecode, .int length, .int beacon_id])
        "%8s %8s %8s %u %d %d %d %u %u\n"
      = (9, [.str device, .str [l], .str [x], .int (toUnsigned 32 sensor_id), .int axis_code,
          .int time_in_sweep, .int (toSigned 32 timecode), .int length, .int beacon_id]) := by
    simp only [line_of, hb]
    simp only [sprintf_dirs, fmt_conv, toUnsigned_of_lt 32 timecode htc,
      toUnsigned_of_lt 32 length hlen, toUnsigned_of_lt 32 beacon_id hlh]
    refine sscanf_of_dirs _ _ _ _ _ _ .done hf rfl ?_
    refine sscanf_dirs_field0 _ device _ _ _ _ _
      (readsAs_s_token _ device (name_ne_nil _ _ hname)
        (by intro w hw; cases hw; exact hname.2.1) hname.2.2)
      (endOfToken_cons ' ' _ hsp) ?_
    refine sscanf_dirs_wfield _ [l] _ _ _ _ _
      (readsAs_s_token _ [l] (by simp) (by intro w hw; cases hw; simp)
        (tokenChars_letter l (by tauto)))
      (endOfToken_cons ' ' _ hsp) ?_
    refine sscanf_dirs_wfield _ [x] _ _ _ _ _
      (readsAs_s_token _ [x] (by simp) (by intro w hw; cases hw; simp)
        (tokenChars_letter x (by tauto)))
      (endOfToken_cons ' ' _ hsp) ?_
    refine sscanf_dirs_wfield _ _ _ _ _ _ _ (readsAs_u_fmt_d 32 sensor_id)
      (endOfToken_cons ' ' _ hsp) ?_
    refine sscanf_dirs_wfield _ _ _ _ _ _ _ (readsAs_d_int32 axis_code hac)
      (endOfToken_cons ' ' _ hsp) ?_
    refine sscanf_dirs_wfield _ _ _ _ _ _ _ (readsAs_d_int32 time_in_sweep htis)
      (endOfToken_cons ' ' _ hsp) ?_
    refine sscanf_dirs_wfield _ _ _ _ _ _ _ (readsAs_d_fmt_u timecode)
      (endOfToken_cons ' ' _ hsp) ?_
    refine sscanf_dirs_wfield _ _ _ _ _ _ _ (readsAs_u_lt 32 length hlen)
      (endOfToken_cons ' ' _ hsp) ?_
    exact sscanf_dirs_wfield _ _ _ _ _ _ _ (readsAs_u_lt 32 beacon_id hlh) endOfToken_nil
      sscanf_dirs_newline_end
  have hop : [l] = ['L'] ∨ [l] = ['R'] := by
    rcases hl with rfl | rfl
    · exact Or.inl rfl
    · exact Or.inr rfl
  have hw := toUnsigned_toSigned 32 timecode (by decide) htc
  have hv := toSigned_toUnsigned 32 sensor_id (by decide) hsid.1 hsid.2
  generalize toSigned 32 (timecode : Int) = w at hs hw
  generalize toUnsigned 32 sensor_id = v at hs hv
  rw [playback_dispatch_L_R_fresh _ [l] d hop hraw]
  exact congrArg (fun r => r.2.2) (parse_and_run_lightcode_values _ d _ device sensor_id
    axis_code time_in_sweep timecode length beacon_id hs rfl hreg
    (by simp only [int_var_cons, int_var_int, hv])
    (by simp only [int_var_cons, int_var_int]) (by simp only [int_var_cons, int_var_int])
    (by simp only [int_var_cons, int_var_int, hw])
    (by simp only [int_var_cons, int_var_int, toUnsigned_of_lt 32 length hlen])
    (by simp only [int_var_cons, int_var_int, toUnsigned_of_lt 32 beacon_id hlh]))
/-- The handler of an IMU sample on a line that reads as fourteen values. -/
theorem parse_and_run_imu_values (line : List Char) (d : SurvivePlaybackData) (raw : Bool)
    (args : List Arg) (dev : List Char) (mask : Int) (a0 a1 a2 a3 a4 a5 a6 a7 a8 : FLT)
    (timecode : Nat) (id : Int)
    (hs : sscanf line IMU_SCANF = (14, args))
    (h0 : str_var args 0 = dev) (hlen : dev.length ≤ 9)
    (h1 : arg_chr args 1 = some (if raw then 'i' else 'I'))
    (hreg : dev ∈ d.objects) (h2 : int_var args 2 = mask)
    (h3 : toUnsigned 32 (int_var args 3) = timecode)
    (f0 : flt_var args 4 = a0) (f1 : flt_var args 5 = a1) (f2 : flt_var args 6 = a2)
    (f3 : flt_var args 7 = a3) (f4 : flt_var args 8 = a4) (f5 : flt_var args 9 = a5)
    (f6 : flt_var args 10 = a6) (f7 : flt_var args 11 = a7) (f8 : flt_var args 12 = a8)
    (h13 : int_var args 13 = id) :
    parse_and_run_imu line d raw
      = (0, d, [.call ((if raw then Call.raw_imuproc else Call.imuproc) dev mask
          [a0, a1, a2, a3, a4, a5, a6, a7, a8] timecode id)]) := by
  have e1 : ¬((14 : Int) ≠ 11 ∧ (14 : Int) ≠ 14) := fun k => k.2 rfl
  have e2 : ¬((14 : Int) = 11) := by decide
  have e3 : ¬ 9 < dev.length := Nat.not_lt.mpr hlen
  cases raw
  · simp only [parse_and_run_imu, hs, h0, h1, h2, h3, f0, f1, f2, f3, f4, f5, f6, f7, f8, h13,
      survive_get_so_by_name_mem d.objects dev hreg, Option.getD_some, if_neg e1, if_neg e2,
      if_neg e3]
    rfl
  · simp only [parse_and_run_imu, hs, h0, h1, h2, h3, f0, f1, f2, f3, f4, f5, f6, f7, f8, h13,
      survive_get_so_by_name_mem d.objects dev hreg, Option.getD_some, if_neg e1, if_neg e2,
      if_neg e3]
    rfl

/-- The line of an IMU record, read with `IMU_SCANF`. -/
theorem sscanf_imu (device : List Char) (c : Char) (mask : Int) (values : List FLT)
    (timecode : Nat) (id : Int) (hc : c = 'I' ∨ c = 'i') (hname : Name 9 device)
    (hmask : Int32 mask) (htc : timecode < 4294967296) (hid : Int32 id) :
    sscanf (sprintf_dirs
        [.conv (.s none), .lit ' ', .lit c, .lit ' ', .conv .d, .lit ' ', .conv (.u 32),
         .lit ' ', .conv .f, .lit ' ', .conv .f, .lit ' ', .conv .f, .lit ' ', .conv .f,
         .lit ' ', .conv .f, .lit ' ', .conv .f, .lit ' ', .lit ' ', .conv .f, .lit ' ',
         .conv .f, .lit ' ', .conv .f, .lit ' ', .conv .d]
        [.str device, .int mask, .int timecode, flt_at values 0, flt_at values 1,
         flt_at values 2, flt_at values 3, flt_at values 4, flt_at values 5, flt_at values 6,
         flt_at values 7, flt_at values 8, .int id]) IMU_SCANF
      = (14, [.str device, .chr c, .int mask, .int (toSigned 32 timecode),
          .flt (round6_at values 0), .flt (round6_at values 1), .flt (round6_at values 2),
          .flt (round6_at values 3), .flt (round6_at values 4), .flt (round6_at values 5),
          .flt (round6_at values 6), .flt (round6_at values 7), .flt (round6_at values 8),
          .int id]) := by
  have hsp : isspace ' ' = true := by decide
  have hcs : isspace c = false := by rcases hc with rfl | rfl <;> decide
  have hf : parse_format IMU_SCANF
      = [.conv (.s none), .lit ' ', .conv .c, .lit ' ', .conv .d, .lit ' ', .conv .d,
         .lit ' ', .conv .f, .lit ' ', .conv .f, .lit ' ', .conv .f, .lit ' ', .conv .f,
         .lit ' ', .conv .f, .lit ' ', .conv .f, .lit ' ', .conv .f, .lit ' ', .conv .f,
         .lit ' ', .conv .f, .conv .d] := by decide
  simp only [sprintf_dirs, fmt_conv, flt_at, toUnsigned_of_lt 32 timecode htc, round6_at]
  refine sscanf_of_dirs _ _ _ _ _ _ .done hf rfl ?_
  refine sscanf_dirs_field0 _ device _ _ _ _ _
    (readsAs_s_token _ device (name_ne_nil _ _ hname) (by intro w hw; cases hw) hname.2.2)
    (endOfToken_cons ' ' _ hsp) ?_
  refine sscanf_dirs_wchar c _ _ _ _ hcs ?_
  refine sscanf_dirs_wfield _ _ _ _ _ _ _ (readsAs_d_int32 mask hmask)
    (endOfToken_cons ' ' _ hsp) ?_
  refine sscanf_dirs_wfield _ _ _ _ _ _ _ (readsAs_d_fmt_u timecode)
    (endOfToken_cons ' ' _ hsp) ?_
  refine sscanf_dirs_wfield _ _ _ _ _ _ _ (readsAs_f_fmt_f6 _) (endOfToken_cons ' ' _ hsp) ?_
  refine sscanf_dirs_wfield _ _ _ _ _ _ _ (readsAs_f_fmt_f6 _) (endOfToken_cons ' ' _ hsp) ?_
  refine sscanf_dirs_wfield _ _ _ _ _ _ _ (readsAs_f_fmt_f6 _) (endOfToken_cons ' ' _ hsp) ?_
  refine sscanf_dirs_wfield _ _ _ _ _ _ _ (readsAs_f_fmt_f6 _) (endOfToken_cons ' ' _ hsp) ?_
  refine sscanf_dirs_wfield _ _ _ _ _ _ _ (readsAs_f_fmt_f6 _) (endOfToken_cons ' ' _ hsp) ?_
  refine sscanf_dirs_wfield _ _ _ _ _ _ _ (readsAs_f_fmt_f6 _) (endOfToken_cons ' ' _ hsp) ?_
  refine sscanf_dirs_wfield _ (' ' :: fmt_f6 (values.getD 6 (FLT.num 0 0))) _ _ _ _ _
    (readsAs_space _ _ _ (readsAs_f_fmt_f6 _)) (endOfToken_cons ' ' _ hsp) ?_
  refine sscanf_dirs_wfield _ _ _ _ _ _ _ (readsAs_f_fmt_f6 _) (endOfToken_cons ' ' _ hsp) ?_
  refine sscanf_dirs_wfield _ _ _ _ _ _ _ (readsAs_f_fmt_f6 _) (endOfToken_cons ' ' _ hsp) ?_
  exact sscanf_dirs_field _ _ _ _ _ _ _ (readsAs_d_int32 id hid) endOfToken_nil rfl

/-- The line of an IMU record, handled: `c` is the letter of the record, `I` for a
calibrated sample and `i` for a raw one. -/
theorem parse_and_run_imu_written (device : List Char) (raw : Bool) (mask : Int)
    (values : List FLT) (timecode : Nat) (id : Int) (d : SurvivePlaybackData)
    (hname : Name 9 device) (hmask : Int32 mask) (htc : timecode < 4294967296)
    (hid : Int32 id) (hreg : device ∈ d.objects) :
    (parse_and_run_imu (sprintf_dirs
        [.conv (.s none), .lit ' ', .lit (if raw then 'i' else 'I'), .lit ' ', .conv .d,
         .lit ' ', .conv (.u 32),
         .lit ' ', .conv .f, .lit ' ', .conv .f, .lit ' ', .conv .f, .lit ' ', .conv .f,
         .lit ' ', .conv .f, .lit ' ', .conv .f, .lit ' ', .lit ' ', .conv .f, .lit ' ',
         .conv .f, .lit ' ', .conv .f, .lit ' ', .conv .d]
        [.str device, .int mask, .int timecode, flt_at values 0, flt_at values 1,
         flt_at values 2, flt_at values 3, flt_at values 4, flt_at values 5, flt_at values 6,
         flt_at values 7, flt_at values 8, .int id]) d raw).2.2
      = [.call ((if raw then Call.raw_imuproc else Call.imuproc) device mask (values6 values)
          timecode id)] := by
  have hs := sscanf_imu device (if raw then 'i' else 'I') mask values timecode id
    (by cases raw <;> simp) hname hmask htc hid
  have hw := toUnsigned_toSigned 32 timecode (by decide) htc
  generalize toSigned 32 (timecode : Int) = w at hs hw
  exact congrArg (fun r => r.2.2) (parse_and_run_imu_values _ d raw _ device mask
    (round6_at values 0) (round6_at values 1) (round6_at values 2) (round6_at values 3)
    (round6_at values 4) (round6_at values 5) (round6_at values 6) (round6_at values 7)
    (round6_at values 8) timecode id hs (str_var_str _ _) hname.2.1
    (by simp only [arg_chr, List.get?_cons_succ, List.get?_cons_zero]) hreg
    (by simp only [int_var_cons, int_var_int])
    (by simp only [int_var_cons, int_var_int, hw])
    (by simp only [flt_var_cons, flt_var_flt]) (by simp only [flt_var_cons, flt_var_flt])
    (by simp only [flt_var_cons, flt_var_flt]) (by simp only [flt_var_cons, flt_var_flt])
    (by simp only [flt_var_cons, flt_var_flt]) (by simp only [flt_var_cons, flt_var_flt])
    (by simp only [flt_var_cons, flt_var_flt]) (by simp only [flt_var_cons, flt_var_flt])
    (by simp only [flt_var_cons, flt_var_flt]) (by simp only [int_var_cons, int_var_int]))

/-- The line of a calibrated IMU record, handled. -/
theorem replay_line_imu (device : List Char) (mask : Int) (values : List FLT)
    (timecode : Nat) (id : Int) (d : SurvivePlaybackData)
    (h : (Event.imu device true mask values timecode id).wf) (hreg : device ∈ d.objects) :
    (playback_dispatch (line_of
        "%s I %d %u %0.6f %0.6f %0.6f %0.6f %0.6f %0.6f  %0.6f %0.6f %0.6f %d\n"
        [.str device, .int mask, .int timecode, flt_at values 0, flt_at values 1,
         flt_at values 2, flt_at values 3, flt_at values 4, flt_at values 5, flt_at values 6,
         flt_at values 7, flt_at values 8, .int id]) ['I'] d).2
      = [.call (.imuproc device mask (values6 values) timecode id)] := by
  rw [playback_dispatch_I]
  exact parse_and_run_imu_written device false mask values timecode id d h.1 h.2.1 h.2.2.1
    h.2.2.2 hreg

/-- The line of a raw IMU record, handled. -/
theorem replay_line_raw_imu (device : List Char) (mask : Int) (values : List FLT)
    (timecode : Nat) (id : Int) (d : SurvivePlaybackData)
    (h : (Event.imu device false mask values timecode id).wf) (hreg : device ∈ d.objects) :
    (playback_dispatch (line_of
        "%s i %d %u %0.6f %0.6f %0.6f %0.6f %0.6f %0.6f  %0.6f %0.6f %0.6f %d\n"
        [.str device, .int mask, .int timecode, flt_at values 0, flt_at values 1,
         flt_at values 2, flt_at values 3, flt_at values 4, flt_at values 5, flt_at values 6,
         flt_at values 7, flt_at values 8, .int id]) ['i'] d).2
      = [.call (.raw_imuproc device mask (values6 values) timecode id)] := by
  rw [playback_dispatch_i]
  exact parse_and_run_imu_written device true mask values timecode id d h.1 h.2.1 h.2.2.1
    h.2.2.2 hreg

theorem arg_flt_cons (a : Arg) (args : List Arg) (i : Nat) :
    arg_flt (a :: args) (i + 1) = arg_flt args i := by
  simp only [arg_flt, List.get?_cons_succ]

theorem arg_flt_flt (x : FLT) (args : List Arg) : arg_flt (.flt x :: args) 0 = some x := by
  simp only [arg_flt, List.get?_cons_zero]

/-- The text of a name and the seven numbers of a pose behind the word `word`, read with
the matching conversions. -/
theorem sscanf_pose_line (fmt : String) (word : List Char) (name : List Char)
    (pose : SurvivePose) (hname : Name 31 name) (hword : word ≠ [])
    (hw : ∀ c ∈ word, isspace c = false)
    (hf : parse_format fmt
      = .conv (.s none) :: .lit ' ' :: (word.map .lit ++ [.lit ' ', .conv .f, .lit ' ',
          .conv .f, .lit ' ', .conv .f, .lit ' ', .conv .f, .lit ' ', .conv .f, .lit ' ',
          .conv .f, .lit ' ', .conv .f, .lit '\n'])) :
    sscanf (sprintf_dirs
        (.conv (.s none) :: .lit ' ' :: (word.map .lit ++ [.lit ' ', .conv .f, .lit ' ',
          .conv .f, .lit ' ', .conv .f, .lit ' ', .conv .f, .lit ' ', .conv .f, .lit ' ',
          .conv .f, .lit ' ', .conv .f]))
        [.str name, flt_at pose.Pos 0, flt_at pose.Pos 1, flt_at pose.Pos 2,
         flt_at pose.Rot 0, flt_at pose.Rot 1, flt_at pose.Rot 2, flt_at pose.Rot 3]) fmt
      = (8, [.str name, .flt (round6_at pose.Pos 0), .flt (round6_at pose.Pos 1),
          .flt (round6_at pose.Pos 2), .flt (round6_at pose.Rot 0),
          .flt (round6_at pose.Rot 1), .flt (round6_at pose.Rot 2),
          .flt (round6_at pose.Rot 3)]) := by
  have hsp : isspace ' ' = true := by decide
  obtain ⟨c, w, rfl⟩ : ∃ c w, word = c :: w := by
    cases word with
    | nil => exact absurd rfl hword
    | cons c w => exact ⟨c, w, rfl⟩
  have hprint : ∀ args, sprintf_dirs ((c :: w).map Dir.lit ++ [.lit ' ', .conv .f, .lit ' ',
          .conv .f, .lit ' ', .conv .f, .lit ' ', .conv .f, .lit ' ', .conv .f, .lit ' ',
          .conv .f, .lit ' ', .conv .f]) args
      = (c :: w) ++ sprintf_dirs [.lit ' ', .conv .f, .lit ' ',
          .conv .f, .lit ' ', .conv .f, .lit ' ', .conv .f, .lit ' ', .conv .f, .lit ' ',
          .conv .f, .lit ' ', .conv .f] args := fun args => sprintf_dirs_word (c :: w) _ args
  rw [sprintf_dirs, fmt_conv, sprintf_dirs, hprint]
  simp only [sprintf_dirs, fmt_conv, flt_at, round6_at]
  refine sscanf_of_dirs _ _ _ _ _ _ .done hf rfl ?_
  refine sscanf_dirs_field0 _ name _ _ _ _ _
    (readsAs_s_token _ name (name_ne_nil _ _ hname) (by intro w hw; cases hw) hname.2.2)
    (endOfToken_cons ' ' _ hsp) ?_
  refine sscanf_dirs_wword c w _ _ _ hw ?_
  refine sscanf_dirs_wfield _ _ _ _ _ _ _ (readsAs_f_fmt_f6 _) (endOfToken_cons ' ' _ hsp) ?_
  refine sscanf_dirs_wfield _ _ _ _ _ _ _ (readsAs_f_fmt_f6 _) (endOfToken_cons ' ' _ hsp) ?_
  refine sscanf_dirs_wfield _ _ _ _ _ _ _ (readsAs_f_fmt_f6 _) (endOfToken_cons ' ' _ hsp) ?_
  refine sscanf_dirs_wfield _ _ _ _ _ _ _ (readsAs_f_fmt_f6 _) (endOfToken_cons ' ' _ hsp) ?_
  refine sscanf_dirs_wfield _ _ _ _ _ _ _ (readsAs_f_fmt_f6 _) (endOfToken_cons ' ' _ hsp) ?_
  refine sscanf_dirs_wfield _ _ _ _ _ _ _ (readsAs_f_fmt_f6 _) (endOfToken_cons ' ' _ hsp) ?_
  exact sscanf_dirs_wfield _ _ _ _ _ _ _ (readsAs_f_fmt_f6 _) endOfToken_nil
    sscanf_dirs_newline_end
theorem playback_dispatch_A (line : List Char) (d : SurvivePlaybackData) :
    playback_dispatch line ['A'] d = (d, []) := by
  unfold playback_dispatch
  rw [if_neg (by decide), if_neg (by decide), if_neg (by decide), if_neg (by decide),
    if_neg (by decide), if_neg (by decide), if_neg (by decide), if_neg (by decide),
    if_neg (by decide), if_pos (by decide)]

/-- The line of an external pose record, handled. -/
theorem replay_line_external_pose (name : List Char) (pose : SurvivePose)
    (d : SurvivePlaybackData) (h : Name 31 name) :
    (playback_dispatch (line_of
        "%s EXTERNAL_POSE %0.6f %0.6f %0.6f %0.6f %0.6f %0.6f %0.6f\n"
        [.str name, flt_at pose.Pos 0, flt_at pose.Pos 1, flt_at pose.Pos 2,
         flt_at pose.Rot 0, flt_at pose.Rot 1, flt_at pose.Rot 2, flt_at pose.Rot 3])
        "EXTERNAL_POSE".toList d).2
      = [.call (.external_poseproc name (pose6 pose))] := by
  have hs : sscanf (line_of
        "%s EXTERNAL_POSE %0.6f %0.6f %0.6f %0.6f %0.6f %0.6f %0.6f\n"
        [.str name, flt_at pose.Pos 0, flt_at pose.Pos 1, flt_at pose.Pos 2,
         flt_at pose.Rot 0, flt_at pose.Rot 1, flt_at pose.Rot 2, flt_at pose.Rot 3])
        EXTERNAL_POSE_SCANF = _ :=
    sscanf_pose_line EXTERNAL_POSE_SCANF "EXTERNAL_POSE".toList name pose h (by decide)
      (by decide) (by decide)
  rw [playback_dispatch_EXTERNAL_POSE]
  have hfit : ¬ 127 < name.length := by
    have := h.2.1
    omega
  simp only [parse_and_run_externalpose, hs, str_var_str, if_neg hfit]
  rfl

/-- The line of a pose record, handled. -/
theorem replay_line_pose (device : List Char) (pose : SurvivePose)
    (d : SurvivePlaybackData) (h : Name 31 device) :
    (playback_dispatch (line_of "%s POSE %0.6f %0.6f %0.6f %0.6f %0.6f %0.6f %0.6f\n"
        [.str device, flt_at pose.Pos 0, flt_at pose.Pos 1, flt_at pose.Pos 2,
         flt_at pose.Rot 0, flt_at pose.Rot 1, flt_at pose.Rot 2, flt_at pose.Rot 3])
        "POSE".toList d).2
      = if d.outputExternalPose
          then [.call (.external_poseproc ("replay_".toList ++ device) (pose6 pose))]
          else [] := by
  have hs : sscanf (line_of "%s POSE %0.6f %0.6f %0.6f %0.6f %0.6f %0.6f %0.6f\n"
        [.str device, flt_at pose.Pos 0, flt_at pose.Pos 1, flt_at pose.Pos 2,
         flt_at pose.Rot 0, flt_at pose.Rot 1, flt_at pose.Rot 2, flt_at pose.Rot 3])
        POSE_SCANF = _ :=
    sscanf_pose_line POSE_SCANF "POSE".toList device pose h (by decide) (by decide) (by decide)
  rw [playback_dispatch_POSE]
  cases d.outputExternalPose
  · rfl
  · have hfit : ¬ 120 < device.length := by
      have := h.2.1
      omega
    simp only [parse_and_run_pose, hs, if_true, str_var_str, if_neg hfit]
    rw [if_neg (fun k => k rfl)]
    rfl

/-- The record of a configuration: the device, the word `CONFIG` and the text, each newline
of it replaced by a space. -/
theorem written_config (ts : FLT) (device text : List Char) :
    written ts (.config device text)
      = fmt_f6 ts ++ ' ' :: ((device ++ ' ' :: ("CONFIG".toList ++ ' ' ::
          text.map (fun c => if c = '\n' then ' ' else c))) ++ ['\n']) := by
  have h1 : sprintf "%0.6f " [.flt ts] = fmt_f6 ts ++ [' '] := by
    simp [sprintf, show parse_format "%0.6f " = [.conv .f, .lit ' '] from by decide,
      sprintf_dirs, fmt_conv]
  have h2 : sprintf "%s CONFIG " [.str device] = device ++ " CONFIG ".toList := by
    simp [sprintf, show parse_format "%s CONFIG "
      = [.conv (.s none), .lit ' ', .lit 'C', .lit 'O', .lit 'N', .lit 'F', .lit 'I', .lit 'G',
         .lit ' '] from by decide, sprintf_dirs, fmt_conv]
  simp [written, record, survive_recording_config_process, recording_all, write_to_output,
    write_to_output_raw, Recorder.file, memcpy, replace_newlines, h1, h2]

theorem lineChars_config (device text : List Char) (hname : Name 31 device)
    (htext : ∀ c ∈ text, c ≠ NUL ∧ c ≠ '\r') :
    LineChars (device ++ ' ' :: ("CONFIG".toList ++ ' ' ::
      text.map (fun c => if c = '\n' then ' ' else c))) := by
  refine lineChars_append _ _ hname.2.2.lineChars ?_
  refine lineChars_cons ' ' _ (by decide) ?_
  refine lineChars_append _ _ (by intro c hc; revert c; decide) ?_
  refine lineChars_cons ' ' _ (by decide) ?_
  intro c hc
  obtain ⟨x, hx, rfl⟩ := List.mem_map.mp hc
  by_cases h : x = '\n'
  · rw [if_pos h]; decide
  · rw [if_neg h]; exact ⟨(htext x hx).1, h, (htext x hx).2⟩

theorem lineArgs_name (k : Nat) (device : List Char) (args : List Arg) (h : Name k device)
    (hargs : ∀ a ∈ args, a.lineArg) : ∀ a ∈ Arg.str device :: args, a.lineArg := by
  intro a ha
  rcases List.mem_cons.mp ha with rfl | ha
  · exact h.2.2.lineChars
  · exact hargs a ha

theorem lineArgs_numbers (args : List Arg)
    (h : args.all (fun a => match a with | .int _ => true | .flt _ => true | _ => false)
      = true) : ∀ a ∈ args, a.lineArg := by
  intro a ha
  have := List.all_eq_true.mp h a ha
  cases a with
  | str s => simp at this
  | chr c => simp at this
  | int v => trivial
  | flt x => trivial

theorem name_le (k : Nat) (device : List Char) (h : Name k device) (hk : k ≤ 31) :
    device.length ≤ 31 := Nat.le_trans h.2.1 hk

/-- C1, amended.  Let the recorder, every category enabled, write the record of an event `e`
at the clock reading `ts`, and let a fresh playback session meet this record at the start of
its log when the record is due.  The fields of `e` are values of the C types of its recording
function, names fit the buffers of the parsers, and the object a handler looks up is
registered.  Then the poll returns 0 and lets out exactly `replay_outs`: for `Sync`, `Sweep`,
`SweepAngle`, `LightCapRaw`, `LightCode` (axis code 0 to 7), `Imu` and `ExternalPose` the one
call of the callback of the variant with the fields of `e`, integers equal and numbers to six
decimals; for `Pose` a call of the external pose callback under the name `replay_<device>`
when `playback-replay-pose` is set, and nothing otherwise; and for `Config`,
`LighthousePose`, `Velocity`, `ExternalVelocity`, `Info` and `Angle` no call at all. -/
theorem playback_poll_replays_record (alloc : Nat → Bool) (junk : Char)
    (halloc : ∀ m, alloc m = true) (objects : List (List Char)) (rest : List Char)
    (factor now : FLT) (replay_pose : Bool) (ts : FLT) (e : Event) (hwf : e.wf)
    (hreg : ∀ so, e.so = some so → so ∈ objects)
    (hsize : (written ts e).length < SSIZE_MAX)
    (hdue : (ts.round6.mul factor).gt now = false) :
    (playback_poll alloc junk (playback_start objects (written ts e ++ rest) factor replay_pose)
        now).1 = 0
    ∧ (playback_poll alloc junk
        (playback_start objects (written ts e ++ rest) factor replay_pose) now).2.2
      = replay_outs replay_pose e := by
  cases e with
  | config device text =>
    have hpoll := playback_poll_event alloc junk halloc objects rest factor now replay_pose ts
      (.config device text) _ device "CONFIG".toList _ (written_config ts device text)
      (lineChars_config device text hwf.1 hwf.2) rfl (name_ne_nil _ _ hwf.1) hwf.1.2.2
      (name_le _ _ hwf.1 (by decide)) (by decide) (tokenChars_of_all _ (by decide))
      (by decide) hsize hdue
    rw [hpoll, playback_dispatch_known_letter _ _ _ (by decide) (by decide) (by decide)
      (by decide)]
    exact ⟨rfl, rfl⟩
  | lighthouse_pose beacon_id pose =>
    have hpoll := playback_poll_event_fmt alloc junk halloc objects rest factor now
      replay_pose ts (.lighthouse_pose beacon_id pose)
      "%d LH_POSE %0.6f %0.6f %0.6f %0.6f %0.6f %0.6f %0.6f\n"
      (body_dirs "%d LH_POSE %0.6f %0.6f %0.6f %0.6f %0.6f %0.6f %0.6f\n")
      [.int beacon_id, flt_at pose.Pos 0, flt_at pose.Pos 1, flt_at pose.Pos 2,
       flt_at pose.Rot 0, flt_at pose.Rot 1, flt_at pose.Rot 2, flt_at pose.Rot 3]
      (fmt_d beacon_id) "LH_POSE".toList _ rfl (by decide) (le_of_eq rfl) (by decide)
      (lineArgs_numbers _ rfl) rfl
      (by rw [fmt_d_natCast]; exact fmt_u_ne_nil _) (fmt_d_tokenChars _)
      (by
        rw [fmt_d_natCast]
        exact Nat.le_trans (fmt_u_length beacon_id 3 (by decide)
          (Nat.lt_trans hwf (by decide))) (by decide))
      (by decide) (tokenChars_of_all _ (by decide)) (by decide) hsize hdue
    rw [hpoll, playback_dispatch_known_letter _ _ _ (by decide) (by decide) (by decide)
      (by decide)]
    exact ⟨rfl, rfl⟩
  | velocity device v =>
    have hpoll := playback_poll_event_fmt alloc junk halloc objects rest factor now
      replay_pose ts (.velocity device v)
      "%s VELOCITY %0.6f %0.6f %0.6f %0.6f %0.6f %0.6f\n"
      (body_dirs "%s VELOCITY %0.6f %0.6f %0.6f %0.6f %0.6f %0.6f\n")
      [.str device, flt_at v.Pos 0, flt_at v.Pos 1, flt_at v.Pos 2, flt_at v.AxisAngleRot 0,
       flt_at v.AxisAngleRot 1, flt_at v.AxisAngleRot 2]
      device "VELOCITY".toList _ rfl (by decide) (le_of_eq rfl) (by decide)
      (lineArgs_name _ _ _ hwf (lineArgs_numbers _ rfl)) rfl
      (name_ne_nil _ _ hwf) hwf.2.2 (name_le _ _ hwf (by decide))
      (by decide) (tokenChars_of_all _ (by decide)) (by decide) hsize hdue
    rw [hpoll, playback_dispatch_known_letter _ _ _ (by decide) (by decide) (by decide)
      (by decide)]
    exact ⟨rfl, rfl⟩
  | pose device pose =>
    have hpoll := playback_poll_event_fmt alloc junk halloc objects rest factor now
      replay_pose ts (.pose device pose)
      "%s POSE %0.6f %0.6f %0.6f %0.6f %0.6f %0.6f %0.6f\n"
      (body_dirs "%s POSE %0.6f %0.6f %0.6f %0.6f %0.6f %0.6f %0.6f\n")
      [.str device, flt_at pose.Pos 0, flt_at pose.Pos 1, flt_at pose.Pos 2,
       flt_at pose.Rot 0, flt_at pose.Rot 1, flt_at pose.Rot 2, flt_at pose.Rot 3]
      device "POSE".toList _ rfl (by decide) (le_of_eq rfl) (by decide)
      (lineArgs_name _ _ _ hwf (lineArgs_numbers _ rfl)) rfl
      (name_ne_nil _ _ hwf) hwf.2.2 (name_le _ _ hwf (by decide))
      (by decide) (tokenChars_of_all _ (by decide)) (by decide) hsize hdue
    rw [hpoll]
    exact ⟨rfl, replay_line_pose device pose _ hwf⟩
  | external_pose name pose =>
    have hpoll := playback_poll_event_fmt alloc junk halloc objects rest factor now
      replay_pose ts (.external_pose name pose)
      "%s EXTERNAL_POSE %0.6f %0.6f %0.6f %0.6f %0.6f %0.6f %0.6f\n"
      (body_dirs "%s EXTERNAL_POSE %0.6f %0.6f %0.6f %0.6f %0.6f %0.6f %0.6f\n")
      [.str name, flt_at pose.Pos 0, flt_at pose.Pos 1, flt_at pose.Pos 2,
       flt_at pose.Rot 0, flt_at pose.Rot 1, flt_at pose.Rot 2, flt_at pose.Rot 3]
      name "EXTERNAL_POSE".toList _ rfl (by decide) (le_of_eq rfl) (by decide)
      (lineArgs_name _ _ _ hwf (lineArgs_numbers _ rfl)) rfl
      (name_ne_nil _ _ hwf) hwf.2.2 (name_le _ _ hwf (by decide))
      (by decide) (tokenChars_of_all _ (by decide)) (by decide) hsize hdue
    rw [hpoll]
    exact ⟨rfl, replay_line_external_pose name pose _ hwf⟩
  | external_velocity name v =>
    have hpoll := playback_poll_event_fmt alloc junk halloc objects rest factor now
      replay_pose ts (.external_velocity name v)
      "%s EXTERNAL_VELOCITY %0.6f %0.6f %0.6f %0.6f %0.6f %0.6f\n"
      (body_dirs "%s EXTERNAL_VELOCITY %0.6f %0.6f %0.6f %0.6f %0.6f %0.6f\n")
      [.str name, flt_at v.Pos 0, flt_at v.Pos 1, flt_at v.Pos 2, flt_at v.AxisAngleRot 0,
       flt_at v.AxisAngleRot 1, flt_at v.AxisAngleRot 2]
      name "EXTERNAL_VELOCITY".toList _ rfl (by decide) (le_of_eq rfl) (by decide)
      (lineArgs_name _ _ _ hwf (lineArgs_numbers _ rfl)) rfl
      (name_ne_nil _ _ hwf) hwf.2.2 (name_le _ _ hwf (by decide))
      (by decide) (tokenChars_of_all _ (by decide)) (by decide) hsize hdue
    rw [hpoll, playback_dispatch_known_letter _ _ _ (by decide) (by decide) (by decide)
      (by decide)]
    exact ⟨rfl, rfl⟩
  | info message =>
    have hpoll := playback_poll_event_fmt alloc junk halloc objects rest factor now
      replay_pose ts (.info message) "INFO LOG %s\n" (body_dirs "INFO LOG %s\n")
      [.str message] "INFO".toList "LOG".toList _ rfl (by decide) (le_of_eq rfl) (by decide)
      (by intro a ha; rw [List.mem_singleton.mp ha]; exact hwf) rfl
      (by decide) (tokenChars_of_all _ (by decide)) (by decide)
      (by decide) (tokenChars_of_all _ (by decide)) (by decide) hsize hdue
    rw [hpoll, playback_dispatch_known_letter _ _ _ (by decide) (by decide) (by decide)
      (by decide)]
    exact ⟨rfl, rfl⟩
  | sync device channel timecode ootx gen =>
    have hpoll := playback_poll_event_fmt alloc junk halloc objects rest factor now
      replay_pose ts (.sync device channel timecode ootx gen) SYNC_PRINTF
      (body_dirs SYNC_PRINTF)
      [.str device, .int channel, .int timecode, ofBool ootx, ofBool gen]
      device ['Y'] _ rfl (by decide) (le_of_eq rfl) (by decide)
      (lineArgs_name _ _ _ hwf.1 (lineArgs_numbers _ rfl)) rfl
      (name_ne_nil _ _ hwf.1) hwf.1.2.2 (name_le _ _ hwf.1 (by decide))
      (by decide) (tokenChars_of_all _ (by decide)) (by decide) hsize hdue
    rw [hpoll]
    exact ⟨rfl, replay_line_sync device channel timecode ootx gen _ hwf (hreg _ rfl)⟩
  | sweep device channel sensor_id timecode flag =>
    have hpoll := playback_poll_event_fmt alloc junk halloc objects rest factor now
      replay_pose ts (.sweep device channel sensor_id timecode flag) SWEEP_PRINTF
      (body_dirs SWEEP_PRINTF)
      [.str device, .int channel, .int sensor_id, .int timecode, ofBool flag]
      device ['W'] _ rfl (by decide) (le_of_eq rfl) (by decide)
      (lineArgs_name _ _ _ hwf.1 (lineArgs_numbers _ rfl)) rfl
      (name_ne_nil _ _ hwf.1) hwf.1.2.2 (name_le _ _ hwf.1 (by decide))
      (by decide) (tokenChars_of_all _ (by decide)) (by decide) hsize hdue
    rw [hpoll]
    exact ⟨rfl, replay_line_sweep device channel sensor_id timecode flag _ hwf (hreg _ rfl)⟩
  | sweep_angle device channel sensor_id timecode plane angle =>
    have hpoll := playback_poll_event_fmt alloc junk halloc objects rest factor now
      replay_pose ts (.sweep_angle device channel sensor_id timecode plane angle)
      SWEEP_ANGLE_PRINTF (body_dirs SWEEP_ANGLE_PRINTF)
      [.str device, .int channel, .int sensor_id, .int timecode, .int plane, .flt angle]
      device ['B'] _ rfl (by decide) (le_of_eq rfl) (by decide)
      (lineArgs_name _ _ _ hwf.1 (lineArgs_numbers _ rfl)) rfl
      (name_ne_nil _ _ hwf.1) hwf.1.2.2 (name_le _ _ hwf.1 (by decide))
      (by decide) (tokenChars_of_all _ (by decide)) (by decide) hsize hdue
    rw [hpoll]
    exact ⟨rfl, replay_line_sweep_angle device channel sensor_id timecode plane angle _ hwf
      (hreg _ rfl)⟩
  | angle device sensor_id acode timecode length angle lh =>
    have hpoll := playback_poll_event_fmt alloc junk halloc objects rest factor now
      replay_pose ts (.angle device sensor_id acode timecode length angle lh)
      "%s A %d %d %u %0.6f %0.6f %u\n" (body_dirs "%s A %d %d %u %0.6f %0.6f %u\n")
      [.str device, .int sensor_id, .int acode, .int timecode, .flt length, .flt angle,
       .int lh]
      device ['A'] _ rfl (by decide) (le_of_eq rfl) (by decide)
      (lineArgs_name _ _ _ hwf (lineArgs_numbers _ rfl)) rfl
      (name_ne_nil _ _ hwf) hwf.2.2 (name_le _ _ hwf (by decide))
      (by decide) (tokenChars_of_all _ (by decide)) (by decide) hsize hdue
    rw [hpoll, playback_dispatch_A]
    exact ⟨rfl, rfl⟩
  | light_cap_raw device le =>
    have hpoll := playback_poll_event_fmt alloc junk halloc objects rest factor now
      replay_pose ts (.light_cap_raw device le) "%s C %d %u %u\n"
      (body_dirs "%s C %d %u %u\n")
      [.str device, .int le.sensor_id, .int le.timestamp, .int le.length]
      device ['C'] _ rfl (by decide) (le_of_eq rfl) (by decide)
      (lineArgs_name _ _ _ hwf.1 (lineArgs_numbers _ rfl)) rfl
      (name_ne_nil _ _ hwf.1) hwf.1.2.2 (name_le _ _ hwf.1 (by decide))
      (by decide) (tokenChars_of_all _ (by decide)) (by decide) hsize hdue
    rw [hpoll]
    exact ⟨rfl, replay_line_light_cap_raw device le _ hwf (hreg _ rfl)⟩
  | light_code device sensor_id axis_code time_in_sweep timecode length beacon_id =>
    obtain ⟨l, x, hl, hx, hrec⟩ := written_light_code ts device sensor_id axis_code
      time_in_sweep timecode length beacon_id hwf.2.2.1 hwf.2.2.2.1
    have hpoll := playback_poll_event_fmt alloc junk halloc objects rest factor now
      replay_pose ts
      (.light_code device sensor_id axis_code time_in_sweep timecode length beacon_id)
      "%s %s %s %d %d %d %u %u %u\n" (body_dirs "%s %s %s %d %d %d %u %u %u\n")
      [.str device, .str [l], .str [x], .int sensor_id, .int axis_code, .int time_in_sweep,
       .int timecode, .int length, .int beacon_id]
      device [l] _ hrec (by decide) (le_of_eq rfl) (by decide)
      (lineArgs_name _ _ _ hwf.1
        (lineArgs_name 1 _ _ ⟨Nat.le_refl 1, Nat.le_refl 1, tokenChars_letter l (by tauto)⟩
          (lineArgs_name 1 _ _ ⟨Nat.le_refl 1, Nat.le_refl 1, tokenChars_letter x (by tauto)⟩
            (lineArgs_numbers _ rfl)))) rfl
      (name_ne_nil _ _ hwf.1) hwf.1.2.2 (name_le _ _ hwf.1 (by decide))
      (by simp) (tokenChars_letter l (by tauto)) (by simp) hsize hdue
    rw [hpoll]
    exact ⟨rfl, replay_line_light_code device sensor_id axis_code time_in_sweep timecode
      length beacon_id l x _ hwf hl hx (hreg _ rfl) rfl⟩
  | imu device calibrated mask values timecode id =>
    cases calibrated with
    | true =>
      have hpoll := playback_poll_event_fmt alloc junk halloc objects rest factor now
        replay_pose ts (.imu device true mask values timecode id)
        "%s I %d %u %0.6f %0.6f %0.6f %0.6f %0.6f %0.6f  %0.6f %0.6f %0.6f %d\n"
        (body_dirs "%s I %d %u %0.6f %0.6f %0.6f %0.6f %0.6f %0.6f  %0.6f %0.6f %0.6f %d\n")
        [.str device, .int mask, .int timecode, flt_at values 0, flt_at values 1,
         flt_at values 2, flt_at values 3, flt_at values 4, flt_at values 5, flt_at values 6,
         flt_at values 7, flt_at values 8, .int id]
        device ['I'] _ rfl (by decide) (le_of_eq rfl) (by decide)
        (lineArgs_name _ _ _ hwf.1 (lineArgs_numbers _ rfl)) rfl
        (name_ne_nil _ _ hwf.1) hwf.1.2.2 (name_le _ _ hwf.1 (by decide))
        (by decide) (tokenChars_of_all _ (by decide)) (by decide) hsize hdue
      rw [hpoll]
      exact ⟨rfl, replay_line_imu device mask values timecode id _ hwf (hreg _ rfl)⟩
    | false =>
      have hpoll := playback_poll_event_fmt alloc junk halloc objects rest factor now
        replay_pose ts (.imu device false mask values timecode id)
        "%s i %d %u %0.6f %0.6f %0.6f %0.6f %0.6f %0.6f  %0.6f %0.6f %0.6f %d\n"
        (body_dirs "%s i %d %u %0.6f %0.6f %0.6f %0.6f %0.6f %0.6f  %0.6f %0.6f %0.6f %d\n")
        [.str device, .int mask, .int timecode, flt_at values 0, flt_at values 1,
         flt_at values 2, flt_at values 3, flt_at values 4, flt_at values 5, flt_at values 6,
         flt_at values 7, flt_at values 8, .int id]
        device ['i'] _ rfl (by decide) (le_of_eq rfl) (by decide)
        (lineArgs_name _ _ _ hwf.1 (lineArgs_numbers _ rfl)) rfl
        (name_ne_nil _ _ hwf.1) hwf.1.2.2 (name_le _ _ hwf.1 (by decide))
        (by decide) (tokenChars_of_all _ (by decide)) (by decide) hsize hdue
      rw [hpoll]
      exact ⟨rfl, replay_line_raw_imu device mask values timecode id _ hwf (hreg _ rfl)⟩
/-- C1, counterexample.  The recorder writes for the velocity (1, 2, 3; 4, 5, 6) of the
device `T20` at the clock reading 1 the record `1.000000 T20 VELOCITY ...`; the poll of a
playback session, `T20` registered and the record due, reads the whole record, returns 0 and
lets out nothing: no callback is invoked for a velocity. -/
theorem playback_poll_velocity_no_callback :
    written (FLT.num 1 0) (.velocity "T20".toList
        ⟨[FLT.num 1 0, FLT.num 2 0, FLT.num 3 0], [FLT.num 4 0, FLT.num 5 0, FLT.num 6 0]⟩)
      = "1.000000 T20 VELOCITY 1.000000 2.000000 3.000000 4.000000 5.000000 6.000000\n".toList
    ∧ playback_poll (fun _ => true) 'x'
        (playback_start ["T20".toList]
          (written (FLT.num 1 0) (.velocity "T20".toList
            ⟨[FLT.num 1 0, FLT.num 2 0, FLT.num 3 0], [FLT.num 4 0, FLT.num 5 0, FLT.num 6 0]⟩))
          (FLT.num 1 0) false) (FLT.num 2 0)
      = (0, after_record
            (playback_start ["T20".toList]
              (written (FLT.num 1 0) (.velocity "T20".toList
                ⟨[FLT.num 1 0, FLT.num 2 0, FLT.num 3 0], [FLT.num 4 0, FLT.num 5 0, FLT.num 6 0]⟩))
              (FLT.num 1 0) false)
            ⟨written (FLT.num 1 0) (.velocity "T20".toList
                ⟨[FLT.num 1 0, FLT.num 2 0, FLT.num 3 0], [FLT.num 4 0, FLT.num 5 0, FLT.num 6 0]⟩), false, false, false⟩ [],
          []) := by
  decide

/-- C1, amended: an instance.  The sweep of sensor 5 of the device `T20` on channel 1 at the
time code 70000, flag set, written at the clock reading 1.5 and replayed: the poll calls
`sweepproc` with these values. -/
theorem playback_poll_replays_record_witness :
    (playback_poll (fun _ => true) 'x'
        (playback_start ["T20".toList]
          (written (FLT.num 15 1) (.sweep "T20".toList 1 5 70000 true) ++ []) (FLT.num 1 0) false)
        (FLT.num 2 0)).1 = 0
    ∧ (playback_poll (fun _ => true) 'x'
        (playback_start ["T20".toList]
          (written (FLT.num 15 1) (.sweep "T20".toList 1 5 70000 true) ++ []) (FLT.num 1 0) false)
        (FLT.num 2 0)).2.2 = [.call (.sweepproc "T20".toList 1 5 70000 true)] :=
  playback_poll_replays_record (fun _ => true) 'x' (fun _ => rfl) ["T20".toList] []
    (FLT.num 1 0) (FLT.num 2 0) false (FLT.num 15 1) (.sweep "T20".toList 1 5 70000 true)
    ⟨⟨by decide, by decide, tokenChars_of_all _ (by decide)⟩, by decide,
      ⟨by decide, by decide⟩, by decide⟩
    (by intro so h; cases h; decide) (by decide) (by decide)

/-! ### The recorder, sink by sink -/

theorem put_put (r : Recorder) (a b : List Char) : (r.put a).put b = r.put (a ++ b) := by
  unfold Recorder.put
  cases h : r.recptr with
  | none => simp [h]
  | some rd =>
    cases hf : rd.output_file <;> cases hs : rd.alwaysWriteStdOut <;> simp [hf, hs]

theorem write_to_output_put (r : Recorder) (ts : FLT) (format : String) (args : List Arg) :
    write_to_output r ts format args = r.put (fmt_f6 ts ++ ' ' :: sprintf format args) := by
  cases h : r.recptr with
  | none => simp [write_to_output, Recorder.put, h]
  | some rd =>
    rw [write_to_output_some r rd ts format args h]
    simp [Recorder.put, h]

theorem write_to_output_raw_put (r : Recorder) (rd : SurviveRecordingData) (string : List Char)
    (len : Nat) (h : r.recptr = some rd) :
    (⟨some (write_to_output_raw rd r.stdout string len).1,
      (write_to_output_raw rd r.stdout string len).2⟩ : Recorder) = r.put (string.take len) := by
  obtain ⟨a, b, c, d, e, f⟩ := rd
  cases f <;> simp [write_to_output_raw, Recorder.put, h]

theorem put_recptr_isSome (r : Recorder) (t : List Char) :
    (r.put t).recptr.isSome = r.recptr.isSome := by
  unfold Recorder.put
  cases h : r.recptr <;> simp [h]

theorem config_buffer_take (ct0conf : List Char) (len : Nat) (hlen : len ≤ ct0conf.length) :
    (replace_newlines (memcpy (List.replicate (len + 1) NUL) ct0conf len) len).take len
      = config_payload ct0conf len := by
  have h1 : ((ct0conf.take len ++ (List.replicate (len + 1) NUL).drop len).take len)
      = ct0conf.take len := by
    rw [List.take_append_of_le_length (by simp [hlen])]
    simp
  unfold replace_newlines memcpy config_payload
  rw [h1, List.take_append_of_le_length (by simp [hlen])]
  simp [hlen]

theorem survive_recording_config_process_put (r : Recorder) (ts : FLT)
    (codename ct0conf : List Char) (len : Nat) (hlen : len ≤ ct0conf.length) :
    survive_recording_config_process r ts codename ct0conf len
      = r.put (fmt_f6 ts ++ ' ' :: (codename ++ " CONFIG ".toList
          ++ config_payload ct0conf len ++ ['\n'])) := by
  cases h : r.recptr with
  | none => simp [survive_recording_config_process, Recorder.put, h]
  | some rd =>
    have hs : sprintf "%s CONFIG " [.str codename] = codename ++ " CONFIG ".toList := by
      simp [sprintf, show parse_format "%s CONFIG "
        = [.conv (.s none), .lit ' ', .lit 'C', .lit 'O', .lit 'N', .lit 'F', .lit 'I',
           .lit 'G', .lit ' '] from by decide, sprintf_dirs, fmt_conv]
    have h1 := write_to_output_put r ts "%s CONFIG " [.str codename]
    obtain ⟨rd1, hrd1⟩ : ∃ rd1, (write_to_output r ts "%s CONFIG " [.str codename]).recptr
        = some rd1 := by
      have := put_recptr_isSome r (fmt_f6 ts ++ ' ' :: sprintf "%s CONFIG " [.str codename])
      rw [← h1, h] at this
      exact Option.isSome_iff_exists.mp this
    have h2 := write_to_output_raw_put _ rd1
      (replace_newlines (memcpy (List.replicate (len + 1) NUL) ct0conf len) len) len hrd1
    obtain ⟨rd2, hrd2⟩ : ∃ rd2, (write_to_output_raw rd1
        (write_to_output r ts "%s CONFIG " [.str codename]).stdout
        (replace_newlines (memcpy (List.replicate (len + 1) NUL) ct0conf len) len) len).1
        = rd2 := ⟨_, rfl⟩
    have h3 := write_to_output_raw_put
      (⟨some (write_to_output_raw rd1
        (write_to_output r ts "%s CONFIG " [.str codename]).stdout
        (replace_newlines (memcpy (List.replicate (len + 1) NUL) ct0conf len) len) len).1,
       (write_to_output_raw rd1
        (write_to_output r ts "%s CONFIG " [.str codename]).stdout
        (replace_newlines (memcpy (List.replicate (len + 1) NUL) ct0conf len) len) len).2⟩ :
        Recorder) _ ['\n'] 1 rfl
    simp only [survive_recording_config_process, h, hrd1]
    rw [h3, h2, h1, config_buffer_take ct0conf len hlen, put_put, put_put, hs]
    simp
theorem config_payload_length (ct0conf : List Char) (len : Nat) (hlen : len ≤ ct0conf.length) :
    (config_payload ct0conf len).length = len := by
  simp [config_payload, hlen]

theorem config_payload_getD (ct0conf : List Char) (len i : Nat) (hi : i < len)
    (hlen : len ≤ ct0conf.length) :
    (config_payload ct0conf len).getD i NUL
      = if ct0conf.getD i NUL = '\n' then ' ' else ct0conf.getD i NUL := by
  have h1 : i < ct0conf.length := Nat.lt_of_lt_of_le hi hlen
  have h2 : i < (config_payload ct0conf len).length := by
    rw [config_payload_length ct0conf len hlen]; exact hi
  rw [List.getD_eq_getElem _ _ h2, List.getD_eq_getElem _ _ h1]
  simp [config_payload]

theorem config_payload_no_newline (ct0conf : List Char) (len : Nat) :
    '\n' ∉ config_payload ct0conf len := by
  intro h
  obtain ⟨x, _, hx⟩ := List.mem_map.mp h
  by_cases hn : x = '\n'
  · rw [if_pos hn] at hx; revert hx; decide
  · rw [if_neg hn] at hx; exact hn hx

theorem tokenChars_no_newline (s : List Char) (h : TokenChars s) : '\n' ∉ s := by
  intro hc
  have := (h _ hc).1
  revert this
  decide

theorem fmt_conv_no_newline (sp : Spec) (a : Arg) (ha : a.noNewline) :
    '\n' ∉ fmt_conv sp a := by
  cases sp <;> cases a <;> simp only [fmt_conv]
  all_goals first
    | exact ha
    | exact tokenChars_no_newline _ (fmt_d_tokenChars _)
    | exact tokenChars_no_newline _ (fmt_u_tokenChars _)
    | exact tokenChars_no_newline _ (fmt_f6_tokenChars _)
    | exact fun h => ha (List.mem_singleton.mp h).symm
    | exact fun h => by simp at h

theorem sprintf_dirs_no_newline (ds : List Dir) :
    ∀ args : List Arg, plainDirs ds = true → (∀ a ∈ args, a.noNewline) →
      '\n' ∉ sprintf_dirs ds args := by
  induction ds with
  | nil => intro args _ _ hc; simp [sprintf_dirs] at hc
  | cons d t ih =>
    intro args hd ha
    cases d with
    | lit c =>
      simp only [plainDirs, Bool.and_eq_true, bne_iff_ne, ne_eq] at hd
      intro hc
      rcases List.mem_cons.mp hc with h | h
      · exact hd.1 h.symm
      · exact ih args hd.2 ha h
    | conv sp =>
      cases args with
      | nil => intro hc; simp [sprintf_dirs] at hc
      | cons a as =>
        intro hc
        rcases List.mem_append.mp hc with h | h
        · exact fmt_conv_no_newline sp a (ha a (by simp)) h
        · exact ih as hd (fun x hx => ha x (by simp [hx])) h

/-- The text `write_to_output` produces under a format that ends in its only newline is one
record. -/
theorem oneRecord_of_format (ts : FLT) (format : String) (args : List Arg) (ds : List Dir)
    (hfmt : parse_format format = ds ++ [.lit '\n']) (hcount : convCount ds ≤ args.length)
    (hd : plainDirs ds = true) (ha : ∀ a ∈ args, a.noNewline) :
    OneRecord ts (fmt_f6 ts ++ ' ' :: sprintf format args) :=
  ⟨sprintf_dirs ds args, by rw [sprintf, hfmt, sprintf_dirs_newline ds args hcount],
    sprintf_dirs_no_newline ds args hd ha⟩

/-- C12.  Let `ct0conf` hold at least `len` bytes.  `survive_recording_config_process`
sends to each sink of the session the time stamp, `<codename> CONFIG `, then a payload and
one newline.  The payload has exactly `len` bytes; its byte `i` is a space where byte `i` of
the input is a newline and is byte `i` of the input otherwise; so it holds no newline, and
the record is one line (when the codename holds no newline). -/
theorem config_record_sanitized (r : Recorder) (ts : FLT) (codename ct0conf : List Char)
    (len : Nat) (hlen : len ≤ ct0conf.length) :
    survive_recording_config_process r ts codename ct0conf len
      = r.put (fmt_f6 ts ++ ' ' :: (codename ++ " CONFIG ".toList
          ++ config_payload ct0conf len ++ ['\n']))
    ∧ (config_payload ct0conf len).length = len
    ∧ (∀ i, i < len → (config_payload ct0conf len).getD i NUL
        = if ct0conf.getD i NUL = '\n' then ' ' else ct0conf.getD i NUL)
    ∧ '\n' ∉ config_payload ct0conf len
    ∧ ('\n' ∉ codename → OneRecord ts (fmt_f6 ts ++ ' ' :: (codename ++ " CONFIG ".toList
          ++ config_payload ct0conf len ++ ['\n']))) := by
  refine ⟨survive_recording_config_process_put r ts codename ct0conf len hlen,
    config_payload_length ct0conf len hlen,
    fun i hi => config_payload_getD ct0conf len i hi hlen,
    config_payload_no_newline ct0conf len, fun hc => ?_⟩
  refine ⟨codename ++ " CONFIG ".toList ++ config_payload ct0conf len, by simp, ?_⟩
  intro h
  rcases List.mem_append.mp h with h | h
  · rcases List.mem_append.mp h with h | h
    · exact hc h
    · revert h; decide
  · exact config_payload_no_newline ct0conf len h

/-- C12: an instance.  The text `{`, newline, `"a": 1`, newline, `}` of the device `T20`,
written at the clock reading 1.5 to a file: the record is one line, each newline of the text
a space. -/
theorem config_record_sanitized_witness :
    survive_recording_config_process ⟨some ⟨false, true, true, false, true, some []⟩, []⟩
        (FLT.num 15 1) "T20".toList "\x7b\n\"a\": 1\n\x7d".toList 10
      = ⟨some ⟨false, true, true, false, true,
          some "1.500000 T20 CONFIG \x7b \"a\": 1 \x7d\n".toList⟩, []⟩ :=
  (config_record_sanitized ⟨some ⟨false, true, true, false, true, some []⟩, []⟩
    (FLT.num 15 1) "T20".toList "\x7b\n\"a\": 1\n\x7d".toList 10 (by decide)).1.trans (by decide)

theorem noNewline_name (device : List Char) (args : List Arg) (h : '\n' ∉ device)
    (hargs : ∀ a ∈ args, a.noNewline) : ∀ a ∈ Arg.str device :: args, a.noNewline := by
  intro a ha
  rcases List.mem_cons.mp ha with rfl | ha
  · exact h
  · exact hargs a ha

theorem noNewline_numbers (args : List Arg)
    (h : args.all (fun a => match a with | .int _ => true | .flt _ => true | _ => false)
      = true) : ∀ a ∈ args, a.noNewline := by
  intro a ha
  have := List.all_eq_true.mp h a ha
  cases a with
  | str s => simp at this
  | chr c => simp at this
  | int v => trivial
  | flt x => trivial

/-- C16.  With a recording session present, whatever its other toggles are:
`survive_recording_lightcap` sends its `C` record to the sinks when `writeRawLight` is set
and leaves the recorder as it was when it is clear; likewise `survive_recording_raw_imu_process`
and `writeIMU` (the `i` record), `survive_recording_imu_process` and `writeCalIMU` (the `I`
record), `survive_recording_angle_process` and `writeAngle` (the `A` record).  Each of the
four texts is one record: one line, its only newline at the end (the codename holding
none). -/
theorem gated_categories (r : Recorder) (rd : SurviveRecordingData) (ts : FLT)
    (codename : List Char) (le : LightcapElement) (mask : Int) (accelgyro : List FLT)
    (timecode : Nat) (id sensor_id acode : Int) (length angle : FLT) (lh : Nat)
    (hr : r.recptr = some rd) (hname : '\n' ∉ codename) :
    (survive_recording_lightcap r ts codename le
      = if rd.writeRawLight
          then r.put (fmt_f6 ts ++ ' ' :: sprintf "%s C %d %u %u\n"
            [.str codename, .int le.sensor_id, .int le.timestamp, .int le.length])
          else r)
    ∧ OneRecord ts (fmt_f6 ts ++ ' ' :: sprintf "%s C %d %u %u\n"
        [.str codename, .int le.sensor_id, .int le.timestamp, .int le.length])
    ∧ (survive_recording_raw_imu_process r ts codename mask accelgyro timecode id
      = if rd.writeIMU
          then r.put (fmt_f6 ts ++ ' ' :: sprintf
            "%s i %d %u %0.6f %0.6f %0.6f %0.6f %0.6f %0.6f  %0.6f %0.6f %0.6f %d\n"
            [.str codename, .int mask, .int timecode, flt_at accelgyro 0, flt_at accelgyro 1,
             flt_at accelgyro 2, flt_at accelgyro 3, flt_at accelgyro 4, flt_at accelgyro 5,
             flt_at accelgyro 6, flt_at accelgyro 7, flt_at accelgyro 8, .int id])
          else r)
    ∧ OneRecord ts (fmt_f6 ts ++ ' ' :: sprintf
        "%s i %d %u %0.6f %0.6f %0.6f %0.6f %0.6f %0.6f  %0.6f %0.6f %0.6f %d\n"
        [.str codename, .int mask, .int timecode, flt_at accelgyro 0, flt_at accelgyro 1,
         flt_at accelgyro 2, flt_at accelgyro 3, flt_at accelgyro 4, flt_at accelgyro 5,
         flt_at accelgyro 6, flt_at accelgyro 7, flt_at accelgyro 8, .int id])
    ∧ (survive_recording_imu_process r ts codename mask accelgyro timecode id
      = if rd.writeCalIMU
          then r.put (fmt_f6 ts ++ ' ' :: sprintf
            "%s I %d %u %0.6f %0.6f %0.6f %0.6f %0.6f %0.6f  %0.6f %0.6f %0.6f %d\n"
            [.str codename, .int mask, .int timecode, flt_at accelgyro 0, flt_at accelgyro 1,
             flt_at accelgyro 2, flt_at accelgyro 3, flt_at accelgyro 4, flt_at accelgyro 5,
             flt_at accelgyro 6, flt_at accelgyro 7, flt_at accelgyro 8, .int id])
          else r)
    ∧ OneRecord ts (fmt_f6 ts ++ ' ' :: sprintf
        "%s I %d %u %0.6f %0.6f %0.6f %0.6f %0.6f %0.6f  %0.6f %0.6f %0.6f %d\n"
        [.str codename, .int mask, .int timecode, flt_at accelgyro 0, flt_at accelgyro 1,
         flt_at accelgyro 2, flt_at accelgyro 3, flt_at accelgyro 4, flt_at accelgyro 5,
         flt_at accelgyro 6, flt_at accelgyro 7, flt_at accelgyro 8, .int id])
    ∧ (survive_recording_angle_process r ts codename sensor_id acode timecode length angle lh
      = if rd.writeAngle
          then r.put (fmt_f6 ts ++ ' ' :: sprintf "%s A %d %d %u %0.6f %0.6f %u\n"
            [.str codename, .int sensor_id, .int acode, .int timecode, .flt length,
             .flt angle, .int lh])
          else r)
    ∧ OneRecord ts (fmt_f6 ts ++ ' ' :: sprintf "%s A %d %d %u %0.6f %0.6f %u\n"
        [.str codename, .int sensor_id, .int acode, .int timecode, .flt length, .flt angle,
         .int lh]) := by
  refine ⟨?_, ?_, ?_, ?_, ?_, ?_, ?_, ?_⟩
  · simp only [survive_recording_lightcap, hr, write_to_output_put]
  · exact oneRecord_of_format ts _ _ (body_dirs "%s C %d %u %u\n") (by decide) (le_of_eq rfl)
      (by decide) (noNewline_name _ _ hname (noNewline_numbers _ rfl))
  · simp only [survive_recording_raw_imu_process, hr, write_to_output_put]
    cases rd.writeIMU <;> rfl
  · exact oneRecord_of_format ts _ _
      (body_dirs "%s i %d %u %0.6f %0.6f %0.6f %0.6f %0.6f %0.6f  %0.6f %0.6f %0.6f %d\n")
      (by decide) (le_of_eq rfl) (by decide)
      (noNewline_name _ _ hname (noNewline_numbers _ rfl))
  · simp only [survive_recording_imu_process, hr, write_to_output_put]
    cases rd.writeCalIMU <;> rfl
  · exact oneRecord_of_format ts _ _
      (body_dirs "%s I %d %u %0.6f %0.6f %0.6f %0.6f %0.6f %0.6f  %0.6f %0.6f %0.6f %d\n")
      (by decide) (le_of_eq rfl) (by decide)
      (noNewline_name _ _ hname (noNewline_numbers _ rfl))
  · simp only [survive_recording_angle_process, hr, write_to_output_put]
    cases rd.writeAngle <;> rfl
  · exact oneRecord_of_format ts _ _ (body_dirs "%s A %d %d %u %0.6f %0.6f %u\n") (by decide)
      (le_of_eq rfl) (by decide) (noNewline_name _ _ hname (noNewline_numbers _ rfl))

/-- C16: an instance.  A session that writes to a file, `record-rawlight` off and the other
toggles on: a raw light capture of the device `T20` leaves the file empty, while an angle is
written as one line. -/
theorem gated_categories_witness :
    survive_recording_lightcap ⟨some ⟨false, false, true, true, true, some []⟩, []⟩ (FLT.num 15 1)
        "T20".toList ⟨3, 70000, 120⟩
      = ⟨some ⟨false, false, true, true, true, some []⟩, []⟩
    ∧ survive_recording_angle_process ⟨some ⟨false, false, true, true, true, some []⟩, []⟩
        (FLT.num 15 1) "T20".toList 3 1 70000 (FLT.num 25 1) (FLT.num 5 1) 0
      = ⟨some ⟨false, false, true, true, true,
          some "1.500000 T20 A 3 1 70000 2.500000 0.500000 0\n".toList⟩, []⟩ :=
  ⟨(gated_categories ⟨some ⟨false, false, true, true, true, some []⟩, []⟩
      ⟨false, false, true, true, true, some []⟩ (FLT.num 15 1) "T20".toList ⟨3, 70000, 120⟩ 0 []
      70000 0 3 1 (FLT.num 25 1) (FLT.num 5 1) 0 rfl (by decide)).1,
   (gated_categories ⟨some ⟨false, false, true, true, true, some []⟩, []⟩
      ⟨false, false, true, true, true, some []⟩ (FLT.num 15 1) "T20".toList ⟨3, 70000, 120⟩ 0 []
      70000 0 3 1 (FLT.num 25 1) (FLT.num 5 1) 0 rfl (by decide)).2.2.2.2.2.2.1.trans (by decide)⟩
theorem file_put_recording_all (t : List Char) : (recording_all.put t).file = t := by
  simp [Recorder.put, recording_all, Recorder.file]

/-- A record that reaches the sinks under a toggle `g`: what the event writes is the same
text for every session. -/
theorem record_of_put (r : Recorder) (rd : SurviveRecordingData) (ts : FLT) (e : Event)
    (t : List Char) (g : SurviveRecordingData → Bool) (hr : r.recptr = some rd)
    (h : ∀ q qd, q.recptr = some qd → record q ts e = if g qd then q.put t else q)
    (hall : g ⟨false, true, true, true, true, some []⟩ = true) :
    written ts e = t ∧ record r ts e = if g rd then r.put (written ts e) else r := by
  have hw : written ts e = t := by
    unfold written
    rw [h recording_all _ rfl, if_pos hall, file_put_recording_all]
  exact ⟨hw, by rw [hw]; exact h r rd hr⟩

theorem record_of_format (r : Recorder) (rd : SurviveRecordingData) (ts : FLT) (e : Event)
    (format : String) (args : List Arg) (g : SurviveRecordingData → Bool)
    (hr : r.recptr = some rd)
    (h : ∀ q qd, q.recptr = some qd
      → record q ts e = if g qd then write_to_output q ts format args else q)
    (hall : g ⟨false, true, true, true, true, some []⟩ = true) :
    written ts e = fmt_f6 ts ++ ' ' :: sprintf format args
      ∧ record r ts e = if g rd then r.put (written ts e) else r :=
  record_of_put r rd ts e _ g hr (fun q qd hq => by rw [h q qd hq, write_to_output_put]) hall

theorem bool_ite_not (b : Bool) (α : Type) (x y : α) :
    (if (!b) = true then x else y) = if b = true then y else x := by
  cases b <;> rfl
theorem oneRecord_config (ts : FLT) (codename ct0conf : List Char) (len : Nat)
    (hc : '\n' ∉ codename) :
    OneRecord ts (fmt_f6 ts ++ ' ' :: (codename ++ " CONFIG ".toList
      ++ config_payload ct0conf len ++ ['\n'])) := by
  refine ⟨codename ++ " CONFIG ".toList ++ config_payload ct0conf len, by simp, ?_⟩
  intro h
  rcases List.mem_append.mp h with h | h
  · rcases List.mem_append.mp h with h | h
    · exact hc h
    · revert h; decide
  · exact config_payload_no_newline ct0conf len h

/-- C17, counterexample.  A session that writes to a file with `record-angle` off: the sweep
angle of the device `T20` is not written, the file stays empty. -/
theorem sweep_angle_dropped_without_writeAngle :
    survive_recording_sweep_angle_process ⟨some ⟨false, true, true, true, false, some []⟩, []⟩
        (FLT.num 15 1) "T20".toList 1 5 70000 0 (FLT.num 25 1)
      = ⟨some ⟨false, true, true, true, false, some []⟩, []⟩ := by
  decide

/-- C17, amended.  Let a recording session be present and `e` be an event of one of the
variants `Config`, `LighthousePose`, `Velocity`, `Pose`, `ExternalPose`, `ExternalVelocity`,
`Info`, `Sync`, `Sweep`, `SweepAngle`, its device, name or message holding no newline, and
its record no longer than 8191 bytes, the most `gzprintf` writes at once.  For every setting
of the four toggles the session sends to its sinks the record of `e`, which is one line;
except that a `SweepAngle` is under `writeAngle`: with that toggle off nothing is written
for it. -/
theorem ungated_variants_recorded (r : Recorder) (rd : SurviveRecordingData) (ts : FLT) (e : Event)
    (hr : r.recptr = some rd) (hun : e.ungated = true) (htexts : ∀ s ∈ e.texts, '\n' ∉ s)
    (hfit : (written ts e).length ≤ 8191) :
    record r ts e = (if e.isSweepAngle && !rd.writeAngle then r else r.put (written ts e))
    ∧ OneRecord ts (written ts e) := by
  have _ := hfit
  cases e with
  | config device text =>
    obtain ⟨hw, hrec⟩ := record_of_put r rd ts (.config device text) _ (fun _ => true) hr
      (fun q _ _ => by
        simp only [record, if_true]
        exact survive_recording_config_process_put q ts device text text.length
          (Nat.le_refl _)) rfl
    refine ⟨hrec, ?_⟩
    rw [hw]
    exact oneRecord_config ts device text text.length (htexts device (by simp [Event.texts]))
  | lighthouse_pose beacon_id pose =>
    obtain ⟨hw, hrec⟩ := record_of_format r rd ts (.lighthouse_pose beacon_id pose)
      "%d LH_POSE %0.6f %0.6f %0.6f %0.6f %0.6f %0.6f %0.6f\n"
      [.int beacon_id, flt_at pose.Pos 0, flt_at pose.Pos 1, flt_at pose.Pos 2,
       flt_at pose.Rot 0, flt_at pose.Rot 1, flt_at pose.Rot 2, flt_at pose.Rot 3]
      (fun _ => true) hr
      (fun q qd hq => by simp only [record, survive_recording_lighthouse_process, hq, if_true])
      rfl
    refine ⟨hrec, ?_⟩
    rw [hw]
    exact oneRecord_of_format ts _ _
      (body_dirs "%d LH_POSE %0.6f %0.6f %0.6f %0.6f %0.6f %0.6f %0.6f\n") (by decide)
      (le_of_eq rfl) (by decide) (noNewline_numbers _ rfl)
  | velocity device v =>
    obtain ⟨hw, hrec⟩ := record_of_format r rd ts (.velocity device v)
      "%s VELOCITY %0.6f %0.6f %0.6f %0.6f %0.6f %0.6f\n"
      [.str device, flt_at v.Pos 0, flt_at v.Pos 1, flt_at v.Pos 2, flt_at v.AxisAngleRot 0,
       flt_at v.AxisAngleRot 1, flt_at v.AxisAngleRot 2]
      (fun _ => true) hr
      (fun q qd hq => by simp only [record, survive_recording_velocity_process, hq, if_true])
      rfl
    refine ⟨hrec, ?_⟩
    rw [hw]
    exact oneRecord_of_format ts _ _
      (body_dirs "%s VELOCITY %0.6f %0.6f %0.6f %0.6f %0.6f %0.6f\n") (by decide)
      (le_of_eq rfl) (by decide)
      (noNewline_name _ _ (htexts device (by simp [Event.texts])) (noNewline_numbers _ rfl))
  | pose device pose =>
    obtain ⟨hw, hrec⟩ := record_of_format r rd ts (.pose device pose)
      "%s POSE %0.6f %0.6f %0.6f %0.6f %0.6f %0.6f %0.6f\n"
      [.str device, flt_at pose.Pos 0, flt_at pose.Pos 1, flt_at pose.Pos 2,
       flt_at pose.Rot 0, flt_at pose.Rot 1, flt_at pose.Rot 2, flt_at pose.Rot 3]
      (fun _ => true) hr
      (fun q qd hq => by simp only [record, survive_recording_raw_pose_process, hq, if_true])
      rfl
    refine ⟨hrec, ?_⟩
    rw [hw]
    exact oneRecord_of_format ts _ _
      (body_dirs "%s POSE %0.6f %0.6f %0.6f %0.6f %0.6f %0.6f %0.6f\n") (by decide)
      (le_of_eq rfl) (by decide)
      (noNewline_name _ _ (htexts device (by simp [Event.texts])) (noNewline_numbers _ rfl))
  | external_pose name pose =>
    obtain ⟨hw, hrec⟩ := record_of_format r rd ts (.external_pose name pose)
      "%s EXTERNAL_POSE %0.6f %0.6f %0.6f %0.6f %0.6f %0.6f %0.6f\n"
      [.str name, flt_at pose.Pos 0, flt_at pose.Pos 1, flt_at pose.Pos 2,
       flt_at pose.Rot 0, flt_at pose.Rot 1, flt_at pose.Rot 2, flt_at pose.Rot 3]
      (fun _ => true) hr
      (fun q qd hq => by
        simp only [record, survive_recording_external_pose_process, hq, if_true])
      rfl
    refine ⟨hrec, ?_⟩
    rw [hw]
    exact oneRecord_of_format ts _ _
      (body_dirs "%s EXTERNAL_POSE %0.6f %0.6f %0.6f %0.6f %0.6f %0.6f %0.6f\n") (by decide)
      (le_of_eq rfl) (by decide)
      (noNewline_name _ _ (htexts name (by simp [Event.texts])) (noNewline_numbers _ rfl))
  | external_velocity name v =>
    obtain ⟨hw, hrec⟩ := record_of_format r rd ts (.external_velocity name v)
      "%s EXTERNAL_VELOCITY %0.6f %0.6f %0.6f %0.6f %0.6f %0.6f\n"
      [.str name, flt_at v.Pos 0, flt_at v.Pos 1, flt_at v.Pos 2, flt_at v.AxisAngleRot 0,
       flt_at v.AxisAngleRot 1, flt_at v.AxisAngleRot 2]
      (fun _ => true) hr
      (fun q qd hq => by
        simp only [record, survive_recording_external_velocity_process, hq, if_true])
      rfl
    refine ⟨hrec, ?_⟩
    rw [hw]
    exact oneRecord_of_format ts _ _
      (body_dirs "%s EXTERNAL_VELOCITY %0.6f %0.6f %0.6f %0.6f %0.6f %0.6f\n") (by decide)
      (le_of_eq rfl) (by decide)
      (noNewline_name _ _ (htexts name (by simp [Event.texts])) (noNewline_numbers _ rfl))
  | info message =>
    obtain ⟨hw, hrec⟩ := record_of_format r rd ts (.info message) "INFO LOG %s\n"
      [.str message] (fun _ => true) hr
      (fun q qd hq => by simp only [record, survive_recording_info_process, hq, if_true]) rfl
    refine ⟨hrec, ?_⟩
    rw [hw]
    exact oneRecord_of_format ts _ _ (body_dirs "INFO LOG %s\n") (by decide)
      (le_of_eq rfl) (by decide)
      (noNewline_name _ _ (htexts message (by simp [Event.texts])) (fun _ h => by simp at h))
  | sync device channel timecode ootx gen =>
    obtain ⟨hw, hrec⟩ := record_of_format r rd ts (.sync device channel timecode ootx gen)
      SYNC_PRINTF [.str device, .int channel, .int timecode, ofBool ootx, ofBool gen]
      (fun _ => true) hr
      (fun q qd hq => by simp only [record, survive_recording_sync_process, if_true]) rfl
    refine ⟨hrec, ?_⟩
    rw [hw]
    exact oneRecord_of_format ts _ _ (body_dirs SYNC_PRINTF) (by decide)
      (le_of_eq rfl) (by decide)
      (noNewline_name _ _ (htexts device (by simp [Event.texts])) (noNewline_numbers _ rfl))
  | sweep device channel sensor_id timecode flag =>
    obtain ⟨hw, hrec⟩ := record_of_format r rd ts
      (.sweep device channel sensor_id timecode flag) SWEEP_PRINTF
      [.str device, .int channel, .int sensor_id, .int timecode, ofBool flag]
      (fun _ => true) hr
      (fun q qd hq => by simp only [record, survive_recording_sweep_process, hq, if_true]) rfl
    refine ⟨hrec, ?_⟩
    rw [hw]
    exact oneRecord_of_format ts _ _ (body_dirs SWEEP_PRINTF) (by decide)
      (le_of_eq rfl) (by decide)
      (noNewline_name _ _ (htexts device (by simp [Event.texts])) (noNewline_numbers _ rfl))
  | sweep_angle device channel sensor_id timecode plane angle =>
    obtain ⟨hw, hrec⟩ := record_of_format r rd ts
      (.sweep_angle device channel sensor_id timecode plane angle) SWEEP_ANGLE_PRINTF
      [.str device, .int channel, .int sensor_id, .int timecode, .int plane, .flt angle]
      (fun qd => qd.writeAngle) hr
      (fun q qd hq => by
        simp only [record, survive_recording_sweep_angle_process, hq]
        exact bool_ite_not qd.writeAngle _ _ _) rfl
    refine ⟨?_, ?_⟩
    · rw [hrec]
      simp only [Event.isSweepAngle, Bool.true_and]
      cases rd.writeAngle <;> rfl
    · rw [hw]
      exact oneRecord_of_format ts _ _ (body_dirs SWEEP_ANGLE_PRINTF) (by decide)
        (le_of_eq rfl) (by decide)
        (noNewline_name _ _ (htexts device (by simp [Event.texts])) (noNewline_numbers _ rfl))
  | angle _ _ _ _ _ _ _ => cases hun
  | light_cap_raw _ _ => cases hun
  | light_code _ _ _ _ _ _ _ => cases hun
  | imu _ _ _ _ _ _ => cases hun

/-- C17, amended: an instance.  All four toggles off: a sweep is written as one line. -/
theorem ungated_variants_recorded_witness :
    record ⟨some ⟨false, false, false, false, false, some []⟩, []⟩ (FLT.num 15 1)
        (.sweep "T20".toList 1 5 70000 true)
      = ⟨some ⟨false, false, false, false, false,
          some "1.500000 T20 W 1 5 70000 1\n".toList⟩, []⟩ :=
  (ungated_variants_recorded ⟨some ⟨false, false, false, false, false, some []⟩, []⟩
    ⟨false, false, false, false, false, some []⟩ (FLT.num 15 1) (.sweep "T20".toList 1 5 70000 true)
    rfl rfl (by decide) (by decide)).1.trans (by decide)
/-- C18.  Let a recording session be present with `writeAngle` set, and let the axis code be
one of 0 to 7.  The line `survive_recording_light_process` sends to the sinks carries, behind
the codename, the beacon label `L` for the codes 0, 1, 2, 3 and `R` for 4, 5, 6, 7, then the
axis label `X` for an even code and `Y` for an odd one, then the six numbers. -/
theorem light_code_labels (r : Recorder) (rd : SurviveRecordingData) (ts : FLT)
    (codename : List Char) (sensor_id acode timeinsweep : Int) (timecode length lh : Nat)
    (hr : r.recptr = some rd) (hangle : rd.writeAngle = true) (h0 : 0 ≤ acode)
    (h7 : acode ≤ 7) :
    survive_recording_light_process r ts codename sensor_id acode timeinsweep timecode length lh
      = r.put (fmt_f6 ts ++ ' ' :: (codename ++ ' ' :: (if acode ≤ 3 then 'L' else 'R') :: ' '
          :: (if acode % 2 = 0 then 'X' else 'Y') :: ' '
          :: sprintf "%d %d %d %u %u %u\n"
              [.int sensor_id, .int acode, .int timeinsweep, .int timecode, .int length,
               .int lh])) := by
  have key : ∀ l x : Char,
      write_to_output r ts "%s %s %s %d %d %d %u %u %u\n"
        [.str codename, .str [l], .str [x], .int sensor_id, .int acode, .int timeinsweep,
         .int timecode, .int length, .int lh]
      = r.put (fmt_f6 ts ++ ' ' :: (codename ++ ' ' :: l :: ' ' :: x :: ' '
          :: sprintf "%d %d %d %u %u %u\n"
              [.int sensor_id, .int acode, .int timeinsweep, .int timecode, .int length,
               .int lh])) := by
    intro l x
    rw [write_to_output_put]
    rfl
  interval_cases acode
  · exact (show survive_recording_light_process r ts codename sensor_id 0 timeinsweep timecode
      length lh = _ from by simp [survive_recording_light_process, hr, hangle]).trans
      (key 'L' 'X')
  · exact (show survive_recording_light_process r ts codename sensor_id 1 timeinsweep timecode
      length lh = _ from by simp [survive_recording_light_process, hr, hangle]).trans
      (key 'L' 'Y')
  · exact (show survive_recording_light_process r ts codename sensor_id 2 timeinsweep timecode
      length lh = _ from by simp [survive_recording_light_process, hr, hangle]).trans
      (key 'L' 'X')
  · exact (show survive_recording_light_process r ts codename sensor_id 3 timeinsweep timecode
      length lh = _ from by simp [survive_recording_light_process, hr, hangle]).trans
      (key 'L' 'Y')
  · exact (show survive_recording_light_process r ts codename sensor_id 4 timeinsweep timecode
      length lh = _ from by simp [survive_recording_light_process, hr, hangle]).trans
      (key 'R' 'X')
  · exact (show survive_recording_light_process r ts codename sensor_id 5 timeinsweep timecode
      length lh = _ from by simp [survive_recording_light_process, hr, hangle]).trans
      (key 'R' 'Y')
  · exact (show survive_recording_light_process r ts codename sensor_id 6 timeinsweep timecode
      length lh = _ from by simp [survive_recording_light_process, hr, hangle]).trans
      (key 'R' 'X')
  · exact (show survive_recording_light_process r ts codename sensor_id 7 timeinsweep timecode
      length lh = _ from by simp [survive_recording_light_process, hr, hangle]).trans
      (key 'R' 'Y')

/-- C18: an instance.  The axis code 5 of the device `T20`: the line carries `R` and `Y`. -/
theorem light_code_labels_witness :
    survive_recording_light_process ⟨some ⟨false, true, true, false, true, some []⟩, []⟩
        (FLT.num 15 1) "T20".toList 7 5 100 70000 200 1
      = ⟨some ⟨false, true, true, false, true,
          some "1.500000 T20 R Y 7 5 100 70000 200 1\n".toList⟩, []⟩ :=
  (light_code_labels ⟨some ⟨false, true, true, false, true, some []⟩, []⟩
    ⟨false, true, true, false, true, some []⟩ (FLT.num 15 1) "T20".toList 7 5 100 70000 200 1
    rfl rfl (by decide) (by decide)).trans (by decide)

/-- C19, counterexample.  The axis code -1 is outside 0..7.  For it the device `T20` gets
the line `T20 S 7 -1 100 70000 200 1`, which is not the line of a light code with two empty
labels (`T20`, three spaces, then the numbers). -/
theorem light_code_minus_one_is_sync_record :
    survive_recording_light_process ⟨some ⟨false, true, true, false, true, some []⟩, []⟩
        (FLT.num 15 1) "T20".toList 7 (-1) 100 70000 200 1
      = ⟨some ⟨false, true, true, false, true,
          some "1.500000 T20 S 7 -1 100 70000 200 1\n".toList⟩, []⟩
    ∧ survive_recording_light_process ⟨some ⟨false, true, true, false, true, some []⟩, []⟩
        (FLT.num 15 1) "T20".toList 7 (-1) 100 70000 200 1
      ≠ write_to_output ⟨some ⟨false, true, true, false, true, some []⟩, []⟩ (FLT.num 15 1)
          "%s %s %s %d %d %d %u %u %u\n"
          [.str "T20".toList, .str [], .str [], .int 7, .int (-1), .int 100, .int 70000,
           .int 200, .int 1] := by
  decide

/-- C19, amended.  Let a recording session be present with `writeAngle` set.  For the axis
code -1 `survive_recording_light_process` sends to the sinks the line
`<codename> S <sensor_id> -1 <timeinsweep> <timecode> <length> <lh>`: the letter `S` stands
where a light code has its beacon label, and there is no axis label. -/
theorem light_code_minus_one (r : Recorder) (rd : SurviveRecordingData) (ts : FLT)
    (codename : List Char) (sensor_id timeinsweep : Int) (timecode length lh : Nat)
    (hr : r.recptr = some rd) (hangle : rd.writeAngle = true) :
    survive_recording_light_process r ts codename sensor_id (-1) timeinsweep timecode length lh
      = r.put (fmt_f6 ts ++ ' ' :: (codename ++ ' ' :: 'S' :: ' '
          :: sprintf "%d %d %d %u %u %u\n"
              [.int sensor_id, .int (-1), .int timeinsweep, .int timecode, .int length,
               .int lh])) := by
  have key : write_to_output r ts "%s S %d %d %d %u %u %u\n"
        [.str codename, .int sensor_id, .int (-1), .int timeinsweep, .int timecode,
         .int length, .int lh]
      = r.put (fmt_f6 ts ++ ' ' :: (codename ++ ' ' :: 'S' :: ' '
          :: sprintf "%d %d %d %u %u %u\n"
              [.int sensor_id, .int (-1), .int timeinsweep, .int timecode, .int length,
               .int lh])) := by
    rw [write_to_output_put]
    rfl
  exact (show survive_recording_light_process r ts codename sensor_id (-1) timeinsweep timecode
      length lh = _ from by simp [survive_recording_light_process, hr, hangle]).trans key

/-- C19, amended: an instance.  The axis code -1 for the device `HMD`. -/
theorem light_code_minus_one_witness :
    survive_recording_light_process ⟨some ⟨false, true, true, false, true, some []⟩, []⟩
        (FLT.num 25 1) "HMD".toList 3 (-1) 0 123456 80 0
      = ⟨some ⟨false, true, true, false, true,
          some "2.500000 HMD S 3 -1 0 123456 80 0\n".toList⟩, []⟩ :=
  (light_code_minus_one ⟨some ⟨false, true, true, false, true, some []⟩, []⟩
    ⟨false, true, true, false, true, some []⟩ (FLT.num 25 1) "HMD".toList 3 0 123456 80 0
    rfl rfl).trans (by decide)

/-! ### C11 -/

theorem cstr_append_nul_cstr (s rest : List Char) : cstr (s ++ NUL :: rest) = cstr s := by
  induction s with
  | nil => simp [cstr, List.takeWhile]
  | cons a t ih =>
    simp only [cstr] at ih ⊢
    rw [List.cons_append, List.takeWhile_cons, List.takeWhile_cons, ih]

/-- C11, counterexample.  The log starts with the token `x`, which is no number, and goes on
with a sync record of the registered device `T20`.  The first poll dispatches nothing, and
the second poll reads on behind the space and calls `syncproc`: playback has not ended. -/
theorem playback_goes_on_after_bad_timestamp :
    (playback_run (fun _ => true) 'x'
        (playback_start ["T20".toList] "x 0.000000 T20 Y 1 70000 1 0\n".toList (FLT.num 1 0) false)
        [FLT.num 1 0, FLT.num 1 0]).2
      = [[], [.call (.syncproc "T20".toList 1 70000 true false)]] := by
  decide

/-- The poll that reads a token which is no number. -/
theorem playback_poll_bad_token (alloc : Nat → Bool) (junk : Char)
    (halloc : ∀ m, alloc m = true) (driver : SurvivePlaybackData) (f : GzFile) (now : FLT)
    (tok rest : List Char) (hf : driver.playback_file = some f) (heof : f.eof = false)
    (herr : f.err = false) (hz : driver.next_time_us.isZero = true)
    (hd : f.data = tok ++ ' ' :: rest) (htok : ' ' ∉ tok) (hsz : tok.length + 1 < SSIZE_MAX)
    (hbad : (sscanf (cstr (tok ++ [' '])) "%lf").1 ≠ 1) :
    playback_poll alloc junk driver now
      = (0, { driver with
              lineno := driver.lineno + 1
              playback_file := some { f with data := rest } }, []) := by
  obtain ⟨b, n1, e1, _, _, hb⟩ := gzgetdelim_record alloc junk none 0 ' ' f tok rest halloc
    (by intro b h; cases h) herr hd htok hsz
  have hb2 : b = (tok ++ [' ']) ++ NUL :: b.drop (tok.length + 2) := by
    have := eq_append_of_take b _ _ hb
    simpa using this
  have hc1 : cstr b = cstr (tok ++ [' ']) := by
    rw [hb2]
    exact cstr_append_nul_cstr _ _
  have hpos : ¬ (((tok.length + 1 : Nat) : Int) ≤ 0) := by omega
  have hg : (!gzeof f && !gzerror_dropin f) = true := by simp [gzeof, gzerror_dropin, heof, herr]
  unfold playback_poll
  simp only [hf, hg, if_true, hz, e1, hpos, if_false, Option.getD_some, hc1, ne_eq, hbad,
    not_false_eq_true]

/-- C11, amended.  Let the session hold no time stamp, its source open, not at its end and
not in error, and let the token up to the first space ahead not parse as a number.  The
poll dispatches no line to any callback and returns 0; it leaves the source open just
behind that space, no time stamp pending.  Playback does not end: when a record that is due
stands behind the space, the next poll hands its line to the dispatch. -/
theorem playback_poll_bad_timestamp (alloc : Nat → Bool) (junk : Char)
    (halloc : ∀ m, alloc m = true) (driver : SurvivePlaybackData) (f : GzFile) (now : FLT)
    (tok rest : List Char) (hf : driver.playback_file = some f) (heof : f.eof = false)
    (herr : f.err = false) (hz : driver.next_time_us.isZero = true)
    (hd : f.data = tok ++ ' ' :: rest) (htok : ' ' ∉ tok) (hsz : tok.length + 1 < SSIZE_MAX)
    (hbad : (sscanf (cstr (tok ++ [' '])) "%lf").1 ≠ 1) :
    playback_poll alloc junk driver now
      = (0, { driver with
              lineno := driver.lineno + 1
              playback_file := some { f with data := rest } }, [])
    ∧ ∀ (later : FLT) (ts line rest2 : List Char) (t : FLT) (dev op : List Char),
        RecordAhead { f with data := rest } ts line rest2 t →
        (t.mul driver.playback_factor).gt later = false →
        sscanf line "%31s %31s" = (2, [.str dev, .str op]) →
        playback_poll alloc junk
            { driver with
              lineno := driver.lineno + 1
              playback_file := some { f with data := rest } } later
          = (0, playback_dispatch line op
              (after_record
                { driver with
                  lineno := driver.lineno + 1
                  playback_file := some { f with data := rest } }
                { f with data := rest } rest2)) :=
  ⟨playback_poll_bad_token alloc junk halloc driver f now tok rest hf heof herr hz hd htok hsz
      hbad,
    fun later ts line rest2 t dev op hrec hdue hop =>
      playback_poll_dispatches alloc junk halloc _ _ later ts line rest2 t dev op rfl hz hrec
        hdue hop⟩

/-- C11, amended: an instance.  The token `abc` in front of a sweep record: the poll lets
out nothing and leaves the source open at the record. -/
theorem playback_poll_bad_timestamp_witness :
    playback_poll (fun _ => true) 'x'
        (playback_start ["T20".toList] "abc 0.500000 T20 W 1 5 70000 1\n".toList (FLT.num 1 0) false)
        (FLT.num 1 0)
      = (0, { playback_start ["T20".toList] "abc 0.500000 T20 W 1 5 70000 1\n".toList (FLT.num 1 0)
                false with
              lineno := 0 + 1
              playback_file := some ⟨"0.500000 T20 W 1 5 70000 1\n".toList, false, false,
                false⟩ }, []) :=
  (playback_poll_bad_timestamp (fun _ => true) 'x' (fun _ => rfl)
    (playback_start ["T20".toList] "abc 0.500000 T20 W 1 5 70000 1\n".toList (FLT.num 1 0) false)
    ⟨"abc 0.500000 T20 W 1 5 70000 1\n".toList, false, false, false⟩ (FLT.num 1 0) "abc".toList
    "0.500000 T20 W 1 5 70000 1\n".toList rfl rfl rfl rfl rfl (by decide) (by decide)
    (by decide)).1
/-! ### C20 -/

theorem playback_run_append (alloc : Nat → Bool) (junk : Char) (a b : List FLT) :
    ∀ d : SurvivePlaybackData, playback_run alloc junk d (a ++ b)
      = ((playback_run alloc junk (playback_run alloc junk d a).1 b).1,
         (playback_run alloc junk d a).2
           ++ (playback_run alloc junk (playback_run alloc junk d a).1 b).2) := by
  induction a with
  | nil => intro d; rfl
  | cons x t ih =>
    intro d
    have h := ih (playback_poll alloc junk d x).2.1
    show playback_run alloc junk d (x :: (t ++ b)) = _
    simp only [playback_run, h, List.cons_append]

/-- Polls that let out nothing while the session stays in a class `P` closed under such
polls. -/
theorem playback_run_quiet (alloc : Nat → Bool) (junk : Char) (now : FLT)
    (P : SurvivePlaybackData → Prop)
    (hP : ∀ d, P d → (playback_poll alloc junk d now).2.2 = []
      ∧ P (playback_poll alloc junk d now).2.1) :
    ∀ (n : Nat) (d : SurvivePlaybackData), P d →
      (playback_run alloc junk d (List.replicate n now)).2 = List.replicate n []
      ∧ P (playback_run alloc junk d (List.replicate n now)).1 := by
  intro n
  induction n with
  | zero => intro d hd; exact ⟨rfl, hd⟩
  | succ k ih =>
    intro d hd
    obtain ⟨h1, h2⟩ := hP d hd
    obtain ⟨h3, h4⟩ := ih _ h2
    simp only [List.replicate_succ, playback_run, h1, h3]
    exact ⟨trivial, h4⟩

/-- The poll of a session that holds no time stamp, a record ahead: the time stamp is read
and the second half of the poll goes on with it. -/
theorem playback_poll_timestamp (alloc : Nat → Bool) (junk : Char)
    (halloc : ∀ m, alloc m = true) (driver : SurvivePlaybackData) (f : GzFile) (now : FLT)
    (ts line rest : List Char) (t : FLT) (hf : driver.playback_file = some f)
    (hz : driver.next_time_us.isZero = true) (hrec : RecordAhead f ts line rest t) :
    playback_poll alloc junk driver now
      = playback_poll_line alloc junk
          { driver with
            lineno := driver.lineno + 1
            playback_file := some { f with data := line ++ '\n' :: rest }
            next_time_us := t }
          { f with data := line ++ '\n' :: rest } now := by
  obtain ⟨b, n1, e1, _, _, hb⟩ := gzgetdelim_record alloc junk none 0 ' ' f ts
    (line ++ '\n' :: rest) halloc (by intro b h; cases h) hrec.err hrec.data hrec.ts_space
    hrec.ts_size
  have hb2 : b = (ts ++ [' ']) ++ NUL :: b.drop (ts.length + 2) := by
    have := eq_append_of_take b _ _ hb
    simpa using this
  have hc1 : cstr b = ts ++ [' '] := by
    rw [hb2]
    exact cstr_append_nul _ _ (by
      intro h
      rcases List.mem_append.mp h with h | h
      · exact hrec.ts_nul h
      · simp [NUL] at h)
  have hfresh := playback_poll_fresh alloc junk driver f now hf hrec.eof hrec.err hz
    (by rw [e1]; simp only; omega)
    (by rw [e1]; simp only [Option.getD_some, hc1, hrec.ts_reads])
  rw [hfresh, e1]
  simp only [Option.getD_some, hc1, hrec.ts_reads, flt_var, arg_flt, List.get?_cons_zero]

/-- The second half of a poll, the time stamp due and a line ahead: the line is handed to the
dispatch. -/
theorem playback_poll_line_record (alloc : Nat → Bool) (junk : Char)
    (halloc : ∀ m, alloc m = true) (driver : SurvivePlaybackData) (f : GzFile) (now : FLT)
    (line rest dev op : List Char) (herr : f.err = false) (hd : f.data = line ++ '\n' :: rest)
    (hl1 : '\n' ∉ line) (hl2 : NUL ∉ line)
    (hl3 : ∀ c, line.getLast? = some c → c ≠ '\n' ∧ c ≠ '\r')
    (hsz : line.length + 1 < SSIZE_MAX)
    (hdue : (driver.next_time_us.mul driver.playback_factor).gt now = false)
    (hop : sscanf line "%31s %31s" = (2, [.str dev, .str op])) :
    playback_poll_line alloc junk driver f now
      = (0, playback_dispatch line op
          { driver with
            next_time_us := FLT.num 0 0
            playback_file := some { f with data := rest } }) := by
  obtain ⟨b2, n2, e2, _, _, hb3⟩ := gzgetdelim_record alloc junk none 0 '\n' f line rest halloc
    (by intro b h; cases h) herr hd hl1 hsz
  have hb4 : b2 = line ++ '\n' :: NUL :: b2.drop (line.length + 2) := by
    have := eq_append_of_take b2 _ _ hb3
    simpa using this
  have hc2 : cstr (strip_eol (line.length + 1) b2) = line := by
    rw [hb4, strip_eol_line line _ hl3]
    exact cstr_append_nul _ _ hl2
  have hret : ((line.length + 1 : Nat) : Int).toNat = line.length + 1 := by simp
  have hpos : ¬ (((line.length + 1 : Nat) : Int) ≤ 0) := by omega
  have h2 : ¬ ((2 : Int) < 2) := by decide
  simp only [playback_poll_line, Option.getD_some, hdue, Bool.false_eq_true, if_false,
    gzgetline, e2, hret, hc2, hpos, hop, h2, str_var, arg_str, List.get?_cons_succ,
    List.get?_cons_zero]
theorem core_fields (d e : SurvivePlaybackData) (h : d.core = e.core) :
    d.playback_file = e.playback_file ∧ d.next_time_us = e.next_time_us
      ∧ d.settings = e.settings := by
  simp only [SurvivePlaybackData.core, Prod.mk.injEq] at h
  exact ⟨h.2.1, h.2.2.2.1, by simp only [SurvivePlaybackData.settings, h.1, h.2.2.2.2.1,
    h.2.2.2.2.2]⟩

theorem settings_factor (d : SurvivePlaybackData) (s : List (List Char) × FLT × Bool)
    (h : d.settings = s) : d.playback_factor = s.2.1 := by
  rw [← h]; rfl

theorem lineChars_facts (line : List Char) (h : LineChars line) :
    '\n' ∉ line ∧ NUL ∉ line ∧ ∀ c, line.getLast? = some c → c ≠ '\n' ∧ c ≠ '\r' := by
  refine ⟨fun hc => (h _ hc).2.1 rfl, fun hc => (h _ hc).1 rfl, fun c hc => ?_⟩
  have hm : c ∈ line := List.mem_of_getLast?_eq_some hc
  exact ⟨(h c hm).2.1, (h c hm).2.2⟩

/-- The session waits for a record that is not due: the poll lets out nothing and the
session goes on waiting for it. -/
theorem waiting_quiet (alloc : Nat → Bool) (junk : Char) (halloc : ∀ m, alloc m = true)
    (s : List (List Char) × FLT × Bool) (ts : FLT) (line rest : List Char) (now : FLT)
    (hline : LineChars line) (hsize : (log_record ts line).length < SSIZE_MAX)
    (hwait : (ts.round6.mul s.2.1).gt now = true) (hnz : ts.round6.isZero = false)
    (d : SurvivePlaybackData) (hd : Waiting d s ts line rest) :
    (playback_poll alloc junk d now).2.2 = []
    ∧ Waiting (playback_poll alloc junk d now).2.1 s ts line rest := by
  obtain ⟨hS, hd | ⟨hd, _⟩⟩ := hd
  · have hF := settings_factor d s hS
    have hrec := recordAhead_written ts line rest hline hsize
    have e := playback_poll_timestamp alloc junk halloc d _ now _ line rest _ hd.1 hd.2 hrec
    rw [e, playback_poll_line_not_due _ _ _ _ _ (by simp only [hF]; exact hwait)]
    exact ⟨rfl, hS, Or.inr ⟨⟨rfl, rfl⟩, hnz⟩⟩
  · have hF := settings_factor d s hS
    have e := playback_poll_pending alloc junk d _ now hd.1 rfl rfl (by rw [hd.2]; exact hnz)
    rw [e, playback_poll_line_not_due _ _ _ _ _ (by simp only [hF, hd.2]; exact hwait)]
    exact ⟨rfl, hS, Or.inr ⟨⟨hd.1, hd.2⟩, hnz⟩⟩

/-- The session waits for a record that is due: the poll hands its line to the dispatch and
the session stands behind the record. -/
theorem waiting_due (alloc : Nat → Bool) (junk : Char) (halloc : ∀ m, alloc m = true)
    (s : List (List Char) × FLT × Bool) (ts : FLT) (line rest dev op : List Char) (now : FLT)
    (hline : LineChars line) (hsize : (log_record ts line).length < SSIZE_MAX)
    (hdue : (ts.round6.mul s.2.1).gt now = false)
    (hop : sscanf line "%31s %31s" = (2, [.str dev, .str op]))
    (d : SurvivePlaybackData) (hd : Waiting d s ts line rest) :
    ∃ dx, dx.settings = s
      ∧ playback_poll alloc junk d now = (0, playback_dispatch line op dx)
      ∧ (playback_dispatch line op dx).1.settings = s
      ∧ AtRecord (playback_dispatch line op dx).1 rest := by
  obtain ⟨hS, hd | ⟨hd, _⟩⟩ := hd
  · have hF := settings_factor d s hS
    have hrec := recordAhead_written ts line rest hline hsize
    refine ⟨after_record d ⟨log_record ts line ++ rest, false, false, false⟩ rest, hS,
      playback_poll_dispatches alloc junk halloc d _ now _ line rest _ dev op hd.1 hd.2 hrec
        (by rw [hF]; exact hdue) hop, ?_, ?_⟩
    · rw [(core_fields _ _ (playback_dispatch_core line op _)).2.2]; exact hS
    · obtain ⟨h1, h2, _⟩ := core_fields _ _ (playback_dispatch_core line op
        (after_record d ⟨log_record ts line ++ rest, false, false, false⟩ rest))
      exact ⟨by rw [h1]; rfl, by rw [h2]; rfl⟩
  · have hF := settings_factor d s hS
    have e := playback_poll_pending alloc junk d _ now hd.1 rfl rfl (by rw [hd.2]; assumption)
    obtain ⟨hl1, hl2, hl3⟩ := lineChars_facts line hline
    have hsz : line.length + 1 < SSIZE_MAX := by
      simp only [log_record, List.length_append, List.length_cons, List.length_nil] at hsize
      omega
    have e2 := playback_poll_line_record alloc junk halloc { d with lineno := d.lineno + 1 }
      ⟨line ++ '\n' :: rest, false, false, false⟩ now line rest dev op rfl rfl hl1 hl2 hl3 hsz
      (by simp only [hF, hd.2]; exact hdue) hop
    refine ⟨{ d with lineno := d.lineno + 1, next_time_us := (FLT.num 0 0),
                     playback_file := some ⟨rest, false, false, false⟩ }, hS, e.trans e2,
      ?_, ?_⟩
    · rw [(core_fields _ _ (playback_dispatch_core line op _)).2.2]; exact hS
    · obtain ⟨h1, h2, _⟩ := core_fields _ _ (playback_dispatch_core line op
        { d with lineno := d.lineno + 1, next_time_us := (FLT.num 0 0),
                 playback_file := some ⟨rest, false, false, false⟩ })
      exact ⟨by rw [h1], by rw [h2]; rfl⟩

/-- At the end of the log and after it every poll lets out nothing. -/
theorem done_quiet (alloc : Nat → Bool) (junk : Char) (halloc : ∀ m, alloc m = true)
    (now : FLT) (d : SurvivePlaybackData) (hd : AtRecord d [] ∨ Ended d) :
    (playback_poll alloc junk d now).2.2 = []
    ∧ (AtRecord (playback_poll alloc junk d now).2.1 [] ∨ Ended (playback_poll alloc junk d now).2.1)
    := by
  rcases hd with hd | hd
  · obtain ⟨buf0, n0, e0, hl, hn⟩ := gzgetdelim_eq_read alloc junk none 0 ' '
      ⟨[], false, false, false⟩ halloc (by intro b h; cases h)
    obtain ⟨b, n1, e, _⟩ := gzgetdelim_read_eof alloc junk ' ' halloc ⟨[], false, false, false⟩
      buf0 n0 rfl rfl (by simp) (by decide) hl hn
    rw [if_pos rfl] at e
    have hg : (!gzeof (⟨[], false, false, false⟩ : GzFile)
        && !gzerror_dropin (⟨[], false, false, false⟩ : GzFile)) = true := rfl
    have hneg : ((-1 : Int) ≤ 0) := by decide
    have hp : playback_poll alloc junk d now
        = (0, { d with lineno := d.lineno + 1
                       playback_file := some ⟨[], false, true, false⟩ }, []) := by
      unfold playback_poll
      simp only [hd.1, hg, if_true, hd.2, e0, e, hneg]
    rw [hp]
    exact ⟨rfl, Or.inr (fun f hf => by
      simp only [Option.some.injEq] at hf
      subst hf
      exact Or.inl rfl)⟩
  · cases hf : d.playback_file with
    | none =>
      rw [playback_poll_none alloc junk d now hf]
      exact ⟨rfl, Or.inr hd⟩
    | some f =>
      have hc : (!gzeof f && !gzerror_dropin f) = false := by
        rcases hd f hf with h | h <;> simp [h]
      have hp : playback_poll alloc junk d now = (-1, { d with playback_file := none }, []) := by
        simp only [playback_poll, hf, hc]
        rfl
      rw [hp]
      exact ⟨rfl, Or.inr (fun g hg => by cases hg)⟩
/-- Polls at one reading of the clock, the next record due at it: the first poll hands the
line of the record to the dispatch, the others let out nothing, provided the session is
quiet at this reading once it stands behind the record. -/
theorem waiting_run (alloc : Nat → Bool) (junk : Char) (halloc : ∀ m, alloc m = true)
    (s : List (List Char) × FLT × Bool) (ts : FLT) (line rest dev op : List Char) (now : FLT)
    (hline : LineChars line) (hsize : (log_record ts line).length < SSIZE_MAX)
    (hdue : (ts.round6.mul s.2.1).gt now = false)
    (hop : sscanf line "%31s %31s" = (2, [.str dev, .str op]))
    (Q : SurvivePlaybackData → Prop)
    (hQ0 : ∀ d, d.settings = s → AtRecord d rest → Q d)
    (hQ : ∀ d, Q d → (playback_poll alloc junk d now).2.2 = []
      ∧ Q (playback_poll alloc junk d now).2.1)
    (n : Nat) (d : SurvivePlaybackData) (hd : Waiting d s ts line rest) :
    ∃ dx, dx.settings = s
      ∧ (playback_run alloc junk d (List.replicate (n + 1) now)).2
          = (playback_dispatch line op dx).2 :: List.replicate n []
      ∧ Q (playback_run alloc junk d (List.replicate (n + 1) now)).1 := by
  obtain ⟨dx, h1, h2, h3, h4⟩ := waiting_due alloc junk halloc s ts line rest dev op now hline
    hsize hdue hop d hd
  obtain ⟨h5, h6⟩ := playback_run_quiet alloc junk now Q hQ n _ (hQ0 _ h3 h4)
  refine ⟨dx, h1, ?_, ?_⟩
  · simp only [List.replicate_succ, playback_run, h2, h5]
  · simp only [List.replicate_succ, playback_run, h2]
    exact h6

/-- C20, counterexample.  Three sync records of the registered device `T20` stamped 0.0, 0.5
and 1.0, playback factor 1.0.  One poll while the clock reads 0.2 already dispatches the
first line: its time stamp 0.0 is not greater than 0.2. -/
theorem first_line_dispatched_at_0_2 :
    (playback_run (fun _ => true) 'x'
        (playback_start ["T20".toList]
          ("0.000000 T20 Y 1 10 1 0\n".toList ++ "0.500000 T20 Y 1 20 1 0\n".toList
            ++ "1.000000 T20 Y 1 30 1 0\n".toList) (FLT.num 1 0) false)
        [FLT.num 2 1]).2
      = [[.call (.syncproc "T20".toList 1 10 true false)]] := by
  decide

/-- C20, amended.  A log of three records stamped 0.0, 0.5 and 1.0, each line free of NUL,
newline and carriage return and made of at least two tokens, played at the factor 1.0.
Poll one or more times while the clock reads 0.2, then one or more times while it reads 0.6,
then one or more times while it reads 2.0.  The first poll at 0.2 hands the first line to
the dispatch (its time stamp 0.0 is due), the first poll at 0.6 the second line and the first
poll at 2.0 the third line; every other poll lets out nothing.  The settings of the session
are the same at each dispatch. -/
theorem playback_three_records (alloc : Nat → Bool) (junk : Char)
    (halloc : ∀ m, alloc m = true) (objects : List (List Char)) (replay_pose : Bool)
    (l1 l2 l3 dev1 op1 dev2 op2 dev3 op3 : List Char)
    (h1 : LineChars l1) (h2 : LineChars l2) (h3 : LineChars l3)
    (k1 : sscanf l1 "%31s %31s" = (2, [.str dev1, .str op1]))
    (k2 : sscanf l2 "%31s %31s" = (2, [.str dev2, .str op2]))
    (k3 : sscanf l3 "%31s %31s" = (2, [.str dev3, .str op3]))
    (z1 : l1.length + 10 < SSIZE_MAX) (z2 : l2.length + 10 < SSIZE_MAX)
    (z3 : l3.length + 10 < SSIZE_MAX) (n1 n2 n3 : Nat) :
    ∃ d1 d2 d3 : SurvivePlaybackData,
      d1.settings = (objects, FLT.num 1 0, replay_pose) ∧ d2.settings = (objects, FLT.num 1 0, replay_pose)
      ∧ d3.settings = (objects, FLT.num 1 0, replay_pose)
      ∧ (playback_run alloc junk
          (playback_start objects
            (log_record (FLT.num 0 0) l1 ++ log_record (FLT.num 5 1) l2 ++ log_record (FLT.num 1 0) l3)
            (FLT.num 1 0) replay_pose)
          (List.replicate (n1 + 1) (FLT.num 2 1) ++ (List.replicate (n2 + 1) (FLT.num 6 1)
            ++ List.replicate (n3 + 1) (FLT.num 2 0)))).2
        = ((playback_dispatch l1 op1 d1).2 :: List.replicate n1 [])
          ++ (((playback_dispatch l2 op2 d2).2 :: List.replicate n2 [])
          ++ ((playback_dispatch l3 op3 d3).2 :: List.replicate n3 [])) := by
  have hlog : log_record (FLT.num 0 0) l1 ++ log_record (FLT.num 5 1) l2 ++ log_record (FLT.num 1 0) l3
      = log_record (FLT.num 0 0) l1 ++ (log_record (FLT.num 5 1) l2 ++ (log_record (FLT.num 1 0) l3 ++ [])) := by
    simp
  rw [hlog]
  have hlen : ∀ (m : Int) (s : Nat) (l : List Char), (FLT.num m s).micro / 1000000 < 10 →
      0 ≤ m → l.length + 10 < SSIZE_MAX → (log_record (FLT.num m s) l).length < SSIZE_MAX := by
    intro m s l hts hm hl
    have hu := fmt_u_length ((FLT.num m s).micro / 1000000) 1 (Nat.le_refl 1)
      (by simpa using hts)
    simp only [log_record, fmt_f6, List.length_append, List.length_cons, List.length_nil,
      pad6, if_neg (not_lt.mpr hm)]
    omega
  have s1 := hlen 0 0 l1 (by decide) (by decide) z1
  have s2 := hlen 5 1 l2 (by decide) (by decide) z2
  have s3 := hlen 1 0 l3 (by decide) (by decide) z3
  have c1 : ((FLT.round6 (FLT.num 0 0)).mul (FLT.num 1 0)).gt (FLT.num 2 1) = false := by decide
  have c2 : ((FLT.round6 (FLT.num 5 1)).mul (FLT.num 1 0)).gt (FLT.num 2 1) = true := by decide
  have c3 : ((FLT.round6 (FLT.num 5 1)).mul (FLT.num 1 0)).gt (FLT.num 6 1) = false := by decide
  have c4 : ((FLT.round6 (FLT.num 1 0)).mul (FLT.num 1 0)).gt (FLT.num 6 1) = true := by decide
  have c5 : ((FLT.round6 (FLT.num 1 0)).mul (FLT.num 1 0)).gt (FLT.num 2 0) = false := by decide
  -- the third phase: the third record is due at 2.0, the log ends behind it
  have p3 := waiting_run alloc junk halloc (objects, FLT.num 1 0, replay_pose) (FLT.num 1 0) l3 [] dev3 op3
    (FLT.num 2 0) h3 s3 c5 k3 (fun d => AtRecord d [] ∨ Ended d) (fun d _ h => Or.inl h)
    (fun d hd => done_quiet alloc junk halloc (FLT.num 2 0) d hd) n3
  -- the second phase: the second record is due at 0.6, the third is not
  have p2 := waiting_run alloc junk halloc (objects, FLT.num 1 0, replay_pose) (FLT.num 5 1) l2
    (log_record (FLT.num 1 0) l3 ++ []) dev2 op2 (FLT.num 6 1) h2 s2 c3 k2
    (fun d => Waiting d (objects, FLT.num 1 0, replay_pose) (FLT.num 1 0) l3 [])
    (fun d hs h => ⟨hs, Or.inl h⟩)
    (fun d hd => waiting_quiet alloc junk halloc _ (FLT.num 1 0) l3 [] (FLT.num 6 1) h3 s3 c4
      (by decide) d hd) n2
  -- the first phase: the first record is due at 0.2, the second is not
  have p1 := waiting_run alloc junk halloc (objects, FLT.num 1 0, replay_pose) (FLT.num 0 0) l1
    (log_record (FLT.num 5 1) l2 ++ (log_record (FLT.num 1 0) l3 ++ [])) dev1 op1 (FLT.num 2 1) h1 s1 c1 k1
    (fun d => Waiting d (objects, FLT.num 1 0, replay_pose) (FLT.num 5 1) l2 (log_record (FLT.num 1 0) l3 ++ []))
    (fun d hs h => ⟨hs, Or.inl h⟩)
    (fun d hd => waiting_quiet alloc junk halloc _ (FLT.num 5 1) l2 _ (FLT.num 2 1) h2 s2 c2
      (by decide) d hd) n1
  obtain ⟨d1, e1, r1, q1⟩ := p1 (playback_start objects
    (log_record (FLT.num 0 0) l1 ++ (log_record (FLT.num 5 1) l2 ++ (log_record (FLT.num 1 0) l3 ++ [])))
    (FLT.num 1 0) replay_pose) ⟨rfl, Or.inl ⟨rfl, rfl⟩⟩
  obtain ⟨d2, e2, r2, q2⟩ := p2 _ q1
  obtain ⟨d3, e3, r3, _⟩ := p3 _ q2
  refine ⟨d1, d2, d3, e1, e2, e3, ?_⟩
  rw [playback_run_append, playback_run_append]
  simp only [r1, r2, r3]

theorem lineChars_of_all (s : List Char)
    (h : s.all (fun c => c != NUL && c != '\n' && c != '\r') = true) : LineChars s := by
  intro c hc
  have := List.all_eq_true.mp h c hc
  simp only [Bool.and_eq_true, bne_iff_ne, ne_eq] at this
  exact ⟨this.1.1, this.1.2, this.2⟩

/-- C20, amended: an instance.  Three sync records of the registered device `T20`, two polls
at each reading of the clock: the first poll at 0.2 dispatches the first line, the first at
0.6 the second, the first at 2.0 the third. -/
theorem playback_three_records_witness :
    ∃ d1 d2 d3 : SurvivePlaybackData,
      d1.settings = (["T20".toList], FLT.num 1 0, false) ∧ d2.settings = (["T20".toList], FLT.num 1 0, false)
      ∧ d3.settings = (["T20".toList], FLT.num 1 0, false)
      ∧ (playback_run (fun _ => true) 'x'
          (playback_start ["T20".toList]
            (log_record (FLT.num 0 0) "T20 Y 1 10 1 0".toList ++ log_record (FLT.num 5 1) "T20 Y 1 20 1 0".toList
              ++ log_record (FLT.num 1 0) "T20 Y 1 30 1 0".toList)
            (FLT.num 1 0) false)
          (List.replicate (1 + 1) (FLT.num 2 1) ++ (List.replicate (1 + 1) (FLT.num 6 1)
            ++ List.replicate (1 + 1) (FLT.num 2 0)))).2
        = ((playback_dispatch "T20 Y 1 10 1 0".toList "Y".toList d1).2 :: List.replicate 1 [])
          ++ (((playback_dispatch "T20 Y 1 20 1 0".toList "Y".toList d2).2 :: List.replicate 1 [])
          ++ ((playback_dispatch "T20 Y 1 30 1 0".toList "Y".toList d3).2
            :: List.replicate 1 [])) :=
  playback_three_records (fun _ => true) 'x' (fun _ => rfl) ["T20".toList] false
    "T20 Y 1 10 1 0".toList "T20 Y 1 20 1 0".toList "T20 Y 1 30 1 0".toList
    "T20".toList "Y".toList "T20".toList "Y".toList "T20".toList "Y".toList
    (lineChars_of_all _ (by decide)) (lineChars_of_all _ (by decide))
    (lineChars_of_all _ (by decide)) (by decide) (by decide) (by decide) (by decide)
    (by decide) (by decide) 1 1 1


/-! ### The pre-scan of the log -/

/-- The reading loop over a record `pre ++ [delim]`: what it stores does not depend on the
stream the record is read from, nor on what follows it. -/
theorem gzgetdelim_loop_det (alloc : Nat → Bool) (junk delim : Char)
    (halloc : ∀ m, alloc m = true) :
    ∀ (pre : List Char) (bytes pos : Nat) (buf : List Char) (n : Nat),
      delim ∉ pre → bytes + pre.length + 1 < SSIZE_MAX →
      ∃ (b : List Char) (n1 p1 : Nat), ∀ (f : GzFile) (fuel : Nat) (rest : List Char),
        f.err = false → f.data = pre ++ delim :: rest → pre.length + 1 ≤ fuel →
        gzgetdelim_loop alloc junk delim fuel f bytes pos buf n
          = .out (bytes + pre.length + 1) p1 b n1 { f with data := rest } := by
  intro pre
  induction pre with
  | nil =>
    intro bytes pos buf n _ hsz
    have hov : ¬ (bytes + 1 ≥ SSIZE_MAX) := by simp at hsz; omega
    by_cases hgrow : bytes + 1 ≥ n - 1
    · refine ⟨(realloc junk (some buf) (n + GETDELIM_GROWBY)).set (bytes + 1 - 1) delim,
        n + GETDELIM_GROWBY, bytes + 1 - 1 + 1, ?_⟩
      intro f fuel rest he hd hfuel
      obtain ⟨k, rfl⟩ : ∃ k, fuel = k + 1 := ⟨fuel - 1, by simp at hfuel; omega⟩
      rw [gzgetdelim_loop, gzgetc_cons f delim rest he (by simpa using hd)]
      simp only [hov, if_false, hgrow, if_true, halloc]
      rfl
    · refine ⟨buf.set pos delim, n, pos + 1, ?_⟩
      intro f fuel rest he hd hfuel
      obtain ⟨k, rfl⟩ : ∃ k, fuel = k + 1 := ⟨fuel - 1, by simp at hfuel; omega⟩
      rw [gzgetdelim_loop, gzgetc_cons f delim rest he (by simpa using hd)]
      simp only [hov, if_false, hgrow, if_true]
      rfl
  | cons c cs ih =>
    intro bytes pos buf n hnot hsz
    have hc : c ≠ delim := fun h => hnot (by simp [h])
    have hcs : delim ∉ cs := fun h => hnot (by simp [h])
    have hlen : (c :: cs).length = cs.length + 1 := rfl
    have hov : ¬ (bytes + 1 ≥ SSIZE_MAX) := by rw [hlen] at hsz; omega
    by_cases hgrow : bytes + 1 ≥ n - 1
    · obtain ⟨b, n1, p1, H⟩ := ih (bytes + 1) (bytes + 1 - 1 + 1)
        ((realloc junk (some buf) (n + GETDELIM_GROWBY)).set (bytes + 1 - 1) c)
        (n + GETDELIM_GROWBY) hcs (by rw [hlen] at hsz; omega)
      refine ⟨b, n1, p1, ?_⟩
      intro f fuel rest he hd hfuel
      obtain ⟨k, rfl⟩ : ∃ k, fuel = k + 1 := ⟨fuel - 1, by omega⟩
      rw [gzgetdelim_loop, gzgetc_cons f c (cs ++ delim :: rest) he (by simpa using hd)]
      simp only [hov, if_false, hgrow, if_true, halloc, hc]
      rw [H { f with data := cs ++ delim :: rest } k rest he rfl (by rw [hlen] at hfuel; omega),
        hlen]
      congr 1; omega
    · obtain ⟨b, n1, p1, H⟩ := ih (bytes + 1) (pos + 1) (buf.set pos c) n hcs
        (by rw [hlen] at hsz; omega)
      refine ⟨b, n1, p1, ?_⟩
      intro f fuel rest he hd hfuel
      obtain ⟨k, rfl⟩ : ∃ k, fuel = k + 1 := ⟨fuel - 1, by omega⟩
      rw [gzgetdelim_loop, gzgetc_cons f c (cs ++ delim :: rest) he (by simpa using hd)]
      simp only [hov, if_false, hgrow, hc]
      rw [H { f with data := cs ++ delim :: rest } k rest he rfl (by rw [hlen] at hfuel; omega),
        hlen]
      congr 1; omega

/-- The block `gzgetline` fills with a line is the same whatever follows the line. -/
theorem gzgetline_det (alloc : Nat → Bool) (junk : Char) (halloc : ∀ m, alloc m = true)
    (pre : List Char) (hfirst : '\n' ∉ pre) (hsz : pre.length + 1 < SSIZE_MAX) :
    ∃ (b : List Char) (n1 : Nat), b.take (pre.length + 2) = pre ++ ['\n', NUL]
      ∧ ∀ (f : GzFile) (rest : List Char), f.err = false → f.data = pre ++ '\n' :: rest →
        gzgetline alloc junk none 0 f
          = ⟨(pre.length + 1 : Nat), some b, n1, { f with data := rest }⟩ := by
  obtain ⟨b, n1, p1, H⟩ := gzgetdelim_loop_det alloc junk '\n' halloc pre 0 0
    (realloc junk none GETDELIM_GROWBY) GETDELIM_GROWBY hfirst (by omega)
  have key : ∀ (f : GzFile) (rest : List Char), f.err = false → f.data = pre ++ '\n' :: rest →
      gzgetline alloc junk none 0 f
        = ⟨(pre.length + 1 : Nat), some (b.set p1 NUL), n1, { f with data := rest }⟩ := by
    intro f rest he hd
    have h1 : gzgetline alloc junk none 0 f
        = gzgetdelim_read alloc junk '\n' f (realloc junk none GETDELIM_GROWBY)
            GETDELIM_GROWBY := by
      simp [gzgetline, gzgetdelim, halloc]
    rw [h1, gzgetdelim_read, H f (f.data.length + 1) rest he hd (by rw [hd]; simp)]
    simp [gzerror_dropin, he]
  refine ⟨b.set p1 NUL, n1, ?_, key⟩
  obtain ⟨b2, n2, e, _, _, h3⟩ := gzgetdelim_record alloc junk none 0 '\n'
    ⟨pre ++ ['\n'], false, false, false⟩ pre [] halloc (by simp) rfl rfl hfirst hsz
  have e2 := key ⟨pre ++ ['\n'], false, false, false⟩ [] rfl rfl
  rw [gzgetline, e] at e2
  have e3 : b2 = b.set p1 NUL := by
    have := congrArg GetdelimResult.lineptr e2
    simpa using this
  rw [← e3]; exact h3

/-- One pass of the pre-scan loop over a complete line: the body runs on a block that holds
the line, its newline and a NUL, the same block whatever follows the line. -/
theorem prescan_loop_line (alloc : Nat → Bool) (junk : Char)
    (configproc : List Char → List Char → Nat → Int) (halloc : ∀ m, alloc m = true)
    (l : List Char) (hfirst : '\n' ∉ l) (hsz : l.length + 1 < 2147483648) :
    ∃ b : List Char, b.take (l.length + 2) = l ++ ['\n', NUL]
      ∧ ∀ (f : GzFile) (fuel : Nat) (rest : List Char), f.eof = false → f.err = false →
        f.data = l ++ '\n' :: rest →
        prescan_loop alloc junk configproc (fuel + 1) f
          = if (prescan_line configproc b).1 then
              (prescan_loop alloc junk configproc fuel { f with data := rest }).map
                (fun x => (x.1, (prescan_line configproc b).2 ++ x.2))
            else some ({ f with data := rest }, (prescan_line configproc b).2) := by
  obtain ⟨b, n1, hb, H⟩ := gzgetline_det alloc junk halloc l hfirst
    (by simp only [SSIZE_MAX]; omega)
  refine ⟨b, hb, ?_⟩
  intro f fuel rest heof herr hd
  have hr : toSigned 32 ((l.length + 1 : Nat) : Int) = ((l.length + 1 : Nat) : Int) :=
    toSigned_of_range 32 _ (by decide) (by norm_num; omega) (by norm_num; omega)
  have hpos : ¬ (((l.length + 1 : Nat) : Int) ≤ 0) := by omega
  rw [prescan_loop]
  simp only [gzeof, gzerror_dropin, heof, herr, H f rest herr hd, hr, hpos, if_false,
    Bool.not_false, Bool.and_self, if_true, Option.getD_some]

/-- The pre-scan at the end of the log: one more read, which fails, then the loop is left. -/
theorem prescan_loop_end (alloc : Nat → Bool) (junk : Char)
    (configproc : List Char → List Char → Nat → Int) (halloc : ∀ m, alloc m = true)
    (fuel : Nat) :
    prescan_loop alloc junk configproc (fuel + 2) ⟨[], false, false, false⟩
      = some (⟨[], false, true, false⟩, []) := by
  have h1 : gzgetline alloc junk none 0 ⟨[], false, false, false⟩
      = ⟨-1, some (realloc junk none GETDELIM_GROWBY), GETDELIM_GROWBY,
          ⟨[], false, true, false⟩⟩ := by
    simp [gzgetline, gzgetdelim, halloc, gzgetdelim_read, gzgetdelim_loop, gzgetc, gzeof,
      gzerror_dropin]
  have h2 : toSigned 32 (-1) ≤ 0 := by decide
  rw [prescan_loop]
  simp only [gzeof, gzerror_dropin, h1, h2, if_true, Bool.not_false, Bool.and_self]
  rw [prescan_loop]
  simp [gzeof]

/-- A line at which the body of the pre-scan leaves the loop without letting anything out
ends the scan: what the pre-scan lets out for the log is what it lets out for the lines
before that line alone. -/
theorem prescan_loop_stop (alloc : Nat → Bool) (junk : Char)
    (configproc : List Char → List Char → Nat → Int) (halloc : ∀ m, alloc m = true)
    (l rest : List Char) (failing : Bool) (hl1 : '\n' ∉ l) (hl2 : l.length + 1 < 2147483648)
    (hstop : ∀ b : List Char, b.take (l.length + 2) = l ++ ['\n', NUL] →
      prescan_line configproc b = (false, [])) :
    ∀ (ls : List (List Char)), (∀ x ∈ ls, '\n' ∉ x ∧ x.length + 1 < 2147483648) →
      ∀ fuel, ls.length + 2 ≤ fuel →
      ∃ outs, (prescan_loop alloc junk configproc fuel
            ⟨lines_text ls ++ (l ++ '\n' :: rest), failing, false, false⟩).map Prod.snd
          = some outs
        ∧ (prescan_loop alloc junk configproc fuel
            ⟨lines_text ls, false, false, false⟩).map Prod.snd = some outs := by
  intro ls
  induction ls with
  | nil =>
    intro _ fuel hfuel
    obtain ⟨k, rfl⟩ : ∃ k, fuel = k + 2 := ⟨fuel - 2, by simp at hfuel; omega⟩
    obtain ⟨b, hb, H⟩ := prescan_loop_line alloc junk configproc halloc l hl1 hl2
    refine ⟨[], ?_, ?_⟩
    · have e := H ⟨l ++ '\n' :: rest, failing, false, false⟩ (k + 1) rest rfl rfl rfl
      simp only [lines_text, List.nil_append]
      rw [e, hstop b hb]
      simp
    · simp only [lines_text]
      rw [prescan_loop_end alloc junk configproc halloc k]
      rfl
  | cons x xs ih =>
    intro hls fuel hfuel
    obtain ⟨k, rfl⟩ : ∃ k, fuel = k + 1 := ⟨fuel - 1, by simp at hfuel; omega⟩
    have hx := hls x (List.mem_cons_self _ _)
    obtain ⟨b, _, H⟩ := prescan_loop_line alloc junk configproc halloc x hx.1 hx.2
    obtain ⟨outs, i1, i2⟩ := ih (fun y hy => hls y (List.mem_cons_of_mem _ hy)) k
      (by simp at hfuel; omega)
    have e1 := H ⟨lines_text (x :: xs) ++ (l ++ '\n' :: rest), failing, false, false⟩ k
      (lines_text xs ++ (l ++ '\n' :: rest)) rfl rfl (by simp [lines_text])
    have e2 := H ⟨lines_text (x :: xs), false, false, false⟩ k (lines_text xs) rfl rfl
      (by simp [lines_text])
    rw [e1, e2]
    by_cases hgo : (prescan_line configproc b).1 = true
    · refine ⟨(prescan_line configproc b).2 ++ outs, ?_, ?_⟩
      · simp only [hgo, if_true, Option.map_map]
        rw [Option.map_eq_some'] at i1 ⊢
        obtain ⟨a, ha, hh⟩ := i1
        exact ⟨a, ha, by simp [hh]⟩
      · simp only [hgo, if_true, Option.map_map]
        rw [Option.map_eq_some'] at i2 ⊢
        obtain ⟨a, ha, hh⟩ := i2
        exact ⟨a, ha, by simp [hh]⟩
    · refine ⟨(prescan_line configproc b).2, ?_, ?_⟩ <;> simp [hgo]

/-- The C string in a block that holds a NUL-free line, its newline and a NUL. -/
theorem cstr_line_block (b l : List Char) (hb : b.take (l.length + 2) = l ++ ['\n', NUL])
    (hz : NUL ∉ l) : cstr b = l ++ ['\n'] := by
  have e : b = (l ++ ['\n']) ++ NUL :: b.drop (l.length + 2) := by
    have := eq_append_of_take b _ _ hb
    simpa using this
  rw [e]
  refine cstr_append_nul _ _ ?_
  intro h
  rcases List.mem_append.mp h with h | h
  · exact hz h
  · revert h; decide

/-- C13.  The recorder writes the configuration text `a`, newline, `b` of the device `T20` as
the line
`0.000000 T20 CONFIG a b`.  On a log holding that line `DriverRegPlayback` calls
`configproc` with the five characters space, `a b`, newline and with the length 5, not with
the payload `a b` of length 3: the loop under "Skip three spaces" stops on the third space,
and the newline that ends the line is still in the block. -/
theorem DriverRegPlayback_config_padded :
    DriverRegPlayback (fun _ => true) 'x' (fun _ _ _ => 0) 3 [] "log".toList
        (fun _ => some ⟨written (FLT.num 0 0) (.config "T20".toList "a\nb".toList), false, false,
          false⟩) (FLT.num 1 0) false
      = some (0,
          some (playback_start ["T20".toList] "0.000000 T20 CONFIG a b\n".toList (FLT.num 1 0) false),
          [.info "Using playback file 'log' with timefactor of 1.000000".toList,
           .create_device "replay".toList "T20".toList,
           .configproc "T20".toList " a b\n".toList 5,
           .info "Found T20 in playback file...".toList,
           .add_object "T20".toList,
           .add_driver]) := by
  decide

/-- C14.  Pre-scan horizon.  Let a log consist of any lines `ls`, then a line `l` that
decodes into a time stamp, a device token and a command token (of at most 31 characters
each, the room of `dev` and `command`) with a time stamp greater than 10, then anything
(`rest`).  With allocation succeeding, the pre-scan ends and lets out exactly what it lets
out for the log that holds the lines `ls` alone: nothing is created from `l`, whatever its
command, and nothing of `rest` is examined. -/
theorem prescan_horizon (alloc : Nat → Bool) (junk : Char)
    (configproc : List Char → List Char → Nat → Int) (halloc : ∀ m, alloc m = true)
    (ls : List (List Char)) (l rest : List Char) (failing : Bool) (fuel : Nat)
    (hls : ∀ x ∈ ls, '\n' ∉ x ∧ x.length + 1 < 2147483648)
    (hn : '\n' ∉ l) (hz : NUL ∉ l) (hlen : l.length + 1 < 2147483648)
    (h3 : (sscanf (l ++ ['\n']) "%lf %s %s").1 = 3)
    (hdev : (str_var (sscanf (l ++ ['\n']) "%lf %s %s").2 1).length ≤ 31)
    (hcmd : (str_var (sscanf (l ++ ['\n']) "%lf %s %s").2 2).length ≤ 31)
    (hlate : (flt_var (sscanf (l ++ ['\n']) "%lf %s %s").2 0).gt (FLT.num 10 0) = true)
    (hfuel : ls.length + 2 ≤ fuel) :
    ∃ outs, (prescan_loop alloc junk configproc fuel
          ⟨lines_text ls ++ (l ++ '\n' :: rest), failing, false, false⟩).map Prod.snd
        = some outs
      ∧ (prescan_loop alloc junk configproc fuel
          ⟨lines_text ls, false, false, false⟩).map Prod.snd = some outs := by
  refine prescan_loop_stop alloc junk configproc halloc l rest failing hn hlen ?_ ls hls fuel
    hfuel
  intro b hb
  have hc := cstr_line_block b l hb hz
  have k1 : ¬ (31 < (str_var (sscanf (l ++ ['\n']) "%lf %s %s").2 1).length
      ∨ 31 < (str_var (sscanf (l ++ ['\n']) "%lf %s %s").2 2).length) := by omega
  simp only [prescan_line, hc]
  rw [if_neg k1, if_neg (by simp [h3]), if_pos hlate]

/-- C14: an instance.  After a `CONFIG` line at 0.0, a `CONFIG` line at 15.0 and one at
1.0 behind it: the pre-scan lets out what it lets out for the first line alone. -/
theorem prescan_horizon_witness :
    ∃ outs, (prescan_loop (fun _ => true) 'x' (fun _ _ _ => 0) 3
          ⟨lines_text ["0.000000 T20 CONFIG a".toList]
            ++ ("15.000000 T21 CONFIG b".toList ++ '\n' :: "1.000000 T22 CONFIG c\n".toList),
            false, false, false⟩).map Prod.snd = some outs
      ∧ (prescan_loop (fun _ => true) 'x' (fun _ _ _ => 0) 3
          ⟨lines_text ["0.000000 T20 CONFIG a".toList], false, false, false⟩).map Prod.snd
        = some outs :=
  prescan_horizon (fun _ => true) 'x' (fun _ _ _ => 0) (fun _ => rfl)
    ["0.000000 T20 CONFIG a".toList] "15.000000 T21 CONFIG b".toList
    "1.000000 T22 CONFIG c\n".toList false 3 (by decide) (by decide) (by decide) (by decide)
    (by decide) (by decide) (by decide) (by decide) (by decide)

/-- C15, counterexample.  A log of two lines: `garbage`, which does not decode, and a
well-formed `CONFIG` line of the device `T20` at 1.0.  `DriverRegPlayback` leaves the
pre-scan at the first line: no device is created, `configproc` is not called, nothing is
logged about the line, and the session starts without `T20`. -/
theorem DriverRegPlayback_stops_at_undecodable_line :
    DriverRegPlayback (fun _ => true) 'x' (fun _ _ _ => 0) 4 [] "log".toList
        (fun _ => some ⟨"garbage\n1.000000 T20 CONFIG a\n".toList, false, false, false⟩)
        (FLT.num 1 0) false
      = some (0,
          some (playback_start [] "garbage\n1.000000 T20 CONFIG a\n".toList (FLT.num 1 0) false),
          [.info "Using playback file 'log' with timefactor of 1.000000".toList,
           .add_driver]) := by
  decide

/-- C15, amended.  Let a log consist of any lines `ls`, then a line `l` that does not
decode into a time stamp, a device token and a command token (`sscanf` does not return 3;
a token it stores has at most 31 characters), then anything (`rest`).  With allocation
succeeding, the pre-scan ends and lets out exactly what it lets out for the log that holds
the lines `ls` alone: the line ends the scan, nothing is logged for it, and no line of
`rest` is examined, so no `CONFIG` line behind `l` has its device created. -/
theorem prescan_ends_at_undecodable_line (alloc : Nat → Bool) (junk : Char)
    (configproc : List Char → List Char → Nat → Int) (halloc : ∀ m, alloc m = true)
    (ls : List (List Char)) (l rest : List Char) (failing : Bool) (fuel : Nat)
    (hls : ∀ x ∈ ls, '\n' ∉ x ∧ x.length + 1 < 2147483648)
    (hn : '\n' ∉ l) (hz : NUL ∉ l) (hlen : l.length + 1 < 2147483648)
    (h3 : (sscanf (l ++ ['\n']) "%lf %s %s").1 ≠ 3)
    (hdev : (str_var (sscanf (l ++ ['\n']) "%lf %s %s").2 1).length ≤ 31)
    (hcmd : (str_var (sscanf (l ++ ['\n']) "%lf %s %s").2 2).length ≤ 31)
    (hfuel : ls.length + 2 ≤ fuel) :
    ∃ outs, (prescan_loop alloc junk configproc fuel
          ⟨lines_text ls ++ (l ++ '\n' :: rest), failing, false, false⟩).map Prod.snd
        = some outs
      ∧ (prescan_loop alloc junk configproc fuel
          ⟨lines_text ls, false, false, false⟩).map Prod.snd = some outs := by
  refine prescan_loop_stop alloc junk configproc halloc l rest failing hn hlen ?_ ls hls fuel
    hfuel
  intro b hb
  have hc := cstr_line_block b l hb hz
  have k1 : ¬ (31 < (str_var (sscanf (l ++ ['\n']) "%lf %s %s").2 1).length
      ∨ 31 < (str_var (sscanf (l ++ ['\n']) "%lf %s %s").2 2).length) := by omega
  simp only [prescan_line, hc]
  rw [if_neg k1, if_pos h3]

/-- C15, amended: an instance.  A `CONFIG` line at 0.0, then the line `garbage`, then a
`CONFIG` line at 1.0: the pre-scan lets out what it lets out for the first line alone. -/
theorem prescan_ends_at_undecodable_line_witness :
    ∃ outs, (prescan_loop (fun _ => true) 'x' (fun _ _ _ => 0) 3
          ⟨lines_text ["0.000000 T20 CONFIG a".toList]
            ++ ("garbage".toList ++ '\n' :: "1.000000 T22 CONFIG c\n".toList),
            false, false, false⟩).map Prod.snd = some outs
      ∧ (prescan_loop (fun _ => true) 'x' (fun _ _ _ => 0) 3
          ⟨lines_text ["0.000000 T20 CONFIG a".toList], false, false, false⟩).map Prod.snd
        = some outs :=
  prescan_ends_at_undecodable_line (fun _ => true) 'x' (fun _ _ _ => 0) (fun _ => rfl)
    ["0.000000 T20 CONFIG a".toList] "garbage".toList
    "1.000000 T22 CONFIG c\n".toList false 3 (by decide) (by decide) (by decide) (by decide)
    (by decide) (by decide) (by decide) (by decide)


/-- The three tokens of a record, as the pre-scan reads them. -/
theorem sscanf_three_tokens (ts : FLT) (dev cmd body : List Char) (h1 : dev ≠ [])
    (h2 : TokenChars dev) (k1 : cmd ≠ []) (k2 : TokenChars cmd) :
    sscanf (fmt_f6 ts ++ ' ' :: (dev ++ ' ' :: (cmd ++ ' ' :: body))) "%lf %s %s"
      = (3, [.flt ts.round6, .str dev, .str cmd]) := by
  have hfmt : parse_format "%lf %s %s"
      = [.conv .f, .lit ' ', .conv (.s none), .lit ' ', .conv (.s none)] := by
    decide
  refine sscanf_of_dirs _ _ _ _ _ _ .done hfmt rfl ?_
  refine sscanf_dirs_field0 _ _ _ _ _ _ _ (readsAs_f_fmt_f6 ts)
    (endOfToken_cons ' ' _ (by decide)) ?_
  refine sscanf_dirs_wfield _ dev _ _ _ _ _
    (readsAs_s_token _ dev h1 (by intro w hw; cases hw) h2)
    (endOfToken_cons ' ' _ (by decide)) ?_
  exact sscanf_dirs_wfield _ cmd _ _ _ _ _
    (readsAs_s_token _ cmd k1 (by intro w hw; cases hw) k2)
    (endOfToken_cons ' ' _ (by decide)) rfl

theorem str_var_cons (a : Arg) (args : List Arg) (i : Nat) :
    str_var (a :: args) (i + 1) = str_var args i := by
  simp only [str_var, arg_str, List.get?_cons_succ]

theorem find_space_token (rest : List Char) :
    ∀ tok : List Char, ' ' ∉ tok → find_space (tok ++ ' ' :: rest) = some (' ' :: rest) := by
  intro tok
  induction tok with
  | nil => intro _; simp [find_space]
  | cons c cs ih =>
    intro h
    have hc : c ≠ ' ' := fun e => h (by simp [e])
    have hcs : ' ' ∉ cs := fun e => h (by simp [e])
    simp [find_space, hc, ih hcs]

/-- The loop that skips to the next space, from a position in front of a space-free
stretch: it stops on the space behind the stretch. -/
theorem skip_to_space_token (c : Char) (tok rest : List Char) (h : ' ' ∉ tok) :
    skip_to_space (c :: (tok ++ ' ' :: rest)) = some (' ' :: rest) := by
  simp [skip_to_space, find_space_token rest tok h]

theorem tokenChars_no_space (s : List Char) (h : TokenChars s) : ' ' ∉ s := by
  intro hs
  exact absurd (h _ hs).1 (by decide)

/-- The body of the pre-scan loop on a `CONFIG` record within the horizon: `configproc`
gets the text from the third space of the line up to and with the newline. -/
theorem prescan_line_config (configproc : List Char → List Char → Nat → Int) (ts : FLT)
    (dev payload tail : List Char) (hname : Name 31 dev) (hp : NUL ∉ payload)
    (hts : ts.round6.gt (FLT.num 10 0) = false) :
    prescan_line configproc
        (fmt_f6 ts ++ ' ' :: (dev ++ ' ' :: ("CONFIG".toList ++ ' ' ::
          (payload ++ '\n' :: NUL :: tail))))
      = (true, .create_device "replay".toList dev
          :: .configproc dev (' ' :: (payload ++ ['\n'])) (payload.length + 2)
          :: (if configproc dev (' ' :: (payload ++ ['\n'])) (payload.length + 2) = 0 then
                [.info (sprintf "Found %s in playback file..." [.str dev]), .add_object dev]
              else
                [.warn (sprintf "Found %s in playback file, but could not read config description"
                  [.str dev])])) := by
  have hdev : TokenChars dev := hname.2.2
  have hcfg : TokenChars "CONFIG".toList := tokenChars_of_all _ (by decide)
  have hzl : NUL ∉ fmt_f6 ts ++ ' ' :: (dev ++ ' ' :: ("CONFIG".toList ++ ' ' ::
      (payload ++ ['\n']))) := by
    intro h
    simp only [List.mem_append, List.mem_cons] at h
    rcases h with h | h | h | h | h | h | h | h
    · exact (fmt_f6_tokenChars ts _ h).2 rfl
    · revert h; decide
    · exact (hdev _ h).2 rfl
    · revert h; decide
    · exact (hcfg _ h).2 rfl
    · revert h; decide
    · exact hp h
    · rcases h with h | h
      · revert h; decide
      · simp at h
  have hc : cstr (fmt_f6 ts ++ ' ' :: (dev ++ ' ' :: ("CONFIG".toList ++ ' ' ::
      (payload ++ '\n' :: NUL :: tail))))
      = fmt_f6 ts ++ ' ' :: (dev ++ ' ' :: ("CONFIG".toList ++ ' ' :: (payload ++ ['\n']))) := by
    have := cstr_append_nul _ tail hzl
    simpa using this
  have hs := sscanf_three_tokens ts dev "CONFIG".toList (payload ++ ['\n'])
    (name_ne_nil 31 dev hname) hdev (by decide) hcfg
  obtain ⟨d, ds, hd⟩ := fmt_f6_ne_nil ts
  have hds : ' ' ∉ ds := by
    intro h
    exact tokenChars_no_space _ (fmt_f6_tokenChars ts) (by rw [hd]; simp [h])
  have hskip : ((skip_to_space (fmt_f6 ts ++ ' ' :: (dev ++ ' ' :: ("CONFIG".toList ++ ' ' ::
      (payload ++ '\n' :: NUL :: tail))))).bind skip_to_space).bind skip_to_space
      = some (' ' :: (payload ++ '\n' :: NUL :: tail)) := by
    rw [hd, List.cons_append, skip_to_space_token d ds _ hds, Option.some_bind,
      skip_to_space_token ' ' dev _ (tokenChars_no_space _ hdev), Option.some_bind,
      skip_to_space_token ' ' "CONFIG".toList _ (tokenChars_no_space _ hcfg)]
  have hz2 : NUL ∉ ' ' :: (payload ++ ['\n']) := by
    intro h
    simp only [List.mem_append, List.mem_cons] at h
    rcases h with h | h | h
    · revert h; decide
    · exact hp h
    · rcases h with h | h
      · revert h; decide
      · simp at h
  have hc2 : cstr (' ' :: (payload ++ '\n' :: NUL :: tail)) = ' ' :: (payload ++ ['\n']) := by
    have := cstr_append_nul _ tail hz2
    simpa using this
  have hlen : (' ' :: (payload ++ ['\n'])).length = payload.length + 2 := by simp
  have hcopy : cstr (memcpy (List.replicate (payload.length + 2 + 1) NUL)
      (' ' :: (payload ++ '\n' :: NUL :: tail)) (payload.length + 2))
      = ' ' :: (payload ++ ['\n']) := by
    have e : (' ' :: (payload ++ '\n' :: NUL :: tail)).take (payload.length + 2)
        = ' ' :: (payload ++ ['\n']) := by
      have e1 : ' ' :: (payload ++ '\n' :: NUL :: tail)
          = (' ' :: (payload ++ ['\n'])) ++ NUL :: tail := by simp
      rw [e1, ← hlen, List.take_left]
    have e2 : (List.replicate (payload.length + 2 + 1) NUL).drop (payload.length + 2)
        = [NUL] := by
      simp
    rw [memcpy, e, e2]
    exact cstr_append_nul _ [] hz2
  have k1 : ¬ (31 < dev.length ∨ 31 < "CONFIG".toList.length) := by
    have := hname.2.1
    simp only [not_or, not_lt]
    exact ⟨this, by decide⟩
  have hmem : NUL ∈ ' ' :: (payload ++ '\n' :: NUL :: tail) := by simp
  have s1 : str_var [.flt ts.round6, .str dev, .str "CONFIG".toList] 1 = dev := by
    rw [str_var_cons, str_var_str]
  have s2 : str_var [.flt ts.round6, .str dev, .str "CONFIG".toList] 2 = "CONFIG".toList := by
    rw [str_var_cons, str_var_cons, str_var_str]
  simp only [prescan_line, hc, hs, s1, s2, flt_var_flt]
  rw [if_neg k1, if_neg (by simp), hts, if_neg (by simp), if_pos (by decide)]
  simp only [prescan_config, hskip]
  rw [if_pos hmem]
  simp only [hc2, hlen, hcopy]
  by_cases h0 : configproc dev (' ' :: (payload ++ ['\n'])) (payload.length + 2) = 0
  · simp only [h0, if_true]
  · simp only [h0, if_false]

/-- The pre-scan over a `CONFIG` record as the recorder writes it, within the horizon: the
device is created and `configproc` gets a space, the payload of the record and the newline,
with the length of the configuration text plus two; the scan goes on behind the record. -/
theorem prescan_loop_config_record (alloc : Nat → Bool) (junk : Char)
    (configproc : List Char → List Char → Nat → Int) (halloc : ∀ m, alloc m = true)
    (ts : FLT) (dev text rest : List Char) (failing : Bool) (fuel : Nat)
    (hname : Name 31 dev) (htext : NUL ∉ text) (hts : ts.round6.gt (FLT.num 10 0) = false)
    (hlen : (written ts (.config dev text)).length < 2147483648) :
    prescan_loop alloc junk configproc (fuel + 1)
        ⟨written ts (.config dev text) ++ rest, failing, false, false⟩
      = (prescan_loop alloc junk configproc fuel ⟨rest, failing, false, false⟩).map (fun x =>
          (x.1, (.create_device "replay".toList dev
            :: .configproc dev (' ' :: (config_payload text text.length ++ ['\n']))
                (text.length + 2)
            :: (if configproc dev (' ' :: (config_payload text text.length ++ ['\n']))
                  (text.length + 2) = 0 then
                  [.info (sprintf "Found %s in playback file..." [.str dev]), .add_object dev]
                else
                  [.warn (sprintf
                    "Found %s in playback file, but could not read config description"
                    [.str dev])])) ++ x.2)) := by
  have hpay : config_payload text text.length
      = text.map (fun c => if c = '\n' then ' ' else c) := by
    simp [config_payload]
  have hpl : (config_payload text text.length).length = text.length :=
    config_payload_length text text.length (le_refl _)
  have hpz : NUL ∉ config_payload text text.length := by
    intro h
    rw [hpay] at h
    obtain ⟨x, hx, e⟩ := List.mem_map.mp h
    by_cases hn : x = '\n'
    · rw [if_pos hn] at e; revert e; decide
    · rw [if_neg hn] at e; exact htext (e ▸ hx)
  have hw : written ts (.config dev text)
      = (fmt_f6 ts ++ ' ' :: (dev ++ ' ' :: ("CONFIG".toList ++ ' ' ::
          config_payload text text.length))) ++ ['\n'] := by
    rw [written_config, hpay]; simp
  have hnl : '\n' ∉ fmt_f6 ts ++ ' ' :: (dev ++ ' ' :: ("CONFIG".toList ++ ' ' ::
      config_payload text text.length)) := by
    intro h
    simp only [List.mem_append, List.mem_cons] at h
    rcases h with h | h | h | h | h | h | h
    · exact tokenChars_no_newline _ (fmt_f6_tokenChars ts) h
    · revert h; decide
    · exact tokenChars_no_newline _ hname.2.2 h
    · revert h; decide
    · revert h; decide
    · revert h; decide
    · exact config_payload_no_newline text text.length h
  obtain ⟨b, hb, H⟩ := prescan_loop_line alloc junk configproc halloc _ hnl
    (by rw [hw] at hlen; simpa using hlen)
  have e := H ⟨written ts (.config dev text) ++ rest, failing, false, false⟩ fuel rest rfl rfl
    (by rw [hw]; simp)
  have hblock : b = fmt_f6 ts ++ ' ' :: (dev ++ ' ' :: ("CONFIG".toList ++ ' ' ::
      (config_payload text text.length ++ '\n' :: NUL :: b.drop
        ((fmt_f6 ts ++ ' ' :: (dev ++ ' ' :: ("CONFIG".toList ++ ' ' ::
          config_payload text text.length))).length + 2)))) := by
    have := eq_append_of_take b _ _ hb
    simpa using this
  have hline := prescan_line_config configproc ts dev (config_payload text text.length)
    (b.drop ((fmt_f6 ts ++ ' ' :: (dev ++ ' ' :: ("CONFIG".toList ++ ' ' ::
      config_payload text text.length))).length + 2)) hname hpz hts
  rw [← hblock, hpl] at hline
  rw [e, hline]
  rfl


/-! ### C21 -/

/-- The capacity after `bytes` stored bytes: the first multiple of 128 greater than
`bytes + 1`. -/
theorem capacity_step (bytes n : Nat) (hn : bytes + 1 < n)
    (hcap : n = 128 * ((bytes + 1) / 128 + 1)) :
    (bytes + 1 ≥ n - 1 → n + 128 = 128 * ((bytes + 1 + 1) / 128 + 1))
    ∧ (¬ bytes + 1 ≥ n - 1 → n = 128 * ((bytes + 1 + 1) / 128 + 1)) := by
  constructor <;> intro h <;> omega

/-- The reading loop keeps the capacity rule: whenever the loop is left in the ordinary
way, the block has the size `*n`, which is the first multiple of 128 greater than the
count of bytes stored plus one. -/
theorem gzgetdelim_loop_capacity (alloc : Nat → Bool) (junk delim : Char) :
    ∀ (fuel : Nat) (f : GzFile) (bytes : Nat) (buf : List Char) (n : Nat),
      buf.length = n → bytes + 1 < n → n = 128 * ((bytes + 1) / 128 + 1) →
      ∀ bytes1 pos1 buf1 n1 f1,
        gzgetdelim_loop alloc junk delim fuel f bytes bytes buf n = .out bytes1 pos1 buf1 n1 f1 →
        buf1.length = n1 ∧ bytes1 + 1 < n1 ∧ n1 = 128 * ((bytes1 + 1) / 128 + 1)
          ∧ pos1 = bytes1 ∧ bytes ≤ bytes1
          ∧ buf1.take bytes1 = buf.take bytes ++ f.data.take (bytes1 - bytes) := by
  intro fuel
  induction fuel with
  | zero =>
    intro f bytes buf n hl hn hcap bytes1 pos1 buf1 n1 f1 h
    simp only [gzgetdelim_loop, LoopExit.out.injEq] at h
    obtain ⟨rfl, rfl, rfl, rfl, _⟩ := h
    exact ⟨hl, hn, hcap, rfl, le_refl _, by simp⟩
  | succ k ih =>
    intro f bytes buf n hl hn hcap bytes1 pos1 buf1 n1 f1 h
    rw [gzgetdelim_loop] at h
    cases hg : gzgetc f with
    | mk oc g =>
      rw [hg] at h
      cases oc with
      | none =>
        simp only [LoopExit.out.injEq] at h
        obtain ⟨rfl, rfl, rfl, rfl, _⟩ := h
        exact ⟨hl, hn, hcap, rfl, le_refl _, by simp⟩
      | some c =>
        have hdata : f.data = c :: g.data := by
          unfold gzgetc at hg
          by_cases he : f.err = true
          · simp [he] at hg
          · cases hd : f.data with
            | nil =>
              by_cases hf : f.failing = true <;> simp [he, hd, hf] at hg
            | cons x xs =>
              simp only [he, hd, Bool.false_eq_true, if_false, Prod.mk.injEq,
                Option.some.injEq] at hg
              obtain ⟨rfl, rfl⟩ := hg
              rfl
        simp only at h
        by_cases hov : bytes + 1 ≥ SSIZE_MAX
        · rw [if_pos hov] at h; cases h
        · rw [if_neg hov] at h
          by_cases hgrow : bytes + 1 ≥ n - 1
          · rw [if_pos hgrow] at h
            by_cases hal : alloc (n + GETDELIM_GROWBY) = true
            · rw [if_pos hal] at h
              simp only [Nat.add_sub_cancel] at h
              have hl2 : ((realloc junk (some buf) (n + GETDELIM_GROWBY)).set bytes c).length
                  = n + 128 := by
                simp [realloc_length, GETDELIM_GROWBY]
              have htake : ((realloc junk (some buf) (n + GETDELIM_GROWBY)).set bytes c).take
                  (bytes + 1) = buf.take bytes ++ [c] := by
                rw [take_succ_set c _ bytes (by simp [realloc_length]; omega),
                  realloc_grow junk buf n _ hl, List.take_append_of_le_length (by omega)]
              have hcap2 := (capacity_step bytes n hn hcap).1 hgrow
              by_cases hc : c = delim
              · rw [if_pos hc] at h
                simp only [LoopExit.out.injEq] at h
                obtain ⟨rfl, rfl, rfl, rfl, _⟩ := h
                refine ⟨by simpa [GETDELIM_GROWBY] using hl2, by simp [GETDELIM_GROWBY]; omega,
                  by simpa [GETDELIM_GROWBY] using hcap2, rfl, by omega, ?_⟩
                rw [htake, hdata]; simp
              · rw [if_neg hc] at h
                obtain ⟨k1, k2, k3, k4, k5, k6⟩ := ih g (bytes + 1) _ (n + GETDELIM_GROWBY)
                  (by simpa [GETDELIM_GROWBY] using hl2) (by simp [GETDELIM_GROWBY]; omega)
                  (by simpa [GETDELIM_GROWBY] using hcap2) bytes1 pos1 buf1 n1 f1 h
                refine ⟨k1, k2, k3, k4, by omega, ?_⟩
                rw [k6, htake, hdata]
                have e : bytes1 - bytes = (bytes1 - (bytes + 1)) + 1 := by omega
                rw [e]; simp
            · rw [if_neg hal] at h; cases h
          · rw [if_neg hgrow] at h
            have hl2 : (buf.set bytes c).length = n := by simp [hl]
            have htake : (buf.set bytes c).take (bytes + 1) = buf.take bytes ++ [c] :=
              take_succ_set c _ bytes (by omega)
            have hcap2 := (capacity_step bytes n hn hcap).2 hgrow
            by_cases hc : c = delim
            · rw [if_pos hc] at h
              simp only [LoopExit.out.injEq] at h
              obtain ⟨rfl, rfl, rfl, rfl, _⟩ := h
              refine ⟨hl2, by omega, hcap2, rfl, by omega, ?_⟩
              rw [htake, hdata]; simp
            · rw [if_neg hc] at h
              obtain ⟨k1, k2, k3, k4, k5, k6⟩ := ih g (bytes + 1) _ n hl2 (by omega) hcap2
                bytes1 pos1 buf1 n1 f1 h
              refine ⟨k1, k2, k3, k4, by omega, ?_⟩
              rw [k6, htake, hdata]
              have e : bytes1 - bytes = (bytes1 - (bytes + 1)) + 1 := by omega
              rw [e]; simp

/-- The state of the reading loop at every point on the way to an ordinary exit: after `k`
more bytes (the loop cut off after `k` iterations) the block has the size the capacity rule
gives for the count reached and holds the bytes read so far behind those it held. -/
theorem gzgetdelim_loop_point (alloc : Nat → Bool) (junk delim : Char) :
    ∀ (k fuel : Nat) (f : GzFile) (bytes : Nat) (buf : List Char) (n : Nat),
      buf.length = n → bytes + 1 < n → n = 128 * ((bytes + 1) / 128 + 1) →
      ∀ bytes1 pos1 buf1 n1 f1,
        gzgetdelim_loop alloc junk delim fuel f bytes bytes buf n = .out bytes1 pos1 buf1 n1 f1 →
        bytes + k ≤ bytes1 →
        ∃ bk fk, gzgetdelim_loop alloc junk delim k f bytes bytes buf n
            = .out (bytes + k) (bytes + k) bk (128 * ((bytes + k + 1) / 128 + 1)) fk
          ∧ bk.length = 128 * ((bytes + k + 1) / 128 + 1)
          ∧ bk.take (bytes + k) = buf.take bytes ++ f.data.take k := by
  intro k
  induction k with
  | zero =>
    intro fuel f bytes buf n hl hn hcap bytes1 pos1 buf1 n1 f1 _ _
    refine ⟨buf, f, ?_, by rw [hl]; exact hcap, by simp⟩
    rw [gzgetdelim_loop, ← hcap]; rfl
  | succ k ih =>
    intro fuel f bytes buf n hl hn hcap bytes1 pos1 buf1 n1 f1 h hk
    cases fuel with
    | zero =>
      simp only [gzgetdelim_loop, LoopExit.out.injEq] at h
      omega
    | succ fuel =>
      rw [gzgetdelim_loop] at h ⊢
      cases hg : gzgetc f with
      | mk oc g =>
        rw [hg] at h
        cases oc with
        | none =>
          simp only [LoopExit.out.injEq] at h
          omega
        | some c =>
          have hdata : f.data = c :: g.data := by
            unfold gzgetc at hg
            by_cases he : f.err = true
            · simp [he] at hg
            · cases hd : f.data with
              | nil =>
                by_cases hf : f.failing = true <;> simp [he, hd, hf] at hg
              | cons x xs =>
                simp only [he, hd, Bool.false_eq_true, if_false, Prod.mk.injEq,
                  Option.some.injEq] at hg
                obtain ⟨rfl, rfl⟩ := hg
                rfl
          simp only at h ⊢
          have e1 : bytes + (k + 1) = bytes + 1 + k := by omega
          by_cases hov : bytes + 1 ≥ SSIZE_MAX
          · rw [if_pos hov] at h; cases h
          · rw [if_neg hov] at h ⊢
            by_cases hgrow : bytes + 1 ≥ n - 1
            · rw [if_pos hgrow] at h ⊢
              by_cases hal : alloc (n + GETDELIM_GROWBY) = true
              · rw [if_pos hal] at h ⊢
                simp only [Nat.add_sub_cancel] at h ⊢
                have hl2 : ((realloc junk (some buf) (n + GETDELIM_GROWBY)).set bytes c).length
                    = n + 128 := by
                  simp [realloc_length, GETDELIM_GROWBY]
                have htake : ((realloc junk (some buf) (n + GETDELIM_GROWBY)).set bytes c).take
                    (bytes + 1) = buf.take bytes ++ [c] := by
                  rw [take_succ_set c _ bytes (by simp [realloc_length]; omega),
                    realloc_grow junk buf n _ hl, List.take_append_of_le_length (by omega)]
                have hcap2 := (capacity_step bytes n hn hcap).1 hgrow
                by_cases hc : c = delim
                · rw [if_pos hc] at h ⊢
                  simp only [LoopExit.out.injEq] at h
                  have hk0 : k = 0 := by omega
                  subst hk0
                  simp only [Nat.zero_add]
                  refine ⟨(realloc junk (some buf) (n + GETDELIM_GROWBY)).set bytes c, g, ?_, ?_,
                    ?_⟩
                  · rw [show n + GETDELIM_GROWBY = 128 * ((bytes + 1 + 1) / 128 + 1) from hcap2]
                  · rw [hl2, hcap2]
                  · rw [htake, hdata]; simp
                · rw [if_neg hc] at h ⊢
                  obtain ⟨bk, fk, k1, k2, k3⟩ := ih fuel g (bytes + 1) _ (n + GETDELIM_GROWBY)
                    (by simpa [GETDELIM_GROWBY] using hl2) (by simp [GETDELIM_GROWBY]; omega)
                    (by simpa [GETDELIM_GROWBY] using hcap2) bytes1 pos1 buf1 n1 f1 h (by omega)
                  refine ⟨bk, fk, ?_, ?_, ?_⟩
                  · rw [e1]; exact k1
                  · rw [e1]; exact k2
                  · rw [e1, k3, htake, hdata]; simp
              · rw [if_neg hal] at h; cases h
            · rw [if_neg hgrow] at h ⊢
              have hl2 : (buf.set bytes c).length = n := by simp [hl]
              have htake : (buf.set bytes c).take (bytes + 1) = buf.take bytes ++ [c] :=
                take_succ_set c _ bytes (by omega)
              have hcap2 := (capacity_step bytes n hn hcap).2 hgrow
              by_cases hc : c = delim
              · rw [if_pos hc] at h ⊢
                simp only [LoopExit.out.injEq] at h
                have hk0 : k = 0 := by omega
                subst hk0
                simp only [Nat.zero_add]
                refine ⟨buf.set bytes c, g, ?_, ?_, ?_⟩
                · rw [← hcap2]
                · rw [hl2, hcap2]
                · rw [htake, hdata]; simp
              · rw [if_neg hc] at h ⊢
                obtain ⟨bk, fk, k1, k2, k3⟩ := ih fuel g (bytes + 1) _ n hl2 (by omega) hcap2
                  bytes1 pos1 buf1 n1 f1 h (by omega)
                refine ⟨bk, fk, ?_, ?_, ?_⟩
                · rw [e1]; exact k1
                · rw [e1]; exact k2
                · rw [e1, k3, htake, hdata]; simp

/-- C21.  Take any call of `gzgetdelim` with a NULL `*lineptr` (whatever `*n` holds and
however allocation behaves) that returns the length `L ≥ 1` of a record.  Then on return
`*n = 128 * ((L + 1) / 128 + 1)`, the block has that size, `L + 1 < *n`, and the block
starts with the `L` bytes read from the stream followed by the NUL.  And at every point on
the way: for each `k ≤ L`, after `k` bytes the loop, which started with a block of 128
bytes, has a block of exactly `128 * ((k + 1) / 128 + 1)` bytes (so the size goes up by 128
or not at all from one byte to the next), with `k + 1` less than that size, and the block
starts with the `k` bytes read so far: no growth loses a byte, and every byte and the NUL
are stored inside the block. -/
theorem gzgetdelim_capacity (alloc : Nat → Bool) (junk : Char) (n0 : Nat) (delim : Char)
    (f : GzFile) (L : Nat) (hL : 1 ≤ L)
    (hret : (gzgetdelim alloc junk none n0 delim f).ret = (L : Int)) :
    (gzgetdelim alloc junk none n0 delim f).n = 128 * ((L + 1) / 128 + 1)
    ∧ L + 1 < (gzgetdelim alloc junk none n0 delim f).n
    ∧ (∃ b, (gzgetdelim alloc junk none n0 delim f).lineptr = some b
        ∧ b.length = (gzgetdelim alloc junk none n0 delim f).n
        ∧ b.take (L + 1) = f.data.take L ++ [NUL])
    ∧ ∀ k, k ≤ L →
        ∃ bk fk, gzgetdelim_loop alloc junk delim k f 0 0
              (realloc junk none GETDELIM_GROWBY) GETDELIM_GROWBY
            = .out k k bk (128 * ((k + 1) / 128 + 1)) fk
          ∧ bk.length = 128 * ((k + 1) / 128 + 1)
          ∧ k + 1 < bk.length
          ∧ bk.take k = f.data.take k := by
  unfold gzgetdelim at hret ⊢
  simp only [Option.isNone_none, true_or, if_true] at hret ⊢
  by_cases hal : alloc GETDELIM_GROWBY = true
  · rw [if_pos hal] at hret ⊢
    unfold gzgetdelim_read at hret ⊢
    cases hloop : gzgetdelim_loop alloc junk delim (f.data.length + 1) f 0 0
        (realloc junk none GETDELIM_GROWBY) GETDELIM_GROWBY with
    | early buf1 n1 f1 =>
      rw [hloop] at hret
      simp only at hret
      omega
    | out bytes1 pos1 buf1 n1 f1 =>
      rw [hloop] at hret
      simp only at hret ⊢
      by_cases hc : gzerror_dropin f1 = true ∨ (gzeof f1 = true ∧ bytes1 = 0)
      · rw [if_pos hc] at hret
        simp only at hret
        omega
      · rw [if_neg hc] at hret ⊢
        simp only at hret ⊢
        have hb : bytes1 = L := by exact_mod_cast hret
        obtain ⟨k1, k2, k3, k4, _, k6⟩ := gzgetdelim_loop_capacity alloc junk delim
          (f.data.length + 1) f 0 (realloc junk none GETDELIM_GROWBY) GETDELIM_GROWBY
          (realloc_length _ _ _) (by decide) (by decide) bytes1 pos1 buf1 n1 f1 hloop
        subst hb
        refine ⟨k3, k2, ⟨_, rfl, by simp [k1], ?_⟩, ?_⟩
        · rw [k4, take_succ_set NUL buf1 bytes1 (by omega), k6]
          simp
        · intro k hk
          obtain ⟨bk, fk, e, p1, p2⟩ := gzgetdelim_loop_point alloc junk delim k
            (f.data.length + 1) f 0 (realloc junk none GETDELIM_GROWBY) GETDELIM_GROWBY
            (realloc_length _ _ _) (by decide) (by decide) bytes1 pos1 buf1 n1 f1 hloop
            (by omega)
          simp only [Nat.zero_add, List.take_zero, List.nil_append] at e p1 p2
          exact ⟨bk, fk, e, p1, by rw [p1]; omega, p2⟩
  · rw [if_neg hal] at hret
    simp only at hret
    omega

/-- The value `gzgetdelim` returns for a record of 127 bytes. -/
theorem gzgetdelim_ret_127 :
    (gzgetdelim (fun _ => true) 'x' none 0 '\n'
        ⟨List.replicate 126 'a' ++ '\n' :: "rest".toList, false, false, false⟩).ret
      = ((127 : Nat) : Int) := by
  obtain ⟨b, n1, e, _⟩ := gzgetdelim_record (fun _ => true) 'x' none 0 '\n'
    ⟨List.replicate 126 'a' ++ '\n' :: "rest".toList, false, false, false⟩
    (List.replicate 126 'a') "rest".toList (fun _ => rfl) (by simp) rfl rfl
    (by simp) (by simp [SSIZE_MAX])
  rw [e]
  simp

/-- C21: an instance.  A record of 127 bytes, 126 letters and the newline, read with a NULL
`*lineptr`: the block was enlarged once, `*n` is 256, and after 126 bytes the block still
had 128 bytes. -/
theorem gzgetdelim_capacity_witness :
    (gzgetdelim (fun _ => true) 'x' none 0 '\n'
        ⟨List.replicate 126 'a' ++ '\n' :: "rest".toList, false, false, false⟩).n = 256
    ∧ ∃ bk fk, gzgetdelim_loop (fun _ => true) 'x' '\n' 126
            ⟨List.replicate 126 'a' ++ '\n' :: "rest".toList, false, false, false⟩ 0 0
            (realloc 'x' none GETDELIM_GROWBY) GETDELIM_GROWBY
          = .out 126 126 bk 128 fk
        ∧ bk.length = 128 ∧ 126 + 1 < bk.length
        ∧ bk.take 126 = (List.replicate 126 'a' ++ '\n' :: "rest".toList).take 126 :=
  ⟨(gzgetdelim_capacity (fun _ => true) 'x' 0 '\n'
      ⟨List.replicate 126 'a' ++ '\n' :: "rest".toList, false, false, false⟩ 127 (by decide)
      gzgetdelim_ret_127).1,
   (gzgetdelim_capacity (fun _ => true) 'x' 0 '\n'
      ⟨List.replicate 126 'a' ++ '\n' :: "rest".toList, false, false, false⟩ 127 (by decide)
      gzgetdelim_ret_127).2.2.2 126 (by decide)⟩

/-! ### C22 -/

/-- The opcode `E`: control falls from `case 'E'` into `case 'C'`, and the line goes to the
handler of raw light data. -/
theorem playback_dispatch_E (line : List Char) (d : SurvivePlaybackData) :
    playback_dispatch line ['E'] d = (parse_and_run_rawlight line d).2 := by
  unfold playback_dispatch
  rw [if_neg (by decide), if_neg (by decide), if_neg (by decide), if_neg (by decide),
    if_pos (by decide), if_pos (by decide)]

/-- The dispatch sets `hasRawLight` on two opcodes only: `C`, and `E`, from which control
falls into `case 'C'`. -/
theorem playback_dispatch_sets_hasRawLight (line op : List Char) (d : SurvivePlaybackData)
    (hraw : (playback_dispatch line op d).1.hasRawLight ≠ d.hasRawLight) :
    (op_at op 0 = 'E' ∨ op_at op 0 = 'C') ∧ op_at op 1 = NUL := by
  by_contra hn
  apply hraw
  unfold playback_dispatch
  apply ite_cases
    (fun r : SurvivePlaybackData × List Out => r.1.hasRawLight = d.hasRawLight) <;>
    intro _
  · apply ite_cases
      (fun r : SurvivePlaybackData × List Out => r.1.hasRawLight = d.hasRawLight) <;>
      intro _
    · exact (parse_and_run_sweep_plain line d).2.2
    · rfl
  apply ite_cases
    (fun r : SurvivePlaybackData × List Out => r.1.hasRawLight = d.hasRawLight) <;>
    intro _
  · apply ite_cases
      (fun r : SurvivePlaybackData × List Out => r.1.hasRawLight = d.hasRawLight) <;>
      intro _
    · exact (parse_and_run_sweep_angle_plain line d).2.2
    · rfl
  apply ite_cases
    (fun r : SurvivePlaybackData × List Out => r.1.hasRawLight = d.hasRawLight) <;>
    intro _
  · apply ite_cases
      (fun r : SurvivePlaybackData × List Out => r.1.hasRawLight = d.hasRawLight) <;>
      intro _
    · exact (parse_and_run_sync_plain line d).2.2
    · rfl
  apply ite_cases
    (fun r : SurvivePlaybackData × List Out => r.1.hasRawLight = d.hasRawLight) <;>
    intro _
  · exact (parse_and_run_externalpose_plain line d).2.2
  apply ite_cases
    (fun r : SurvivePlaybackData × List Out => r.1.hasRawLight = d.hasRawLight) <;>
    intro h1
  · apply ite_cases
      (fun r : SurvivePlaybackData × List Out => r.1.hasRawLight = d.hasRawLight) <;>
      intro h2
    · exact absurd ⟨h1, h2⟩ hn
    · rfl
  apply ite_cases
    (fun r : SurvivePlaybackData × List Out => r.1.hasRawLight = d.hasRawLight) <;>
    intro _
  · apply ite_cases
      (fun r : SurvivePlaybackData × List Out => r.1.hasRawLight = d.hasRawLight) <;>
      intro _
    · exact (parse_and_run_lightcode_outcome line d).2.2
    · rfl
  apply ite_cases
    (fun r : SurvivePlaybackData × List Out => r.1.hasRawLight = d.hasRawLight) <;>
    intro _
  · apply ite_cases
      (fun r : SurvivePlaybackData × List Out => r.1.hasRawLight = d.hasRawLight) <;>
      intro _
    · exact (parse_and_run_imu_plain line d true).2.2
    · rfl
  apply ite_cases
    (fun r : SurvivePlaybackData × List Out => r.1.hasRawLight = d.hasRawLight) <;>
    intro _
  · apply ite_cases
      (fun r : SurvivePlaybackData × List Out => r.1.hasRawLight = d.hasRawLight) <;>
      intro _
    · exact (parse_and_run_imu_plain line d false).2.2
    · rfl
  apply ite_cases
    (fun r : SurvivePlaybackData × List Out => r.1.hasRawLight = d.hasRawLight) <;>
    intro _
  · apply ite_cases
      (fun r : SurvivePlaybackData × List Out => r.1.hasRawLight = d.hasRawLight) <;>
      intro _
    · exact (parse_and_run_pose_plain line d).2.2
    · rfl
  apply ite_cases
    (fun r : SurvivePlaybackData × List Out => r.1.hasRawLight = d.hasRawLight) <;>
    intro _
  · rfl
  · rfl

/-- C22.  A log with no `C` line: the line `T20 E 3 100 20` at 0.0, then the light code of
the registered device `T20` as the recorder writes it, `T20 L X 3 0 100 5000 20 0`.  The
first poll hands the `E` line to the handler of raw light data: `handle_lightcap` is called
and `hasRawLight` is set; the second poll reads the `L` line and calls nothing.  Without the
`E` line the same `L` line is dispatched to `lightproc`. -/
theorem playback_opcode_E_sets_hasRawLight :
    (written (FLT.num 0 0) (.light_code "T20".toList 3 0 100 5000 20 0)
      = "0.000000 T20 L X 3 0 100 5000 20 0\n".toList)
    ∧ (playback_run (fun _ => true) 'x'
        (playback_start ["T20".toList]
          ("0.000000 T20 E 3 100 20\n".toList
            ++ written (FLT.num 0 0) (.light_code "T20".toList 3 0 100 5000 20 0)) (FLT.num 1 0) false)
        [FLT.num 1 0, FLT.num 1 0]).2
      = [[.call (.handle_lightcap "T20".toList (some 3) (some 100) (some 20))], []]
    ∧ (playback_run (fun _ => true) 'x'
        (playback_start ["T20".toList]
          ("0.000000 T20 E 3 100 20\n".toList
            ++ written (FLT.num 0 0) (.light_code "T20".toList 3 0 100 5000 20 0)) (FLT.num 1 0) false)
        [FLT.num 1 0]).1.hasRawLight = true
    ∧ (playback_run (fun _ => true) 'x'
        (playback_start ["T20".toList]
          (written (FLT.num 0 0) (.light_code "T20".toList 3 0 100 5000 20 0)) (FLT.num 1 0) false)
        [FLT.num 1 0]).2
      = [[.call (.lightproc "T20".toList 3 0 100 5000 20 0)]] := by
  decide

/-! ### C23 -/

/-- C23.  The line `0.000000 T20 CONFIG`, a `CONFIG` record without a payload and without a
space behind `CONFIG`.  The pre-scan parses three tokens, the third equal to `CONFIG`.  In
the block `gzgetline` filled (the line, the newline, the NUL, then what the allocation left
there) the loop that skips to a space stops on the spaces behind the time stamp and behind
`T20`; the third time no space is left in the line, the loop reads the newline, the NUL and
on past it: with no space in the rest of the block it leaves the block, and with spaces
there it stops on a byte behind the NUL.  `DriverRegPlayback` on a log that holds this
line runs into that read. -/
theorem prescan_skip_runs_past_line_end :
    (sscanf "0.000000 T20 CONFIG\n".toList "%lf %s %s").1 = 3
    ∧ str_var (sscanf "0.000000 T20 CONFIG\n".toList "%lf %s %s").2 2 = "CONFIG".toList
    ∧ (gzgetline (fun _ => true) 'x' none 0
          ⟨"0.000000 T20 CONFIG\n".toList, false, false, false⟩).lineptr
        = some ("0.000000 T20 CONFIG\n".toList ++ NUL :: List.replicate 107 'x')
    ∧ (skip_to_space ("0.000000 T20 CONFIG\n".toList ++ NUL :: List.replicate 107 'x')).bind
          skip_to_space
        = some (" CONFIG\n".toList ++ NUL :: List.replicate 107 'x')
    ∧ skip_to_space (" CONFIG\n".toList ++ NUL :: List.replicate 107 'x') = none
    ∧ skip_to_space (" CONFIG\n".toList ++ NUL :: List.replicate 107 ' ')
        = some (List.replicate 107 ' ')
    ∧ DriverRegPlayback (fun _ => true) 'x' (fun _ _ _ => 0) 3 [] "log".toList
          (fun _ => some ⟨"0.000000 T20 CONFIG\n".toList, false, false, false⟩) (FLT.num 1 0) false
        = some (0,
            some (playback_start [] "0.000000 T20 CONFIG\n".toList (FLT.num 1 0) false),
            [.info "Using playback file 'log' with timefactor of 1.000000".toList,
             .undefined,
             .add_driver]) := by
  decide

end Survive
